import Mathlib

/-!
# Genesis bytecode engine: frames, dispatch, the loop, errors, tasks, operators

A shallow embedding of the parts of `execute.c` and `operators.c` that start
frames, dispatch messages, run the interpreter loop, raise and propagate errors,
start, suspend, pause, resume and cancel tasks, and of the arithmetic, bitwise,
index and case operators.

Conventions of the embedding.

* The value stack is the list of its live slots, bottom first, so that the C
  variable `stack_pos` is the length of the list.  Slots at and above
  `stack_pos` are dead in the C program and are not represented.
* `cur_frame` with its `caller_frame` links is the list `frames`, the current
  frame first; `cur_frame == NULL` is the empty list.
* Reference counting and the cache holds (`ident_dup`, `data_discard`,
  `cache_grab`, ...) do not change any value seen by the interpreter and are
  not represented.  The pool of free frame records, `frame_store`, is the list
  `frame_store`, the record to be reused next first.
* The object store (`cache_retrieve`, `object_find_method`,
  `object_find_next_method`, `line_number`) is outside this code and is taken
  as a parameter, the record `Db`; so is the opcode table `op_table`.
* The loop of `execute` is run for a given number of passes at most.
* The `VMState` records are kept in a heap, `vms`, and linked by addresses, as
  the C lists are linked by pointers; a function that reads a record through
  `NULL` or outside the heap has no result.  A stack buffer is kept by its
  live contents and an identity, `stack_buf`; the pool of buffers of
  `store_stack` and `init_execute` is the list of the identities put aside.
* The data modules (`data_cmp`, `dict_find`, `vformat`, the arithmetic of C
  floats, `object_get_ident`) are outside this code and are taken as a
  parameter, the record `Lib`.
-/

namespace Genesis

/-- Interned identifier handle (`Ident` is a `long` in the source). -/
abbrev Ident := Int

/-- Object number (`Dbref` in the source). -/
abbrev Dbref := Int

/-- Modelled from the spec: the macro `NOT_AN_IDENT` is declared outside the
given sources; "-1 denotes no identifier", and `pass_message` compares a method
name with the literal `-1` where `fill_in_method_info` uses the macro. -/
def NOT_AN_IDENT : Ident := -1

/-- Modelled from the spec: the macro `ROOT_DBREF` is declared outside the given
sources; `defs.h` numbers the root object 1 (`ROOT_OBJNUM`). -/
def ROOT_DBREF : Dbref := 1

/-- Maximum depth of method calls (`defs.h`). -/
def MAX_CALL_DEPTH : Int := 128

/-- Number of ticks a method gets (`defs.h`). -/
def METHOD_TICKS : Int := 20000

/-- Tick budget of a paused task when it is run again (`PAUSED_METHOD_TICKS`
in `defs.h`). -/
def PAUSED_METHOD_TICKS : Int := 5000

/-!
Modelled from the spec: the error kinds are interned identifiers, held in
globals that are initialised outside the given sources.  Interning gives
distinct names distinct handles, none of them `NOT_AN_IDENT`; the numbers chosen
here carry no other meaning.
-/

/-- Modelled from the spec: the interned error kind `numargs`. -/
def numargs_id : Ident := 0
/-- Modelled from the spec: the interned error kind `objnf`. -/
def objnf_id : Ident := 1
/-- Modelled from the spec: the interned error kind `methodnf`. -/
def methodnf_id : Ident := 2
/-- Modelled from the spec: the interned error kind `private`. -/
def private_id : Ident := 3
/-- Modelled from the spec: the interned error kind `protected`. -/
def protected_id : Ident := 4
/-- Modelled from the spec: the interned error kind `root`. -/
def root_id : Ident := 5
/-- Modelled from the spec: the interned error kind `driver`. -/
def driver_id : Ident := 6
/-- Modelled from the spec: the interned error kind `maxdepth`. -/
def maxdepth_id : Ident := 7
/-- Modelled from the spec: the interned error kind `methoderr`. -/
def methoderr_id : Ident := 8
/-- Modelled from the spec: the interned symbol `function`. -/
def function_id : Ident := 9
/-- Modelled from the spec: the interned symbol `opcode`. -/
def opcode_id : Ident := 10
/-- Modelled from the spec: the interned symbol `method`. -/
def method_id : Ident := 11
/-- Modelled from the spec: the interned symbol `interpreter`. -/
def interpreter_id : Ident := 12
/-- Modelled from the spec: the interned error kind `type`. -/
def type_id : Ident := 13
/-- Modelled from the spec: the interned error kind `div`. -/
def div_id : Ident := 14
/-- Modelled from the spec: the interned error kind `range`. -/
def range_id : Ident := 15
/-- Modelled from the spec: the interned error kind `keynf`. -/
def keynf_id : Ident := 16

/-- Modelled from the spec: the interned error kind `perm`. -/
def perm_id : Ident := 17

/-- The dbref of no object (`INV_OBJNUM` in `defs.h`). -/
def INV_OBJNUM : Dbref := -1

/-- Modelled from the spec: the token number of the opcode `SET_LOCAL`, declared
in the parser header, which is outside the given sources; the number carries
no meaning. -/
def SET_LOCAL : Int := 101
/-- Modelled from the spec: the token number of the opcode `SET_OBJ_VAR`, declared
in the parser header, which is outside the given sources; the number carries
no meaning. -/
def SET_OBJ_VAR : Int := 102

/-- Modelled from the spec: the Integer payload of a value is "signed 32-bit
(configurable to 64)"; its C type is declared outside the given sources. -/
def INT_BITS : Nat := 32

/-- The value of the signed `INT_BITS`-bit integer that holds `n` modulo
`2 ^ INT_BITS`: what the arithmetic of the machine leaves of a result. -/
def wrap_int (n : Int) : Int :=
  (n + 2 ^ (INT_BITS - 1)) % 2 ^ INT_BITS - 2 ^ (INT_BITS - 1)

/-- The smallest Integer, `-2 ^ (INT_BITS - 1)`. -/
def INT_MIN : Int := -(2 ^ (INT_BITS - 1))

/-- The C operator `/` on two Integers, the divisor not 0.  The quotient of the
smallest Integer by -1 is not an Integer: C leaves the operation undefined
there and the division instruction of the machine traps, which ends the
process; `none` stands for that. -/
def int_div (a b : Int) : Option Int :=
  if a = INT_MIN ∧ b = -1 then none else some (wrap_int (Int.tdiv a b))

/-- The C operator `%` on two Integers, the divisor not 0.  Where the quotient
is not an Integer, at the smallest Integer and -1, C leaves `%` undefined as it
does `/`, and the same instruction traps; `none` stands for that. -/
def int_mod (a b : Int) : Option Int :=
  if a = INT_MIN ∧ b = -1 then none else some (Int.tmod a b)

/-- The payload of a Float value: the C `float` is kept as its bit pattern, and
the arithmetic on it is taken as a parameter (see `Lib`). -/
abbrev Flt := Nat

/-- The tagged value `data_t`, with the variants used by frames and error
propagation. -/
inductive Data where
  | integer (val : Int)
  | dbref (dbref : Dbref)
  | list (elems : List Data)
  | symbol (symbol : Ident)
  | error (error : Ident)
  | string (str : String)
  | float (fval : Flt)
  | dict (entries : List (Data × Data))
  | frob (cclass : Dbref) (rep : Data)

/-- The tag `type` of a `data_t`. -/
inductive DataType where
  | INTEGER
  | FLOAT
  | STRING
  | DBREF
  | LIST
  | DICT
  | SYMBOL
  | ERROR
  | FROB
  deriving DecidableEq

/-- The field `type` of a value. -/
def Data.type : Data → DataType
  | Data.integer _ => DataType.INTEGER
  | Data.float _ => DataType.FLOAT
  | Data.string _ => DataType.STRING
  | Data.dbref _ => DataType.DBREF
  | Data.list _ => DataType.LIST
  | Data.dict _ => DataType.DICT
  | Data.symbol _ => DataType.SYMBOL
  | Data.error _ => DataType.ERROR
  | Data.frob _ _ => DataType.FROB

/-- Modelled from the spec: the visibility modifier of a method (`m_state`); the
constants `MS_*` are declared outside the given sources, the spec lists these
five. -/
inductive MState where
  | MS_PUBLIC
  | MS_PROTECTED
  | MS_PRIVATE
  | MS_ROOT
  | MS_DRIVER
  deriving DecidableEq

/-- The fields of `method_t` that the engine reads.  `object` is
`method->object->dbref`, the defining object; `rest` is `-1` when the method has
no rest parameter; an entry of `error_lists` is the `error_ids` array of an
`Error_list`, its length being `num_errors`. -/
structure Method where
  name : Ident
  object : Dbref
  num_args : Nat
  rest : Int
  num_vars : Nat
  opcodes : List Int
  error_lists : List (List Ident)
  m_state : MState

/-- The fields of `object_t` that the engine reads. -/
structure Obj where
  dbref : Dbref

/-- The union `u` of an `Error_action_specifier` together with its `type`. -/
inductive SpecKind where
  | CRITICAL (end_pc : Int)
  | PROPAGATE (end_pc : Int)
  | CATCH (handler : Int) (error_list : Int)

/-- Error action specifier; the `next` link is the tail of the list that holds
it. -/
structure Error_action_specifier where
  kind : SpecKind
  stack_pos : Nat

/-- Handler information of a running catch handler. -/
structure Handler_info where
  traceback : List Data
  error : Ident

/-- Activation record.  `object` is `frame->object->dbref`; `frame->opcodes` is
`method.opcodes`; `caller_frame` is the tail of the list that holds the
frame. -/
structure Frame where
  object : Dbref
  sender : Dbref
  caller : Dbref
  method : Method
  pc : Int
  ticks : Int
  specifiers : List Error_action_specifier
  handler_info : List Handler_info
  stack_start : Nat
  var_start : Nat
  last_opcode : Int := 0

/-- The arguments from which `frame_start` formats `numargs_str`: the dbref of
the object, the method name, the number of arguments given, the number
required, and whether the method has no rest parameter. -/
structure NumargsStr where
  dbref : Dbref
  name : Ident
  given : Int
  required : Nat
  no_rest : Bool

/-- A handle for a `connection_t *`. -/
abbrev Connection := Int

/-- A call `object_assign_var(object, definer, id, value)`: the object store is
outside the engine, the calls that write to it are kept in a log. -/
structure ObjAssign where
  object : Dbref
  definer : Dbref
  id : Ident
  value : Data

/-- A `VMState` record, the saved state of a task.  The value stack and the
argument-start stack are kept as their live slots (`stack_pos` and `arg_pos`
are the lengths; the buffers have no other content) with `stack_buf`, the
identity of the two buffers; `next` is the address of the next record of the
list that holds this one. -/
structure VMState where
  paused : Int
  frames : List Frame
  cur_conn : Connection
  stack : List Data
  stack_buf : Nat
  arg_starts : List Nat
  task_id : Int
  next : Option Nat

/-- The interpreter globals of `execute.c`.  The `VMState` records live in
`vms`, the address of a record being its index; `tasks`, `paused` and `vmstore`
are the heads of the three lists of records.  `stack_buf` is the identity of
the buffers that `stack` and `arg_starts` point to, `stack_store` the pool of
buffers put aside by `store_stack`, the one to be reused next first, and
`buf_count` the number of buffers allocated so far. -/
structure VM where
  stack : List Data
  frames : List Frame
  frame_depth : Int
  numargs_str : Option NumargsStr
  frame_store : List Frame := []
  tick : Int := 0
  task_id : Int := 0
  cur_conn : Connection := 0
  arg_starts : List Nat := []
  obj_assigns : List ObjAssign := []
  vms : List VMState := []
  tasks : Option Nat := none
  paused : Option Nat := none
  vmstore : Option Nat := none
  stack_buf : Nat := 0
  stack_store : List Nat := []
  buf_count : Nat := 1

/-- The object store, external to the engine.  `lookup_retrieve_name` gives the
dbref of the object with a name, `none` when the C function returns 0. -/
structure Db where
  cache_retrieve : Dbref → Option Obj
  object_find_method : Dbref → Ident → Option Method
  object_find_next_method : Dbref → Ident → Dbref → Option Method
  line_number : Method → Int → Int
  lookup_retrieve_name : Ident → Option Dbref

/-- The C expression `stack_pos`. -/
def VM.stack_pos (s : VM) : Nat := s.stack.length

/-- Function `pop(n)`: discard the top `n` values. -/
def pop (n : Nat) (s : VM) : VM :=
  { s with stack := s.stack.take (s.stack.length - n) }

/-- Function `push_list(list)`. -/
def push_list (l : List Data) (s : VM) : VM :=
  { s with stack := s.stack ++ [Data.list l] }

/-- The field `last_opcode` of the record that `frame_start` takes:
`frame_start` does not assign it, so a record from the frame store keeps its
old value; in a record from `EMALLOC` it is indeterminate, the embedding reads
0 there. -/
def stored_last_opcode : List Frame → Int
  | [] => 0
  | frame :: _ => frame.last_opcode

/-- Function `frame_start`.  The result is the returned identifier and the
globals after the call. -/
def frame_start (s : VM) (obj : Obj) (method : Method) (sender caller : Dbref)
    (stack_start arg_start : Nat) : Ident × VM :=
  let num_args : Int := (s.stack.length : Int) - (arg_start : Int)
  if num_args < (method.num_args : Int) ∨
      (num_args > (method.num_args : Int) ∧ method.rest = -1) then
    let str : NumargsStr :=
      { dbref := obj.dbref, name := method.name, given := num_args,
        required := method.num_args, no_rest := decide (method.rest = -1) }
    (numargs_id, { s with numargs_str := some str })
  else if s.frame_depth > MAX_CALL_DEPTH then
    (maxdepth_id, s)
  else
    let s1 : VM := { s with frame_depth := s.frame_depth + 1 }
    let s2 : VM :=
      if method.rest ≠ -1 then
        -- Make a list for the remaining arguments and move them into it.
        let num_rest_args : Nat := s1.stack.length - (arg_start + method.num_args)
        let rest : List Data := s1.stack.drop (s1.stack.length - num_rest_args)
        push_list rest (pop num_rest_args s1)
      else s1
    -- Take the record from the frame store, or a new one.
    let frame : Frame :=
      { object := obj.dbref, sender := sender, caller := caller, method := method,
        pc := 0, ticks := METHOD_TICKS, specifiers := [], handler_info := [],
        stack_start := stack_start, var_start := arg_start,
        last_opcode := stored_last_opcode s2.frame_store }
    -- Initialize local variables to 0.
    let s3 : VM :=
      { s2 with stack := s2.stack ++ List.replicate method.num_vars (Data.integer 0)
                frame_store := s2.frame_store.tail }
    (NOT_AN_IDENT, { s3 with frames := frame :: s3.frames })

/-- Function `frame_return`.  It needs a current frame; on the empty chain,
where the C code dereferences `NULL`, the state is left as it is. -/
def frame_return (s : VM) : VM :=
  match s.frames with
  | [] => s
  | cur_frame :: caller_frame =>
    { s with stack := s.stack.take cur_frame.stack_start
             frames := caller_frame
             frame_store := { cur_frame with specifiers := [], handler_info := [] }
                              :: s.frame_store
             frame_depth := s.frame_depth - 1 }

/-- The opcode word `frame->opcodes[pc]`.  Outside the opcode array the C read
is undefined; the embedding reads 0 there. -/
def Frame.opcode_at (f : Frame) (pc : Int) : Int :=
  if pc < 0 then 0 else f.method.opcodes.getD pc.toNat 0

/-- Push of a specifier on the current frame, the shared tail of `op_catch`,
`op_critical` and `op_propagate`: `spec->stack_pos = stack_pos`,
`spec->next = cur_frame->specifiers`, `cur_frame->specifiers = spec`, with the
program counter moved past the operands that were read. -/
def push_specifier (kind : SpecKind) (new_pc : Int) (s : VM) : VM :=
  match s.frames with
  | [] => s
  | cur_frame :: caller_frame =>
    let spec : Error_action_specifier := { kind := kind, stack_pos := s.stack.length }
    { s with frames :=
        { cur_frame with pc := new_pc, specifiers := spec :: cur_frame.specifiers }
          :: caller_frame }

/-- Opcode `CATCH` (`op_catch`): the handler is the operand at `pc`, the error
list index the operand at `pc + 1`. -/
def op_catch (s : VM) : VM :=
  match s.frames with
  | [] => s
  | cur_frame :: _ =>
    push_specifier
      (SpecKind.CATCH (cur_frame.opcode_at cur_frame.pc) (cur_frame.opcode_at (cur_frame.pc + 1)))
      (cur_frame.pc + 2) s

/-- Opcode `CRITICAL` (`op_critical`). -/
def op_critical (s : VM) : VM :=
  match s.frames with
  | [] => s
  | cur_frame :: _ =>
    push_specifier (SpecKind.CRITICAL (cur_frame.opcode_at cur_frame.pc)) (cur_frame.pc + 1) s

/-- Opcode `PROPAGATE` (`op_propagate`). -/
def op_propagate (s : VM) : VM :=
  match s.frames with
  | [] => s
  | cur_frame :: _ =>
    push_specifier (SpecKind.PROPAGATE (cur_frame.opcode_at cur_frame.pc)) (cur_frame.pc + 1) s

/-- Function `fill_in_method_info`: the method name or 0, the current object,
the defining object and the line number. -/
def fill_in_method_info (db : Db) (cur_frame : Frame) : List Data :=
  [ (if cur_frame.method.name = NOT_AN_IDENT then Data.integer 0
     else Data.symbol cur_frame.method.name),
    Data.dbref cur_frame.object,
    Data.dbref cur_frame.method.object,
    Data.integer (db.line_number cur_frame.method cur_frame.pc) ]

/-- Modelled from the spec: `list_add` of the list module, which is outside the
given sources, appends one element at the end of a list. -/
def list_add (l : List Data) (d : Data) : List Data := l ++ [d]

/-- Function `traceback_add`: append the record of the current frame. -/
def traceback_add (db : Db) (cur_frame : Frame) (traceback : List Data) (error : Ident) :
    List Data :=
  list_add traceback (Data.list (Data.error error :: fill_in_method_info db cur_frame))

/-- The search loop of the `CATCH` case,
`for (i = 0; i < errors->num_errors; i++) if (errors->error_ids[i] == error) break;`:
the value of `i` when the loop is left. -/
def error_search (error : Ident) : List Ident → Nat
  | [] => 0
  | id :: ids => if id = error then 0 else error_search error ids + 1

/-- The error list `cur_frame->method->error_lists[ind]`.  Outside the array the
C read is undefined; the embedding reads an empty list there. -/
def Method.error_list (m : Method) (ind : Int) : List Ident :=
  if ind < 0 then [] else m.error_lists.getD ind.toNat []

/-- Outcome of the specifier loop of `propagate_error` in one frame: a
specifier handled the error (the frame and the value stack as the `return`
leaves them), or the loop ran out of specifiers (the frame at that point, and
the `propagate` flag). -/
inductive Walk where
  | handled (cur_frame : Frame) (stack : List Data)
  | unhandled (cur_frame : Frame) (propagate : Bool)

/-- The loop `for (; cur_frame->specifiers; pop_error_action_specifier())` of
`propagate_error`.  The first argument is `cur_frame->specifiers` at the loop
test; `traceback` already holds the record of this frame. -/
def walk_specifiers (traceback : List Data) (error : Ident) :
    List Error_action_specifier → Bool → Frame → List Data → Walk
  | [], propagate, cur_frame, _ =>
    Walk.unhandled { cur_frame with specifiers := [] } propagate
  | spec :: next, propagate, cur_frame, stack =>
    match spec.kind with
    | SpecKind.CRITICAL end_pc =>
      -- pop(stack_pos - spec->stack_pos); pc = end; push_error(error); pop the spec
      Walk.handled { cur_frame with pc := end_pc, specifiers := next }
        (stack.take (stack.length - (stack.length - spec.stack_pos)) ++ [Data.error error])
    | SpecKind.PROPAGATE _ =>
      walk_specifiers traceback error next true cur_frame stack
    | SpecKind.CATCH handler error_list =>
      if error_list ≠ -1 ∧
          error_search error (cur_frame.method.error_list error_list)
            = (cur_frame.method.error_list error_list).length then
        -- Keep going if we didn't find the error.
        walk_specifiers traceback error next propagate cur_frame stack
      else
        let hinfo : Handler_info := { traceback := traceback, error := error }
        Walk.handled
          { cur_frame with handler_info := hinfo :: cur_frame.handler_info,
                           pc := handler, specifiers := next }
          (stack.take (stack.length - (stack.length - spec.stack_pos)))

/-- Function `propagate_error(traceback, error)`. -/
def propagate_error (db : Db) (s : VM) (traceback : List Data) (error : Ident) : VM :=
  match h : s.frames with
  | [] => s
  | cur_frame :: caller_frame =>
    let traceback := traceback_add db cur_frame traceback error
    match walk_specifiers traceback error cur_frame.specifiers false cur_frame s.stack with
    | Walk.handled cur_frame stack =>
      { s with stack := stack, frames := cur_frame :: caller_frame }
    | Walk.unhandled cur_frame propagate =>
      -- There was no handler in the current frame.
      propagate_error db (frame_return { s with frames := cur_frame :: caller_frame })
        traceback (if propagate then error else methoderr_id)
termination_by s.frames.length
decreasing_by simp [frame_return, h]

/-- The permission switch of `send_message` ("check perms"), entered when there
is a current frame: the identifier returned by the switch, or `none` when
control leaves the switch. -/
def check_perms (cur_frame : Frame) (obj : Obj) (method : Method) : Option Ident :=
  match method.m_state with
  | MState.MS_PRIVATE =>
    if cur_frame.method.object ≠ method.object then some private_id else none
  | MState.MS_PROTECTED =>
    if cur_frame.object ≠ obj.dbref then some protected_id else none
  | MState.MS_ROOT =>
    if cur_frame.method.object ≠ ROOT_DBREF then some root_id else none
  | MState.MS_DRIVER => some driver_id
  | MState.MS_PUBLIC => none

/-- Function `send_message`.  The result is the returned identifier and the
globals after the call. -/
def send_message (db : Db) (s : VM) (dbref : Dbref) (message : Ident)
    (stack_start arg_start : Nat) : Ident × VM :=
  -- Get the target object from the cache.
  match db.cache_retrieve dbref with
  | none => (objnf_id, s)
  | some obj =>
    -- Find the method to run.
    match db.object_find_method obj.dbref message with
    | none => (methodnf_id, s)
    | some method =>
      match s.frames with
      | [] => frame_start s obj method NOT_AN_IDENT NOT_AN_IDENT stack_start arg_start
      | cur_frame :: _ =>
        match check_perms cur_frame obj method with
        | some id => (id, s)
        | none =>
          frame_start s obj method cur_frame.object cur_frame.method.object
            stack_start arg_start

/-- Function `pass_message`.  It reads `cur_frame` without a test; the result is
`none` on the empty frame chain, where the C code dereferences `NULL`. -/
def pass_message (db : Db) (s : VM) (stack_start arg_start : Nat) : Option (Ident × VM) :=
  match s.frames with
  | [] => none
  | cur_frame :: _ =>
    if cur_frame.method.name = -1 then some (methodnf_id, s)
    else
      match db.object_find_next_method cur_frame.object cur_frame.method.name
              cur_frame.method.object with
      | none => some (methodnf_id, s)
      | some method =>
        some (frame_start s { dbref := cur_frame.object } method cur_frame.sender
                cur_frame.caller stack_start arg_start)

/-- An entry of `op_table`: the function of the opcode, its name, its symbol and
the object that a function is bound to, `INV_OBJNUM` for none.  The table is
declared outside the given sources and is taken as a parameter, a function from
opcode numbers to entries. -/
structure Op_info where
  func : VM → VM
  name : String
  symbol : Ident
  binding : Dbref := INV_OBJNUM

/-- Function `push_dbref(dbref)`. -/
def push_dbref (dbref : Dbref) (s : VM) : VM :=
  { s with stack := s.stack ++ [Data.dbref dbref] }

/-- Opcode `COMMENT` (`op_comment`): move past the operand, give the tick back to
the frame and to the system tick counter. -/
def op_comment (s : VM) : VM :=
  match s.frames with
  | [] => s
  | cur_frame :: caller_frame =>
    { s with frames :=
               { cur_frame with pc := cur_frame.pc + 1, ticks := cur_frame.ticks + 1 }
                 :: caller_frame
             tick := s.tick - 1 }

/-- Opcode `RETURN` (`op_return`). -/
def op_return (s : VM) : VM :=
  match s.frames with
  | [] => s
  | cur_frame :: _ =>
    let s1 := frame_return s
    match s1.frames with
    | [] => s1
    | _ :: _ => push_dbref cur_frame.object s1

/-- Opcode `RETURN_EXPR` (`op_return_expr`): `val = &stack[--stack_pos]`, return
the frame, and with a caller store `*val` on top of its stack.  On an empty
stack the C read is undefined; the embedding reads Integer 0 there. -/
def op_return_expr (s : VM) : VM :=
  match s.frames with
  | [] => s
  | _ :: _ =>
    let val : Data := s.stack.getLastD (Data.integer 0)
    let s1 := frame_return { s with stack := s.stack.dropLast }
    match s1.frames with
    | [] => s1
    | _ :: _ => { s1 with stack := s1.stack ++ [val] }

/-- Function `start_error(error, explanation, arg, location)`: build the error
condition and the traceback and start the propagation; `arg` is `none` for the
`NULL` pointer. -/
def start_error (db : Db) (s : VM) (error : Ident) (explanation : String)
    (arg : Option Data) (location : List Data) : VM :=
  -- Construct a three-element list for the error condition.
  let error_condition : List Data :=
    [ Data.error error, Data.string explanation,
      (match arg with
       | some d => d
       | none => Data.integer 0) ]
  -- Now construct a traceback, starting as a two-element list.
  let traceback : List Data := [Data.list error_condition, Data.list location]
  propagate_error db s traceback error

/-- The C test `islower(*opname)` on the name of an opcode; the first character
of an empty name is the terminating zero, which is not a lowercase letter. -/
def opname_islower (opname : String) : Bool :=
  match opname.data with
  | [] => false
  | c :: _ => c.isLower

/-- Function `interp_error(error, explanation)`. -/
def interp_error (op_table : Int → Op_info) (db : Db) (s : VM) (error : Ident)
    (explanation : String) : VM :=
  match s.frames with
  | [] => s
  | cur_frame :: _ =>
    -- Get the opcode name and decide whether it's a function or not.
    let opname := (op_table cur_frame.last_opcode).name
    let location_type : Ident := if opname_islower opname then function_id else opcode_id
    let location : List Data :=
      [Data.symbol location_type, Data.symbol (op_table cur_frame.last_opcode).symbol]
    start_error db s error explanation none location

/-- Function `user_error(error, explanation, arg)`. -/
def user_error (db : Db) (s : VM) (error : Ident) (explanation : String)
    (arg : Option Data) : VM :=
  match s.frames with
  | [] => s
  | cur_frame :: _ =>
    let location : List Data := Data.symbol method_id :: fill_in_method_info db cur_frame
    -- Return from the current method, and propagate the error.
    start_error db (frame_return s) error explanation arg location

/-- Function `out_of_ticks_error`.  Its `explanation` is a variable declared
`internal`, a macro of the configuration header that is outside the given
sources; it is read as `static`, so that the variable is null until the first
call and holds "Out of ticks" from then on. -/
def out_of_ticks_error (db : Db) (s : VM) : VM :=
  match s.frames with
  | [] => s
  | cur_frame :: _ =>
    let location : List Data :=
      Data.symbol interpreter_id :: fill_in_method_info db cur_frame
    -- Don't give the topmost frame a chance to return.
    start_error db (frame_return s) methoderr_id "Out of ticks" none location

/-- One pass through the body of the loop `while (cur_frame)` of `execute`. -/
def execute_iteration (op_table : Int → Op_info) (db : Db) (s : VM) : VM :=
  match s.frames with
  | [] => s
  | cur_frame :: caller_frame =>
    -- tick++; --(cur_frame->ticks)
    let ticked : Frame := { cur_frame with ticks := cur_frame.ticks - 1 }
    let s1 : VM := { s with tick := s.tick + 1, frames := ticked :: caller_frame }
    if ticked.ticks = 0 then
      out_of_ticks_error db s1
    else
      let opcode := ticked.opcode_at ticked.pc
      let fetched : Frame := { ticked with last_opcode := opcode, pc := ticked.pc + 1 }
      (op_table opcode).func { s1 with frames := fetched :: caller_frame }

/-- Function `execute`: the loop `while (cur_frame)`, run for at most `fuel`
passes; `none` when a current frame is left after `fuel` passes. -/
def execute (op_table : Int → Op_info) (db : Db) : Nat → VM → Option VM
  | 0, s =>
    match s.frames with
    | [] => some s
    | _ :: _ => none
  | fuel + 1, s =>
    match s.frames with
    | [] => some s
    | _ :: _ => execute op_table db fuel (execute_iteration op_table db s)

/-- The end of `task` and `task_method` after the loop:
`if (stack_pos != 0) panic("Stack not empty after interpretation.")`. -/
def check_stack_empty (s : VM) : Except String VM :=
  if s.stack_pos ≠ 0 then Except.error "Stack not empty after interpretation."
  else Except.ok s

/-- Function `task(conn, dbref, message, num_args, ...)`; `running` is the global
flag of the driver, `args` the variable arguments.  The result is `none` when
the loop does not end within `fuel` passes, an error for a panic, and else the
globals on return. -/
def task (op_table : Int → Op_info) (db : Db) (fuel : Nat) (running : Bool) (s : VM)
    (conn : Connection) (dbref : Dbref) (message : Ident) (args : List Data) :
    Option (Except String VM) :=
  -- Don't execute if a shutdown() has occured.
  if running = false then some (Except.ok s)
  else
    -- Set global variables.
    let s1 : VM := { s with cur_conn := conn, frame_depth := 0 }
    let s2 : VM := { s1 with stack := s1.stack ++ args }
    -- Send the message.  If this is succesful, start the task by calling execute().
    let sent := send_message db s2 dbref message 0 0
    if sent.1 = NOT_AN_IDENT then
      match execute op_table db fuel sent.2 with
      | none => none
      | some s3 =>
        match check_stack_empty s3 with
        | Except.error msg => some (Except.error msg)
        | Except.ok s4 => some (Except.ok { s4 with task_id := s4.task_id + 1 })
    else
      some (Except.ok (pop sent.2.stack_pos sent.2))

/-- Function `task_method(conn, obj, method)`. -/
def task_method (op_table : Int → Op_info) (db : Db) (fuel : Nat) (s : VM)
    (conn : Connection) (obj : Obj) (method : Method) : Option (Except String VM) :=
  let s1 : VM := { s with cur_conn := conn }
  let s2 : VM := (frame_start s1 obj method NOT_AN_IDENT NOT_AN_IDENT 0 0).2
  match execute op_table db fuel s2 with
  | none => none
  | some s3 => some (check_stack_empty s3)

/-- The three lists of `VMState` records, the argument `the_list` of the macros
`ADD_TASK` and `REMOVE_TASK`. -/
inductive TaskList where
  | tasks
  | paused
  | vmstore
  deriving DecidableEq

/-- The head of a list of records. -/
def VM.head (s : VM) : TaskList → Option Nat
  | TaskList.tasks => s.tasks
  | TaskList.paused => s.paused
  | TaskList.vmstore => s.vmstore

/-- Assignment to the head of a list of records. -/
def VM.set_head (s : VM) (the_list : TaskList) (head : Option Nat) : VM :=
  match the_list with
  | TaskList.tasks => { s with tasks := head }
  | TaskList.paused => { s with paused := head }
  | TaskList.vmstore => { s with vmstore := head }

/-- Macro `ADD_TASK(the_list, the_value)`; `none` when `the_value` is not the
address of a record. -/
def ADD_TASK (the_list : TaskList) (the_value : Nat) (s : VM) : Option VM :=
  match s.vms.get? the_value with
  | none => none
  | some record =>
    match s.head the_list with
    | none =>
      some { s.set_head the_list (some the_value) with
             vms := s.vms.set the_value { record with next := none } }
    | some head =>
      some { s.set_head the_list (some the_value) with
             vms := s.vms.set the_value { record with next := some head } }

/-- Function `store_stack`: the current buffers go to the pool `stack_store`. -/
def store_stack (s : VM) : VM :=
  { s with stack_store := s.stack_buf :: s.stack_store }

/-- The fields that `suspend_vm` assigns to the record `vm`. -/
def VM.snapshot (s : VM) : VMState :=
  { paused := 0, frames := s.frames, cur_conn := s.cur_conn, stack := s.stack,
    stack_buf := s.stack_buf, arg_starts := s.arg_starts, task_id := s.task_id,
    next := none }

/-- Function `suspend_vm`: the globals are saved in a record, taken from
`vmstore` or allocated at the end of the heap; the result is the address of the
record and the globals after the call. -/
def suspend_vm (s : VM) : Option (Nat × VM) :=
  match s.vmstore with
  | some vm =>
    match s.vms.get? vm with
    | none => none
    | some record =>
      some (vm, { s with vmstore := record.next, vms := s.vms.set vm s.snapshot })
  | none => some (s.vms.length, { s with vms := s.vms ++ [s.snapshot] })

/-- Function `restore_vm(vm)`; `none` when `vm` is not the address of a
record. -/
def restore_vm (vm : Nat) (s : VM) : Option VM :=
  match s.vms.get? vm with
  | none => none
  | some record =>
    some { s with task_id := record.task_id, frames := record.frames,
                  cur_conn := record.cur_conn, stack := record.stack,
                  stack_buf := record.stack_buf, arg_starts := record.arg_starts }

/-- The loop `while (list && (list->next != elem)) list = list->next` of
`task_delete`, for at most `fuel` passes: the value of `list` after the loop,
`none` when the loop does not end or reads outside the heap. -/
def task_delete_walk (vms : List VMState) (elem : Nat) : Nat → Option Nat → Option (Option Nat)
  | 0, _ => none
  | _ + 1, none => some none
  | fuel + 1, some list =>
    match vms.get? list with
    | none => none
    | some record =>
      if record.next ≠ some elem then task_delete_walk vms elem fuel record.next
      else some (some list)

/-- Function `task_delete(list, elem)`.  A walk along records of the heap that
does not end within as many passes as the heap has records, and one more, does
not end at all. -/
def task_delete (list : Option Nat) (elem : Nat) (s : VM) : Option VM :=
  let start : Option (Option Nat) :=
    if list ≠ s.tasks then
      match list with
      | none => none
      | some first => (s.vms.get? first).map (fun record => record.next)
    else some list
  match start with
  | none => none
  | some list1 =>
    match task_delete_walk s.vms elem (s.vms.length + 1) list1 with
    | none => none
    | some none => some s
    | some (some list2) =>
      match s.vms.get? list2, s.vms.get? elem with
      | some record, some elem_record =>
        some { s with vms := s.vms.set list2 { record with next := elem_record.next } }
      | _, _ => none

/-- Macro `REMOVE_TASK(the_list, the_value)`. -/
def REMOVE_TASK (the_list : TaskList) (the_value : Nat) (s : VM) : Option VM :=
  if s.head the_list = some the_value then
    match s.vms.get? the_value with
    | none => none
    | some record => some (s.set_head the_list record.next)
  else task_delete (s.head the_list) the_value s

/-- A loop `for (; vm; vm = vm->next) if (vm->task_id == tid) return vm;` of
`task_lookup`, for at most `fuel` passes: the record found, or `NULL` at the
end of the list. -/
def task_lookup_in (vms : List VMState) (tid : Int) : Nat → Option Nat → Option (Option Nat)
  | 0, _ => none
  | _ + 1, none => some none
  | fuel + 1, some vm =>
    match vms.get? vm with
    | none => none
    | some record =>
      if record.task_id = tid then some (some vm)
      else task_lookup_in vms tid fuel record.next

/-- Function `task_lookup(tid)`: the address of the record, `some none` for
`NULL`. -/
def task_lookup (tid : Int) (s : VM) : Option (Option Nat) :=
  match task_lookup_in s.vms tid (s.vms.length + 1) s.tasks with
  | none => none
  | some (some vm) => some (some vm)
  | some none => task_lookup_in s.vms tid (s.vms.length + 1) s.paused

/-- A loop `for (; vm; vm = vm->next)` of `task_list` that adds the task ids
to the list `r`. -/
def task_list_from (vms : List VMState) (r : List Data) : Nat → Option Nat → Option (List Data)
  | 0, _ => none
  | _ + 1, none => some r
  | fuel + 1, some vm =>
    match vms.get? vm with
    | none => none
    | some record =>
      task_list_from vms (list_add r (Data.integer record.task_id)) fuel record.next

/-- Function `task_list`. -/
def task_list (s : VM) : Option (List Data) :=
  match task_list_from s.vms [] (s.vms.length + 1) s.tasks with
  | none => none
  | some r => task_list_from s.vms r (s.vms.length + 1) s.paused

/-- Function `init_execute`: buffers from the pool `stack_store`, or new ones,
and `stack_pos = arg_pos = 0`.  A new buffer gets the number of buffers
allocated so far as its identity. -/
def init_execute (s : VM) : VM :=
  match s.stack_store with
  | holder :: rest =>
    { s with stack_buf := holder, stack_store := rest, stack := [], arg_starts := [] }
  | [] =>
    { s with stack_buf := s.buf_count, buf_count := s.buf_count + 1, stack := [],
             arg_starts := [] }

/-- Function `task_resume(tid, ret)` up to the call of `execute`: the state on
which the loop is entered, with the address of the record that holds the state
of the caller; `none` when `task_lookup` gives `NULL`. -/
def task_resume_enter (tid : Int) (ret : Option Data) (s : VM) : Option (Nat × VM) :=
  match task_lookup tid s with
  | some (some vm) =>
    match suspend_vm s with
    | none => none
    | some (old_vm, s1) =>
      match restore_vm vm s1 with
      | none => none
      | some s2 =>
        match REMOVE_TASK TaskList.tasks vm s2 with
        | none => none
        | some s3 =>
          match ADD_TASK TaskList.vmstore vm s3 with
          | none => none
          | some s4 =>
            match ret with
            | some d => some (old_vm, { s4 with stack := s4.stack ++ [d] })
            | none => some (old_vm, { s4 with stack := s4.stack ++ [Data.integer 0] })
  | _ => none

/-- Function `task_resume(tid, ret)` after the call of `execute`. -/
def task_resume_leave (old_vm : Nat) (s : VM) : Option VM :=
  match restore_vm old_vm (store_stack s) with
  | none => none
  | some s1 => ADD_TASK TaskList.vmstore old_vm s1

/-- Function `task_resume(tid, ret)`; `ret` is `none` for a `NULL` pointer. -/
def task_resume (op_table : Int → Op_info) (db : Db) (fuel : Nat) (tid : Int)
    (ret : Option Data) (s : VM) : Option VM :=
  match task_resume_enter tid ret s with
  | none => none
  | some (old_vm, s1) =>
    match execute op_table db fuel s1 with
    | none => none
    | some s2 => task_resume_leave old_vm s2

/-- Function `task_suspend`. -/
def task_suspend (s : VM) : Option VM :=
  match suspend_vm s with
  | none => none
  | some (vm, s1) =>
    match ADD_TASK TaskList.tasks vm s1 with
    | none => none
    | some s2 => some { init_execute s2 with frames := [] }

/-- The loop `while (cur_frame) frame_return()`: a pass takes the current frame
off the chain, so there are as many passes as the chain has frames. -/
def return_frames (s : VM) : VM :=
  frame_return^[s.frames.length] s

/-- Function `task_cancel(tid)`. -/
def task_cancel (tid : Int) (s : VM) : Option VM :=
  match task_lookup tid s with
  | some (some vm) =>
    match suspend_vm s with
    | none => none
    | some (old_vm, s1) =>
      match restore_vm vm s1 with
      | none => none
      | some s2 =>
        let s3 := return_frames s2
        match s3.vms.get? vm with
        | none => none
        | some record =>
          let removed :=
            if record.paused ≠ 0 then REMOVE_TASK TaskList.paused vm s3
            else REMOVE_TASK TaskList.tasks vm s3
          match removed with
          | none => none
          | some s4 =>
            match ADD_TASK TaskList.vmstore vm (store_stack s4) with
            | none => none
            | some s5 =>
              match restore_vm old_vm s5 with
              | none => none
              | some s6 => ADD_TASK TaskList.vmstore old_vm s6
  | _ => none

/-- Function `task_pause`. -/
def task_pause (s : VM) : Option VM :=
  match suspend_vm s with
  | none => none
  | some (vm, s1) =>
    match s1.vms.get? vm with
    | none => none
    | some record =>
      let s2 : VM := { s1 with vms := s1.vms.set vm { record with paused := 1 } }
      match ADD_TASK TaskList.paused vm s2 with
      | none => none
      | some s3 => some { init_execute s3 with frames := [] }

/-- The body of the loop of `run_paused_tasks` up to the call of `execute`:
the state on which the loop of the interpreter is entered for the record
`task`, and the new value of `task`. -/
def run_paused_enter (task : Nat) (s : VM) : Option (Option Nat × VM) :=
  match restore_vm task s with
  | none => none
  | some s1 =>
    match s1.frames with
    | [] => none
    | cur_frame :: caller_frame =>
      let s2 : VM := { s1 with frames := { cur_frame with ticks := PAUSED_METHOD_TICKS }
                                           :: caller_frame }
      match s2.vms.get? task with
      | none => none
      | some record =>
        match ADD_TASK TaskList.vmstore task s2 with
        | none => none
        | some s3 => some (record.next, s3)

/-- The loop `while (task)` of `run_paused_tasks`, for at most `fuel` passes,
each with at most `fuel` passes of the loop of `execute`. -/
def run_paused_loop (op_table : Int → Op_info) (db : Db) (fuel : Nat) :
    Nat → Option Nat → VM → Option VM
  | 0, _, _ => none
  | _ + 1, none, s => some s
  | passes + 1, some task, s =>
    match run_paused_enter task s with
    | none => none
    | some (next, s1) =>
      match execute op_table db fuel s1 with
      | none => none
      | some s2 => run_paused_loop op_table db fuel passes next (store_stack s2)

/-- Function `run_paused_tasks`. -/
def run_paused_tasks (op_table : Int → Op_info) (db : Db) (fuel : Nat) (s : VM) : Option VM :=
  match suspend_vm s with
  | none => none
  | some (vm, s1) =>
    let task := s1.paused
    -- don't want any task adding itself while we're running the paused tasks
    match run_paused_loop op_table db fuel (fuel + 1) task { s1 with paused := none } with
    | none => none
    | some s2 =>
      match restore_vm vm s2 with
      | none => none
      | some s3 => ADD_TASK TaskList.vmstore vm s3

/-- The functions of the data and object modules that the operators call; they
are outside the given sources.  `type_code` is the number that stands for a
type in the field `type` of a value, `numargs_text` the text of the string
`numargs_str` that `frame_start` formats. -/
structure Lib where
  data_cmp : Data → Data → Int
  dict_find : List (Data × Data) → Data → Option Data
  vformat : String → List Data → String
  object_get_ident : Dbref → Int → Ident
  float_of_int : Int → Flt
  float_add : Flt → Flt → Flt
  float_div : Flt → Flt → Flt
  float_eq_zero : Flt → Bool
  type_code : DataType → Int
  data_type_id : DataType → Ident
  english_integer : Int → String
  english_type : Int → String
  numargs_text : Option NumargsStr → String

/-- The two top values of the stack, `stack[stack_pos - 2]` and
`stack[stack_pos - 1]`, with the slots below them; `none` when the stack holds
fewer than two values (the C reads are then undefined). -/
def top2 (stack : List Data) : Option (List Data × Data × Data) :=
  match stack.reverse with
  | d2 :: d1 :: base => some (base.reverse, d1, d2)
  | _ => none

/-- The three top values of the stack with the slots below them. -/
def top3 (stack : List Data) : Option (List Data × Data × Data × Data) :=
  match stack.reverse with
  | d3 :: d2 :: d1 :: base => some (base.reverse, d1, d2, d3)
  | _ => none

/-- The arguments of a call of `cthrow`: the error kind, the format and the
values to format. -/
structure Thrown where
  error : Ident
  fmt : String
  args : List Data

/-- Function `cthrow(error, fmt, ...)`. -/
def cthrow (op_table : Int → Op_info) (db : Db) (lib : Lib) (s : VM) (t : Thrown) : VM :=
  interp_error op_table db s t.error (lib.vformat t.fmt t.args)

/-- Function `anticipate_assignment`. -/
def anticipate_assignment (lib : Lib) (s : VM) : VM :=
  match s.frames with
  | [] => s
  | cur_frame :: _ =>
    let opcode := cur_frame.opcode_at cur_frame.pc
    if opcode = SET_LOCAL then
      -- Zero out local variable value.
      let var : Nat := cur_frame.var_start + (cur_frame.opcode_at (cur_frame.pc + 1)).toNat
      { s with stack := s.stack.set var (Data.integer 0) }
    else if opcode = SET_OBJ_VAR then
      -- Zero out the object variable, if it exists.
      let ind := cur_frame.opcode_at (cur_frame.pc + 1)
      let id := lib.object_get_ident cur_frame.method.object ind
      let call : ObjAssign :=
        { object := cur_frame.object, definer := cur_frame.method.object, id := id,
          value := Data.integer 0 }
      { s with obj_assigns := s.obj_assigns ++ [call] }
    else s

/-- The type conversions at the head of the arithmetic operators: with a Float
and an Integer operand the Integer is converted, in place. -/
def promote (lib : Lib) (d1 d2 : Data) : Data × Data :=
  match d1, d2 with
  | Data.float x, Data.integer b => (Data.float x, Data.float (lib.float_of_int b))
  | Data.integer a, Data.float y => (Data.float (lib.float_of_int a), Data.float y)
  | _, _ => (d1, d2)

/-- The end of an operator on the two top values `d1` and `d2` (as the
conversions left them): a call of `cthrow`, or the result stored in the slot of
`d1` and `d2` popped. -/
def finish_binary (op_table : Int → Op_info) (db : Db) (lib : Lib) (s : VM)
    (base : List Data) (d1 d2 : Data) (r : Except Thrown Data) : VM :=
  let s1 : VM := { s with stack := base ++ [d1, d2] }
  match r with
  | Except.error t => cthrow op_table db lib s1 t
  | Except.ok d => { s1 with stack := base ++ [d] }

/-- The decisions of `op_add` on the converted operands: a call of `cthrow`, or
the sum with the flag that tells whether `anticipate_assignment` is called. -/
def add_values (lib : Lib) (d1 d2 : Data) : Except Thrown (Bool × Data) :=
  match d1, d2 with
  | Data.integer a, Data.integer b => Except.ok (false, Data.integer (wrap_int (a + b)))
  | Data.float x, Data.float y => Except.ok (false, Data.float (lib.float_add x y))
  | Data.string x, Data.string y => Except.ok (true, Data.string (x ++ y))
  | Data.list x, Data.list y => Except.ok (true, Data.list (x ++ y))
  | _, _ => Except.error { error := type_id, fmt := "Cannot add %D and %D.", args := [d1, d2] }

/-- Opcode `ADD` (`op_add`).  The sum of two strings or lists is computed from
their values before `anticipate_assignment`, which zeroes a local variable and
not an operand in compiled code. -/
def op_add (op_table : Int → Op_info) (db : Db) (lib : Lib) (s : VM) : VM :=
  match top2 s.stack with
  | none => s
  | some (base, d1, d2) =>
    let p := promote lib d1 d2
    let s1 : VM := { s with stack := base ++ [p.1, p.2] }
    match add_values lib p.1 p.2 with
    | Except.error t => cthrow op_table db lib s1 t
    | Except.ok (anticipate, d) =>
      let s2 : VM := if anticipate then anticipate_assignment lib s1 else s1
      { s2 with stack := s2.stack.take base.length ++ [d] }

/-- The decisions of `op_divide` on the converted operands: a call of `cthrow`
or the quotient; `none` when the division of two Integers traps. -/
def divide_values (lib : Lib) (d1 d2 : Data) : Option (Except Thrown Data) :=
  if d1.type ≠ d2.type then
    some (Except.error
      { error := type_id, fmt := "%D and %D are not of the same type.", args := [d1, d2] })
  else
    match d1, d2 with
    | Data.integer a, Data.integer b =>
      if b = 0 then
        some (Except.error
          { error := div_id, fmt := "Attempt to divide %D by zero.", args := [d1] })
      else (int_div a b).map (fun q => Except.ok (Data.integer q))
    | Data.float x, Data.float y =>
      if lib.float_eq_zero y = true then
        some (Except.error
          { error := div_id, fmt := "Attempt to divide %D by zero.", args := [d1] })
      else some (Except.ok (Data.float (lib.float_div x y)))
    | _, _ =>
      some (Except.error
        { error := type_id, fmt := "%D and %D are not integers or floats.",
          args := [d1, d2] })

/-- Opcode `DIVIDE` (`op_divide`); `none` when the division traps. -/
def op_divide (op_table : Int → Op_info) (db : Db) (lib : Lib) (s : VM) : Option VM :=
  match top2 s.stack with
  | none => some s
  | some (base, d1, d2) =>
    let p := promote lib d1 d2
    (divide_values lib p.1 p.2).map (finish_binary op_table db lib s base p.1 p.2)

/-- The decisions of `op_modulo`: a call of `cthrow` or the remainder; `none`
when the division traps. -/
def modulo_values (d1 d2 : Data) : Option (Except Thrown Data) :=
  match d1, d2 with
  | Data.integer a, Data.integer b =>
    if b = 0 then
      some (Except.error
        { error := div_id, fmt := "Attempt to divide %D by zero.", args := [d1] })
    else (int_mod a b).map (fun r => Except.ok (Data.integer r))
  | Data.integer _, _ =>
    some (Except.error
      { error := type_id, fmt := "Right side (%D) is not an integer.", args := [d2] })
  | _, _ =>
    some (Except.error
      { error := type_id, fmt := "Left side (%D) is not an integer.", args := [d1] })

/-- Opcode `MODULO` (`op_modulo`); `none` when the division traps. -/
def op_modulo (op_table : Int → Op_info) (db : Db) (lib : Lib) (s : VM) : Option VM :=
  match top2 s.stack with
  | none => some s
  | some (base, d1, d2) =>
    (modulo_values d1 d2).map (finish_binary op_table db lib s base d1 d2)

/-- The decisions shared by `op_bwand`, `op_bwor`, `op_bwshr` and `op_bwshl`,
which differ in the C operator only, `combine`. -/
def bitwise_values (combine : Int → Int → Int) (d1 d2 : Data) : Except Thrown Data :=
  match d1, d2 with
  | Data.integer a, Data.integer b =>
    if b = 0 then
      Except.error { error := div_id, fmt := "Attempt to divide %D by zero.", args := [d1] }
    else Except.ok (Data.integer (combine a b))
  | Data.integer _, _ =>
    Except.error
      { error := type_id, fmt := "Right side (%D) is not an integer.", args := [d2] }
  | _, _ =>
    Except.error
      { error := type_id, fmt := "Left side (%D) is not an integer.", args := [d1] }

/-- The C expression `a >> b` on signed integers, for a shift count within the
width; outside it the C shift is undefined and the embedding shifts by the
count all the same (by 0 for a negative count). -/
def shift_right (a b : Int) : Int := a >>> b.toNat

/-- The C expression `a << b`, kept to the width; see `shift_right` for the
counts outside the width. -/
def shift_left (a b : Int) : Int := wrap_int (a * 2 ^ b.toNat)

/-- Opcode `BITAND` (`op_bwand`). -/
def op_bwand (op_table : Int → Op_info) (db : Db) (lib : Lib) (s : VM) : VM :=
  match top2 s.stack with
  | none => s
  | some (base, d1, d2) =>
    finish_binary op_table db lib s base d1 d2 (bitwise_values Int.land d1 d2)

/-- Opcode `BITOR` (`op_bwor`). -/
def op_bwor (op_table : Int → Op_info) (db : Db) (lib : Lib) (s : VM) : VM :=
  match top2 s.stack with
  | none => s
  | some (base, d1, d2) =>
    finish_binary op_table db lib s base d1 d2 (bitwise_values Int.lor d1 d2)

/-- Opcode `SHR` (`op_bwshr`). -/
def op_bwshr (op_table : Int → Op_info) (db : Db) (lib : Lib) (s : VM) : VM :=
  match top2 s.stack with
  | none => s
  | some (base, d1, d2) =>
    finish_binary op_table db lib s base d1 d2 (bitwise_values shift_right d1 d2)

/-- Opcode `SHL` (`op_bwshl`). -/
def op_bwshl (op_table : Int → Op_info) (db : Db) (lib : Lib) (s : VM) : VM :=
  match top2 s.stack with
  | none => s
  | some (base, d1, d2) =>
    finish_binary op_table db lib s base d1 d2 (bitwise_values shift_left d1 d2)

/-- The bounds test and the element of `op_index` for an array of length `len`
and the Integer index `val`; `elem i` is the element numbered `i` from 0. -/
def index_element (len : Nat) (val : Int) (elem : Nat → Data) : Except Thrown Data :=
  let i : Int := val - 1
  if i < 0 then
    Except.error
      { error := range_id, fmt := "Index (%d) is less than one.", args := [Data.integer (i + 1)] }
  else if i > (len : Int) - 1 then
    Except.error
      { error := range_id, fmt := "Index (%d) is greater than length (%d)",
        args := [Data.integer (i + 1), Data.integer len] }
  else Except.ok (elem i.toNat)

/-- The decisions of `op_index` on the array `d` and the index `ind`.  A string
is indexed by its characters, which are the bytes of the C string for text
in ASCII. -/
def index_values (lib : Lib) (d ind : Data) : Except Thrown Data :=
  match d with
  | Data.dict entries =>
    -- Get the value corresponding to a key.
    match lib.dict_find entries ind with
    | none =>
      Except.error
        { error := keynf_id, fmt := "Key (%D) is not in the dictionary.", args := [ind] }
    | some element => Except.ok element
  | Data.list elems =>
    match ind with
    | Data.integer val =>
      index_element elems.length val (fun i => elems.getD i (Data.integer 0))
    | _ =>
      Except.error { error := type_id, fmt := "Offset (%D) is not an integer.", args := [ind] }
  | Data.string str =>
    match ind with
    | Data.integer val =>
      index_element str.length val
        (fun i => Data.string (String.mk [str.data.getD i (Char.ofNat 0)]))
    | _ =>
      Except.error { error := type_id, fmt := "Offset (%D) is not an integer.", args := [ind] }
  | _ =>
    Except.error
      { error := type_id, fmt := "Array (%D) is not a list, string, or dictionary.",
        args := [d] }

/-- Opcode `INDEX` (`op_index`). -/
def op_index (op_table : Int → Op_info) (db : Db) (lib : Lib) (s : VM) : VM :=
  match top2 s.stack with
  | none => s
  | some (base, d, ind) =>
    finish_binary op_table db lib s base d ind (index_values lib d ind)

/-- Jump of the current frame: `cur_frame->pc = cur_frame->opcodes[cur_frame->pc]`. -/
def jump_operand (s : VM) : VM :=
  match s.frames with
  | [] => s
  | cur_frame :: caller_frame =>
    { s with frames := { cur_frame with pc := cur_frame.opcode_at cur_frame.pc } :: caller_frame }

/-- Step of the current frame past one operand: `cur_frame->pc++`. -/
def skip_operand (s : VM) : VM :=
  match s.frames with
  | [] => s
  | cur_frame :: caller_frame =>
    { s with frames := { cur_frame with pc := cur_frame.pc + 1 } :: caller_frame }

/-- Opcode `CASE_VALUE` (`op_case_value`). -/
def op_case_value (lib : Lib) (s : VM) : VM :=
  match top2 s.stack with
  | none => s
  | some (_, switch_expr, value) =>
    if lib.data_cmp switch_expr value = 0 then jump_operand (pop 2 s)
    else skip_operand (pop 1 s)

/-- The decisions of `op_case_range` on the controlling value and the two
bounds: a call of `cthrow`, or `is_match`. -/
def case_range_match (lib : Lib) (switch_expr range0 range1 : Data) : Except Thrown Bool :=
  -- Verify that range[0] and range[1] make a value type.
  if range0.type ≠ range1.type then
    Except.error
      { error := type_id, fmt := "%D and %D are not of the same type.",
        args := [range0, range1] }
  else if range0.type ≠ DataType.INTEGER ∧ range0.type ≠ DataType.STRING then
    Except.error
      { error := type_id, fmt := "%D and %D are not integers or strings.",
        args := [range0, range1] }
  else
    Except.ok
      (decide (switch_expr.type = range0.type)
        && decide (lib.data_cmp switch_expr range0 ≥ 0)
        && decide (lib.data_cmp switch_expr range1 ≤ 0))

/-- Opcode `CASE_RANGE` (`op_case_range`). -/
def op_case_range (op_table : Int → Op_info) (db : Db) (lib : Lib) (s : VM) : VM :=
  match top3 s.stack with
  | none => s
  | some (_, switch_expr, range0, range1) =>
    match case_range_match lib switch_expr range0 range1 with
    | Except.error t => cthrow op_table db lib s t
    | Except.ok is_match =>
      if is_match then jump_operand (pop 3 s) else skip_operand (pop 2 s)

/-- Function `func_num_error(num_args, required)`. -/
def func_num_error (op_table : Int → Op_info) (db : Db) (lib : Lib) (s : VM)
    (num_args : Int) (required : String) : VM :=
  cthrow op_table db lib s
    { error := numargs_id, fmt := "Called with %s argument%s, requires %s.",
      args := [Data.string (lib.english_integer num_args),
               Data.string (if num_args = 1 then "" else "s"), Data.string required] }

/-- Function `func_type_error(which, wrong, required)`. -/
def func_type_error (op_table : Int → Op_info) (db : Db) (lib : Lib) (s : VM)
    (which : String) (wrong : Data) (required : String) : VM :=
  cthrow op_table db lib s
    { error := type_id, fmt := "The %s argument (%D) is not %s.",
      args := [Data.string which, wrong, Data.string required] }

/-- The test of the binding in the functions `func_init_*`: the opcode that the
frame has executed last is bound to an object, which is not the object that
defines the current method. -/
abbrev bound_elsewhere (op_table : Int → Op_info) (cur_frame : Frame) : Prop :=
  (op_table cur_frame.last_opcode).binding ≠ INV_OBJNUM
    ∧ (op_table cur_frame.last_opcode).binding ≠ cur_frame.method.object

/-- The call of `cthrow` for a function called from an object that it is not
bound to. -/
def func_perm_error (op_table : Int → Op_info) (db : Db) (lib : Lib) (s : VM)
    (cur_frame : Frame) : VM :=
  cthrow op_table db lib s
    { error := perm_id, fmt := "Caller (#%l) is not the object bound to this function.",
      args := [Data.integer cur_frame.method.object] }

/-- The slot `stack[i]`; a read outside the live slots is undefined in C, the
embedding reads Integer 0 there. -/
def VM.slot (s : VM) (i : Nat) : Data := s.stack.getD i (Data.integer 0)

/-- The statement `arg_start = arg_starts[--arg_pos]`: the entry taken off the
argument-start stack and the globals after it.  On an empty stack of argument
starts the C read is undefined; the embedding reads 0 there. -/
def pop_arg_start (s : VM) : Nat × VM :=
  (s.arg_starts.getLastD 0, { s with arg_starts := s.arg_starts.dropLast })

/-- Function `func_init_0`.  The result is the returned value, 1 or 0, and the
globals after the call.  The functions `func_init_*` need a current frame; on
the empty chain, where the C code dereferences `NULL`, they return 0. -/
def func_init_0 (op_table : Int → Op_info) (db : Db) (lib : Lib) (s : VM) : Int × VM :=
  let arg_start := (pop_arg_start s).1
  let s1 := (pop_arg_start s).2
  let num_args : Int := (s1.stack.length : Int) - arg_start
  match s1.frames with
  | [] => (0, s1)
  | cur_frame :: _ =>
    if num_args ≠ 0 then (0, func_num_error op_table db lib s1 num_args "none")
    else if bound_elsewhere op_table cur_frame then
      (0, func_perm_error op_table db lib s1 cur_frame)
    else (1, s1)

/-- Function `func_init_1(args, type1)`; `*args` is the slot `arg_start`. -/
def func_init_1 (op_table : Int → Op_info) (db : Db) (lib : Lib) (s : VM)
    (type1 : Int) : Int × VM :=
  let arg_start := (pop_arg_start s).1
  let s1 := (pop_arg_start s).2
  let num_args : Int := (s1.stack.length : Int) - arg_start
  match s1.frames with
  | [] => (0, s1)
  | cur_frame :: _ =>
    if num_args ≠ 1 then (0, func_num_error op_table db lib s1 num_args "one")
    else if type1 ≠ 0 ∧ lib.type_code (s1.slot arg_start).type ≠ type1 then
      (0, func_type_error op_table db lib s1 "first" (s1.slot arg_start)
            (lib.english_type type1))
    else if bound_elsewhere op_table cur_frame then
      (0, func_perm_error op_table db lib s1 cur_frame)
    else (1, s1)

/-- Function `func_init_2(args, type1, type2)`. -/
def func_init_2 (op_table : Int → Op_info) (db : Db) (lib : Lib) (s : VM)
    (type1 type2 : Int) : Int × VM :=
  let arg_start := (pop_arg_start s).1
  let s1 := (pop_arg_start s).2
  let num_args : Int := (s1.stack.length : Int) - arg_start
  match s1.frames with
  | [] => (0, s1)
  | cur_frame :: _ =>
    if num_args ≠ 2 then (0, func_num_error op_table db lib s1 num_args "two")
    else if type1 ≠ 0 ∧ lib.type_code (s1.slot arg_start).type ≠ type1 then
      (0, func_type_error op_table db lib s1 "first" (s1.slot arg_start)
            (lib.english_type type1))
    else if type2 ≠ 0 ∧ lib.type_code (s1.slot (arg_start + 1)).type ≠ type2 then
      (0, func_type_error op_table db lib s1 "second" (s1.slot (arg_start + 1))
            (lib.english_type type2))
    else if bound_elsewhere op_table cur_frame then
      (0, func_perm_error op_table db lib s1 cur_frame)
    else (1, s1)

/-- Function `func_init_3(args, type1, type2, type3)`. -/
def func_init_3 (op_table : Int → Op_info) (db : Db) (lib : Lib) (s : VM)
    (type1 type2 type3 : Int) : Int × VM :=
  let arg_start := (pop_arg_start s).1
  let s1 := (pop_arg_start s).2
  let num_args : Int := (s1.stack.length : Int) - arg_start
  match s1.frames with
  | [] => (0, s1)
  | cur_frame :: _ =>
    if num_args ≠ 3 then (0, func_num_error op_table db lib s1 num_args "three")
    else if type1 ≠ 0 ∧ lib.type_code (s1.slot arg_start).type ≠ type1 then
      (0, func_type_error op_table db lib s1 "first" (s1.slot arg_start)
            (lib.english_type type1))
    else if type2 ≠ 0 ∧ lib.type_code (s1.slot (arg_start + 1)).type ≠ type2 then
      (0, func_type_error op_table db lib s1 "second" (s1.slot (arg_start + 1))
            (lib.english_type type2))
    else if type3 ≠ 0 ∧ lib.type_code (s1.slot (arg_start + 2)).type ≠ type3 then
      (0, func_type_error op_table db lib s1 "third" (s1.slot (arg_start + 2))
            (lib.english_type type3))
    else if bound_elsewhere op_table cur_frame then
      (0, func_perm_error op_table db lib s1 cur_frame)
    else (1, s1)

/-- Function `func_init_0_or_1(args, num_args, type1)`; `*num_args` is the
count `stack_pos - arg_start`. -/
def func_init_0_or_1 (op_table : Int → Op_info) (db : Db) (lib : Lib) (s : VM)
    (type1 : Int) : Int × VM :=
  let arg_start := (pop_arg_start s).1
  let s1 := (pop_arg_start s).2
  let num_args : Int := (s1.stack.length : Int) - arg_start
  match s1.frames with
  | [] => (0, s1)
  | cur_frame :: _ =>
    if num_args > 1 then (0, func_num_error op_table db lib s1 num_args "at most one")
    else if type1 ≠ 0 ∧ num_args = 1 ∧ lib.type_code (s1.slot arg_start).type ≠ type1 then
      (0, func_type_error op_table db lib s1 "first" (s1.slot arg_start)
            (lib.english_type type1))
    else if bound_elsewhere op_table cur_frame then
      (0, func_perm_error op_table db lib s1 cur_frame)
    else (1, s1)

/-- Function `func_init_1_or_2(args, num_args, type1, type2)`. -/
def func_init_1_or_2 (op_table : Int → Op_info) (db : Db) (lib : Lib) (s : VM)
    (type1 type2 : Int) : Int × VM :=
  let arg_start := (pop_arg_start s).1
  let s1 := (pop_arg_start s).2
  let num_args : Int := (s1.stack.length : Int) - arg_start
  match s1.frames with
  | [] => (0, s1)
  | cur_frame :: _ =>
    if num_args < 1 ∨ num_args > 2 then
      (0, func_num_error op_table db lib s1 num_args "one or two")
    else if type1 ≠ 0 ∧ lib.type_code (s1.slot arg_start).type ≠ type1 then
      (0, func_type_error op_table db lib s1 "first" (s1.slot arg_start)
            (lib.english_type type1))
    else if type2 ≠ 0 ∧ num_args = 2
        ∧ lib.type_code (s1.slot (arg_start + 1)).type ≠ type2 then
      (0, func_type_error op_table db lib s1 "second" (s1.slot (arg_start + 1))
            (lib.english_type type2))
    else if bound_elsewhere op_table cur_frame then
      (0, func_perm_error op_table db lib s1 cur_frame)
    else (1, s1)

/-- Function `func_init_2_or_3(args, num_args, type1, type2, type3)`. -/
def func_init_2_or_3 (op_table : Int → Op_info) (db : Db) (lib : Lib) (s : VM)
    (type1 type2 type3 : Int) : Int × VM :=
  let arg_start := (pop_arg_start s).1
  let s1 := (pop_arg_start s).2
  let num_args : Int := (s1.stack.length : Int) - arg_start
  match s1.frames with
  | [] => (0, s1)
  | cur_frame :: _ =>
    if num_args < 2 ∨ num_args > 3 then
      (0, func_num_error op_table db lib s1 num_args "two or three")
    else if type1 ≠ 0 ∧ lib.type_code (s1.slot arg_start).type ≠ type1 then
      (0, func_type_error op_table db lib s1 "first" (s1.slot arg_start)
            (lib.english_type type1))
    else if type2 ≠ 0 ∧ lib.type_code (s1.slot (arg_start + 1)).type ≠ type2 then
      (0, func_type_error op_table db lib s1 "second" (s1.slot (arg_start + 1))
            (lib.english_type type2))
    else if type3 ≠ 0 ∧ num_args = 3
        ∧ lib.type_code (s1.slot (arg_start + 2)).type ≠ type3 then
      (0, func_type_error op_table db lib s1 "third" (s1.slot (arg_start + 2))
            (lib.english_type type3))
    else if bound_elsewhere op_table cur_frame then
      (0, func_perm_error op_table db lib s1 cur_frame)
    else (1, s1)

/-- Function `func_init_1_to_3(args, num_args, type1, type2, type3)`. -/
def func_init_1_to_3 (op_table : Int → Op_info) (db : Db) (lib : Lib) (s : VM)
    (type1 type2 type3 : Int) : Int × VM :=
  let arg_start := (pop_arg_start s).1
  let s1 := (pop_arg_start s).2
  let num_args : Int := (s1.stack.length : Int) - arg_start
  match s1.frames with
  | [] => (0, s1)
  | cur_frame :: _ =>
    if num_args < 1 ∨ num_args > 3 then
      (0, func_num_error op_table db lib s1 num_args "one to three")
    else if type1 ≠ 0 ∧ lib.type_code (s1.slot arg_start).type ≠ type1 then
      (0, func_type_error op_table db lib s1 "first" (s1.slot arg_start)
            (lib.english_type type1))
    else if type2 ≠ 0 ∧ num_args ≥ 2
        ∧ lib.type_code (s1.slot (arg_start + 1)).type ≠ type2 then
      (0, func_type_error op_table db lib s1 "second" (s1.slot (arg_start + 1))
            (lib.english_type type2))
    else if type3 ≠ 0 ∧ num_args = 3
        ∧ lib.type_code (s1.slot (arg_start + 2)).type ≠ type3 then
      (0, func_type_error op_table db lib s1 "third" (s1.slot (arg_start + 2))
            (lib.english_type type3))
    else if bound_elsewhere op_table cur_frame then
      (0, func_perm_error op_table db lib s1 cur_frame)
    else (1, s1)

/-- The test of `result` that ends `op_message` and `op_expr_message`, the same
text in both: `sent` is the result of `send_message` with the globals after
it. -/
def message_result (op_table : Int → Op_info) (db : Db) (lib : Lib) (dbref : Dbref)
    (message : Ident) (sent : Ident × VM) : VM :=
  let result := sent.1
  let s := sent.2
  if result = numargs_id then
    interp_error op_table db s result (lib.numargs_text s.numargs_str)
  else if result = objnf_id then
    cthrow op_table db lib s
      { error := result, fmt := "Target (#%l) not found.", args := [Data.integer dbref] }
  else if result = methodnf_id then
    cthrow op_table db lib s
      { error := result, fmt := "Method %I not found.", args := [Data.symbol message] }
  else if result = maxdepth_id then
    cthrow op_table db lib s
      { error := result, fmt := "Maximum call depth exceeded.", args := [] }
  else if result = private_id then
    cthrow op_table db lib s
      { error := result, fmt := "Method %I is private.", args := [Data.symbol message] }
  else if result = protected_id then
    cthrow op_table db lib s
      { error := result, fmt := "Method %I is protected.", args := [Data.symbol message] }
  else if result = root_id then
    cthrow op_table db lib s
      { error := result, fmt := "Method %I can only be called by $root.",
        args := [Data.symbol message] }
  else if result = driver_id then
    cthrow op_table db lib s
      { error := result, fmt := "Method %I can only be by the driver.",
        args := [Data.symbol message] }
  else s

/-- Function `op_message`.  The target is the slot `stack[arg_start - 1]`; with
`arg_start = 0` the C code reads below the stack, the embedding reads slot 0. -/
def op_message (op_table : Int → Op_info) (db : Db) (lib : Lib) (s : VM) : VM :=
  match s.frames with
  | [] => s
  | cur_frame :: caller_frame =>
    let ind := cur_frame.opcode_at cur_frame.pc
    let s0 : VM := { s with frames := { cur_frame with pc := cur_frame.pc + 1 } :: caller_frame }
    let message := lib.object_get_ident cur_frame.method.object ind
    let arg_start := (pop_arg_start s0).1
    let s1 := (pop_arg_start s0).2
    let target := s1.slot (arg_start - 1)
    match target with
    | Data.dbref dbref =>
      message_result op_table db lib dbref message
        (send_message db s1 dbref message (arg_start - 1) arg_start)
    | Data.frob cclass rep =>
      -- Convert the frob to its rep and pass as first argument.
      let s2 : VM := { s1 with stack := s1.stack.set (arg_start - 1) rep }
      message_result op_table db lib cclass message
        (send_message db s2 cclass message (arg_start - 1) (arg_start - 1))
    | _ =>
      match db.lookup_retrieve_name (lib.data_type_id target.type) with
      | none =>
        cthrow op_table db lib s1
          { error := objnf_id, fmt := "No object for data type %I.",
            args := [Data.symbol (lib.data_type_id target.type)] }
      | some dbref =>
        message_result op_table db lib dbref message
          (send_message db s1 dbref message (arg_start - 1) (arg_start - 1))

/-- Function `op_expr_message`.  The target is the slot `stack[arg_start - 2]`
and the message the slot `stack[arg_start - 1]`.  In the last branch
`data_discard(message_data)` releases the symbol and leaves the slot as it is,
and the pointer `message_data` set after it is not read again. -/
def op_expr_message (op_table : Int → Op_info) (db : Db) (lib : Lib) (s : VM) : VM :=
  let arg_start := (pop_arg_start s).1
  let s1 := (pop_arg_start s).2
  let target := s1.slot (arg_start - 2)
  let message_data := s1.slot (arg_start - 1)
  match message_data with
  | Data.symbol message =>
    match target with
    | Data.dbref dbref =>
      message_result op_table db lib dbref message
        (send_message db s1 dbref message (arg_start - 2) arg_start)
    | Data.frob cclass rep =>
      -- Pass frob rep as first argument (where the message data is now).
      -- Discard the frob and replace it with a dummy value.
      let s2 : VM :=
        { s1 with stack := (s1.stack.set (arg_start - 1) rep).set (arg_start - 2)
                    (Data.integer 0) }
      message_result op_table db lib cclass message
        (send_message db s2 cclass message (arg_start - 2) (arg_start - 1))
    | _ =>
      match db.lookup_retrieve_name (lib.data_type_id target.type) with
      | none =>
        cthrow op_table db lib s1
          { error := objnf_id, fmt := "No object for data type %I",
            args := [Data.symbol (lib.data_type_id target.type)] }
      | some dbref =>
        message_result op_table db lib dbref message
          (send_message db s1 dbref message (arg_start - 2) (arg_start - 1))
  | _ =>
    cthrow op_table db lib s1
      { error := type_id, fmt := "Message (%D) is not a symbol.", args := [message_data] }

/-- The arrays of `merge_sort` and `merge_lists`: the data `l` and their keys
`key`, and the scratch arrays `l_out` and `key_out` (`l1` and `key1` in
`merge_sort`). -/
structure SortArrays where
  l : List Data
  key : List Data
  l_out : List Data
  key_out : List Data

/-- The array element `a[i]`; outside the array the C read is undefined, the
embedding reads Integer 0 there. -/
def elem (a : List Data) (i : Nat) : Data := a.getD i (Data.integer 0)

/-- The first loop of `merge_lists`,
`while (i<=end1 && j<=end2) if (data_cmp(key+j,key+i)>=0) ... else ...`:
the arrays and `i`, `j`, `k` after it.  Every iteration raises `i` or `j`, the
fuel bounds the number of iterations. -/
def merge_lists_both (lib : Lib) :
    Nat → SortArrays → Nat → Nat → Nat → Nat → Nat → SortArrays × Nat × Nat × Nat
  | 0, m, i, j, k, _, _ => (m, i, j, k)
  | fuel + 1, m, i, j, k, end1, end2 =>
    if i ≤ end1 ∧ j ≤ end2 then
      if lib.data_cmp (elem m.key j) (elem m.key i) ≥ 0 then
        merge_lists_both lib fuel
          { m with key_out := m.key_out.set k (elem m.key i)
                   l_out := m.l_out.set k (elem m.l i) }
          (i + 1) j (k + 1) end1 end2
      else
        merge_lists_both lib fuel
          { m with key_out := m.key_out.set k (elem m.key j)
                   l_out := m.l_out.set k (elem m.l j) }
          i (j + 1) (k + 1) end1 end2
    else (m, i, j, k)

/-- The second and the third loop of `merge_lists`, the same text for `i` with
`end1` and for `j` with `end2`:
`while (i<=end1) key_out[k]=key[i], l_out[k++]=l[i++];`. -/
def merge_lists_rest : Nat → SortArrays → Nat → Nat → Nat → SortArrays × Nat × Nat
  | 0, m, i, k, _ => (m, i, k)
  | fuel + 1, m, i, k, end1 =>
    if i ≤ end1 then
      merge_lists_rest fuel
        { m with key_out := m.key_out.set k (elem m.key i)
                 l_out := m.l_out.set k (elem m.l i) }
        (i + 1) (k + 1) end1
    else (m, i, k)

/-- The three loops of `merge_lists` from given `i`, `j` and `k`: the arrays and
`k` after them. -/
def merge_lists_loops (lib : Lib) (fuel : Nat) (m : SortArrays) (i j k end1 end2 : Nat) :
    SortArrays × Nat :=
  let r1 := merge_lists_both lib fuel m i j k end1 end2
  let r2 := merge_lists_rest (end1 + 1 - r1.2.1) r1.1 r1.2.1 r1.2.2.2 end1
  let r3 := merge_lists_rest (end2 + 1 - r1.2.2.1) r2.1 r1.2.2.1 r2.2.2 end2
  (r3.1, r3.2.2)

/-- The call `memcpy (dst+start, src+start, sizeof(cData)*count)`. -/
def memcpy (dst src : List Data) (start count : Nat) : List Data :=
  dst.take start ++ (src.drop start).take count ++ dst.drop (start + count)

/-- Function `merge_lists`.  The indices are array positions, which are not
negative in any call made by `merge_sort` from `sort`. -/
def merge_lists (lib : Lib) (m : SortArrays) (start1 end1 start2 end2 : Nat) : SortArrays :=
  let r := merge_lists_loops lib ((end1 + 1 - start1) + (end2 + 1 - start2)) m
    start1 start2 start1 end1 end2
  let k := r.2
  { r.1 with l := memcpy r.1.l r.1.l_out start1 (k - start1)
             key := memcpy r.1.key r.1.key_out start1 (k - start1) }

/-- Function `merge_sort`.  The fuel bounds the depth of the recursion; `none`
is a recursion that has not ended within it. -/
def merge_sort (lib : Lib) : Nat → SortArrays → Nat → Nat → Option SortArrays
  | 0, _, _, _ => none
  | fuel + 1, m, start, end_ =>
    if start = end_ then some m
    else
      let mid := (start + end_) / 2
      match merge_sort lib fuel m start mid with
      | none => none
      | some m1 =>
        match merge_sort lib fuel m1 (mid + 1) end_ with
        | none => none
        | some m2 => some (merge_lists lib m2 start mid (mid + 1) end_)

/-- Native method `sort`, after `INIT_1_OR_2_ARGS(LIST, LIST)` has accepted one
or two lists: `list2 = none` is the call with `argc == 1`.  The macros `THROW`
and `CLEAN_RETURN_LIST` are outside the given sources: the argument of `THROW`
is returned as the error, that of `CLEAN_RETURN_LIST` as the result.  The
scratch arrays `d2`, `key2` come from `emalloc`; their contents are
indeterminate and every slot is written before it is read, the embedding fills
them with Integer 0.  The recursion of `merge_sort` is given the depth `n`. -/
def sort (lib : Lib) (list1 : List Data) (list2 : Option (List Data)) :
    Option (Except Thrown (List Data)) :=
  let data := list1
  let keys := match list2 with
    | none => data
    | some l => l
  let n := data.length
  if keys.length ≠ n then
    some (Except.error
      { error := range_id, fmt := "Key and data lists are not of the same length",
        args := [] })
  else if n = 0 then some (Except.ok data)
  else
    let m : SortArrays :=
      { l := data, key := keys, l_out := List.replicate n (Data.integer 0),
        key_out := List.replicate n (Data.integer 0) }
    match merge_sort lib n m 0 (n - 1) with
    | none => none
    | some m1 => some (Except.ok (m1.l.take n))

/-- The specifier does not handle an error of kind `error` raised in a frame
running `m`: it is a Propagate, or a Catch with an error list that does not
hold `error`. -/
def Error_action_specifier.passes (m : Method) (error : Ident)
    (spec : Error_action_specifier) : Prop :=
  match spec.kind with
  | SpecKind.CRITICAL _ => False
  | SpecKind.PROPAGATE _ => True
  | SpecKind.CATCH _ error_list => error_list ≠ -1 ∧ error ∉ m.error_list error_list

/-- The specifier is a Propagate. -/
def Error_action_specifier.is_propagate (spec : Error_action_specifier) : Bool :=
  match spec.kind with
  | SpecKind.PROPAGATE _ => true
  | _ => false

/-- The specifier list of the current frame (`cur_frame->specifiers`); empty
when there is no current frame. -/
def VM.cur_specifiers (s : VM) : List Error_action_specifier :=
  match s.frames with
  | [] => []
  | cur_frame :: _ => cur_frame.specifiers

/-- The kind with which an error of kind `k` leaves a frame that does not handle
it, `(propagate) ? error : methoderr_id`: the specifier loop has then gone
through every specifier of the frame. -/
def Frame.kind_out (f : Frame) (k : Ident) : Ident :=
  if f.specifiers.any (·.is_propagate) then k else methoderr_id

/-- The kind with which an error raised with kind `k` in the first of the frames
arrives below them, when none of them handles it. -/
def kind_after (k : Ident) : List Frame → Ident
  | [] => k
  | f :: fs => kind_after (f.kind_out k) fs

/-- None of the frames, gone through from the first, has a specifier that
handles the error of kind `k` raised in the first one. -/
def unhandled_in (k : Ident) : List Frame → Prop
  | [] => True
  | f :: fs => (∀ sp ∈ f.specifiers, sp.passes f.method k) ∧ unhandled_in (f.kind_out k) fs

/-- The frame records of the frames, gone through from the first, for an error
raised with kind `k` in the first one: the record of a frame holds the kind
with which the error reaches the frame, and the method information. -/
def frame_records (db : Db) (k : Ident) : List Frame → List Data
  | [] => []
  | f :: fs =>
    Data.list (Data.error k :: fill_in_method_info db f) :: frame_records db (f.kind_out k) fs

/-- The records at the addresses `chain`, in this order, are linked by their
`next` fields from the pointer `head` to the pointer `last`: `head` is the
address of the first, and `last` is the `next` field of the last. -/
def is_seg (vms : List VMState) : Option Nat → List Nat → Option Nat → Prop
  | head, [], last => head = last
  | head, vm :: rest, last =>
    head = some vm ∧
      match vms.get? vm with
      | none => False
      | some record => is_seg vms record.next rest last

/-- The list of records that starts at `head` and ends with `NULL` is made of
the records at the addresses `chain`, in this order. -/
def is_chain (vms : List VMState) (head : Option Nat) (chain : List Nat) : Prop :=
  is_seg vms head chain none

/-- The task id of the record at the address `vm`, as an entry of the list of
`task_list`. -/
def id_entry (vms : List VMState) (vm : Nat) : Data :=
  match vms.get? vm with
  | none => Data.integer 0
  | some record => Data.integer record.task_id

/-- The runs of a batch of paused tasks as the specification describes them:
the records at the addresses `batch`, a list fixed before the first run, are
restored and run one after the other, each once. -/
def run_batch (op_table : Int → Op_info) (db : Db) (fuel : Nat) : List Nat → VM → Option VM
  | [], s => some s
  | task :: rest, s =>
    match run_paused_enter task s with
    | none => none
    | some (_, s1) =>
      match execute op_table db fuel s1 with
      | none => none
      | some s2 => run_batch op_table db fuel rest (store_stack s2)

/-- Every run of the batch ends within `fuel` passes and leaves the `next`
fields of the records that are still to be run as it finds them. -/
def batch_kept (op_table : Int → Op_info) (db : Db) (fuel : Nat) : List Nat → VM → Bool
  | [], _ => true
  | task :: rest, s =>
    match run_paused_enter task s with
    | none => false
    | some (_, s1) =>
      match execute op_table db fuel s1 with
      | none => false
      | some s2 =>
        rest.all (fun a =>
            decide ((s2.vms.get? a).map VMState.next = (s1.vms.get? a).map VMState.next))
          && batch_kept op_table db fuel rest (store_stack s2)

/-- The errors of a gate of a native function, in the order in which the
specification has them looked for. -/
inductive GateError where
  | numargs
  | type (slot : Nat)
  | perm

/-- The first of the arguments `args`, numbered from `slot`, that has not the
type that `types` requires for it; the requirement 0 is no requirement. -/
def first_mistyped (lib : Lib) : List Int → List Data → Nat → Option Nat
  | type1 :: types, d :: args, slot =>
    if type1 ≠ 0 ∧ lib.type_code d.type ≠ type1 then some slot
    else first_mistyped lib types args (slot + 1)
  | _, _, _ => none

/-- The decision of a gate as the specification describes it, for the permitted
counts `lo` to `hi`, the required types `types`, the arguments `args` and the
test of the binding: the error to raise, or `none`. -/
def gate_check (lib : Lib) (lo hi : Nat) (types : List Int) (args : List Data)
    (bound : Bool) : Option GateError :=
  if args.length < lo ∨ hi < args.length then some GateError.numargs
  else
    match first_mistyped lib types args 0 with
    | some slot => some (GateError.type slot)
    | none => if bound then some GateError.perm else none

/-- The word for an argument in the messages: "first", "second", "third". -/
def ordinal_word : Nat → String
  | 0 => "first"
  | 1 => "second"
  | _ => "third"

/-- The gate as the specification describes it, on the state `s1` from which the
entry of the argument-start stack is gone: the value returned and the globals
after the call. -/
def gate (op_table : Int → Op_info) (db : Db) (lib : Lib) (s1 : VM) (cur_frame : Frame)
    (args : List Data) (required : String) (lo hi : Nat) (types : List Int) : Int × VM :=
  match gate_check lib lo hi types args (decide (bound_elsewhere op_table cur_frame)) with
  | none => (1, s1)
  | some GateError.numargs => (0, func_num_error op_table db lib s1 args.length required)
  | some (GateError.type slot) =>
    (0, func_type_error op_table db lib s1 (ordinal_word slot)
          (args.getD slot (Data.integer 0)) (lib.english_type (types.getD slot 0)))
  | some GateError.perm => (0, func_perm_error op_table db lib s1 cur_frame)

/-- The argument vector of a call made with the argument start `arg_start`: the
values from that slot to the top of the stack. -/
def arg_vector (s : VM) (arg_start : Nat) : List Data := s.stack.drop arg_start

/-- The merge of two lists that takes the head of the left list whenever
`le` holds between the two heads. -/
def merge_run {α : Type} (le : α → α → Bool) : List α → List α → List α
  | [], r => r
  | x :: xs, [] => x :: xs
  | x :: xs, y :: ys =>
    if le x y then x :: merge_run le xs (y :: ys) else y :: merge_run le (x :: xs) ys

/-- The order in which `merge_lists` compares two records (key, datum): the
first is taken before the second when `data_cmp(key2, key1) >= 0`. -/
def key_le (lib : Lib) (p q : Data × Data) : Bool := decide (lib.data_cmp q.1 p.1 ≥ 0)

/-- The keys `a` and `b` are of equal rank: neither is after the other. -/
def key_equal (lib : Lib) (a b : Data) : Bool :=
  decide (lib.data_cmp b a ≥ 0) && decide (lib.data_cmp a b ≥ 0)

/-- The arrays `key`, `l` hold the records `A` and the arrays `key_out`,
`l_out` hold the records `O`. -/
def arrays_hold (m : SortArrays) (A O : List (Data × Data)) : Prop :=
  m.key = A.map Prod.fst ∧ m.l = A.map Prod.snd
    ∧ m.key_out = O.map Prod.fst ∧ m.l_out = O.map Prod.snd

/-! ## Concrete states used to exercise the definitions -/

/-- A public method `5` defined on object 10: one fixed argument, a rest
parameter, two local variables, one error list. -/
def ex_method : Method :=
  { name := 5, object := 10, num_args := 1, rest := 1, num_vars := 2,
    opcodes := [7, 0, 9, 0], error_lists := [[20, 21]], m_state := MState.MS_PUBLIC }

/-- A private method `6` defined on object 12, without arguments. -/
def ex_private : Method :=
  { name := 6, object := 12, num_args := 0, rest := -1, num_vars := 0,
    opcodes := [], error_lists := [], m_state := MState.MS_PRIVATE }

/-- The method `5` of a parent, object 13, without a rest parameter. -/
def ex_parent : Method :=
  { name := 5, object := 13, num_args := 2, rest := -1, num_vars := 1,
    opcodes := [], error_lists := [], m_state := MState.MS_PUBLIC }

/-- A frame running `ex_method` on object 11. -/
def ex_frame : Frame :=
  { object := 11, sender := 14, caller := 15, method := ex_method, pc := 0, ticks := 20000,
    specifiers := [], handler_info := [], stack_start := 0, var_start := 0 }

/-- A state with one frame and two values on the stack. -/
def ex_vm : VM :=
  { stack := [Data.integer 1, Data.integer 2], frames := [ex_frame], frame_depth := 1,
    numargs_str := none }

/-- An object store with the single object 3. -/
def ex_db : Db :=
  { cache_retrieve := fun d => if d = 3 then some { dbref := 3 } else none
    object_find_method := fun _ message =>
      if message = 5 then some ex_method else if message = 6 then some ex_private else none
    object_find_next_method := fun _ _ definer => if definer = 10 then some ex_parent else none
    line_number := fun _ pc => pc
    lookup_retrieve_name := fun name => if name = 41 then some 3 else none }

/-- The state `ex_vm` after CATCH, one more value and PROPAGATE. -/
def ex_vm_catch : VM :=
  op_propagate { op_catch ex_vm with stack := ex_vm.stack ++ [Data.integer 5] }

/-- The state `ex_vm` after CRITICAL, one more value and PROPAGATE. -/
def ex_vm_critical : VM :=
  op_propagate { op_critical ex_vm with stack := ex_vm.stack ++ [Data.integer 5] }

/-- A frame of `ex_method` inside a Catch of the error list 0 and a Propagate. -/
def ex_frame_inner : Frame :=
  { ex_frame with
    stack_start := 2
    specifiers := [{ kind := SpecKind.CATCH 7 0, stack_pos := 2 },
                   { kind := SpecKind.PROPAGATE 9, stack_pos := 2 }] }

/-- A state with `ex_frame_inner` called from `ex_frame`. -/
def ex_vm_nested : VM :=
  { stack := [Data.integer 1, Data.integer 2, Data.integer 3],
    frames := [ex_frame_inner, ex_frame], frame_depth := 2, numargs_str := none }

/-- A state with 128 nested frames, `frame_depth = 128`, and one argument on the
stack. -/
def ex_vm_depth_128 : VM :=
  { stack := [Data.integer 1], frames := List.replicate 128 ex_frame, frame_depth := 128,
    numargs_str := none }

/-- An opcode table: 2 is COMMENT, 3 is CRITICAL, 6 is a function `noop` that
does nothing, every other number is RETURN. -/
def ex_op_table : Int → Op_info := fun opcode =>
  if opcode = 2 then { func := op_comment, name := "COMMENT", symbol := 32 }
  else if opcode = 3 then { func := op_critical, name := "CRITICAL", symbol := 33 }
  else if opcode = 6 then { func := fun s => s, name := "noop", symbol := 36 }
  else { func := op_return, name := "RETURN", symbol := 31 }

/-- A state between tasks: no frame, an empty stack. -/
def ex_vm_idle : VM :=
  { stack := [], frames := [], frame_depth := 0, numargs_str := none }

/-- A public method `8` of object 3 without arguments: a comment, then a
return. -/
def ex_return_method : Method :=
  { name := 8, object := 3, num_args := 0, rest := -1, num_vars := 0,
    opcodes := [2, 0, 1], error_lists := [], m_state := MState.MS_PUBLIC }

/-- A frame of `ex_return_method` with one tick left, its pc at the COMMENT. -/
def ex_frame_last_tick : Frame :=
  { ex_frame with method := ex_return_method, ticks := 1, stack_start := 2, var_start := 2 }

/-- A frame of `ex_method` inside a catch-any statement, its last opcode being
the function `noop`. -/
def ex_frame_catch_any : Frame :=
  { ex_frame with
    specifiers := [{ kind := SpecKind.CATCH 7 (-1), stack_pos := 0 }]
    last_opcode := 6 }

/-- A state whose current frame has one tick left, called from a frame with a
catch-any statement. -/
def ex_vm_exhausted : VM :=
  { stack := [Data.integer 1, Data.integer 2], frames := [ex_frame_last_tick, ex_frame_catch_any],
    frame_depth := 2, numargs_str := none }

/-- A state whose only frame is inside a catch-any statement. -/
def ex_vm_caught : VM :=
  { stack := [Data.integer 1, Data.integer 2], frames := [ex_frame_catch_any],
    frame_depth := 1, numargs_str := none }

/-- A frame of `ex_return_method` with its pc at the COMMENT. -/
def ex_frame_comment : Frame :=
  { ex_frame with method := ex_return_method }

/-- A state whose only frame has its pc at a COMMENT. -/
def ex_vm_comment : VM :=
  { stack := [Data.integer 1, Data.integer 2], frames := [ex_frame_comment], frame_depth := 1,
    numargs_str := none }

/-- A state whose only frame has one tick left and its pc at a COMMENT. -/
def ex_vm_last_tick : VM :=
  { stack := [Data.integer 1, Data.integer 2], frames := [ex_frame_last_tick],
    frame_depth := 1, numargs_str := none }

/-- The operand has a numeric type, Integer or Float. -/
def Data.is_numeric (d : Data) : Prop :=
  d.type = DataType.INTEGER ∨ d.type = DataType.FLOAT

/-- The divisor, as the conversions left it, is Integer 0 or a Float that
compares equal to 0.0. -/
def Data.is_zero (lib : Lib) (d : Data) : Prop :=
  d = Data.integer 0 ∨ ∃ y : Flt, d = Data.float y ∧ lib.float_eq_zero y = true

/-- A comparison of values for the examples: the difference of two integers,
the order of two strings, and 1 for every other pair. -/
def ex_data_cmp : Data → Data → Int
  | Data.integer a, Data.integer b => a - b
  | Data.string x, Data.string y => if x = y then 0 else if x < y then -1 else 1
  | _, _ => 1

/-- Data modules for the examples; the arithmetic of floats is a stand-in. -/
def ex_lib : Lib :=
  { data_cmp := ex_data_cmp
    dict_find := fun entries key =>
      (entries.find? (fun kv => ex_data_cmp kv.1 key == 0)).map (fun kv => kv.2)
    vformat := fun fmt _ => fmt
    object_get_ident := fun _ ind => ind
    float_of_int := fun n => n.toNat
    float_add := fun x y => x + y
    float_div := fun x y => x / y
    float_eq_zero := fun x => x == 0
    type_code := fun t =>
      match t with
      | DataType.INTEGER => 1
      | DataType.FLOAT => 2
      | DataType.STRING => 3
      | DataType.DBREF => 4
      | DataType.LIST => 5
      | DataType.SYMBOL => 6
      | DataType.ERROR => 7
      | DataType.FROB => 8
      | DataType.DICT => 9
    data_type_id := fun t =>
      match t with
      | DataType.INTEGER => 41
      | DataType.STRING => 43
      | _ => 40
    english_integer := fun n => toString n
    english_type := fun code => toString code
    numargs_text := fun _ => "wrong number of arguments" }

/-- The state `ex_vm` with the stack replaced. -/
def ex_vm_with (stack : List Data) : VM :=
  { ex_vm with stack := stack }

/-- The record of a task with the task id `tid` that has the one frame
`ex_frame` and two values on its stack. -/
def ex_record (tid : Int) (paused : Int) (next : Option Nat) : VMState :=
  { paused := paused, frames := [ex_frame], cur_conn := 4,
    stack := [Data.integer 1, Data.integer 2], stack_buf := 1, arg_starts := [],
    task_id := tid, next := next }

/-- The state `ex_vm` with three suspended tasks, 7, 8 and 9, in this order in
the suspended queue. -/
def ex_vm_suspended : VM :=
  { ex_vm with
    vms := [ex_record 7 0 (some 1), ex_record 8 0 (some 2), ex_record 9 0 none]
    tasks := some 0
    buf_count := 2 }

/-- The state `ex_vm` with three paused tasks, 7, 8 and 9, in this order in the
paused queue. -/
def ex_vm_paused : VM :=
  { ex_vm with
    vms := [ex_record 7 1 (some 1), ex_record 8 1 (some 2), ex_record 9 1 none]
    paused := some 0
    buf_count := 2 }

/-- The address of the record of the caller and the state on which
`task_resume(8, NULL)` enters the loop in `ex_vm_suspended`. -/
def ex_resume_entry : Nat × VM :=
  (task_resume_enter 8 none ex_vm_suspended).getD (0, ex_vm_suspended)

/-- The state in which the run of task 8, resumed in `ex_vm_suspended`, ends. -/
def ex_resume_run : VM :=
  (execute ex_op_table ex_db 5 ex_resume_entry.2).getD ex_vm_suspended

/-- The opcode table `ex_op_table` with one more entry: 8 is a function that
calls `task_pause`. -/
def ex_pause_table : Int → Op_info := fun opcode =>
  if opcode = 8 then { func := fun s => (task_pause s).getD s, name := "pause", symbol := 38 }
  else ex_op_table opcode

/-- A method of object 10 that pauses, then returns. -/
def ex_pause_method : Method :=
  { ex_method with opcodes := [8, 7] }

/-- The record of a paused task that pauses again when it is run. -/
def ex_record_pausing (tid : Int) (next : Option Nat) : VMState :=
  { ex_record tid 1 next with frames := [{ ex_frame with method := ex_pause_method }] }

/-- The state `ex_vm` with two paused tasks: 7, which pauses again when it is
run, and 8, which returns. -/
def ex_vm_batch : VM :=
  { ex_vm with
    vms := [ex_record_pausing 7 (some 1), ex_record 8 1 none]
    paused := some 0
    buf_count := 2 }

/-- The state `ex_vm_batch` after `suspend_vm`. -/
def ex_vm_batch_saved : VM :=
  { ex_vm_batch with vms := ex_vm_batch.vms ++ [ex_vm_batch.snapshot] }

/-- The state `ex_vm` with one argument of a function call, the value on top of
the stack. -/
def ex_vm_args : VM :=
  { ex_vm with arg_starts := [1] }

/-- An opcode table in which every function is bound to object 99. -/
def ex_bound_table : Int → Op_info := fun _ =>
  { func := fun s => s, name := "bound", symbol := 37, binding := 99 }

/-- A frame of a method whose opcode array holds the message literal 5 as the
operand at `pc`. -/
def ex_frame_message : Frame :=
  { ex_frame with method := { ex_method with opcodes := [5] } }

/-- A state about to run MESSAGE on the target Integer 5 without arguments. -/
def ex_vm_message : VM :=
  { ex_vm with stack := [Data.integer 5], frames := [ex_frame_message], arg_starts := [1] }

/-- A state about to run EXPR_MESSAGE on the target Integer 5 with the message
Symbol 5, without arguments. -/
def ex_vm_expr_message : VM :=
  { ex_vm with stack := [Data.integer 5, Data.symbol 5], frames := [ex_frame_message],
               arg_starts := [2] }

/-- A frame of `ex_method` inside a Critical expression that ends at pc 3 and
was entered with one value on the stack. -/
def ex_frame_critical : Frame :=
  { ex_frame with specifiers := [{ kind := SpecKind.CRITICAL 3, stack_pos := 1 }] }

/-- A frame of `ex_method` that owns the stack from slot 1 and has no
specifier. -/
def ex_frame_mid : Frame :=
  { ex_frame with stack_start := 1 }

/-- A frame of `ex_method` that owns the stack from slot 2 and is inside a Catch
of the error list 0, without a Propagate. -/
def ex_frame_catch_only : Frame :=
  { ex_frame with
    stack_start := 2
    specifiers := [{ kind := SpecKind.CATCH 7 0, stack_pos := 2 }] }

/-- A state with `ex_frame_inner` called from `ex_frame_critical`. -/
def ex_vm_caller_critical : VM :=
  { stack := [Data.integer 1, Data.integer 2, Data.integer 3],
    frames := [ex_frame_inner, ex_frame_critical], frame_depth := 2, numargs_str := none }

/-- A state with `ex_frame_catch_only` called from `ex_frame_critical`. -/
def ex_vm_caller_critical_plain : VM :=
  { stack := [Data.integer 1, Data.integer 2, Data.integer 3],
    frames := [ex_frame_catch_only, ex_frame_critical], frame_depth := 2,
    numargs_str := none }

/-- A state with `ex_frame_inner` called from `ex_frame_mid`, itself called from
`ex_frame_critical`. -/
def ex_vm_three_critical : VM :=
  { stack := [Data.integer 1, Data.integer 2, Data.integer 3],
    frames := [ex_frame_inner, ex_frame_mid, ex_frame_critical], frame_depth := 3,
    numargs_str := none }

/-- The opcode table `ex_op_table` with one more entry: 9 is a function that
calls `task_resume(8, NULL)`.  The loop that `task_resume` enters is run over
`ex_op_table`, of which the resumed task executes RETURN. -/
def ex_resume_table : Int → Op_info := fun opcode =>
  if opcode = 9 then
    { func := fun s => (task_resume ex_op_table ex_db 5 8 none s).getD s, name := "resume",
      symbol := 39 }
  else ex_op_table opcode

/-- The state `ex_vm_suspended` with the pc of the current frame at the opcode
9 of `ex_method`. -/
def ex_vm_resuming : VM :=
  { ex_vm_suspended with frames := [{ ex_frame with pc := 2 }] }

/-- A frame with three ticks left whose method is a row of CRITICAL opcodes,
each with its operand. -/
def ex_frame_criticals : Frame :=
  { ex_frame with ticks := 3, method := { ex_method with opcodes := [3, 0, 3, 0, 3, 0] } }

/-- A state whose only frame is `ex_frame_criticals`. -/
def ex_vm_criticals : VM :=
  { ex_vm with frames := [ex_frame_criticals] }

/-! ## Lemmas on the specifier loop -/

theorem error_search_le (error : Ident) (ids : List Ident) :
    error_search error ids ≤ ids.length := by
  induction ids with
  | nil => simp [error_search]
  | cons id ids ih =>
    simp only [error_search, List.length_cons]
    split <;> omega

theorem error_search_eq_length_iff (error : Ident) (ids : List Ident) :
    error_search error ids = ids.length ↔ error ∉ ids := by
  induction ids with
  | nil => simp [error_search]
  | cons id ids ih =>
    simp only [error_search, List.length_cons, List.mem_cons, not_or]
    by_cases h : id = error
    · simp [h]
    · simp only [h, if_false, add_left_inj, ih]
      constructor
      · intro h2; exact ⟨fun h3 => h h3.symm, h2⟩
      · intro h2; exact h2.2

theorem walk_specifiers_append (tb : List Data) (error : Ident)
    (inner below : List Error_action_specifier) (f : Frame) (stack : List Data)
    (h : ∀ sp ∈ inner, sp.passes f.method error) (propagate : Bool) :
    walk_specifiers tb error (inner ++ below) propagate f stack
      = walk_specifiers tb error below (propagate || inner.any (·.is_propagate)) f stack := by
  induction inner generalizing propagate with
  | nil => simp
  | cons sp inner ih =>
    have hsp := h sp (List.mem_cons_self _ _)
    have hin : ∀ sp ∈ inner, sp.passes f.method error :=
      fun x hx => h x (List.mem_cons_of_mem _ hx)
    rcases sp with ⟨kind, pos⟩
    cases kind with
    | CRITICAL e => simp [Error_action_specifier.passes] at hsp
    | PROPAGATE e =>
      simp [walk_specifiers, ih hin, Error_action_specifier.is_propagate]
    | CATCH hd l =>
      simp only [Error_action_specifier.passes] at hsp
      have hs := (error_search_eq_length_iff error (f.method.error_list l)).2 hsp.2
      simp [walk_specifiers, hsp.1, hs, ih hin, Error_action_specifier.is_propagate]

theorem propagate_error_cons (db : Db) (s : VM) (tb : List Data) (error : Ident)
    (f : Frame) (rest : List Frame) (hs : s.frames = f :: rest) :
    propagate_error db s tb error =
      match walk_specifiers (traceback_add db f tb error) error f.specifiers false f s.stack with
      | Walk.handled f1 stack => { s with stack := stack, frames := f1 :: rest }
      | Walk.unhandled f1 propagate =>
        propagate_error db (frame_return { s with frames := f1 :: rest })
          (traceback_add db f tb error) (if propagate then error else methoderr_id) := by
  rw [propagate_error]
  split
  · rename_i h; rw [hs] at h; cases h
  · rename_i cf cr h
    rw [hs] at h
    cases h
    rfl

theorem take_length_sub_sub (stack : List Data) (pos : Nat) :
    stack.take (stack.length - (stack.length - pos)) = stack.take pos := by
  by_cases h : pos ≤ stack.length
  · congr 1; omega
  · have h1 : stack.length - (stack.length - pos) = stack.length := by omega
    rw [h1, List.take_length, List.take_of_length_le (by omega)]

theorem walk_handled_specifiers_lt (tb : List Data) (error : Ident)
    (specs : List Error_action_specifier) (propagate : Bool) (f f1 : Frame)
    (stack st : List Data)
    (h : walk_specifiers tb error specs propagate f stack = Walk.handled f1 st) :
    f1.specifiers.length < specs.length := by
  induction specs generalizing propagate with
  | nil => simp [walk_specifiers] at h
  | cons sp next ih =>
    rcases sp with ⟨kind, pos⟩
    cases kind with
    | CRITICAL e =>
      simp only [walk_specifiers, Walk.handled.injEq] at h
      rw [← h.1]; simp
    | PROPAGATE e =>
      simp only [walk_specifiers] at h
      have := ih _ h
      simp only [List.length_cons]; omega
    | CATCH hd l =>
      simp only [walk_specifiers] at h
      split at h
      · have := ih _ h
        simp only [List.length_cons]; omega
      · simp only [Walk.handled.injEq] at h
        rw [← h.1]; simp

/-- C1: in the specifier loop of `propagate_error`, when the innermost remaining
specifier is a Catch with error-list index `error_list` (which is -1 or indexes
the list `errs` of the method), the loop ends at that Catch with the error
handled if and only if `error_list = -1` or `error` is an element of `errs`;
otherwise the Catch is popped and the loop goes on with the next specifier. -/
theorem catch_handles_iff (tb : List Data) (error : Ident) (handler error_list : Int)
    (pos : Nat) (next : List Error_action_specifier) (propagate : Bool) (f : Frame)
    (stack : List Data) (errs : List Ident)
    (hind : error_list = -1 ∨
      (0 ≤ error_list ∧ f.method.error_lists.get? error_list.toNat = some errs)) :
    (walk_specifiers tb error
          ({ kind := SpecKind.CATCH handler error_list, stack_pos := pos } :: next)
          propagate f stack
        = Walk.handled
            { f with handler_info := { traceback := tb, error := error } :: f.handler_info,
                     pc := handler, specifiers := next }
            (stack.take pos)
      ↔ (error_list = -1 ∨ error ∈ errs))
    ∧ (¬ (error_list = -1 ∨ error ∈ errs) →
        walk_specifiers tb error
            ({ kind := SpecKind.CATCH handler error_list, stack_pos := pos } :: next)
            propagate f stack
          = walk_specifiers tb error next propagate f stack) := by
  have key : (error_list ≠ -1 ∧
        error_search error (f.method.error_list error_list)
          = (f.method.error_list error_list).length) ↔ ¬ (error_list = -1 ∨ error ∈ errs) := by
    rw [error_search_eq_length_iff]
    rcases hind with h | ⟨h0, h1⟩
    · simp [h]
    · have hl : f.method.error_list error_list = errs := by
        simp [Method.error_list, not_lt.2 h0, List.getD_eq_getElem?_getD, ← List.get?_eq_getElem?, h1]
      rw [hl]; tauto
  have hgo : ¬ (error_list = -1 ∨ error ∈ errs) →
      walk_specifiers tb error
          ({ kind := SpecKind.CATCH handler error_list, stack_pos := pos } :: next)
          propagate f stack
        = walk_specifiers tb error next propagate f stack := by
    intro hn
    simp only [walk_specifiers]
    rw [if_pos (key.2 hn)]
  refine ⟨⟨?_, ?_⟩, hgo⟩
  · intro h
    by_contra hn
    rw [hgo hn] at h
    have := walk_handled_specifiers_lt _ _ _ _ _ _ _ _ h
    simp at this
  · intro hc
    simp only [walk_specifiers]
    rw [if_neg (fun hk => key.1 hk hc), take_length_sub_sub]

theorem cur_specifiers_push_specifier (kind : SpecKind) (new_pc : Int) (s : VM) (f : Frame)
    (rest : List Frame) (hs : s.frames = f :: rest) :
    (push_specifier kind new_pc s).cur_specifiers
      = { kind := kind, stack_pos := s.stack.length } :: f.specifiers := by
  simp [push_specifier, hs, VM.cur_specifiers]

theorem cur_specifiers_op_catch (s : VM) (f : Frame) (rest : List Frame)
    (hs : s.frames = f :: rest) :
    (op_catch s).cur_specifiers
      = { kind := SpecKind.CATCH (f.opcode_at f.pc) (f.opcode_at (f.pc + 1)),
          stack_pos := s.stack.length } :: f.specifiers := by
  simp only [op_catch, hs]
  exact cur_specifiers_push_specifier _ _ s f rest hs

theorem cur_specifiers_op_critical (s : VM) (f : Frame) (rest : List Frame)
    (hs : s.frames = f :: rest) :
    (op_critical s).cur_specifiers
      = { kind := SpecKind.CRITICAL (f.opcode_at f.pc), stack_pos := s.stack.length }
          :: f.specifiers := by
  simp only [op_critical, hs]
  exact cur_specifiers_push_specifier _ _ s f rest hs

/-- C2: let a CATCH opcode execute in state `s0` (current frame `f0`), and let an
error of kind `error` be propagated later in state `s`, whose current frame `f`
holds the specifier pushed by that CATCH below specifiers `inner` that do not
handle the error, the Catch matching the error.  Afterwards the value stack is
cut back to the position recorded by CATCH, pc is the handler-PC read by CATCH,
a handler-info record with the traceback and the error kind heads the
handler-info list, the specifier list is the one that was below the Catch, and
the frame is still the current frame. -/
theorem catch_handler_state (db : Db) (s0 : VM) (f0 : Frame) (rest0 : List Frame)
    (s : VM) (f : Frame) (rest : List Frame) (inner : List Error_action_specifier)
    (tb : List Data) (error : Ident)
    (h0 : s0.frames = f0 :: rest0) (hs : s.frames = f :: rest)
    (hspecs : f.specifiers = inner ++ (op_catch s0).cur_specifiers)
    (hinner : ∀ sp ∈ inner, sp.passes f.method error)
    (hmatch : f0.opcode_at (f0.pc + 1) = -1 ∨
      error ∈ f.method.error_list (f0.opcode_at (f0.pc + 1)))
    (hpos : s0.stack.length ≤ s.stack.length) :
    (propagate_error db s tb error).stack.length = s0.stack.length
    ∧ (propagate_error db s tb error).stack = s.stack.take s0.stack.length
    ∧ (propagate_error db s tb error).frames
        = { f with pc := f0.opcode_at f0.pc,
                   handler_info :=
                     { traceback := traceback_add db f tb error, error := error }
                       :: f.handler_info,
                   specifiers := f0.specifiers } :: rest := by
  have hm : ¬ (f0.opcode_at (f0.pc + 1) ≠ -1 ∧
      error_search error (f.method.error_list (f0.opcode_at (f0.pc + 1)))
        = (f.method.error_list (f0.opcode_at (f0.pc + 1))).length) := by
    rw [error_search_eq_length_iff]; tauto
  rw [propagate_error_cons db s tb error f rest hs, hspecs,
    cur_specifiers_op_catch s0 f0 rest0 h0, walk_specifiers_append _ _ _ _ _ _ hinner]
  simp only [walk_specifiers]
  rw [if_neg hm, take_length_sub_sub]
  refine ⟨?_, rfl, rfl⟩
  simp [List.length_take, hpos]

/-- C3: let a CRITICAL opcode execute in state `s0` (current frame `f0`), and let
an error of kind `error` be propagated later in state `s`, whose current frame
`f` holds the specifier pushed by that CRITICAL below specifiers `inner` that do
not handle the error.  Afterwards the value stack position is the position
recorded by CRITICAL plus one, the top value is the Error value of kind `error`,
pc is the end-PC read by CRITICAL, the specifier list is the one that was below
the Critical, the handler-info list is as it was, and the frame is still the
current frame. -/
theorem critical_handler_state (db : Db) (s0 : VM) (f0 : Frame) (rest0 : List Frame)
    (s : VM) (f : Frame) (rest : List Frame) (inner : List Error_action_specifier)
    (tb : List Data) (error : Ident)
    (h0 : s0.frames = f0 :: rest0) (hs : s.frames = f :: rest)
    (hspecs : f.specifiers = inner ++ (op_critical s0).cur_specifiers)
    (hinner : ∀ sp ∈ inner, sp.passes f.method error)
    (hpos : s0.stack.length ≤ s.stack.length) :
    (propagate_error db s tb error).stack.length = s0.stack.length + 1
    ∧ (propagate_error db s tb error).stack
        = s.stack.take s0.stack.length ++ [Data.error error]
    ∧ (propagate_error db s tb error).stack.getLast? = some (Data.error error)
    ∧ (propagate_error db s tb error).frames
        = { f with pc := f0.opcode_at f0.pc, specifiers := f0.specifiers } :: rest
    ∧ (∀ f1 ∈ (propagate_error db s tb error).frames.head?,
        f1.handler_info = f.handler_info) := by
  rw [propagate_error_cons db s tb error f rest hs, hspecs,
    cur_specifiers_op_critical s0 f0 rest0 h0, walk_specifiers_append _ _ _ _ _ _ hinner]
  simp [walk_specifiers, take_length_sub_sub, List.length_take, hpos]

theorem frame_start_numargs (s : VM) (obj : Obj) (method : Method) (sender caller : Dbref)
    (stack_start arg_start : Nat)
    (h : (s.stack.length : Int) - (arg_start : Int) < (method.num_args : Int)
      ∨ ((s.stack.length : Int) - (arg_start : Int) > (method.num_args : Int)
          ∧ method.rest = -1)) :
    frame_start s obj method sender caller stack_start arg_start
      = (numargs_id,
          { s with numargs_str := some ⟨obj.dbref, method.name,
              (s.stack.length : Int) - (arg_start : Int), method.num_args,
              decide (method.rest = -1)⟩ }) := by
  unfold frame_start
  simp only [if_pos h]

theorem frame_start_maxdepth (s : VM) (obj : Obj) (method : Method) (sender caller : Dbref)
    (stack_start arg_start : Nat)
    (h : ¬ ((s.stack.length : Int) - (arg_start : Int) < (method.num_args : Int)
      ∨ ((s.stack.length : Int) - (arg_start : Int) > (method.num_args : Int)
          ∧ method.rest = -1)))
    (hd : s.frame_depth > MAX_CALL_DEPTH) :
    frame_start s obj method sender caller stack_start arg_start = (maxdepth_id, s) := by
  unfold frame_start
  simp only [if_neg h, if_pos hd]

theorem frame_start_ok (s : VM) (obj : Obj) (method : Method) (sender caller : Dbref)
    (stack_start arg_start : Nat)
    (h : ¬ ((s.stack.length : Int) - (arg_start : Int) < (method.num_args : Int)
      ∨ ((s.stack.length : Int) - (arg_start : Int) > (method.num_args : Int)
          ∧ method.rest = -1)))
    (hd : ¬ s.frame_depth > MAX_CALL_DEPTH) :
    frame_start s obj method sender caller stack_start arg_start
      = (NOT_AN_IDENT,
          { s with
            stack :=
              (if method.rest ≠ -1 then
                s.stack.take (arg_start + method.num_args)
                  ++ [Data.list (s.stack.drop (arg_start + method.num_args))]
               else s.stack) ++ List.replicate method.num_vars (Data.integer 0)
            frames :=
              { object := obj.dbref, sender := sender, caller := caller, method := method,
                pc := 0, ticks := METHOD_TICKS, specifiers := [], handler_info := [],
                stack_start := stack_start, var_start := arg_start,
                last_opcode := stored_last_opcode s.frame_store } :: s.frames
            frame_store := s.frame_store.tail
            frame_depth := s.frame_depth + 1 }) := by
  have hle : arg_start + method.num_args ≤ s.stack.length := by
    have := not_or.1 h
    omega
  have e1 : s.stack.length - (s.stack.length - (arg_start + method.num_args))
      = arg_start + method.num_args := by omega
  unfold frame_start
  simp only [if_neg h, if_neg hd]
  by_cases hr : method.rest = -1
  · simp [hr]
  · simp [hr, push_list, pop, e1]

theorem frame_start_fst (s : VM) (obj : Obj) (method : Method) (sender caller : Dbref)
    (stack_start arg_start : Nat) :
    (frame_start s obj method sender caller stack_start arg_start).1 = numargs_id
    ∨ (frame_start s obj method sender caller stack_start arg_start).1 = maxdepth_id
    ∨ (frame_start s obj method sender caller stack_start arg_start).1 = NOT_AN_IDENT := by
  by_cases h : (s.stack.length : Int) - (arg_start : Int) < (method.num_args : Int)
      ∨ ((s.stack.length : Int) - (arg_start : Int) > (method.num_args : Int)
          ∧ method.rest = -1)
  · rw [frame_start_numargs _ _ _ _ _ _ _ h]; exact Or.inl rfl
  · by_cases hd : s.frame_depth > MAX_CALL_DEPTH
    · rw [frame_start_maxdepth _ _ _ _ _ _ _ h hd]; exact Or.inr (Or.inl rfl)
    · rw [frame_start_ok _ _ _ _ _ _ _ h hd]; exact Or.inr (Or.inr rfl)

/-- C6: `frame_start` returns `numargs_id` if and only if the number of
arguments `n = stack_pos - arg_start` is below the number `F` of fixed
arguments, or is above it while the method has no rest parameter; and when it
returns `numargs_id` the value stack, the frame chain and `frame_depth` are as
before the call. -/
theorem frame_start_numargs_iff (s : VM) (obj : Obj) (method : Method)
    (sender caller : Dbref) (stack_start arg_start : Nat) :
    ((frame_start s obj method sender caller stack_start arg_start).1 = numargs_id
      ↔ ((s.stack_pos : Int) - (arg_start : Int) < (method.num_args : Int)
          ∨ ((s.stack_pos : Int) - (arg_start : Int) > (method.num_args : Int)
              ∧ method.rest = -1)))
    ∧ ((frame_start s obj method sender caller stack_start arg_start).1 = numargs_id →
        (frame_start s obj method sender caller stack_start arg_start).2.stack = s.stack
        ∧ (frame_start s obj method sender caller stack_start arg_start).2.frames = s.frames
        ∧ (frame_start s obj method sender caller stack_start arg_start).2.frame_depth
            = s.frame_depth) := by
  unfold VM.stack_pos
  by_cases h : (s.stack.length : Int) - (arg_start : Int) < (method.num_args : Int)
      ∨ ((s.stack.length : Int) - (arg_start : Int) > (method.num_args : Int)
          ∧ method.rest = -1)
  · rw [frame_start_numargs _ _ _ _ _ _ _ h]
    exact ⟨⟨fun _ => h, fun _ => rfl⟩, fun _ => ⟨rfl, rfl, rfl⟩⟩
  · by_cases hd : s.frame_depth > MAX_CALL_DEPTH
    · rw [frame_start_maxdepth _ _ _ _ _ _ _ h hd]
      have hne : ¬ maxdepth_id = numargs_id := by decide
      exact ⟨⟨fun h1 => absurd h1 hne, fun h1 => absurd h1 h⟩, fun h1 => absurd h1 hne⟩
    · rw [frame_start_ok _ _ _ _ _ _ _ h hd]
      have hne : ¬ NOT_AN_IDENT = numargs_id := by decide
      exact ⟨⟨fun h1 => absurd h1 hne, fun h1 => absurd h1 h⟩, fun h1 => absurd h1 hne⟩

/-- C7: after a successful `frame_start` the value stack is the old stack up to
and including the `F` fixed arguments, followed, only when the method has a rest
parameter, by one List of the surplus arguments in their order, followed by
`num_vars` slots holding Integer 0; `stack_pos` is just past the last local; the
new current frame has `var_start = arg_start`, `pc = 0` and empty specifier and
handler-info lists, on top of the old frame chain. -/
theorem frame_start_layout (s : VM) (obj : Obj) (method : Method)
    (sender caller : Dbref) (stack_start arg_start : Nat)
    (hok : (frame_start s obj method sender caller stack_start arg_start).1 = NOT_AN_IDENT) :
    (frame_start s obj method sender caller stack_start arg_start).2.stack
        = s.stack.take (arg_start + method.num_args)
            ++ (if method.rest ≠ -1 then
                  [Data.list (s.stack.drop (arg_start + method.num_args))]
                else [])
            ++ List.replicate method.num_vars (Data.integer 0)
    ∧ (∀ i, i < method.num_args →
        (frame_start s obj method sender caller stack_start arg_start).2.stack.get?
            (arg_start + i) = s.stack.get? (arg_start + i)
        ∧ arg_start + i < s.stack.length)
    ∧ (frame_start s obj method sender caller stack_start arg_start).2.stack_pos
        = arg_start + method.num_args + (if method.rest ≠ -1 then 1 else 0)
            + method.num_vars
    ∧ ∃ frame : Frame,
        (frame_start s obj method sender caller stack_start arg_start).2.frames
            = frame :: s.frames
        ∧ frame.var_start = arg_start ∧ frame.stack_start = stack_start
        ∧ frame.pc = 0 ∧ frame.specifiers = [] ∧ frame.handler_info = []
        ∧ frame.method = method ∧ frame.object = obj.dbref := by
  by_cases h : (s.stack.length : Int) - (arg_start : Int) < (method.num_args : Int)
      ∨ ((s.stack.length : Int) - (arg_start : Int) > (method.num_args : Int)
          ∧ method.rest = -1)
  · rw [frame_start_numargs _ _ _ _ _ _ _ h] at hok
    have hne : ¬ numargs_id = NOT_AN_IDENT := by decide
    exact absurd hok hne
  · by_cases hd : s.frame_depth > MAX_CALL_DEPTH
    · rw [frame_start_maxdepth _ _ _ _ _ _ _ h hd] at hok
      have hne : ¬ maxdepth_id = NOT_AN_IDENT := by decide
      exact absurd hok hne
    · rw [frame_start_ok _ _ _ _ _ _ _ h hd]
      have hle : arg_start + method.num_args ≤ s.stack.length := by
        have := not_or.1 h
        omega
      have hstack : (if method.rest ≠ -1 then
              s.stack.take (arg_start + method.num_args)
                ++ [Data.list (s.stack.drop (arg_start + method.num_args))]
            else s.stack)
          = s.stack.take (arg_start + method.num_args)
            ++ (if method.rest ≠ -1 then
                  [Data.list (s.stack.drop (arg_start + method.num_args))]
                else []) := by
        by_cases hr : method.rest = -1
        · have hlen : s.stack.length = arg_start + method.num_args := by
            have := not_or.1 h
            have h2 := this.2
            rw [not_and_or] at h2
            rcases h2 with h2 | h2
            · omega
            · exact absurd hr h2
          simp [hr, ← hlen]
        · simp [hr]
      refine ⟨?_, ?_, ?_, ⟨_, rfl, rfl, rfl, rfl, rfl, rfl, rfl, rfl⟩⟩
      · simp only [hstack]
      · intro i hi
        refine ⟨?_, by omega⟩
        simp only [hstack, List.append_assoc]
        rw [List.get?_eq_getElem?, List.get?_eq_getElem?,
          List.getElem?_append_left (by simp; omega), List.getElem?_take]
        simp; intro; omega
      · simp only [hstack, VM.stack_pos, List.length_append, List.length_take,
          List.length_replicate]
        by_cases hr : method.rest = -1
        · simp [hr]; omega
        · simp [hr]; omega

theorem frame_start_frames_of_ok (s : VM) (obj : Obj) (method : Method)
    (sender caller : Dbref) (stack_start arg_start : Nat)
    (hok : (frame_start s obj method sender caller stack_start arg_start).1 = NOT_AN_IDENT) :
    (frame_start s obj method sender caller stack_start arg_start).2.frames
      = { object := obj.dbref, sender := sender, caller := caller, method := method,
          pc := 0, ticks := METHOD_TICKS, specifiers := [], handler_info := [],
          stack_start := stack_start, var_start := arg_start,
          last_opcode := stored_last_opcode s.frame_store } :: s.frames := by
  by_cases h : (s.stack.length : Int) - (arg_start : Int) < (method.num_args : Int)
      ∨ ((s.stack.length : Int) - (arg_start : Int) > (method.num_args : Int)
          ∧ method.rest = -1)
  · rw [frame_start_numargs _ _ _ _ _ _ _ h] at hok
    have hne : ¬ numargs_id = NOT_AN_IDENT := by decide
    exact absurd hok hne
  · by_cases hd : s.frame_depth > MAX_CALL_DEPTH
    · rw [frame_start_maxdepth _ _ _ _ _ _ _ h hd] at hok
      have hne : ¬ maxdepth_id = NOT_AN_IDENT := by decide
      exact absurd hok hne
    · rw [frame_start_ok _ _ _ _ _ _ _ h hd]

theorem send_message_found_no_frame (db : Db) (s : VM) (dbref : Dbref) (message : Ident)
    (stack_start arg_start : Nat) (obj : Obj) (method : Method)
    (hobj : db.cache_retrieve dbref = some obj)
    (hm : db.object_find_method obj.dbref message = some method)
    (hs : s.frames = []) :
    send_message db s dbref message stack_start arg_start
      = frame_start s obj method NOT_AN_IDENT NOT_AN_IDENT stack_start arg_start := by
  simp only [send_message, hobj, hm, hs]

theorem send_message_found_frame (db : Db) (s : VM) (dbref : Dbref) (message : Ident)
    (stack_start arg_start : Nat) (obj : Obj) (method : Method) (f : Frame)
    (rest : List Frame)
    (hobj : db.cache_retrieve dbref = some obj)
    (hm : db.object_find_method obj.dbref message = some method)
    (hs : s.frames = f :: rest) :
    send_message db s dbref message stack_start arg_start
      = match check_perms f obj method with
        | some id => (id, s)
        | none => frame_start s obj method f.object f.method.object stack_start arg_start := by
  simp only [send_message, hobj, hm, hs]

/-- C8: when the target object and the method are found, `send_message` with a
current frame `f` returns `private_id` exactly for a Private method whose
own defining object differs from that of the current method, `protected_id`
exactly for a Protected method when the current object differs from the target,
`root_id` exactly for a Root method when the current method is not defined on
ROOT, `driver_id` exactly for a Driver method; a Public method goes to
`frame_start`; on each rejection the state is left as it was.  Without a
current frame the call goes to `frame_start` whatever the modifier. -/
theorem send_message_visibility (db : Db) (s : VM) (dbref : Dbref) (message : Ident)
    (stack_start arg_start : Nat) (obj : Obj) (method : Method)
    (hobj : db.cache_retrieve dbref = some obj)
    (hm : db.object_find_method obj.dbref message = some method) :
    (∀ (f : Frame) (rest : List Frame), s.frames = f :: rest →
      ((send_message db s dbref message stack_start arg_start).1 = private_id
          ↔ method.m_state = MState.MS_PRIVATE ∧ f.method.object ≠ method.object)
      ∧ ((send_message db s dbref message stack_start arg_start).1 = protected_id
          ↔ method.m_state = MState.MS_PROTECTED ∧ f.object ≠ obj.dbref)
      ∧ ((send_message db s dbref message stack_start arg_start).1 = root_id
          ↔ method.m_state = MState.MS_ROOT ∧ f.method.object ≠ ROOT_DBREF)
      ∧ ((send_message db s dbref message stack_start arg_start).1 = driver_id
          ↔ method.m_state = MState.MS_DRIVER)
      ∧ (method.m_state = MState.MS_PUBLIC →
          send_message db s dbref message stack_start arg_start
            = frame_start s obj method f.object f.method.object stack_start arg_start)
      ∧ ((send_message db s dbref message stack_start arg_start).1 = private_id
          ∨ (send_message db s dbref message stack_start arg_start).1 = protected_id
          ∨ (send_message db s dbref message stack_start arg_start).1 = root_id
          ∨ (send_message db s dbref message stack_start arg_start).1 = driver_id →
          (send_message db s dbref message stack_start arg_start).2 = s))
    ∧ (s.frames = [] →
        send_message db s dbref message stack_start arg_start
          = frame_start s obj method NOT_AN_IDENT NOT_AN_IDENT stack_start arg_start
        ∧ (send_message db s dbref message stack_start arg_start).1 ≠ private_id
        ∧ (send_message db s dbref message stack_start arg_start).1 ≠ protected_id
        ∧ (send_message db s dbref message stack_start arg_start).1 ≠ root_id
        ∧ (send_message db s dbref message stack_start arg_start).1 ≠ driver_id) := by
  have hfs : ∀ (sender caller : Dbref) (id : Ident),
      id ≠ numargs_id → id ≠ maxdepth_id → id ≠ NOT_AN_IDENT →
      (frame_start s obj method sender caller stack_start arg_start).1 ≠ id := by
    intro sender caller id h1 h2 h3 h
    rcases frame_start_fst s obj method sender caller stack_start arg_start with h4 | h4 | h4
    · exact h1 (h ▸ h4)
    · exact h2 (h ▸ h4)
    · exact h3 (h ▸ h4)
  have hp := fun sender caller => hfs sender caller private_id (by decide) (by decide) (by decide)
  have hq := fun sender caller => hfs sender caller protected_id (by decide) (by decide) (by decide)
  have hr := fun sender caller => hfs sender caller root_id (by decide) (by decide) (by decide)
  have hdr := fun sender caller => hfs sender caller driver_id (by decide) (by decide) (by decide)
  have n1 : ¬ private_id = protected_id := by decide
  have n2 : ¬ private_id = root_id := by decide
  have n3 : ¬ private_id = driver_id := by decide
  have n4 : ¬ protected_id = private_id := by decide
  have n5 : ¬ protected_id = root_id := by decide
  have n6 : ¬ protected_id = driver_id := by decide
  have n7 : ¬ root_id = private_id := by decide
  have n8 : ¬ root_id = protected_id := by decide
  have n9 : ¬ root_id = driver_id := by decide
  have n10 : ¬ driver_id = private_id := by decide
  have n11 : ¬ driver_id = protected_id := by decide
  have n12 : ¬ driver_id = root_id := by decide
  constructor
  · intro f rest hs
    rw [send_message_found_frame db s dbref message stack_start arg_start obj method f rest
      hobj hm hs]
    unfold check_perms
    cases hst : method.m_state <;> simp only []
    · -- public
      simp [hp, hq, hr, hdr]
    · -- protected
      by_cases hc : f.object = obj.dbref
      · simp [hc, hp, hq, hr, hdr]
      · simp [hc, n4, n5, n6]
    · -- private
      by_cases hc : f.method.object = method.object
      · simp [hc, hp, hq, hr, hdr]
      · simp [hc, n1, n2, n3]
    · -- root
      by_cases hc : f.method.object = ROOT_DBREF
      · simp [hc, hp, hq, hr, hdr]
      · simp [hc, n7, n8, n9]
    · -- driver
      simp [n10, n11, n12]
  · intro hs
    rw [send_message_found_no_frame db s dbref message stack_start arg_start obj method
      hobj hm hs]
    exact ⟨rfl, hp _ _, hq _ _, hr _ _, hdr _ _⟩

/-- C9: `send_message` returns `objnf_id` when the target object cannot be
retrieved, and `methodnf_id` when the object is there but no method is found
for the message; in both cases the state (value stack, frame chain,
`frame_depth`) is returned as it was, whatever the current frame, the argument
count and the call depth are. -/
theorem send_message_not_found (db : Db) (s : VM) (dbref : Dbref) (message : Ident)
    (stack_start arg_start : Nat) :
    (db.cache_retrieve dbref = none →
      send_message db s dbref message stack_start arg_start = (objnf_id, s))
    ∧ (∀ obj : Obj, db.cache_retrieve dbref = some obj →
        db.object_find_method obj.dbref message = none →
        send_message db s dbref message stack_start arg_start = (methodnf_id, s)) := by
  constructor
  · intro h
    simp only [send_message, h]
  · intro obj h1 h2
    simp only [send_message, h1, h2]

/-- C10: with a current frame `f`, `pass_message` returns `methodnf_id` if and
only if the current method has no name or `object_find_next_method` finds no
method above the defining object of the current method; otherwise its result
is that of `frame_start` for the found method on the current object of `f`, with
the sender and the caller of `f`, which a started frame carries. -/
theorem pass_message_result (db : Db) (s : VM) (stack_start arg_start : Nat) (f : Frame)
    (rest : List Frame) (hs : s.frames = f :: rest) :
    ∃ r : Ident × VM, pass_message db s stack_start arg_start = some r
      ∧ (r.1 = methodnf_id ↔
          (f.method.name = NOT_AN_IDENT
            ∨ db.object_find_next_method f.object f.method.name f.method.object = none))
      ∧ (r.1 = methodnf_id → r.2 = s)
      ∧ (∀ method : Method, f.method.name ≠ NOT_AN_IDENT →
          db.object_find_next_method f.object f.method.name f.method.object = some method →
          r = frame_start s { dbref := f.object } method f.sender f.caller
                stack_start arg_start
          ∧ (r.1 = NOT_AN_IDENT →
              ∃ frame : Frame, r.2.frames = frame :: s.frames
                ∧ frame.object = f.object ∧ frame.method = method
                ∧ frame.sender = f.sender ∧ frame.caller = f.caller)) := by
  unfold pass_message
  simp only [hs]
  by_cases hn : f.method.name = -1
  · refine ⟨(methodnf_id, s), by simp [hn], ?_, fun _ => rfl, ?_⟩
    · simp [hn, NOT_AN_IDENT]
    · intro m h; exact absurd hn h
  · simp only [if_neg hn]
    cases hf : db.object_find_next_method f.object f.method.name f.method.object with
    | none =>
      refine ⟨(methodnf_id, s), rfl, by simp, fun _ => rfl, ?_⟩
      intro m _ h; cases h
    | some m =>
      refine ⟨_, rfl, ?_, ?_, ?_⟩
      · have hne : (frame_start s { dbref := f.object } m f.sender f.caller stack_start
            arg_start).1 ≠ methodnf_id := by
          intro h
          rcases frame_start_fst s { dbref := f.object } m f.sender f.caller stack_start
            arg_start with h4 | h4 | h4
          · rw [h] at h4; exact absurd h4 (by decide)
          · rw [h] at h4; exact absurd h4 (by decide)
          · rw [h] at h4; exact absurd h4 (by decide)
        simp [hne, hn, NOT_AN_IDENT]
      · intro h
        exfalso
        rcases frame_start_fst s { dbref := f.object } m f.sender f.caller stack_start
          arg_start with h4 | h4 | h4
        · rw [h] at h4; exact absurd h4 (by decide)
        · rw [h] at h4; exact absurd h4 (by decide)
        · rw [h] at h4; exact absurd h4 (by decide)
      · intro m1 _ h1
        cases h1
        refine ⟨rfl, fun hok => ?_⟩
        refine ⟨{ object := f.object, sender := f.sender, caller := f.caller, method := m,
                  pc := 0, ticks := METHOD_TICKS, specifiers := [], handler_info := [],
                  stack_start := stack_start, var_start := arg_start,
                  last_opcode := stored_last_opcode s.frame_store }, ?_, rfl, rfl, rfl, rfl⟩
        exact (frame_start_frames_of_ok s { dbref := f.object } m f.sender f.caller
          stack_start arg_start hok).trans (by rw [hs])

/-- C5: at `frame_depth = 128` a call with a right number of arguments is not
refused: `frame_start` returns `NOT_AN_IDENT`, not `maxdepth_id`, puts one more
frame on the chain and sets `frame_depth` to 129. -/
theorem frame_start_at_depth_128 (s : VM) (obj : Obj) (method : Method)
    (sender caller : Dbref) (stack_start arg_start : Nat)
    (hd : s.frame_depth = 128)
    (harity : ¬ ((s.stack_pos : Int) - (arg_start : Int) < (method.num_args : Int)
      ∨ ((s.stack_pos : Int) - (arg_start : Int) > (method.num_args : Int)
          ∧ method.rest = -1))) :
    (frame_start s obj method sender caller stack_start arg_start).1 = NOT_AN_IDENT
    ∧ (frame_start s obj method sender caller stack_start arg_start).1 ≠ maxdepth_id
    ∧ (frame_start s obj method sender caller stack_start arg_start).2.frames.length
        = s.frames.length + 1
    ∧ (frame_start s obj method sender caller stack_start arg_start).2.frame_depth = 129 := by
  have hnd : ¬ s.frame_depth > MAX_CALL_DEPTH := by rw [hd]; decide
  have hne : ¬ NOT_AN_IDENT = maxdepth_id := by decide
  rw [frame_start_ok _ _ _ _ _ _ _ harity hnd]
  refine ⟨rfl, hne, by simp, ?_⟩
  show s.frame_depth + 1 = 129
  rw [hd]; rfl

/-! ## Instances at concrete states -/

/-- Instance of `catch_handles_iff`: a Catch of the error list `[20, 21]`
handles an error of kind 20. -/
theorem catch_handles_iff_witness :
    walk_specifiers [] 20 [{ kind := SpecKind.CATCH 7 0, stack_pos := 2 }] false ex_frame
        [Data.integer 1, Data.integer 2, Data.integer 5]
      = Walk.handled
          { ex_frame with handler_info := [{ traceback := [], error := 20 }], pc := 7,
                          specifiers := [] }
          [Data.integer 1, Data.integer 2] :=
  (catch_handles_iff [] 20 7 0 2 [] false ex_frame
    [Data.integer 1, Data.integer 2, Data.integer 5] [20, 21]
    (Or.inr ⟨by decide, rfl⟩)).1.2 (Or.inr (by decide))

/-- Instance of `catch_handler_state`: an error of kind 20 raised inside a
Propagate inside a Catch of the error list `[20, 21]`. -/
theorem catch_handler_state_witness :
    (propagate_error ex_db ex_vm_catch [] 20).stack.length = 2
    ∧ (propagate_error ex_db ex_vm_catch [] 20).stack = [Data.integer 1, Data.integer 2]
    ∧ (propagate_error ex_db ex_vm_catch [] 20).frames
        = [{ ex_frame with
              pc := 7
              handler_info :=
                [{ traceback :=
                    [Data.list [Data.error 20, Data.symbol 5, Data.dbref 11, Data.dbref 10,
                      Data.integer 3]],
                   error := 20 }] }] :=
  catch_handler_state ex_db ex_vm ex_frame [] ex_vm_catch
    { ex_frame with
      pc := 3
      specifiers := [{ kind := SpecKind.PROPAGATE 9, stack_pos := 3 },
                     { kind := SpecKind.CATCH 7 0, stack_pos := 2 }] }
    [] [{ kind := SpecKind.PROPAGATE 9, stack_pos := 3 }] [] 20 rfl rfl rfl
    (by simp [Error_action_specifier.passes]) (Or.inr (by decide)) (by decide)

/-- Instance of `critical_handler_state`: an error of kind 20 raised inside a
Propagate inside a Critical. -/
theorem critical_handler_state_witness :
    (propagate_error ex_db ex_vm_critical [] 20).stack.length = 3
    ∧ (propagate_error ex_db ex_vm_critical [] 20).stack
        = [Data.integer 1, Data.integer 2, Data.error 20]
    ∧ (propagate_error ex_db ex_vm_critical [] 20).stack.getLast? = some (Data.error 20)
    ∧ (propagate_error ex_db ex_vm_critical [] 20).frames = [{ ex_frame with pc := 7 }]
    ∧ (∀ f1 ∈ (propagate_error ex_db ex_vm_critical [] 20).frames.head?,
        f1.handler_info = []) :=
  critical_handler_state ex_db ex_vm ex_frame [] ex_vm_critical
    { ex_frame with
      pc := 2
      specifiers := [{ kind := SpecKind.PROPAGATE 0, stack_pos := 3 },
                     { kind := SpecKind.CRITICAL 7, stack_pos := 2 }] }
    [] [{ kind := SpecKind.PROPAGATE 0, stack_pos := 3 }] [] 20 rfl rfl rfl
    (by simp [Error_action_specifier.passes]) (by decide)

/-- Instance of `frame_start_at_depth_128` on a chain of 128 frames. -/
theorem frame_start_at_depth_128_witness :
    ex_vm_depth_128.frames.length = 128
    ∧ (frame_start ex_vm_depth_128 { dbref := 3 } ex_method 11 10 0 0).1 = NOT_AN_IDENT
    ∧ (frame_start ex_vm_depth_128 { dbref := 3 } ex_method 11 10 0 0).1 ≠ maxdepth_id
    ∧ (frame_start ex_vm_depth_128 { dbref := 3 } ex_method 11 10 0 0).2.frames.length = 129
    ∧ (frame_start ex_vm_depth_128 { dbref := 3 } ex_method 11 10 0 0).2.frame_depth = 129 :=
  ⟨by simp [ex_vm_depth_128],
    frame_start_at_depth_128 ex_vm_depth_128 { dbref := 3 } ex_method 11 10 0 0 rfl
      (by decide)⟩

/-- Instance of `frame_start_numargs_iff`: one argument given to a method that
requires two. -/
theorem frame_start_numargs_iff_witness :
    (frame_start ex_vm { dbref := 3 } ex_parent 11 10 0 1).1 = numargs_id
    ∧ (frame_start ex_vm { dbref := 3 } ex_parent 11 10 0 1).2.stack = ex_vm.stack
    ∧ (frame_start ex_vm { dbref := 3 } ex_parent 11 10 0 1).2.frames = ex_vm.frames
    ∧ (frame_start ex_vm { dbref := 3 } ex_parent 11 10 0 1).2.frame_depth = ex_vm.frame_depth :=
  ⟨(frame_start_numargs_iff ex_vm { dbref := 3 } ex_parent 11 10 0 1).1.2 (by decide),
    (frame_start_numargs_iff ex_vm { dbref := 3 } ex_parent 11 10 0 1).2
      ((frame_start_numargs_iff ex_vm { dbref := 3 } ex_parent 11 10 0 1).1.2 (by decide))⟩

/-- Instance of `frame_start_layout`: two arguments given to a method with one
fixed argument, a rest parameter and two locals. -/
theorem frame_start_layout_witness :
    (frame_start ex_vm { dbref := 3 } ex_method 11 10 0 0).2.stack
      = [Data.integer 1, Data.list [Data.integer 2], Data.integer 0, Data.integer 0]
    ∧ (frame_start ex_vm { dbref := 3 } ex_method 11 10 0 0).2.stack_pos = 4 :=
  ⟨(frame_start_layout ex_vm { dbref := 3 } ex_method 11 10 0 0 (by decide)).1,
    (frame_start_layout ex_vm { dbref := 3 } ex_method 11 10 0 0 (by decide)).2.2.1⟩

/-- Instance of `send_message_visibility`: a private method of object 12 sent
from a method of object 10. -/
theorem send_message_visibility_witness :
    (send_message ex_db ex_vm 3 6 0 0).1 = private_id
    ∧ (send_message ex_db ex_vm 3 6 0 0).2 = ex_vm :=
  ⟨((send_message_visibility ex_db ex_vm 3 6 0 0 { dbref := 3 } ex_private rfl rfl).1
      ex_frame [] rfl).1.2 ⟨rfl, by decide⟩,
    ((send_message_visibility ex_db ex_vm 3 6 0 0 { dbref := 3 } ex_private rfl rfl).1
      ex_frame [] rfl).2.2.2.2.2
      (Or.inl (((send_message_visibility ex_db ex_vm 3 6 0 0 { dbref := 3 } ex_private
        rfl rfl).1 ex_frame [] rfl).1.2 ⟨rfl, by decide⟩))⟩

/-- Instance of `send_message_not_found`: a missing object, and a missing
method. -/
theorem send_message_not_found_witness :
    send_message ex_db ex_vm 4 5 0 0 = (objnf_id, ex_vm)
    ∧ send_message ex_db ex_vm 3 9 0 0 = (methodnf_id, ex_vm) :=
  ⟨(send_message_not_found ex_db ex_vm 4 5 0 0).1 rfl,
    (send_message_not_found ex_db ex_vm 3 9 0 0).2 { dbref := 3 } rfl rfl⟩

/-- Instance of `pass_message_result`: the next method above object 10 is found.
-/
theorem pass_message_result_witness :
    ∃ r : Ident × VM, pass_message ex_db ex_vm 0 0 = some r
      ∧ r = frame_start ex_vm { dbref := 11 } ex_parent 14 15 0 0
      ∧ r.1 ≠ methodnf_id :=
  match pass_message_result ex_db ex_vm 0 0 ex_frame [] rfl with
  | ⟨r, h1, h2, _, h4⟩ =>
    ⟨r, h1, (h4 ex_parent (by decide) rfl).1,
      fun h => absurd (h2.1 h) (by simp [ex_frame, ex_method, ex_db, NOT_AN_IDENT])⟩

/-- C11: `frame_return` of the current frame `f`, whose `stack_start` is not above
the stack position, leaves `stack_pos = f.stack_start` with every slot below it
unchanged, makes the caller frame the current frame, decrements `frame_depth`
by exactly one, and puts the record of `f` on the frame store with empty
specifier and handler-info lists. -/
theorem frame_return_effect (s : VM) (f : Frame) (rest : List Frame)
    (hs : s.frames = f :: rest) (hstart : f.stack_start ≤ s.stack_pos) :
    (frame_return s).stack_pos = f.stack_start
    ∧ (frame_return s).stack = s.stack.take f.stack_start
    ∧ (∀ i, i < f.stack_start → (frame_return s).stack.get? i = s.stack.get? i)
    ∧ (frame_return s).frames = rest
    ∧ (frame_return s).frame_depth = s.frame_depth - 1
    ∧ (∃ returned : Frame,
        (frame_return s).frame_store = returned :: s.frame_store
        ∧ returned = { f with specifiers := [], handler_info := [] }
        ∧ returned.specifiers = [] ∧ returned.handler_info = []) := by
  unfold VM.stack_pos at hstart
  have hfr : frame_return s
      = { s with stack := s.stack.take f.stack_start
                 frames := rest
                 frame_store := { f with specifiers := [], handler_info := [] }
                                  :: s.frame_store
                 frame_depth := s.frame_depth - 1 } := by
    simp only [frame_return, hs]
  rw [hfr]
  refine ⟨?_, rfl, ?_, rfl, rfl, ⟨_, rfl, rfl, rfl, rfl⟩⟩
  · simp [VM.stack_pos, List.length_take, hstart]
  · intro i hi
    rw [List.get?_eq_getElem?, List.get?_eq_getElem?, List.getElem?_take]
    simp [hi]

theorem execute_iteration_run (op_table : Int → Op_info) (db : Db) (s : VM) (f : Frame)
    (rest : List Frame) (hs : s.frames = f :: rest) (hticks : f.ticks - 1 ≠ 0) :
    execute_iteration op_table db s
      = (op_table (f.opcode_at f.pc)).func
          { s with tick := s.tick + 1
                   frames := { f with ticks := f.ticks - 1, last_opcode := f.opcode_at f.pc,
                                      pc := f.pc + 1 } :: rest } := by
  simp only [execute_iteration, hs, if_neg hticks]
  rfl

theorem execute_iteration_out_of_ticks (op_table : Int → Op_info) (db : Db) (s : VM)
    (f : Frame) (rest : List Frame) (hs : s.frames = f :: rest) (hticks : f.ticks - 1 = 0) :
    execute_iteration op_table db s
      = out_of_ticks_error db
          { s with tick := s.tick + 1
                   frames := { f with ticks := f.ticks - 1 } :: rest } := by
  simp only [execute_iteration, hs, if_pos hticks]

theorem propagate_error_tick (db : Db) (tb : List Data) (error : Ident) (s : VM) :
    (propagate_error db s tb error).tick = s.tick := by
  generalize hn : s.frames.length = n
  induction n using Nat.strong_induction_on generalizing s tb error with
  | _ n ih =>
    cases hfr : s.frames with
    | nil =>
      rw [propagate_error]
      split
      · rfl
      · rename_i h; rw [hfr] at h; cases h
    | cons f rest =>
      rw [propagate_error_cons db s tb error f rest hfr]
      split
      · rfl
      · rename_i f1 p _
        have hlen : (frame_return { s with frames := f1 :: rest }).frames.length < n := by
          simp [frame_return, ← hn, hfr]
        rw [ih _ hlen _ _ _ rfl]
        simp [frame_return]

theorem out_of_ticks_error_tick (db : Db) (s : VM) :
    (out_of_ticks_error db s).tick = s.tick := by
  unfold out_of_ticks_error
  split
  · rfl
  · rename_i f rest h
    simp only [start_error, propagate_error_tick]
    simp [frame_return, h]

theorem op_comment_cons (s : VM) (f : Frame) (rest : List Frame) (hs : s.frames = f :: rest) :
    op_comment s
      = { s with frames := { f with pc := f.pc + 1, ticks := f.ticks + 1 } :: rest
                 tick := s.tick - 1 } := by
  simp only [op_comment, hs]

/-- C14 (amended): for a current frame `f` whose ticks are not 1 and whose pc
points at a COMMENT opcode, one pass of the interpreter loop changes nothing but
the pc of the frame, moved past the opcode and its one operand, and its
`last_opcode`, set to the opcode: the ticks of the frame, the global tick
counter and the value stack are as they were. -/
theorem comment_iteration (op_table : Int → Op_info) (db : Db) (s : VM) (f : Frame)
    (rest : List Frame) (hs : s.frames = f :: rest)
    (hop : (op_table (f.opcode_at f.pc)).func = op_comment) (hticks : f.ticks ≠ 1) :
    execute_iteration op_table db s
      = { s with frames := { f with pc := f.pc + 2, last_opcode := f.opcode_at f.pc }
                   :: rest } := by
  have h1 : f.ticks - 1 ≠ 0 := by omega
  rw [execute_iteration_run op_table db s f rest hs h1, hop, op_comment_cons _ _ _ rfl]
  have e1 : f.ticks - 1 + 1 = f.ticks := by omega
  have e2 : s.tick + 1 - 1 = s.tick := by omega
  have e3 : f.pc + 1 + 1 = f.pc + 2 := by omega
  simp only [e1, e2, e3]

/-- C15: when the decrement of the loop brings the ticks of the current frame
`f` to 0, the pass does not depend on the opcode table (no opcode is executed)
nor on the specifiers of `f`: the frame is returned, and `propagate_error` then
runs on the caller's chain with kind `methoderr_id` and the traceback made of
the condition [methoderr, "Out of ticks", 0] and the location of `f`. -/
theorem execute_iteration_exhausted (op_table : Int → Op_info) (db : Db) (s : VM)
    (f : Frame) (rest : List Frame) (hs : s.frames = f :: rest) (hticks : f.ticks = 1) :
    execute_iteration op_table db s
        = propagate_error db
            (frame_return
              { s with tick := s.tick + 1, frames := { f with ticks := 0 } :: rest })
            [ Data.list [Data.error methoderr_id, Data.string "Out of ticks", Data.integer 0],
              Data.list (Data.symbol interpreter_id :: fill_in_method_info db f) ]
            methoderr_id
    ∧ (frame_return
        { s with tick := s.tick + 1, frames := { f with ticks := 0 } :: rest }).frames = rest
    ∧ (∀ op_table1 : Int → Op_info,
        execute_iteration op_table1 db s = execute_iteration op_table db s)
    ∧ (∀ specs : List Error_action_specifier,
        execute_iteration op_table db
            { s with frames := { f with specifiers := specs } :: rest }
          = execute_iteration op_table db s) := by
  have h0 : f.ticks - 1 = 0 := by omega
  have key : ∀ (tbl : Int → Op_info) (specs : List Error_action_specifier),
      execute_iteration tbl db { s with frames := { f with specifiers := specs } :: rest }
        = propagate_error db
            (frame_return
              { s with tick := s.tick + 1, frames := { f with ticks := 0 } :: rest })
            [ Data.list [Data.error methoderr_id, Data.string "Out of ticks", Data.integer 0],
              Data.list (Data.symbol interpreter_id :: fill_in_method_info db f) ]
            methoderr_id := by
    intro tbl specs
    rw [execute_iteration_out_of_ticks tbl db _ { f with specifiers := specs } rest rfl h0]
    simp only [out_of_ticks_error, start_error, h0]
    rfl
  have hself : s = { s with frames := { f with specifiers := f.specifiers } :: rest } := by
    cases s; cases f; simp at hs; simp [hs]
  have hmain : ∀ tbl : Int → Op_info, execute_iteration tbl db s
      = propagate_error db
            (frame_return
              { s with tick := s.tick + 1, frames := { f with ticks := 0 } :: rest })
            [ Data.list [Data.error methoderr_id, Data.string "Out of ticks", Data.integer 0],
              Data.list (Data.symbol interpreter_id :: fill_in_method_info db f) ]
            methoderr_id := by
    intro tbl
    have := key tbl f.specifiers
    rw [← hself] at this
    exact this
  refine ⟨hmain op_table, ?_, ?_, ?_⟩
  · simp [frame_return]
  · intro tbl; rw [hmain tbl, hmain op_table]
  · intro specs; rw [key op_table specs, hmain op_table]

theorem propagate_error_unhandled (db : Db) (s : VM) (f : Frame) (rest : List Frame)
    (tb : List Data) (k : Ident) (hs : s.frames = f :: rest)
    (hall : ∀ sp ∈ f.specifiers, sp.passes f.method k) :
    propagate_error db s tb k
      = propagate_error db (frame_return s) (traceback_add db f tb k) (f.kind_out k) := by
  have hw := walk_specifiers_append (traceback_add db f tb k) k f.specifiers [] f s.stack
    hall false
  rw [List.append_nil] at hw
  rw [propagate_error_cons db s tb k f rest hs, hw]
  simp only [walk_specifiers, Bool.false_or, Frame.kind_out]
  congr 1
  simp [frame_return, hs]

theorem propagate_error_catch (db : Db) (s : VM) (f : Frame) (rest : List Frame)
    (tb : List Data) (k : Ident) (inner below : List Error_action_specifier)
    (handler l : Int) (p : Nat)
    (hs : s.frames = f :: rest)
    (hspecs : f.specifiers
      = inner ++ { kind := SpecKind.CATCH handler l, stack_pos := p } :: below)
    (hinner : ∀ sp ∈ inner, sp.passes f.method k)
    (hmatch : l = -1 ∨ k ∈ f.method.error_list l) :
    propagate_error db s tb k
      = { s with
          stack := s.stack.take p
          frames :=
            { f with pc := handler
                     handler_info :=
                       { traceback := traceback_add db f tb k, error := k } :: f.handler_info
                     specifiers := below } :: rest } := by
  have hm : ¬ (l ≠ -1 ∧
      error_search k (f.method.error_list l) = (f.method.error_list l).length) := by
    rw [error_search_eq_length_iff]; tauto
  rw [propagate_error_cons db s tb k f rest hs, hspecs,
    walk_specifiers_append _ _ _ _ _ _ hinner]
  simp only [walk_specifiers]
  rw [if_neg hm, take_length_sub_sub]

theorem frame_records_append_singleton (db : Db) (fs : List Frame) (f : Frame) (k : Ident) :
    frame_records db k (fs ++ [f])
      = frame_records db k fs
          ++ [Data.list (Data.error (kind_after k fs) :: fill_in_method_info db f)] := by
  induction fs generalizing k with
  | nil => simp [frame_records, kind_after]
  | cons g gs ih => simp [frame_records, kind_after, ih]

theorem frame_records_length (db : Db) (fs : List Frame) (k : Ident) :
    (frame_records db k fs).length = fs.length := by
  induction fs generalizing k with
  | nil => rfl
  | cons g gs ih => simp [frame_records, ih]

/-- C18 (amended): `propagate_error` adds a frame record for every frame it
visits, the frame that handles the error included.  When the frames `returned`
do not handle an error raised with kind `k` and the next frame `f` has a Catch
that matches the kind with which the error arrives, the traceback of the
handler-info record is the traceback given to `propagate_error` followed by one
frame record for each returned frame and one for `f`. -/
theorem handler_traceback_records (db : Db) (returned : List Frame) (s : VM) (f : Frame)
    (rest : List Frame) (tb : List Data) (k : Ident)
    (inner below : List Error_action_specifier) (handler l : Int) (p : Nat)
    (hs : s.frames = returned ++ f :: rest)
    (hret : unhandled_in k returned)
    (hspecs : f.specifiers
      = inner ++ { kind := SpecKind.CATCH handler l, stack_pos := p } :: below)
    (hinner : ∀ sp ∈ inner, sp.passes f.method (kind_after k returned))
    (hmatch : l = -1 ∨ kind_after k returned ∈ f.method.error_list l) :
    (propagate_error db s tb k).frames
        = { f with pc := handler
                   handler_info :=
                     { traceback := tb ++ frame_records db k (returned ++ [f]),
                       error := kind_after k returned } :: f.handler_info
                   specifiers := below } :: rest
    ∧ (tb ++ frame_records db k (returned ++ [f])).length
        = tb.length + returned.length + 1 := by
  constructor
  · induction returned generalizing s tb k with
    | nil =>
      rw [propagate_error_catch db s f rest tb k inner below handler l p hs hspecs hinner
        hmatch]
      simp [frame_records, kind_after, traceback_add, list_add]
    | cons g gs ih =>
      have hs1 : s.frames = g :: (gs ++ f :: rest) := by simpa using hs
      rw [propagate_error_unhandled db s g _ tb k hs1 hret.1]
      have hfr : (frame_return s).frames = gs ++ f :: rest := by
        simp [frame_return, hs1]
      rw [ih (frame_return s) (traceback_add db g tb k) (g.kind_out k) hfr hret.2 hinner
        hmatch]
      simp [frame_records, kind_after, traceback_add, list_add]
  · simp [frame_records_length, List.length_append]; omega

/-- C19: `user_error` returns the current frame `f` and then starts the
propagation on the caller's chain with the kind that was thrown: the result
does not depend on the specifiers of `f`, and with a caller `g` it is what the
specifier loop over the specifiers of `g` gives for the thrown kind. -/
theorem user_error_skips_own_frame (db : Db) (s : VM) (f : Frame) (rest : List Frame)
    (error : Ident) (explanation : String) (arg : Option Data)
    (hs : s.frames = f :: rest) :
    user_error db s error explanation arg
        = propagate_error db (frame_return s)
            [ Data.list [Data.error error, Data.string explanation,
                arg.getD (Data.integer 0)],
              Data.list (Data.symbol method_id :: fill_in_method_info db f) ]
            error
    ∧ (frame_return s).frames = rest
    ∧ (∀ specs : List Error_action_specifier,
        user_error db { s with frames := { f with specifiers := specs } :: rest }
            error explanation arg
          = user_error db s error explanation arg)
    ∧ (∀ (g : Frame) (rest1 : List Frame) (tb : List Data), rest = g :: rest1 →
        tb = traceback_add db g
              [ Data.list [Data.error error, Data.string explanation,
                  arg.getD (Data.integer 0)],
                Data.list (Data.symbol method_id :: fill_in_method_info db f) ] error →
        user_error db s error explanation arg
          = match walk_specifiers tb error g.specifiers false g (frame_return s).stack with
            | Walk.handled g1 stack =>
              { frame_return s with stack := stack, frames := g1 :: rest1 }
            | Walk.unhandled g1 propagate =>
              propagate_error db
                (frame_return { frame_return s with frames := g1 :: rest1 }) tb
                (if propagate then error else methoderr_id)) := by
  have hmain : ∀ specs : List Error_action_specifier,
      user_error db { s with frames := { f with specifiers := specs } :: rest }
          error explanation arg
        = propagate_error db (frame_return s)
            [ Data.list [Data.error error, Data.string explanation,
                arg.getD (Data.integer 0)],
              Data.list (Data.symbol method_id :: fill_in_method_info db f) ]
            error := by
    intro specs
    simp only [user_error, start_error]
    have e1 : frame_return { s with frames := { f with specifiers := specs } :: rest }
        = frame_return s := by
      simp [frame_return, hs]
    rw [e1]
    cases arg <;> rfl
  have hself : s = { s with frames := { f with specifiers := f.specifiers } :: rest } := by
    cases s; cases f; simp at hs; simp [hs]
  have h0 : user_error db s error explanation arg
        = propagate_error db (frame_return s)
            [ Data.list [Data.error error, Data.string explanation,
                arg.getD (Data.integer 0)],
              Data.list (Data.symbol method_id :: fill_in_method_info db f) ]
            error := by
    have := hmain f.specifiers
    rw [← hself] at this
    exact this
  have hfr : (frame_return s).frames = rest := by simp [frame_return, hs]
  refine ⟨h0, hfr, fun specs => by rw [hmain specs, h0], ?_⟩
  intro g rest1 tb hrest htb
  rw [h0, propagate_error_cons db (frame_return s) _ error g rest1 (by rw [hfr, hrest]), htb]

theorem check_stack_empty_ok (s s1 : VM) (h : check_stack_empty s = Except.ok s1) :
    s1 = s ∧ s.stack_pos = 0 := by
  unfold check_stack_empty at h
  by_cases hp : s.stack_pos ≠ 0
  · rw [if_pos hp] at h; cases h
  · rw [if_neg hp] at h
    simp only [Except.ok.injEq] at h
    exact ⟨h.symm, not_not.1 hp⟩

/-- C12: a call of `task` made while the driver is running, or with an empty
value stack, that returns, returns with `stack_pos = 0`; and when the driver is
running and the dispatch fails the call does return, with every value
popped. -/
theorem task_stack_discipline (op_table : Int → Op_info) (db : Db) (fuel : Nat)
    (running : Bool) (s : VM) (conn : Connection) (dbref : Dbref) (message : Ident)
    (args : List Data) (hentry : running = true ∨ s.stack_pos = 0) :
    (∀ s1 : VM, task op_table db fuel running s conn dbref message args
        = some (Except.ok s1) → s1.stack_pos = 0)
    ∧ (running = true →
        (send_message db
            { s with cur_conn := conn, frame_depth := 0, stack := s.stack ++ args }
            dbref message 0 0).1 ≠ NOT_AN_IDENT →
        ∃ s1 : VM, task op_table db fuel running s conn dbref message args
            = some (Except.ok s1)
          ∧ s1.stack = []) := by
  constructor
  · intro s1 h
    unfold task at h
    by_cases hr : running = false
    · rw [if_pos hr] at h
      rcases hentry with h1 | h1
      · rw [hr] at h1; cases h1
      · simp only [Option.some.injEq, Except.ok.injEq] at h
        rw [← h]; exact h1
    · rw [if_neg hr] at h
      simp only at h
      split at h
      · cases hexec : execute op_table db fuel (send_message db
            { s with cur_conn := conn, frame_depth := 0, stack := s.stack ++ args }
            dbref message 0 0).2 with
        | none => rw [hexec] at h; cases h
        | some s3 =>
          rw [hexec] at h
          cases hchk : check_stack_empty s3 with
          | error msg => simp [hchk] at h
          | ok s4 =>
            have h4 := check_stack_empty_ok s3 s4 hchk
            simp only [hchk, Option.some.injEq, Except.ok.injEq] at h
            rw [← h, h4.1]
            exact h4.2
      · simp only [Option.some.injEq, Except.ok.injEq] at h
        rw [← h]
        simp [pop, VM.stack_pos]
  · intro hr hfail
    have hr1 : ¬ running = false := by rw [hr]; simp
    refine ⟨pop (send_message db
        { s with cur_conn := conn, frame_depth := 0, stack := s.stack ++ args }
        dbref message 0 0).2.stack_pos (send_message db
        { s with cur_conn := conn, frame_depth := 0, stack := s.stack ++ args }
        dbref message 0 0).2, ?_, ?_⟩
    · unfold task
      rw [if_neg hr1]
      simp only
      rw [if_neg hfail]
    · simp [pop, VM.stack_pos]

theorem isLower_iff (c : Char) : c.isLower = true ↔ 'a' ≤ c ∧ c ≤ 'z' := by
  simp only [Char.isLower, Bool.and_eq_true, decide_eq_true_eq, Char.le_def, ge_iff_le]
  rfl

/-- C16 (amended): the location list of an error raised by `user_error` is
['method, method name or Integer 0, current object, defining object, line
number], that of an error raised by `out_of_ticks_error` is the same
five-element list with 'interpreter as its first element; both are computed
from the frame `f` that is current when the error is raised, which is returned
before the propagation starts. -/
theorem raised_error_location (db : Db) (s : VM) (f : Frame) (rest : List Frame)
    (error : Ident) (explanation : String) (arg : Option Data)
    (hs : s.frames = f :: rest) :
    user_error db s error explanation arg
        = propagate_error db (frame_return s)
            [ Data.list [Data.error error, Data.string explanation,
                arg.getD (Data.integer 0)],
              Data.list
                [ Data.symbol method_id,
                  (if f.method.name = NOT_AN_IDENT then Data.integer 0
                   else Data.symbol f.method.name),
                  Data.dbref f.object, Data.dbref f.method.object,
                  Data.integer (db.line_number f.method f.pc) ] ]
            error
    ∧ out_of_ticks_error db s
        = propagate_error db (frame_return s)
            [ Data.list [Data.error methoderr_id, Data.string "Out of ticks", Data.integer 0],
              Data.list
                [ Data.symbol interpreter_id,
                  (if f.method.name = NOT_AN_IDENT then Data.integer 0
                   else Data.symbol f.method.name),
                  Data.dbref f.object, Data.dbref f.method.object,
                  Data.integer (db.line_number f.method f.pc) ] ]
            methoderr_id := by
  constructor
  · simp only [user_error, hs, start_error, fill_in_method_info]
    cases arg <;> rfl
  · simp only [out_of_ticks_error, hs, start_error, fill_in_method_info]

/-- C17: `start_error` hands `propagate_error` the two-element traceback made of
the error condition [Error kind, String explanation, argument or Integer 0] and
of the location it was given; the location that `interp_error` gives is
['function or 'opcode, symbol of the last opcode of the current frame], with
'function exactly when the name of that opcode begins with a lowercase
letter. -/
theorem start_error_traceback (op_table : Int → Op_info) (db : Db) (s : VM) (error : Ident)
    (explanation : String) (arg : Option Data) (location : List Data) :
    start_error db s error explanation arg location
        = propagate_error db s
            [ Data.list [Data.error error, Data.string explanation,
                arg.getD (Data.integer 0)],
              Data.list location ]
            error
    ∧ [ Data.list [Data.error error, Data.string explanation, arg.getD (Data.integer 0)],
        Data.list location ].length = 2
    ∧ (∀ (f : Frame) (rest : List Frame), s.frames = f :: rest →
        ∃ location_type : Ident,
          interp_error op_table db s error explanation
            = start_error db s error explanation none
                [Data.symbol location_type, Data.symbol (op_table f.last_opcode).symbol]
          ∧ (location_type = function_id ↔
              ∃ (c : Char) (cs : List Char),
                (op_table f.last_opcode).name.data = c :: cs ∧ 'a' ≤ c ∧ c ≤ 'z')
          ∧ (location_type = opcode_id ↔
              ¬ ∃ (c : Char) (cs : List Char),
                (op_table f.last_opcode).name.data = c :: cs ∧ 'a' ≤ c ∧ c ≤ 'z')) := by
  refine ⟨?_, rfl, ?_⟩
  · simp only [start_error]
    cases arg <;> rfl
  · intro f rest hs
    have hlow : opname_islower (op_table f.last_opcode).name = true ↔
        ∃ (c : Char) (cs : List Char),
          (op_table f.last_opcode).name.data = c :: cs ∧ 'a' ≤ c ∧ c ≤ 'z' := by
      unfold opname_islower
      cases hd : (op_table f.last_opcode).name.data with
      | nil => simp
      | cons c cs => simp [isLower_iff]
    have hne : ¬ function_id = opcode_id := by decide
    have hne1 : ¬ opcode_id = function_id := by decide
    refine ⟨if opname_islower (op_table f.last_opcode).name then function_id else opcode_id,
      ?_, ?_, ?_⟩
    · simp only [interp_error, hs]
    · rw [← hlow]
      by_cases h : opname_islower (op_table f.last_opcode).name = true
      · simp [h]
      · simp [h, hne1]
    · rw [← hlow]
      by_cases h : opname_islower (op_table f.last_opcode).name = true
      · simp [h, hne]
      · simp [h]

/-- C20: two tasks started one after the other through `task_method` run under
the same `task_id`: `task_method` leaves `task_id` as it found it, where `task`
increments it. -/
theorem task_method_keeps_task_id :
    ∃ s1 s2 : VM,
      task_method ex_op_table ex_db 5 ex_vm_idle 0 { dbref := 3 } ex_return_method
        = some (Except.ok s1)
      ∧ task_method ex_op_table ex_db 5 s1 0 { dbref := 3 } ex_return_method
        = some (Except.ok s2)
      ∧ (frame_start { ex_vm_idle with cur_conn := 0 } { dbref := 3 } ex_return_method
          NOT_AN_IDENT NOT_AN_IDENT 0 0).2.task_id = 0
      ∧ (frame_start { s1 with cur_conn := 0 } { dbref := 3 } ex_return_method
          NOT_AN_IDENT NOT_AN_IDENT 0 0).2.task_id = 0
      ∧ s1.task_id = 0 ∧ s2.task_id = 0 :=
  ⟨_, _, rfl, rfl, rfl, rfl, rfl, rfl⟩

/-- Instance of `frame_return_effect`: the return of a frame that owns the slots
from 2 on. -/
theorem frame_return_effect_witness :
    (frame_return ex_vm_nested).stack_pos = 2
    ∧ (frame_return ex_vm_nested).stack = [Data.integer 1, Data.integer 2]
    ∧ (frame_return ex_vm_nested).frames = [ex_frame]
    ∧ (frame_return ex_vm_nested).frame_depth = 1 :=
  ⟨(frame_return_effect ex_vm_nested ex_frame_inner [ex_frame] rfl (by decide)).1,
    (frame_return_effect ex_vm_nested ex_frame_inner [ex_frame] rfl (by decide)).2.1,
    (frame_return_effect ex_vm_nested ex_frame_inner [ex_frame] rfl (by decide)).2.2.2.1,
    (frame_return_effect ex_vm_nested ex_frame_inner [ex_frame] rfl (by decide)).2.2.2.2.1⟩

/-- Instance of `task_stack_discipline`: a task that runs to its end, and a
task whose target object is missing. -/
theorem task_stack_discipline_witness :
    (∃ s1 : VM, task ex_op_table ex_db 5 true ex_vm_idle 0 3 5 [Data.integer 1]
        = some (Except.ok s1) ∧ s1.stack_pos = 0)
    ∧ (∃ s1 : VM, task ex_op_table ex_db 5 true ex_vm_idle 0 4 5 [Data.integer 1]
        = some (Except.ok s1) ∧ s1.stack = []) :=
  ⟨⟨_, rfl,
      (task_stack_discipline ex_op_table ex_db 5 true ex_vm_idle 0 3 5 [Data.integer 1]
        (Or.inl rfl)).1 _ rfl⟩,
    (task_stack_discipline ex_op_table ex_db 5 true ex_vm_idle 0 4 5 [Data.integer 1]
      (Or.inl rfl)).2 rfl (by decide)⟩

/-- Instance of `comment_iteration`: a pass over a COMMENT with 20000 ticks
left. -/
theorem comment_iteration_witness :
    execute_iteration ex_op_table ex_db ex_vm_comment
      = { ex_vm_comment with
          frames := [{ ex_frame_comment with pc := 2, last_opcode := 2 }] } :=
  comment_iteration ex_op_table ex_db ex_vm_comment ex_frame_comment [] rfl rfl (by decide)

/-- C14, as stated, fails on a frame with one tick left: its pc points at a
COMMENT, and the pass of the loop returns the frame, with its ticks at 0,
before the COMMENT is executed. -/
theorem comment_last_tick_counterexample :
    (ex_op_table (ex_frame_last_tick.opcode_at ex_frame_last_tick.pc)).func = op_comment
    ∧ ex_vm_last_tick.frames = [ex_frame_last_tick]
    ∧ ex_frame_last_tick.ticks = 1
    ∧ (execute_iteration ex_op_table ex_db ex_vm_last_tick).frames = []
    ∧ (execute_iteration ex_op_table ex_db ex_vm_last_tick).frame_store
        = [{ ex_frame_last_tick with ticks := 0 }]
    ∧ (execute_iteration ex_op_table ex_db ex_vm_last_tick).tick = ex_vm_last_tick.tick + 1 := by
  refine ⟨rfl, rfl, rfl, ?_, ?_, ?_⟩ <;>
  simp [execute_iteration, ex_vm_last_tick, ex_frame_last_tick, ex_frame, out_of_ticks_error,
    start_error, propagate_error, frame_return]

/-- Instance of `execute_iteration_exhausted`: the last tick of a frame called
from a frame with a catch-any statement. -/
theorem execute_iteration_exhausted_witness :
    execute_iteration ex_op_table ex_db ex_vm_exhausted
        = propagate_error ex_db
            (frame_return
              { ex_vm_exhausted with
                tick := 1, frames := [{ ex_frame_last_tick with ticks := 0 }, ex_frame_catch_any] })
            [ Data.list [Data.error methoderr_id, Data.string "Out of ticks", Data.integer 0],
              Data.list (Data.symbol interpreter_id
                :: fill_in_method_info ex_db ex_frame_last_tick) ]
            methoderr_id
    ∧ (frame_return
        { ex_vm_exhausted with
          tick := 1, frames := [{ ex_frame_last_tick with ticks := 0 }, ex_frame_catch_any] }).frames
        = [ex_frame_catch_any] :=
  ⟨(execute_iteration_exhausted ex_op_table ex_db ex_vm_exhausted ex_frame_last_tick
      [ex_frame_catch_any] rfl rfl).1,
    (execute_iteration_exhausted ex_op_table ex_db ex_vm_exhausted ex_frame_last_tick
      [ex_frame_catch_any] rfl rfl).2.1⟩

/-- Instance of `raised_error_location` for `out_of_ticks_error`. -/
theorem raised_error_location_witness :
    out_of_ticks_error ex_db ex_vm_exhausted
      = propagate_error ex_db (frame_return ex_vm_exhausted)
          [ Data.list [Data.error methoderr_id, Data.string "Out of ticks", Data.integer 0],
            Data.list [Data.symbol interpreter_id, Data.symbol 8, Data.dbref 11, Data.dbref 3,
              Data.integer 0] ]
          methoderr_id :=
  (raised_error_location ex_db ex_vm_exhausted ex_frame_last_tick [ex_frame_catch_any]
    methoderr_id "Out of ticks" none rfl).2

/-- C16, as stated, fails for tick exhaustion: the location that the handler of
the caller finds in its traceback begins with the symbol 'interpreter, which is
not the symbol 'method. -/
theorem out_of_ticks_location_counterexample :
    ∃ (f : Frame) (hinfo : Handler_info) (info : List Data),
      (out_of_ticks_error ex_db ex_vm_exhausted).frames = [f]
      ∧ f.handler_info = [hinfo]
      ∧ hinfo.traceback.get? 1 = some (Data.list (Data.symbol interpreter_id :: info))
      ∧ info.length = 4
      ∧ Data.symbol interpreter_id ≠ Data.symbol method_id := by
  refine ⟨{ ex_frame_catch_any with
            pc := 7
            specifiers := []
            handler_info :=
              [{ traceback :=
                  [ Data.list [Data.error methoderr_id, Data.string "Out of ticks",
                      Data.integer 0],
                    Data.list [Data.symbol interpreter_id, Data.symbol 8, Data.dbref 11,
                      Data.dbref 3, Data.integer 0],
                    Data.list [Data.error methoderr_id, Data.symbol 5, Data.dbref 11,
                      Data.dbref 10, Data.integer 0] ],
                 error := methoderr_id }] }, _, _, ?_, rfl, rfl, rfl, ?_⟩
  · simp [out_of_ticks_error, ex_vm_exhausted, start_error, propagate_error, frame_return,
      ex_frame_catch_any, ex_frame_last_tick, ex_frame, walk_specifiers, traceback_add,
      list_add, fill_in_method_info, ex_method, ex_return_method, ex_db, NOT_AN_IDENT]
  · intro h
    injection h with h
    exact absurd h (by decide)

/-- Instance of `start_error_traceback`: the location of an error raised by the
function `noop`. -/
theorem start_error_traceback_witness :
    ∃ location_type : Ident,
      interp_error ex_op_table ex_db ex_vm_caught 20 "boom"
        = start_error ex_db ex_vm_caught 20 "boom" none
            [Data.symbol location_type, Data.symbol 36]
      ∧ location_type = function_id :=
  match (start_error_traceback ex_op_table ex_db ex_vm_caught 20 "boom" none []).2.2
      ex_frame_catch_any [] rfl with
  | ⟨t, h1, h2, _⟩ => ⟨t, h1, h2.2 ⟨'n', ['o', 'o', 'p'], rfl, by decide, by decide⟩⟩

/-- Instance of `handler_traceback_records`: an error that leaves one frame and
is caught in its caller. -/
theorem handler_traceback_records_witness :
    (propagate_error ex_db ex_vm_exhausted [] 20).frames
        = [{ ex_frame_catch_any with
              pc := 7
              handler_info :=
                [{ traceback :=
                    [] ++ frame_records ex_db 20 ([ex_frame_last_tick] ++ [ex_frame_catch_any]),
                   error := kind_after 20 [ex_frame_last_tick] }]
              specifiers := [] }]
    ∧ ([] ++ frame_records ex_db 20 ([ex_frame_last_tick] ++ [ex_frame_catch_any])).length
        = 0 + 1 + 1 :=
  handler_traceback_records ex_db [ex_frame_last_tick] ex_vm_exhausted ex_frame_catch_any []
    [] 20 [] [] 7 (-1) 0 rfl
    (by simp [unhandled_in, ex_frame_last_tick, ex_frame])
    rfl (by simp) (Or.inl rfl)

/-- C18, as stated, fails when a Catch of the frame in which an opcode raises
the error matches: the traceback of the handler-info record has three
elements, the last being the record of that frame. -/
theorem same_frame_catch_counterexample :
    ∃ (f : Frame) (hinfo : Handler_info) (condition location : Data),
      (interp_error ex_op_table ex_db ex_vm_caught 20 "boom").frames = [f]
      ∧ f.handler_info = [hinfo]
      ∧ hinfo.traceback
          = [ condition, location,
              Data.list [Data.error 20, Data.symbol 5, Data.dbref 11, Data.dbref 10,
                Data.integer 0] ]
      ∧ hinfo.traceback.length = 3 := by
  refine ⟨{ ex_frame_catch_any with
            pc := 7
            specifiers := []
            handler_info :=
              [{ traceback :=
                  [ Data.list [Data.error 20, Data.string "boom", Data.integer 0],
                    Data.list [Data.symbol function_id, Data.symbol 36],
                    Data.list [Data.error 20, Data.symbol 5, Data.dbref 11, Data.dbref 10,
                      Data.integer 0] ],
                 error := 20 }] }, _, _, _, ?_, rfl, rfl, rfl⟩
  simp [interp_error, ex_vm_caught, start_error, propagate_error, frame_return,
    ex_frame_catch_any, ex_frame, walk_specifiers, traceback_add, list_add,
    fill_in_method_info, ex_method, ex_db, NOT_AN_IDENT, ex_op_table, opname_islower]

/-- Instance of `user_error_skips_own_frame`: a throw in a frame called from a
frame with a catch-any statement. -/
theorem user_error_skips_own_frame_witness :
    user_error ex_db ex_vm_exhausted 20 "boom" none
        = propagate_error ex_db (frame_return ex_vm_exhausted)
            [ Data.list [Data.error 20, Data.string "boom", Data.integer 0],
              Data.list (Data.symbol method_id
                :: fill_in_method_info ex_db ex_frame_last_tick) ]
            20
    ∧ (frame_return ex_vm_exhausted).frames = [ex_frame_catch_any] :=
  ⟨(user_error_skips_own_frame ex_db ex_vm_exhausted ex_frame_last_tick [ex_frame_catch_any]
      20 "boom" none rfl).1,
    (user_error_skips_own_frame ex_db ex_vm_exhausted ex_frame_last_tick [ex_frame_catch_any]
      20 "boom" none rfl).2.1⟩

theorem top2_append (base : List Data) (d1 d2 : Data) :
    top2 (base ++ [d1, d2]) = some (base, d1, d2) := by
  simp [top2]

theorem top3_append (base : List Data) (d1 d2 d3 : Data) :
    top3 (base ++ [d1, d2, d3]) = some (base, d1, d2, d3) := by
  simp [top3]

theorem wrap_int_of_range (n : Int) (h1 : -(2 ^ 31) ≤ n) (h2 : n < 2 ^ 31) :
    wrap_int n = n := by
  unfold wrap_int INT_BITS
  have e : (n + 2 ^ (32 - 1)) % 2 ^ 32 = n + 2 ^ 31 := by
    apply Int.emod_eq_of_lt <;> norm_num <;> omega
  rw [e]; norm_num

theorem op_add_eq (op_table : Int → Op_info) (db : Db) (lib : Lib) (s : VM)
    (base : List Data) (d1 d2 : Data) (hstack : s.stack = base ++ [d1, d2]) :
    op_add op_table db lib s
      = match add_values lib (promote lib d1 d2).1 (promote lib d1 d2).2 with
        | Except.error t =>
          cthrow op_table db lib
            { s with stack := base ++ [(promote lib d1 d2).1, (promote lib d1 d2).2] } t
        | Except.ok (anticipate, d) =>
          { (if anticipate then
              anticipate_assignment lib
                { s with stack := base ++ [(promote lib d1 d2).1, (promote lib d1 d2).2] }
             else { s with stack := base ++ [(promote lib d1 d2).1, (promote lib d1 d2).2] })
            with stack :=
              (if anticipate then
                anticipate_assignment lib
                  { s with stack := base ++ [(promote lib d1 d2).1, (promote lib d1 d2).2] }
               else { s with stack := base ++ [(promote lib d1 d2).1, (promote lib d1 d2).2] }
              ).stack.take base.length ++ [d] } := by
  unfold op_add
  rw [hstack, top2_append]

theorem self_stack (s : VM) (stack : List Data) (h : s.stack = stack) :
    { s with stack := stack } = s := by
  cases s; simp at h; simp [h]

/-- C26 (amended): with `d1` and `d2` on top of the stack, ADD leaves in their
place: the Integer sum of two Integers (kept to the machine width, the sum
itself when it fits); the Float sum, after the conversion of the Integer, of an
Integer and a Float; the Float sum of two Floats; the concatenation of two
Strings; the first of two Lists followed by the second; for every other pair of
operand types it calls `cthrow` with `type_id` and the operands stay. -/
theorem op_add_result (op_table : Int → Op_info) (db : Db) (lib : Lib) (s : VM)
    (base : List Data) (d1 d2 : Data) (hstack : s.stack = base ++ [d1, d2]) :
    (∀ a b : Int, d1 = Data.integer a → d2 = Data.integer b →
      op_add op_table db lib s = { s with stack := base ++ [Data.integer (wrap_int (a + b))] }
      ∧ (-(2 ^ 31) ≤ a + b → a + b < 2 ^ 31 → wrap_int (a + b) = a + b))
    ∧ (∀ (a : Int) (y : Flt), d1 = Data.integer a → d2 = Data.float y →
        op_add op_table db lib s
          = { s with stack := base ++ [Data.float (lib.float_add (lib.float_of_int a) y)] })
    ∧ (∀ (x : Flt) (b : Int), d1 = Data.float x → d2 = Data.integer b →
        op_add op_table db lib s
          = { s with stack := base ++ [Data.float (lib.float_add x (lib.float_of_int b))] })
    ∧ (∀ x y : Flt, d1 = Data.float x → d2 = Data.float y →
        op_add op_table db lib s
          = { s with stack := base ++ [Data.float (lib.float_add x y)] })
    ∧ (∀ x y : String, d1 = Data.string x → d2 = Data.string y →
        op_add op_table db lib s
          = { anticipate_assignment lib s with
              stack := (anticipate_assignment lib s).stack.take base.length
                        ++ [Data.string (x ++ y)] })
    ∧ (∀ x y : List Data, d1 = Data.list x → d2 = Data.list y →
        op_add op_table db lib s
          = { anticipate_assignment lib s with
              stack := (anticipate_assignment lib s).stack.take base.length
                        ++ [Data.list (x ++ y)] })
    ∧ (¬ ((d1.is_numeric ∧ d2.is_numeric)
          ∨ (d1.type = DataType.STRING ∧ d2.type = DataType.STRING)
          ∨ (d1.type = DataType.LIST ∧ d2.type = DataType.LIST)) →
        ∃ t : Thrown, t.error = type_id ∧ op_add op_table db lib s = cthrow op_table db lib s t) := by
  have hself := self_stack s _ hstack
  refine ⟨?_, ?_, ?_, ?_, ?_, ?_, ?_⟩
  · intro a b h1 h2
    subst h1; subst h2
    refine ⟨?_, wrap_int_of_range _⟩
    rw [op_add_eq op_table db lib s base _ _ hstack]
    simp [promote, add_values]
  · intro a y h1 h2
    subst h1; subst h2
    rw [op_add_eq op_table db lib s base _ _ hstack]
    simp [promote, add_values]
  · intro x b h1 h2
    subst h1; subst h2
    rw [op_add_eq op_table db lib s base _ _ hstack]
    simp [promote, add_values]
  · intro x y h1 h2
    subst h1; subst h2
    rw [op_add_eq op_table db lib s base _ _ hstack]
    simp [promote, add_values]
  · intro x y h1 h2
    subst h1; subst h2
    rw [op_add_eq op_table db lib s base _ _ hstack]
    simp only [promote, add_values, if_true]
    rw [hself]
  · intro x y h1 h2
    subst h1; subst h2
    rw [op_add_eq op_table db lib s base _ _ hstack]
    simp only [promote, add_values, if_true]
    rw [hself]
  · intro hn
    rw [op_add_eq op_table db lib s base _ _ hstack]
    cases d1 <;> cases d2 <;>
      simp [Data.is_numeric, Data.type] at hn <;>
      simp only [promote, add_values] <;>
      exact ⟨_, rfl, by rw [hself]⟩

theorem finish_binary_self (op_table : Int → Op_info) (db : Db) (lib : Lib) (s : VM)
    (base : List Data) (d1 d2 : Data) (r : Except Thrown Data)
    (hstack : s.stack = base ++ [d1, d2]) :
    finish_binary op_table db lib s base d1 d2 r
      = match r with
        | Except.error t => cthrow op_table db lib s t
        | Except.ok d => { s with stack := base ++ [d] } := by
  unfold finish_binary
  simp only [self_stack s _ hstack]

theorem index_element_ok (len : Nat) (val : Int) (elem : Nat → Data)
    (h1 : 1 ≤ val) (h2 : val ≤ (len : Int)) :
    index_element len val elem = Except.ok (elem (val - 1).toNat) := by
  unfold index_element
  have a : ¬ val - 1 < 0 := by omega
  have b : ¬ val - 1 > (len : Int) - 1 := by omega
  simp only [if_neg a, if_neg b]

theorem index_element_range (len : Nat) (val : Int) (elem : Nat → Data)
    (h : ¬ (1 ≤ val ∧ val ≤ (len : Int))) :
    ∃ t : Thrown, index_element len val elem = Except.error t ∧ t.error = range_id := by
  unfold index_element
  by_cases a : val - 1 < 0
  · simp only [if_pos a]; exact ⟨_, rfl, rfl⟩
  · have b : val - 1 > (len : Int) - 1 := by omega
    simp only [if_neg a, if_pos b]; exact ⟨_, rfl, rfl⟩

/-- C28: INDEX, on the array `d` below the index `ind`, leaves one value in
their place or calls `cthrow`.  For a List of length `n` and an Integer `i` the
value is the element numbered `i` from 1 when `1 <= i <= n`, and the error is
`range_id` otherwise; for a String it is the one-character String of the
character numbered `i`, with the same bounds; for a Dict it is the value that
`dict_find` gives for the key `ind`, and the error is `keynf_id` when there is
none; the error is `type_id` exactly when `d` is not a List, String or Dict, or
is a List or String while `ind` is not an Integer. -/
theorem op_index_result (op_table : Int → Op_info) (db : Db) (lib : Lib) (s : VM)
    (base : List Data) (d ind : Data) (hstack : s.stack = base ++ [d, ind]) :
    (op_index op_table db lib s
        = match index_values lib d ind with
          | Except.error t => cthrow op_table db lib s t
          | Except.ok element => { s with stack := base ++ [element] })
    ∧ (∀ (elems : List Data) (i : Int), d = Data.list elems → ind = Data.integer i →
        (1 ≤ i ∧ i ≤ (elems.length : Int) →
          ∃ element : Data, elems.get? (i - 1).toNat = some element
            ∧ index_values lib d ind = Except.ok element)
        ∧ (¬ (1 ≤ i ∧ i ≤ (elems.length : Int)) →
          ∃ t : Thrown, index_values lib d ind = Except.error t ∧ t.error = range_id))
    ∧ (∀ (str : String) (i : Int), d = Data.string str → ind = Data.integer i →
        (1 ≤ i ∧ i ≤ (str.length : Int) →
          ∃ c : Char, str.data.get? (i - 1).toNat = some c
            ∧ index_values lib d ind = Except.ok (Data.string (String.mk [c])))
        ∧ (¬ (1 ≤ i ∧ i ≤ (str.length : Int)) →
          ∃ t : Thrown, index_values lib d ind = Except.error t ∧ t.error = range_id))
    ∧ (∀ entries : List (Data × Data), d = Data.dict entries →
        (∀ element : Data, lib.dict_find entries ind = some element →
          index_values lib d ind = Except.ok element)
        ∧ (lib.dict_find entries ind = none →
          ∃ t : Thrown, index_values lib d ind = Except.error t ∧ t.error = keynf_id))
    ∧ ((∃ t : Thrown, index_values lib d ind = Except.error t ∧ t.error = type_id)
        ↔ ((d.type ≠ DataType.LIST ∧ d.type ≠ DataType.STRING ∧ d.type ≠ DataType.DICT)
            ∨ ((d.type = DataType.LIST ∨ d.type = DataType.STRING)
                ∧ ind.type ≠ DataType.INTEGER))) := by
  refine ⟨?_, ?_, ?_, ?_, ?_⟩
  · unfold op_index
    rw [hstack, top2_append]
    exact finish_binary_self op_table db lib s base d ind _ hstack
  · intro elems i h1 h2
    subst h1; subst h2
    simp only [index_values]
    constructor
    · intro h
      have hlt : (i - 1).toNat < elems.length := by omega
      refine ⟨elems[(i - 1).toNat], ?_, ?_⟩
      · rw [List.get?_eq_getElem?, List.getElem?_eq_getElem hlt]
      · rw [index_element_ok _ _ _ h.1 h.2]
        simp only [List.getD_eq_getElem?_getD, List.getElem?_eq_getElem hlt, Option.getD_some]
    · intro h
      exact index_element_range _ _ _ h
  · intro str i h1 h2
    subst h1; subst h2
    simp only [index_values]
    constructor
    · intro h
      have hlt : (i - 1).toNat < str.data.length := by
        have : str.data.length = str.length := rfl
        omega
      refine ⟨str.data[(i - 1).toNat], ?_, ?_⟩
      · rw [List.get?_eq_getElem?, List.getElem?_eq_getElem hlt]
      · rw [index_element_ok _ _ _ h.1 h.2]
        simp only [List.getD_eq_getElem?_getD, List.getElem?_eq_getElem hlt, Option.getD_some]
    · intro h
      exact index_element_range _ _ _ h
  · intro entries h1
    subst h1
    simp only [index_values]
    constructor
    · intro element h; rw [h]
    · intro h; rw [h]; exact ⟨_, rfl, rfl⟩
  · have n1 : ¬ keynf_id = type_id := by decide
    have n2 : ¬ range_id = type_id := by decide
    have hrange : ∀ (len : Nat) (val : Int) (elem : Nat → Data),
        ¬ ∃ t : Thrown, index_element len val elem = Except.error t ∧ t.error = type_id := by
      intro len val elem ⟨t, h1, h2⟩
      by_cases hr : 1 ≤ val ∧ val ≤ (len : Int)
      · rw [index_element_ok _ _ _ hr.1 hr.2] at h1; cases h1
      · obtain ⟨u, hu, hk⟩ := index_element_range len val elem hr
        rw [hu] at h1; cases h1; exact n2 (hk.symm.trans h2)
    cases d <;> cases ind <;>
      simp [index_values, Data.type, hrange] <;>
      split <;> simp [n1]

theorem pop_append (s : VM) (base extra : List Data) (n : Nat)
    (hstack : s.stack = base ++ extra) (hn : extra.length = n) :
    pop n s = { s with stack := base } := by
  unfold pop
  rw [hstack]
  simp [hn.symm]

/-- C29: CASE_VALUE and CASE_RANGE in a current frame `cur_frame`, with the
controlling value `ctl` above `base`.  CASE_VALUE with the case value `val` on
top matches exactly when `data_cmp ctl val` is 0.  CASE_RANGE with the bounds
`r0`, `r1` on top calls `cthrow` with `type_id` exactly when the bounds differ
in type or are not Integers or Strings, and it raises nothing else; otherwise
it matches exactly when `ctl` has the type of the bounds and compares at least
`r0` and at most `r1`.  On a match the stack is `base` and pc is the operand
`opcodes[pc]`; on a miss the stack is `base` with `ctl`, and pc is one more. -/
theorem case_value_range (op_table : Int → Op_info) (db : Db) (lib : Lib) (s : VM)
    (cur_frame : Frame) (caller_frame : List Frame) (base : List Data) (ctl : Data)
    (hframes : s.frames = cur_frame :: caller_frame) :
    (∀ val : Data, s.stack = base ++ [ctl, val] →
      (lib.data_cmp ctl val = 0 →
        op_case_value lib s
          = { s with
              stack := base
              frames := { cur_frame with pc := cur_frame.opcode_at cur_frame.pc }
                          :: caller_frame })
      ∧ (lib.data_cmp ctl val ≠ 0 →
        op_case_value lib s
          = { s with
              stack := base ++ [ctl]
              frames := { cur_frame with pc := cur_frame.pc + 1 } :: caller_frame }))
    ∧ (∀ r0 r1 : Data, s.stack = base ++ [ctl, r0, r1] →
      ((∃ t : Thrown, case_range_match lib ctl r0 r1 = Except.error t
            ∧ op_case_range op_table db lib s = cthrow op_table db lib s t)
        ↔ ¬ (r0.type = r1.type
              ∧ (r0.type = DataType.INTEGER ∨ r0.type = DataType.STRING)))
      ∧ (∀ t : Thrown, case_range_match lib ctl r0 r1 = Except.error t → t.error = type_id)
      ∧ (r0.type = r1.type → (r0.type = DataType.INTEGER ∨ r0.type = DataType.STRING) →
          ((ctl.type = r0.type ∧ lib.data_cmp ctl r0 ≥ 0 ∧ lib.data_cmp ctl r1 ≤ 0) →
            op_case_range op_table db lib s
              = { s with
                  stack := base
                  frames := { cur_frame with pc := cur_frame.opcode_at cur_frame.pc }
                              :: caller_frame })
          ∧ (¬ (ctl.type = r0.type ∧ lib.data_cmp ctl r0 ≥ 0 ∧ lib.data_cmp ctl r1 ≤ 0) →
            op_case_range op_table db lib s
              = { s with
                  stack := base ++ [ctl]
                  frames := { cur_frame with pc := cur_frame.pc + 1 } :: caller_frame }))) := by
  constructor
  · intro val hstack
    have h2 : pop 2 s = { s with stack := base } := pop_append s base [ctl, val] 2 hstack rfl
    have h1 : pop 1 s = { s with stack := base ++ [ctl] } :=
      pop_append s (base ++ [ctl]) [val] 1 (by simpa using hstack) rfl
    constructor
    · intro hcmp
      unfold op_case_value
      rw [hstack, top2_append]
      simp only [if_pos hcmp, h2, jump_operand, hframes]
    · intro hcmp
      unfold op_case_value
      rw [hstack, top2_append]
      simp only [if_neg hcmp, h1, skip_operand, hframes]
  · intro r0 r1 hstack
    have h3 : pop 3 s = { s with stack := base } :=
      pop_append s base [ctl, r0, r1] 3 hstack rfl
    have h2 : pop 2 s = { s with stack := base ++ [ctl] } :=
      pop_append s (base ++ [ctl]) [r0, r1] 2 (by simpa using hstack) rfl
    have hop : op_case_range op_table db lib s
        = match case_range_match lib ctl r0 r1 with
          | Except.error t => cthrow op_table db lib s t
          | Except.ok is_match =>
            if is_match then jump_operand (pop 3 s) else skip_operand (pop 2 s) := by
      unfold op_case_range
      rw [hstack, top3_append]
    refine ⟨?_, ?_, ?_⟩
    · constructor
      · rintro ⟨t, ht, -⟩ ⟨hsame, hkind⟩
        unfold case_range_match at ht
        rw [if_neg (not_not.mpr hsame)] at ht
        have : ¬ (r0.type ≠ DataType.INTEGER ∧ r0.type ≠ DataType.STRING) := by
          rintro ⟨a, b⟩
          cases hkind with
          | inl h => exact a h
          | inr h => exact b h
        rw [if_neg this] at ht
        cases ht
      · intro h
        by_cases hsame : r0.type = r1.type
        · have hkind : r0.type ≠ DataType.INTEGER ∧ r0.type ≠ DataType.STRING := by
            constructor
            · intro a; exact h ⟨hsame, Or.inl a⟩
            · intro b; exact h ⟨hsame, Or.inr b⟩
          have hm : case_range_match lib ctl r0 r1
              = Except.error
                  { error := type_id, fmt := "%D and %D are not integers or strings.",
                    args := [r0, r1] } := by
            unfold case_range_match
            rw [if_neg (not_not.mpr hsame), if_pos hkind]
          exact ⟨_, hm, by rw [hop, hm]⟩
        · have hm : case_range_match lib ctl r0 r1
              = Except.error
                  { error := type_id, fmt := "%D and %D are not of the same type.",
                    args := [r0, r1] } := by
            unfold case_range_match
            rw [if_pos hsame]
          exact ⟨_, hm, by rw [hop, hm]⟩
    · intro t ht
      unfold case_range_match at ht
      split at ht
      · cases ht; rfl
      · split at ht
        · cases ht; rfl
        · cases ht
    · intro hsame hkind
      have hnk : ¬ (r0.type ≠ DataType.INTEGER ∧ r0.type ≠ DataType.STRING) := by
        rintro ⟨a, b⟩
        cases hkind with
        | inl h => exact a h
        | inr h => exact b h
      have hm : case_range_match lib ctl r0 r1
          = Except.ok
              (decide (ctl.type = r0.type)
                && decide (lib.data_cmp ctl r0 ≥ 0)
                && decide (lib.data_cmp ctl r1 ≤ 0)) := by
        unfold case_range_match
        rw [if_neg (not_not.mpr hsame), if_neg hnk]
      constructor
      · intro hin
        have hb : (decide (ctl.type = r0.type)
                && decide (lib.data_cmp ctl r0 ≥ 0)
                && decide (lib.data_cmp ctl r1 ≤ 0)) = true := by
          simp [hin.1, hin.2.1, hin.2.2]
        rw [hop, hm, hb]
        simp only [if_true, h3, jump_operand, hframes]
      · intro hout
        have hb : (decide (ctl.type = r0.type)
                && decide (lib.data_cmp ctl r0 ≥ 0)
                && decide (lib.data_cmp ctl r1 ≤ 0)) = false := by
          rw [Bool.eq_false_iff]
          intro h
          simp only [Bool.and_eq_true, decide_eq_true_eq] at h
          exact hout ⟨h.1.1, h.1.2, h.2⟩
        rw [hop, hm, hb]
        simp only [Bool.false_eq_true, if_false, h2, skip_operand, hframes]

theorem case_value_range_witness :
    op_case_value ex_lib (ex_vm_with [Data.integer 3, Data.integer 3])
        = { ex_vm_with [Data.integer 3, Data.integer 3] with
            stack := []
            frames := [{ ex_frame with pc := ex_frame.opcode_at ex_frame.pc }] }
    ∧ op_case_value ex_lib (ex_vm_with [Data.integer 3, Data.integer 4])
        = { ex_vm_with [Data.integer 3, Data.integer 4] with
            stack := [Data.integer 3]
            frames := [{ ex_frame with pc := ex_frame.pc + 1 }] }
    ∧ op_case_range ex_op_table ex_db ex_lib
          (ex_vm_with [Data.integer 3, Data.integer 1, Data.integer 3])
        = { ex_vm_with [Data.integer 3, Data.integer 1, Data.integer 3] with
            stack := []
            frames := [{ ex_frame with pc := ex_frame.opcode_at ex_frame.pc }] }
    ∧ op_case_range ex_op_table ex_db ex_lib
          (ex_vm_with [Data.integer 4, Data.integer 1, Data.integer 3])
        = { ex_vm_with [Data.integer 4, Data.integer 1, Data.integer 3] with
            stack := [Data.integer 4]
            frames := [{ ex_frame with pc := ex_frame.pc + 1 }] } :=
  ⟨((case_value_range ex_op_table ex_db ex_lib
        (ex_vm_with [Data.integer 3, Data.integer 3]) ex_frame [] [] (Data.integer 3) rfl).1
      (Data.integer 3) rfl).1 (by decide),
   ((case_value_range ex_op_table ex_db ex_lib
        (ex_vm_with [Data.integer 3, Data.integer 4]) ex_frame [] [] (Data.integer 3) rfl).1
      (Data.integer 4) rfl).2 (by decide),
   ((case_value_range ex_op_table ex_db ex_lib
        (ex_vm_with [Data.integer 3, Data.integer 1, Data.integer 3]) ex_frame [] []
        (Data.integer 3) rfl).2 (Data.integer 1) (Data.integer 3) rfl).2.2 rfl (Or.inl rfl)
      |>.1 (by decide),
   ((case_value_range ex_op_table ex_db ex_lib
        (ex_vm_with [Data.integer 4, Data.integer 1, Data.integer 3]) ex_frame [] []
        (Data.integer 4) rfl).2 (Data.integer 1) (Data.integer 3) rfl).2.2 rfl (Or.inl rfl)
      |>.2 (by decide)⟩

theorem op_add_result_witness :
    (op_add ex_op_table ex_db ex_lib (ex_vm_with [Data.integer 5, Data.integer 2])
        = { ex_vm_with [Data.integer 5, Data.integer 2] with
            stack := [] ++ [Data.integer (wrap_int (5 + 2))] }
      ∧ wrap_int (5 + 2) = 5 + 2)
    ∧ op_add ex_op_table ex_db ex_lib (ex_vm_with [Data.string "a", Data.string "b"])
        = { anticipate_assignment ex_lib (ex_vm_with [Data.string "a", Data.string "b"]) with
            stack := (anticipate_assignment ex_lib
                        (ex_vm_with [Data.string "a", Data.string "b"])).stack.take 0
                      ++ [Data.string ("a" ++ "b")] }
    ∧ ∃ t : Thrown, t.error = type_id
        ∧ op_add ex_op_table ex_db ex_lib (ex_vm_with [Data.integer 5, Data.string "a"])
            = cthrow ex_op_table ex_db ex_lib (ex_vm_with [Data.integer 5, Data.string "a"]) t :=
  ⟨⟨((op_add_result ex_op_table ex_db ex_lib (ex_vm_with [Data.integer 5, Data.integer 2]) []
        (Data.integer 5) (Data.integer 2) rfl).1 5 2 rfl rfl).1,
    ((op_add_result ex_op_table ex_db ex_lib (ex_vm_with [Data.integer 5, Data.integer 2]) []
        (Data.integer 5) (Data.integer 2) rfl).1 5 2 rfl rfl).2 (by decide) (by decide)⟩,
   (op_add_result ex_op_table ex_db ex_lib (ex_vm_with [Data.string "a", Data.string "b"]) []
        (Data.string "a") (Data.string "b") rfl).2.2.2.2.1 "a" "b" rfl rfl,
   (op_add_result ex_op_table ex_db ex_lib (ex_vm_with [Data.integer 5, Data.string "a"]) []
        (Data.integer 5) (Data.string "a") rfl).2.2.2.2.2.2 (by
          simp [Data.is_numeric, Data.type])⟩

/-- C26 (counterexample): two Floats are none of the pairs that the claim
lists (two Integers, an Integer with a Float, two Strings, two Lists), and ADD
raises nothing on them: it leaves their Float sum in their place. -/
theorem op_add_float_float_counterexample :
    add_values ex_lib (promote ex_lib (Data.float 1) (Data.float 2)).1
        (promote ex_lib (Data.float 1) (Data.float 2)).2
      = Except.ok (false, Data.float (ex_lib.float_add 1 2))
    ∧ op_add ex_op_table ex_db ex_lib (ex_vm_with [Data.float 1, Data.float 2])
        = { ex_vm_with [Data.float 1, Data.float 2] with
            stack := [Data.float (ex_lib.float_add 1 2)] } :=
  ⟨rfl, rfl⟩

theorem op_index_result_witness :
    (∃ element : Data,
        [Data.integer 10, Data.integer 20, Data.integer 30].get? ((2 : Int) - 1).toNat
            = some element
          ∧ index_values ex_lib
              (Data.list [Data.integer 10, Data.integer 20, Data.integer 30]) (Data.integer 2)
            = Except.ok element)
    ∧ (∃ t : Thrown,
        index_values ex_lib
            (Data.list [Data.integer 10, Data.integer 20, Data.integer 30]) (Data.integer 4)
          = Except.error t ∧ t.error = range_id)
    ∧ (∃ c : Char, "abc".data.get? ((2 : Int) - 1).toNat = some c
          ∧ index_values ex_lib (Data.string "abc") (Data.integer 2)
              = Except.ok (Data.string (String.mk [c])))
    ∧ (∃ t : Thrown,
        index_values ex_lib (Data.dict [(Data.integer 1, Data.integer 2)]) (Data.integer 3)
          = Except.error t ∧ t.error = keynf_id) :=
  ⟨((op_index_result ex_op_table ex_db ex_lib
        (ex_vm_with [Data.list [Data.integer 10, Data.integer 20, Data.integer 30],
          Data.integer 2]) []
        (Data.list [Data.integer 10, Data.integer 20, Data.integer 30]) (Data.integer 2)
        rfl).2.1 _ 2 rfl rfl).1 ⟨by decide, by decide⟩,
   ((op_index_result ex_op_table ex_db ex_lib
        (ex_vm_with [Data.list [Data.integer 10, Data.integer 20, Data.integer 30],
          Data.integer 4]) []
        (Data.list [Data.integer 10, Data.integer 20, Data.integer 30]) (Data.integer 4)
        rfl).2.1 _ 4 rfl rfl).2 (by decide),
   ((op_index_result ex_op_table ex_db ex_lib
        (ex_vm_with [Data.string "abc", Data.integer 2]) []
        (Data.string "abc") (Data.integer 2) rfl).2.2.1 "abc" 2 rfl rfl).1
      ⟨by decide, by decide⟩,
   ((op_index_result ex_op_table ex_db ex_lib
        (ex_vm_with [Data.dict [(Data.integer 1, Data.integer 2)], Data.integer 3]) []
        (Data.dict [(Data.integer 1, Data.integer 2)]) (Data.integer 3) rfl).2.2.2.1
      [(Data.integer 1, Data.integer 2)] rfl).2 rfl⟩

/-- C30: BITAND, BITOR, SHR and SHL, with `d1` below `d2` on top of the stack,
leave one value in their place or call `cthrow`, as `bitwise_values` decides
with the C operator of each.  The error is `type_id` exactly when an operand is
not an Integer.  For Integers `a` and `b` the value is `a & b`, `a | b`,
`a >> b`, `a << b` only when `b` is not 0: with `b = 0` each of the four calls
`cthrow` with `div_id` and the operands stay. -/
theorem bitwise_zero_right (op_table : Int → Op_info) (db : Db) (lib : Lib) (s : VM)
    (base : List Data) (d1 d2 : Data) (hstack : s.stack = base ++ [d1, d2]) :
    (∀ combine : Int → Int → Int,
      ((∃ t : Thrown, bitwise_values combine d1 d2 = Except.error t ∧ t.error = type_id)
        ↔ (d1.type ≠ DataType.INTEGER ∨ d2.type ≠ DataType.INTEGER))
      ∧ (∀ a b : Int, d1 = Data.integer a → d2 = Data.integer b → b ≠ 0 →
          bitwise_values combine d1 d2 = Except.ok (Data.integer (combine a b)))
      ∧ (∀ a : Int, d1 = Data.integer a → d2 = Data.integer 0 →
          bitwise_values combine d1 d2
            = Except.error
                { error := div_id, fmt := "Attempt to divide %D by zero.", args := [d1] }))
    ∧ (∀ a b : Int, d1 = Data.integer a → d2 = Data.integer b → b ≠ 0 →
        op_bwand op_table db lib s = { s with stack := base ++ [Data.integer (Int.land a b)] }
        ∧ op_bwor op_table db lib s = { s with stack := base ++ [Data.integer (Int.lor a b)] }
        ∧ op_bwshr op_table db lib s
            = { s with stack := base ++ [Data.integer (shift_right a b)] }
        ∧ op_bwshl op_table db lib s
            = { s with stack := base ++ [Data.integer (shift_left a b)] })
    ∧ (∀ a : Int, d1 = Data.integer a → d2 = Data.integer 0 →
        ∃ t : Thrown, t.error = div_id
          ∧ op_bwand op_table db lib s = cthrow op_table db lib s t
          ∧ op_bwor op_table db lib s = cthrow op_table db lib s t
          ∧ op_bwshr op_table db lib s = cthrow op_table db lib s t
          ∧ op_bwshl op_table db lib s = cthrow op_table db lib s t) := by
  have hop : ∀ combine : Int → Int → Int,
      (match top2 s.stack with
        | none => s
        | some (base, d1, d2) =>
          finish_binary op_table db lib s base d1 d2 (bitwise_values combine d1 d2))
        = match bitwise_values combine d1 d2 with
          | Except.error t => cthrow op_table db lib s t
          | Except.ok d => { s with stack := base ++ [d] } := by
    intro combine
    rw [hstack, top2_append]
    exact finish_binary_self op_table db lib s base d1 d2 _ hstack
  have hdiv : ¬ div_id = type_id := by decide
  have hval : ∀ (combine : Int → Int → Int) (a b : Int), b ≠ 0 →
      bitwise_values combine (Data.integer a) (Data.integer b)
        = Except.ok (Data.integer (combine a b)) := by
    intro combine a b hb
    simp only [bitwise_values, if_neg hb]
  have hzero : ∀ (combine : Int → Int → Int) (a : Int),
      bitwise_values combine (Data.integer a) (Data.integer 0)
        = Except.error
            { error := div_id, fmt := "Attempt to divide %D by zero.",
              args := [Data.integer a] } := by
    intro combine a
    simp only [bitwise_values, if_true]
  refine ⟨?_, ?_, ?_⟩
  · intro combine
    refine ⟨?_, ?_, ?_⟩
    · cases d1 <;> cases d2 <;> simp [bitwise_values, Data.type]
      split <;> simp [hdiv]
    · intro a b h1 h2 hb
      subst h1; subst h2
      exact hval combine a b hb
    · intro a h1 h2
      subst h1; subst h2
      exact hzero combine a
  · intro a b h1 h2 hb
    subst h1; subst h2
    refine ⟨?_, ?_, ?_, ?_⟩
    · exact (hop Int.land).trans (by rw [hval _ a b hb])
    · exact (hop Int.lor).trans (by rw [hval _ a b hb])
    · exact (hop shift_right).trans (by rw [hval _ a b hb])
    · exact (hop shift_left).trans (by rw [hval _ a b hb])
  · intro a h1 h2
    subst h1; subst h2
    refine ⟨{ error := div_id, fmt := "Attempt to divide %D by zero.",
              args := [Data.integer a] }, rfl, ?_, ?_, ?_, ?_⟩
    · exact (hop Int.land).trans (by rw [hzero _ a])
    · exact (hop Int.lor).trans (by rw [hzero _ a])
    · exact (hop shift_right).trans (by rw [hzero _ a])
    · exact (hop shift_left).trans (by rw [hzero _ a])

theorem bitwise_zero_right_witness :
    (∃ t : Thrown, t.error = div_id
      ∧ op_bwand ex_op_table ex_db ex_lib (ex_vm_with [Data.integer 5, Data.integer 0])
          = cthrow ex_op_table ex_db ex_lib (ex_vm_with [Data.integer 5, Data.integer 0]) t
      ∧ op_bwor ex_op_table ex_db ex_lib (ex_vm_with [Data.integer 5, Data.integer 0])
          = cthrow ex_op_table ex_db ex_lib (ex_vm_with [Data.integer 5, Data.integer 0]) t
      ∧ op_bwshr ex_op_table ex_db ex_lib (ex_vm_with [Data.integer 5, Data.integer 0])
          = cthrow ex_op_table ex_db ex_lib (ex_vm_with [Data.integer 5, Data.integer 0]) t
      ∧ op_bwshl ex_op_table ex_db ex_lib (ex_vm_with [Data.integer 5, Data.integer 0])
          = cthrow ex_op_table ex_db ex_lib (ex_vm_with [Data.integer 5, Data.integer 0]) t)
    ∧ op_bwand ex_op_table ex_db ex_lib (ex_vm_with [Data.integer 5, Data.integer 3])
        = { ex_vm_with [Data.integer 5, Data.integer 3] with
            stack := [] ++ [Data.integer (Int.land 5 3)] } :=
  ⟨(bitwise_zero_right ex_op_table ex_db ex_lib (ex_vm_with [Data.integer 5, Data.integer 0])
      [] (Data.integer 5) (Data.integer 0) rfl).2.2 5 rfl rfl,
   ((bitwise_zero_right ex_op_table ex_db ex_lib (ex_vm_with [Data.integer 5, Data.integer 3])
      [] (Data.integer 5) (Data.integer 3) rfl).2.1 5 3 rfl rfl (by decide)).1⟩

theorem is_seg_cons (vms : List VMState) (head : Option Nat) (vm : Nat) (rest : List Nat)
    (last : Option Nat) :
    is_seg vms head (vm :: rest) last
      ↔ head = some vm ∧ ∃ record, vms.get? vm = some record ∧ is_seg vms record.next rest last := by
  simp only [is_seg]
  constructor
  · rintro ⟨h1, h2⟩
    refine ⟨h1, ?_⟩
    cases h : vms.get? vm with
    | none => rw [h] at h2; exact h2.elim
    | some record => rw [h] at h2; exact ⟨record, rfl, h2⟩
  · rintro ⟨h1, record, h2, h3⟩
    refine ⟨h1, ?_⟩
    rw [h2]; exact h3

theorem is_seg_nil (vms : List VMState) (head last : Option Nat) :
    is_seg vms head [] last ↔ head = last := by
  simp only [is_seg]

theorem is_seg_append (vms : List VMState) (l1 l2 : List Nat) (head last : Option Nat) :
    is_seg vms head (l1 ++ l2) last
      ↔ ∃ mid, is_seg vms head l1 mid ∧ is_seg vms mid l2 last := by
  induction l1 generalizing head with
  | nil =>
    simp only [List.nil_append, is_seg_nil]
    constructor
    · intro h; exact ⟨head, rfl, h⟩
    · rintro ⟨mid, h1, h2⟩; rw [h1]; exact h2
  | cons a l1 ih =>
    simp only [List.cons_append, is_seg_cons]
    constructor
    · rintro ⟨h1, record, h2, h3⟩
      obtain ⟨mid, h4, h5⟩ := (ih _).mp h3
      exact ⟨mid, ⟨h1, record, h2, h4⟩, h5⟩
    · rintro ⟨mid, ⟨h1, record, h2, h4⟩, h5⟩
      exact ⟨h1, record, h2, (ih _).mpr ⟨mid, h4, h5⟩⟩

theorem is_seg_mem_lt (vms : List VMState) (l : List Nat) (head last : Option Nat)
    (h : is_seg vms head l last) : ∀ a ∈ l, a < vms.length := by
  induction l generalizing head with
  | nil => intro a ha; cases ha
  | cons b l ih =>
    obtain ⟨-, record, h2, h3⟩ := (is_seg_cons _ _ _ _ _).mp h
    intro a ha
    rcases List.mem_cons.mp ha with rfl | ha
    · rw [List.get?_eq_getElem?] at h2
      exact (List.getElem?_eq_some_iff.mp h2).1
    · exact ih _ h3 a ha

theorem is_seg_mem_get (vms : List VMState) (l : List Nat) (head last : Option Nat)
    (h : is_seg vms head l last) : ∀ a ∈ l, ∃ record, vms.get? a = some record := by
  intro a ha
  have hlt := is_seg_mem_lt vms l head last h a ha
  exact ⟨vms[a], by rw [List.get?_eq_getElem?, List.getElem?_eq_getElem hlt]⟩

/-- The records of a list are determined by its head. -/
theorem is_chain_unique (vms : List VMState) (l1 l2 : List Nat) (head : Option Nat)
    (h1 : is_chain vms head l1) (h2 : is_chain vms head l2) : l1 = l2 := by
  unfold is_chain at h1 h2
  induction l1 generalizing head l2 with
  | nil =>
    cases l2 with
    | nil => rfl
    | cons b l2 =>
      rw [is_seg_nil] at h1
      obtain ⟨h3, -⟩ := (is_seg_cons _ _ _ _ _).mp h2
      rw [h1] at h3; cases h3
  | cons a l1 ih =>
    obtain ⟨h3, record, h4, h5⟩ := (is_seg_cons _ _ _ _ _).mp h1
    cases l2 with
    | nil =>
      rw [is_seg_nil] at h2
      rw [h2] at h3; cases h3
    | cons b l2 =>
      obtain ⟨h6, record2, h7, h8⟩ := (is_seg_cons _ _ _ _ _).mp h2
      rw [h3] at h6
      cases h6
      rw [h4] at h7
      cases h7
      rw [ih l2 _ h5 h8]

/-- A list of records that ends with `NULL` holds no record twice. -/
theorem is_chain_nodup (vms : List VMState) (l : List Nat) (head : Option Nat)
    (h : is_chain vms head l) : l.Nodup := by
  induction l generalizing head with
  | nil => exact List.nodup_nil
  | cons a l ih =>
    obtain ⟨h3, record, h4, h5⟩ := (is_seg_cons _ _ _ _ _).mp h
    refine List.nodup_cons.mpr ⟨?_, ih _ h5⟩
    intro ha
    obtain ⟨p, q, hpq⟩ := List.append_of_mem ha
    have h6 : is_seg vms record.next (p ++ a :: q) none := by rw [← hpq]; exact h5
    obtain ⟨mid, -, h7⟩ := (is_seg_append _ _ _ _ _).mp h6
    have h8 := (is_seg_cons _ _ _ _ _).mp h7
    have h9 : is_chain vms (some a) (a :: q) := by
      unfold is_chain
      exact (is_seg_cons _ _ _ _ _).mpr ⟨rfl, h8.2⟩
    have h10 : is_chain vms (some a) (a :: l) := by
      unfold is_chain
      exact (is_seg_cons _ _ _ _ _).mpr ⟨rfl, record, h4, h5⟩
    have h11 := is_chain_unique _ _ _ _ h9 h10
    have h12 : q = l := by cases h11; rfl
    have h13 : l.length = p.length + (q.length + 1) := by
      rw [hpq]; simp
    rw [h12] at h13
    omega

theorem nodup_length_le (l : List Nat) (n : Nat) (hn : l.Nodup) (hlt : ∀ a ∈ l, a < n) :
    l.length ≤ n := by
  have hsub : l ⊆ List.range n := fun a ha => List.mem_range.mpr (hlt a ha)
  have := (List.subperm_of_subset hn hsub).length_le
  simpa using this

theorem is_chain_length_le (vms : List VMState) (l : List Nat) (head : Option Nat)
    (h : is_chain vms head l) : l.length ≤ vms.length :=
  nodup_length_le l vms.length (is_chain_nodup vms l head h) (is_seg_mem_lt vms l head none h)

theorem is_seg_set (vms : List VMState) (l : List Nat) (head last : Option Nat)
    (x : Nat) (r : VMState) (h : is_seg vms head l last) (hx : x ∉ l) :
    is_seg (vms.set x r) head l last := by
  induction l generalizing head with
  | nil => exact h
  | cons a l ih =>
    obtain ⟨h3, record, h4, h5⟩ := (is_seg_cons _ _ _ _ _).mp h
    have hxa : x ≠ a := fun e => hx (e ▸ List.mem_cons_self _ _)
    have hxl : x ∉ l := fun e => hx (List.mem_cons_of_mem _ e)
    refine (is_seg_cons _ _ _ _ _).mpr ⟨h3, record, ?_, ih _ h5 hxl⟩
    rw [List.get?_eq_getElem?, List.getElem?_set_ne hxa, ← List.get?_eq_getElem?]
    exact h4

theorem is_seg_append_heap (vms extra : List VMState) (l : List Nat) (head last : Option Nat)
    (h : is_seg vms head l last) : is_seg (vms ++ extra) head l last := by
  induction l generalizing head with
  | nil => exact h
  | cons a l ih =>
    obtain ⟨h3, record, h4, h5⟩ := (is_seg_cons _ _ _ _ _).mp h
    refine (is_seg_cons _ _ _ _ _).mpr ⟨h3, record, ?_, ih _ h5⟩
    rw [List.get?_eq_getElem?] at h4 ⊢
    have hlt := (List.getElem?_eq_some_iff.mp h4).1
    rw [List.getElem?_append_left hlt]
    exact h4

/-- Two heaps with the same records at the addresses of a list hold the same
list there. -/
theorem is_seg_congr (vms vms2 : List VMState) (l : List Nat) (head last : Option Nat)
    (h : is_seg vms head l last) (hsame : ∀ a ∈ l, vms2.get? a = vms.get? a) :
    is_seg vms2 head l last := by
  induction l generalizing head with
  | nil => exact h
  | cons a l ih =>
    obtain ⟨h3, record, h4, h5⟩ := (is_seg_cons _ _ _ _ _).mp h
    refine (is_seg_cons _ _ _ _ _).mpr ⟨h3, record, ?_, ?_⟩
    · rw [hsame a (List.mem_cons_self _ _)]; exact h4
    · exact ih _ h5 (fun b hb => hsame b (List.mem_cons_of_mem _ hb))

theorem id_entry_of_get (vms : List VMState) (vm : Nat) (record : VMState)
    (h : vms.get? vm = some record) : id_entry vms vm = Data.integer record.task_id := by
  simp only [id_entry, h]

theorem task_list_from_seg (vms : List VMState) (l : List Nat) (head : Option Nat)
    (r : List Data) (fuel : Nat) (h : is_chain vms head l) (hf : l.length < fuel) :
    task_list_from vms r fuel head = some (r ++ l.map (id_entry vms)) := by
  unfold is_chain at h
  induction l generalizing head r fuel with
  | nil =>
    rw [is_seg_nil] at h
    subst h
    cases fuel with
    | zero => simp at hf
    | succ fuel => simp [task_list_from]
  | cons a l ih =>
    obtain ⟨h3, record, h4, h5⟩ := (is_seg_cons _ _ _ _ _).mp h
    subst h3
    cases fuel with
    | zero => simp at hf
    | succ fuel =>
      simp only [task_list_from, h4]
      rw [ih _ _ fuel h5 (by simpa using hf)]
      simp [list_add, id_entry_of_get vms a record h4]

theorem task_list_chains (s : VM) (suspended queued : List Nat)
    (htasks : is_chain s.vms s.tasks suspended) (hpaused : is_chain s.vms s.paused queued) :
    task_list s = some (suspended.map (id_entry s.vms) ++ queued.map (id_entry s.vms)) := by
  unfold task_list
  rw [task_list_from_seg _ _ _ _ _ htasks
        (Nat.lt_succ_of_le (is_chain_length_le _ _ _ htasks))]
  simp only [List.nil_append]
  rw [task_list_from_seg _ _ _ _ _ hpaused
        (Nat.lt_succ_of_le (is_chain_length_le _ _ _ hpaused))]

theorem task_lookup_in_found (vms : List VMState) (tid : Int) (pre : List Nat) (vm : Nat)
    (head last : Option Nat) (record : VMState) (fuel : Nat)
    (h : is_seg vms head (pre ++ [vm]) last) (hvm : vms.get? vm = some record)
    (htid : record.task_id = tid)
    (hpre : ∀ a ∈ pre, id_entry vms a ≠ Data.integer tid) (hf : pre.length < fuel) :
    task_lookup_in vms tid fuel head = some (some vm) := by
  induction pre generalizing head fuel with
  | nil =>
    obtain ⟨h3, -⟩ := (is_seg_cons _ _ _ _ _).mp h
    subst h3
    cases fuel with
    | zero => simp at hf
    | succ fuel => simp only [task_lookup_in, hvm, if_pos htid]
  | cons a pre ih =>
    obtain ⟨h3, rec_a, h4, h5⟩ := (is_seg_cons _ _ _ _ _).mp h
    subst h3
    cases fuel with
    | zero => simp at hf
    | succ fuel =>
      have hne : rec_a.task_id ≠ tid := by
        intro e
        apply hpre a (List.mem_cons_self _ _)
        rw [id_entry_of_get vms a rec_a h4, e]
      simp only [task_lookup_in, h4, if_neg hne]
      exact ih _ fuel h5 (fun b hb => hpre b (List.mem_cons_of_mem _ hb)) (by simpa using hf)

theorem task_lookup_in_none (vms : List VMState) (tid : Int) (l : List Nat)
    (head : Option Nat) (fuel : Nat)
    (h : is_chain vms head l)
    (hl : ∀ a ∈ l, id_entry vms a ≠ Data.integer tid) (hf : l.length < fuel) :
    task_lookup_in vms tid fuel head = some none := by
  unfold is_chain at h
  induction l generalizing head fuel with
  | nil =>
    rw [is_seg_nil] at h
    subst h
    cases fuel with
    | zero => simp at hf
    | succ fuel => simp [task_lookup_in]
  | cons a l ih =>
    obtain ⟨h3, rec_a, h4, h5⟩ := (is_seg_cons _ _ _ _ _).mp h
    subst h3
    cases fuel with
    | zero => simp at hf
    | succ fuel =>
      have hne : rec_a.task_id ≠ tid := by
        intro e
        apply hl a (List.mem_cons_self _ _)
        rw [id_entry_of_get vms a rec_a h4, e]
      simp only [task_lookup_in, h4, if_neg hne]
      exact ih _ fuel h5 (fun b hb => hl b (List.mem_cons_of_mem _ hb)) (by simpa using hf)

/-- The walk of `task_delete` stops at the record before `elem`. -/
theorem task_delete_walk_found (vms : List VMState) (elem : Nat) (pre : List Nat) (p : Nat)
    (head : Option Nat) (fuel : Nat)
    (h : is_seg vms head (pre ++ [p]) (some elem)) (hnot : elem ∉ pre ++ [p])
    (hf : pre.length < fuel) :
    task_delete_walk vms elem fuel head = some (some p) := by
  induction pre generalizing head fuel with
  | nil =>
    obtain ⟨h3, rec_p, h4, h5⟩ := (is_seg_cons _ _ _ _ _).mp h
    rw [is_seg_nil] at h5
    subst h3
    cases fuel with
    | zero => simp at hf
    | succ fuel => simp only [task_delete_walk, h4, if_neg (not_not.mpr h5)]
  | cons a pre ih =>
    obtain ⟨h3, rec_a, h4, h5⟩ := (is_seg_cons _ _ _ _ _).mp h
    subst h3
    cases fuel with
    | zero => simp at hf
    | succ fuel =>
      have hne : rec_a.next ≠ some elem := by
        intro e
        rw [e] at h5
        cases pre with
        | nil =>
          obtain ⟨h6, -⟩ := (is_seg_cons _ _ _ _ _).mp h5
          cases h6
          exact hnot (by simp)
        | cons b pre =>
          obtain ⟨h6, -⟩ := (is_seg_cons _ _ _ _ _).mp h5
          cases h6
          exact hnot (by simp)
      simp only [task_delete_walk, h4, if_pos hne]
      exact ih _ fuel h5 (fun hm => hnot (List.mem_cons_of_mem _ hm)) (by simpa using hf)

/-- The walk of `task_delete` along a list that ends with `NULL` comes to an
end, at a record of the list or at `NULL`. -/
theorem task_delete_walk_ends (vms : List VMState) (elem : Nat) (l : List Nat)
    (head : Option Nat) (fuel : Nat) (h : is_chain vms head l) (hf : l.length < fuel) :
    ∃ res, task_delete_walk vms elem fuel head = some res ∧ ∀ p, res = some p → p ∈ l := by
  unfold is_chain at h
  induction l generalizing head fuel with
  | nil =>
    rw [is_seg_nil] at h
    subst h
    cases fuel with
    | zero => simp at hf
    | succ fuel => exact ⟨none, by simp [task_delete_walk], by intro p hp; cases hp⟩
  | cons a l ih =>
    obtain ⟨h3, rec_a, h4, h5⟩ := (is_seg_cons _ _ _ _ _).mp h
    subst h3
    cases fuel with
    | zero => simp at hf
    | succ fuel =>
      by_cases hne : rec_a.next ≠ some elem
      · obtain ⟨res, h6, h7⟩ := ih _ fuel h5 (by simpa using hf)
        refine ⟨res, ?_, fun p hp => List.mem_cons_of_mem _ (h7 p hp)⟩
        simp only [task_delete_walk, h4, if_pos hne]
        exact h6
      · refine ⟨some a, ?_, ?_⟩
        · simp only [task_delete_walk, h4, if_neg hne]
        · intro p hp; cases hp; exact List.mem_cons_self _ _

/-- The walk of `task_delete` along a list finds nothing when `elem` is not
the successor of a record of the list. -/
theorem task_delete_walk_none (vms : List VMState) (elem : Nat) (l : List Nat)
    (head : Option Nat) (fuel : Nat) (h : is_chain vms head l) (hnot : elem ∉ l.tail)
    (hf : l.length < fuel) :
    task_delete_walk vms elem fuel head = some none := by
  unfold is_chain at h
  induction l generalizing head fuel with
  | nil =>
    rw [is_seg_nil] at h
    subst h
    cases fuel with
    | zero => simp at hf
    | succ fuel => simp [task_delete_walk]
  | cons a l ih =>
    obtain ⟨h3, rec_a, h4, h5⟩ := (is_seg_cons _ _ _ _ _).mp h
    subst h3
    cases fuel with
    | zero => simp at hf
    | succ fuel =>
      simp only [List.tail_cons] at hnot
      have hne : rec_a.next ≠ some elem := by
        intro e
        rw [e] at h5
        cases l with
        | nil => rw [is_seg_nil] at h5; cases h5
        | cons b l =>
          obtain ⟨h6, -⟩ := (is_seg_cons _ _ _ _ _).mp h5
          cases h6
          exact hnot (List.mem_cons_self _ _)
      simp only [task_delete_walk, h4, if_pos hne]
      exact ih _ fuel h5 (fun hm => hnot (List.mem_of_mem_tail hm)) (by simpa using hf)

theorem get_set_if (vms : List VMState) (v : Nat) (r : VMState) (hv : v < vms.length) (a : Nat) :
    (vms.set v r).get? a = if a = v then some r else vms.get? a := by
  rw [List.get?_eq_getElem?, List.get?_eq_getElem?]
  by_cases h : a = v
  · subst h
    rw [if_pos rfl, List.getElem?_set_self hv]
  · rw [if_neg h, List.getElem?_set_ne (fun e => h e.symm)]

theorem get_append_if (vms : List VMState) (r : VMState) (a : Nat) :
    (vms ++ [r]).get? a = if a = vms.length then some r else vms.get? a := by
  rw [List.get?_eq_getElem?, List.get?_eq_getElem?]
  by_cases h : a = vms.length
  · subst h
    rw [if_pos rfl, List.getElem?_append_right (le_refl _)]
    simp
  · rw [if_neg h]
    by_cases hlt : a < vms.length
    · rw [List.getElem?_append_left hlt]
    · have h1 : vms.length < a := by omega
      rw [List.getElem?_eq_none (by simp; omega), List.getElem?_eq_none (by omega)]

theorem get_lt (vms : List VMState) (a : Nat) (record : VMState)
    (h : vms.get? a = some record) : a < vms.length := by
  rw [List.get?_eq_getElem?] at h
  exact (List.getElem?_eq_some_iff.mp h).1

/-- The result of `suspend_vm`: the record `vm` holds the snapshot of the
globals, every other record is as before; `vm` was the head of `vmstore` or is
new. -/
theorem suspend_vm_spec (s : VM) (hfree : ∀ f, s.vmstore = some f → f < s.vms.length) :
    ∃ (vm : Nat) (rest : Option Nat) (vms1 : List VMState),
      suspend_vm s = some (vm, { s with vmstore := rest, vms := vms1 })
        ∧ (∀ a, vms1.get? a = if a = vm then some s.snapshot else s.vms.get? a)
        ∧ (s.vmstore = some vm ∨ (s.vmstore = none ∧ vm = s.vms.length))
        ∧ (∀ f, rest = some f → ∃ g record, s.vmstore = some g ∧ s.vms.get? g = some record
              ∧ record.next = some f) := by
  unfold suspend_vm
  cases hv : s.vmstore with
  | none =>
    refine ⟨s.vms.length, none, s.vms ++ [s.snapshot], ?_, get_append_if _ _, Or.inr ⟨rfl, rfl⟩, ?_⟩
    · simp only [← hv]
    · intro f hf; cases hf
  | some f =>
    have hlt := hfree f hv
    have hget : s.vms.get? f = some s.vms[f] := by
      rw [List.get?_eq_getElem?, List.getElem?_eq_getElem hlt]
    refine ⟨f, (s.vms[f]).next, s.vms.set f s.snapshot, ?_, get_set_if _ _ _ hlt, Or.inl rfl, ?_⟩
    · simp only [hget]
    · intro g hg
      exact ⟨f, s.vms[f], rfl, hget, hg⟩

theorem restore_vm_eq (vm : Nat) (s : VM) (record : VMState) (h : s.vms.get? vm = some record) :
    restore_vm vm s
      = some { s with task_id := record.task_id, frames := record.frames,
                      cur_conn := record.cur_conn, stack := record.stack,
                      stack_buf := record.stack_buf, arg_starts := record.arg_starts } := by
  simp only [restore_vm, h]

theorem ADD_TASK_eq (the_list : TaskList) (the_value : Nat) (s : VM) (record : VMState)
    (h : s.vms.get? the_value = some record) :
    ADD_TASK the_list the_value s
      = some { s.set_head the_list (some the_value) with
               vms := s.vms.set the_value { record with next := s.head the_list } } := by
  simp only [ADD_TASK, h]
  cases s.head the_list <;> rfl

theorem set_head_vms (s : VM) (l : TaskList) (h : Option Nat) :
    (s.set_head l h).vms = s.vms := by cases l <;> rfl
theorem set_head_frames (s : VM) (l : TaskList) (h : Option Nat) :
    (s.set_head l h).frames = s.frames := by cases l <;> rfl
theorem set_head_stack (s : VM) (l : TaskList) (h : Option Nat) :
    (s.set_head l h).stack = s.stack := by cases l <;> rfl
theorem set_head_cur_conn (s : VM) (l : TaskList) (h : Option Nat) :
    (s.set_head l h).cur_conn = s.cur_conn := by cases l <;> rfl
theorem set_head_arg_starts (s : VM) (l : TaskList) (h : Option Nat) :
    (s.set_head l h).arg_starts = s.arg_starts := by cases l <;> rfl
theorem set_head_task_id (s : VM) (l : TaskList) (h : Option Nat) :
    (s.set_head l h).task_id = s.task_id := by cases l <;> rfl
theorem set_head_stack_buf (s : VM) (l : TaskList) (h : Option Nat) :
    (s.set_head l h).stack_buf = s.stack_buf := by cases l <;> rfl
theorem set_head_stack_store (s : VM) (l : TaskList) (h : Option Nat) :
    (s.set_head l h).stack_store = s.stack_store := by cases l <;> rfl
theorem set_head_buf_count (s : VM) (l : TaskList) (h : Option Nat) :
    (s.set_head l h).buf_count = s.buf_count := by cases l <;> rfl
theorem set_head_head (s : VM) (l : TaskList) (h : Option Nat) :
    (s.set_head l h).head l = h := by cases l <;> rfl
theorem set_head_head_ne (s : VM) (l l2 : TaskList) (h : Option Nat) (hne : l2 ≠ l) :
    (s.set_head l h).head l2 = s.head l2 := by
  cases l <;> cases l2 <;> first | rfl | exact (hne rfl).elim

/-- C24: `task_suspend` takes a record `vm`, the head of `vmstore` or a new one,
writes the caller's frame chain, connection, value stack, argument-start stack
and task id to it with `paused = 0`, and makes it the head of the suspended
queue, its `next` being the old head; the engine is left with no current frame,
an empty value stack and argument-start stack (`stack_pos = arg_pos = 0`), and
buffers other than the caller's.  `task_pause` does the same with `paused = 1`
and the paused queue.  Every other record and the other queue stay as they
are. -/
theorem task_suspend_pause (s : VM)
    (hfree : ∀ f, s.vmstore = some f → f < s.vms.length)
    (hbuf : s.stack_buf ∉ s.stack_store) (hcount : s.stack_buf < s.buf_count) :
    (∃ (vm : Nat) (s2 : VM), task_suspend s = some s2
      ∧ (s.vmstore = some vm ∨ (s.vmstore = none ∧ vm = s.vms.length))
      ∧ s2.tasks = some vm
      ∧ s2.vms.get? vm
          = some { paused := 0, frames := s.frames, cur_conn := s.cur_conn, stack := s.stack,
                   stack_buf := s.stack_buf, arg_starts := s.arg_starts,
                   task_id := s.task_id, next := s.tasks }
      ∧ (∀ a, a ≠ vm → s2.vms.get? a = s.vms.get? a)
      ∧ s2.paused = s.paused
      ∧ s2.frames = [] ∧ s2.stack = [] ∧ s2.arg_starts = []
      ∧ s2.stack_buf ≠ s.stack_buf)
    ∧ (∃ (vm : Nat) (s2 : VM), task_pause s = some s2
      ∧ (s.vmstore = some vm ∨ (s.vmstore = none ∧ vm = s.vms.length))
      ∧ s2.paused = some vm
      ∧ s2.vms.get? vm
          = some { paused := 1, frames := s.frames, cur_conn := s.cur_conn, stack := s.stack,
                   stack_buf := s.stack_buf, arg_starts := s.arg_starts,
                   task_id := s.task_id, next := s.paused }
      ∧ (∀ a, a ≠ vm → s2.vms.get? a = s.vms.get? a)
      ∧ s2.tasks = s.tasks
      ∧ s2.frames = [] ∧ s2.stack = [] ∧ s2.arg_starts = []
      ∧ s2.stack_buf ≠ s.stack_buf) := by
  obtain ⟨vm, rest, vms1, hs, hget, hfrom, -⟩ := suspend_vm_spec s hfree
  have hvm : vms1.get? vm = some s.snapshot := by rw [hget vm, if_pos rfl]
  have hlt : vm < vms1.length := get_lt _ _ _ hvm
  have hinit : ∀ s3 : VM, s3.stack_buf = s.stack_buf → s3.stack_store = s.stack_store →
      s3.buf_count = s.buf_count →
      ({ init_execute s3 with frames := [] } : VM).stack_buf ≠ s.stack_buf
      ∧ ({ init_execute s3 with frames := [] } : VM).stack = []
      ∧ ({ init_execute s3 with frames := [] } : VM).arg_starts = []
      ∧ ({ init_execute s3 with frames := [] } : VM).vms = s3.vms
      ∧ ({ init_execute s3 with frames := [] } : VM).tasks = s3.tasks
      ∧ ({ init_execute s3 with frames := [] } : VM).paused = s3.paused := by
    intro s3 h1 h2 h3
    unfold init_execute
    cases hst : s3.stack_store with
    | nil =>
      refine ⟨?_, rfl, rfl, rfl, rfl, rfl⟩
      show s3.buf_count ≠ s.stack_buf
      omega
    | cons holder pool =>
      refine ⟨?_, rfl, rfl, rfl, rfl, rfl⟩
      show holder ≠ s.stack_buf
      intro e
      apply hbuf
      rw [← h2, hst, ← e]
      exact List.mem_cons_self _ _
  constructor
  · have e1 : task_suspend s
        = some { init_execute
                  ({ VM.set_head { s with vmstore := rest, vms := vms1 } TaskList.tasks
                        (some vm) with
                     vms := List.set vms1 vm { s.snapshot with next := s.tasks } }) with
                 frames := [] } := by
      unfold task_suspend
      simp only [hs]
      rw [ADD_TASK_eq TaskList.tasks vm _ s.snapshot hvm]
      rfl
    refine ⟨vm, _, e1, hfrom, ?_⟩
    · obtain ⟨h1, h2, h3, h4, h5, h6⟩ :=
        hinit ({ VM.set_head { s with vmstore := rest, vms := vms1 } TaskList.tasks (some vm) with
                 vms := List.set vms1 vm { s.snapshot with next := s.tasks } }) rfl rfl rfl
      refine ⟨?_, ?_, ?_, ?_, rfl, h2, h3, h1⟩
      · rw [h5]; rfl
      · rw [h4]
        show (List.set vms1 vm _).get? vm = _
        rw [get_set_if _ _ _ hlt, if_pos rfl]
        rfl
      · intro a ha
        rw [h4]
        show (List.set vms1 vm _).get? a = _
        rw [get_set_if _ _ _ hlt, if_neg ha, hget a, if_neg ha]
      · rw [h6]; rfl
  · have hset : (vms1.set vm { s.snapshot with paused := 1 }).get? vm
        = some { s.snapshot with paused := 1 } := by
      rw [get_set_if _ _ _ hlt, if_pos rfl]
    have hlen : vm < (vms1.set vm { s.snapshot with paused := 1 }).length := by
      simpa using hlt
    have e2 : task_pause s
        = some { init_execute
                  ({ VM.set_head { s with vmstore := rest,
                                          vms := vms1.set vm { s.snapshot with paused := 1 } }
                        TaskList.paused (some vm) with
                     vms := List.set (vms1.set vm { s.snapshot with paused := 1 }) vm
                              { s.snapshot with paused := 1, next := s.paused } }) with
                 frames := [] } := by
      unfold task_pause
      simp only [hs, hvm]
      rw [ADD_TASK_eq TaskList.paused vm _ _ hset]
      rfl
    refine ⟨vm, _, e2, hfrom, ?_⟩
    · obtain ⟨h1, h2, h3, h4, h5, h6⟩ :=
        hinit ({ VM.set_head { s with vmstore := rest,
                                       vms := vms1.set vm { s.snapshot with paused := 1 } }
                    TaskList.paused (some vm) with
                 vms := List.set (vms1.set vm { s.snapshot with paused := 1 }) vm
                          { s.snapshot with paused := 1, next := s.paused } }) rfl rfl rfl
      refine ⟨?_, ?_, ?_, ?_, rfl, h2, h3, h1⟩
      · rw [h6]; rfl
      · rw [h4]
        show (List.set (vms1.set vm _) vm _).get? vm = _
        rw [get_set_if _ _ _ hlen, if_pos rfl]
        rfl
      · intro a ha
        rw [h4]
        show (List.set (vms1.set vm _) vm _).get? a = _
        rw [get_set_if _ _ _ hlen, if_neg ha, get_set_if _ _ _ hlt, if_neg ha, hget a, if_neg ha]
      · rw [h5]; rfl

theorem set_head_self (s : VM) (l : TaskList) : s.set_head l (s.head l) = s := by
  cases l <;> rfl

theorem is_seg_get_head (vms : List VMState) (vm : Nat) (rest : List Nat) (head last : Option Nat)
    (h : is_seg vms head (vm :: rest) last) :
    head = some vm ∧ ∃ record, vms.get? vm = some record ∧ is_seg vms record.next rest last :=
  (is_seg_cons _ _ _ _ _).mp h

/-- The macro `REMOVE_TASK` on the list `tasks`: the record is taken out of the
list, and only the record before it is written to. -/
theorem REMOVE_TASK_tasks (s : VM) (pre post : List Nat) (vm : Nat)
    (h : is_chain s.vms s.tasks (pre ++ vm :: post)) :
    ∃ (head2 : Option Nat) (vms2 : List VMState),
      REMOVE_TASK TaskList.tasks vm s = some { s with tasks := head2, vms := vms2 }
        ∧ is_chain vms2 head2 (pre ++ post)
        ∧ (∀ a, a ∉ pre → vms2.get? a = s.vms.get? a) := by
  have hnd := is_chain_nodup _ _ _ h
  have hlen := is_chain_length_le _ _ _ h
  unfold is_chain at h
  obtain ⟨mid, hpre, hrest⟩ := (is_seg_append _ _ _ _ _).mp h
  obtain ⟨hmid, record, hvm, hpost⟩ := (is_seg_cons _ _ _ _ _).mp hrest
  subst hmid
  have hvm_pre : vm ∉ pre := by
    intro hm
    have := List.nodup_append.mp hnd
    exact this.2.2 hm (List.mem_cons_self _ _)
  have hpre_post : ∀ a ∈ pre, a ∉ post := by
    intro a ha hp
    have := List.nodup_append.mp hnd
    exact this.2.2 ha (List.mem_cons_of_mem _ hp)
  rcases List.eq_nil_or_concat pre with hnil | ⟨pre1, p, hcat⟩
  · subst hnil
    rw [is_seg_nil] at hpre
    refine ⟨record.next, s.vms, ?_, ?_, fun a _ => rfl⟩
    · unfold REMOVE_TASK
      have : s.head TaskList.tasks = some vm := hpre
      rw [if_pos this]
      simp only [hvm]
      rfl
    · unfold is_chain
      simpa using hpost
  · subst hcat
    rw [List.concat_eq_append] at hpre hvm_pre hpre_post hnd hlen ⊢
    obtain ⟨mid2, hpre1, hp⟩ := (is_seg_append _ _ _ _ _).mp hpre
    obtain ⟨hmid2, rec_p, hgp, hpn⟩ := (is_seg_cons _ _ _ _ _).mp hp
    rw [is_seg_nil] at hpn
    subst hmid2
    have hp_ne : p ≠ vm := fun e => hvm_pre (by simp [e])
    have hp_pre1 : p ∉ pre1 := by
      intro hm
      have h1 := (List.nodup_append.mp hnd).1
      have h2 := List.nodup_append.mp h1
      exact h2.2.2 hm (List.mem_singleton_self _)
    have hp_post : p ∉ post := hpre_post p (by simp)
    have hhead_ne : ¬ s.head TaskList.tasks = some vm := by
      intro e
      have e1 : s.tasks = some vm := e
      cases pre1 with
      | nil =>
        obtain ⟨e2, -⟩ := (is_seg_cons _ _ _ _ _).mp hpre
        rw [e1] at e2; cases e2; exact hp_ne rfl
      | cons b pre1 =>
        obtain ⟨e2, -⟩ := (is_seg_cons _ _ _ _ _).mp hpre
        rw [e1] at e2; cases e2
        exact hvm_pre (by simp)
    have hwalk : task_delete_walk s.vms vm (s.vms.length + 1) s.tasks = some (some p) := by
      apply task_delete_walk_found s.vms vm pre1 p s.tasks _ hpre hvm_pre
      simp at hlen
      omega
    have hplt : p < s.vms.length := get_lt _ _ _ hgp
    refine ⟨s.tasks, s.vms.set p { rec_p with next := record.next }, ?_, ?_, ?_⟩
    · unfold REMOVE_TASK
      rw [if_neg hhead_ne]
      unfold task_delete
      have : ¬ (s.head TaskList.tasks ≠ s.tasks) := fun hh => hh rfl
      simp only [if_neg this]
      have e3 : s.head TaskList.tasks = s.tasks := rfl
      rw [e3, hwalk]
      simp only [hgp, hvm]
    · unfold is_chain
      refine (is_seg_append _ _ _ _ _).mpr ⟨record.next, ?_, ?_⟩
      · refine (is_seg_append _ _ _ _ _).mpr ⟨some p, ?_, ?_⟩
        · exact is_seg_set _ _ _ _ _ _ hpre1 hp_pre1
        · refine (is_seg_cons _ _ _ _ _).mpr ⟨rfl, { rec_p with next := record.next }, ?_, ?_⟩
          · rw [get_set_if _ _ _ hplt, if_pos rfl]
          · rw [is_seg_nil]
      · exact is_seg_set _ _ _ _ _ _ hpost hp_post
    · intro a ha
      have hap : a ≠ p := fun e => ha (by simp [e])
      rw [get_set_if _ _ _ hplt, if_neg hap]

/-- The macro `REMOVE_TASK` has a result on a list that ends with `NULL` and a
record of this list; it writes to the head of the list and to the `next` field
of one record of the list at most. -/
theorem REMOVE_TASK_some (the_list : TaskList) (s : VM) (chain : List Nat) (vm : Nat)
    (h : is_chain s.vms (s.head the_list) chain) (hmem : vm ∈ chain) :
    ∃ (head2 : Option Nat) (vms2 : List VMState),
      REMOVE_TASK the_list vm s = some { s.set_head the_list head2 with vms := vms2 }
        ∧ (∀ a, a ∉ chain → vms2.get? a = s.vms.get? a)
        ∧ (∀ a record, s.vms.get? a = some record →
            ∃ record2, vms2.get? a = some record2) := by
  obtain ⟨rec_vm, hvm⟩ := is_seg_mem_get _ _ _ _ h vm hmem
  have hlen := is_chain_length_le _ _ _ h
  unfold REMOVE_TASK
  by_cases hhead : s.head the_list = some vm
  · rw [if_pos hhead]
    simp only [hvm]
    exact ⟨rec_vm.next, s.vms, by cases the_list <;> rfl, fun a _ => rfl,
      fun a record ha => ⟨record, ha⟩⟩
  · rw [if_neg hhead]
    unfold task_delete
    -- the value of `list` before the loop, with the list that it starts
    have hstart : ∃ (list1 : Option Nat) (chain1 : List Nat),
        (if s.head the_list ≠ s.tasks then
            match s.head the_list with
            | none => none
            | some first => (s.vms.get? first).map (fun record => record.next)
          else some (s.head the_list)) = some list1
          ∧ is_chain s.vms list1 chain1 ∧ (∀ a ∈ chain1, a ∈ chain)
          ∧ chain1.length ≤ chain.length := by
      by_cases hskip : s.head the_list ≠ s.tasks
      · rw [if_pos hskip]
        cases chain with
        | nil => cases hmem
        | cons first chain1 =>
          obtain ⟨e1, rec_first, e2, e3⟩ := (is_seg_cons _ _ _ _ _).mp h
          refine ⟨rec_first.next, chain1, ?_, e3, fun a ha => List.mem_cons_of_mem _ ha, by simp⟩
          rw [e1]
          simp only [e2, Option.map_some']
      · rw [if_neg hskip]
        exact ⟨s.head the_list, chain, rfl, h, fun a ha => ha, le_refl _⟩
    obtain ⟨list1, chain1, e1, hchain1, hsub, hlen1⟩ := hstart
    rw [e1]
    obtain ⟨res, hwalk, hres⟩ :=
      task_delete_walk_ends s.vms vm chain1 list1 (s.vms.length + 1) hchain1 (by omega)
    simp only [hwalk]
    cases res with
    | none =>
      refine ⟨s.head the_list, s.vms, ?_, fun a _ => rfl, fun a record ha => ⟨record, ha⟩⟩
      simp only [set_head_self]
    | some p =>
      have hp : p ∈ chain := hsub p (hres p rfl)
      obtain ⟨rec_p, hgp⟩ := is_seg_mem_get _ _ _ _ h p hp
      have hplt := get_lt _ _ _ hgp
      simp only [hgp, hvm]
      refine ⟨s.head the_list, s.vms.set p { rec_p with next := rec_vm.next }, ?_, ?_, ?_⟩
      · simp only [set_head_self]
      · intro a ha
        have hap : a ≠ p := fun e => ha (e ▸ hp)
        rw [get_set_if _ _ _ hplt, if_neg hap]
      · intro a record ha
        rw [get_set_if _ _ _ hplt]
        by_cases hap : a = p
        · rw [if_pos hap]; exact ⟨_, rfl⟩
        · rw [if_neg hap]; exact ⟨record, ha⟩

/-- The look-up of `task_lookup` in the list `tasks`: the first record that
holds `tid`. -/
theorem task_lookup_tasks (s : VM) (tid : Int) (pre post : List Nat) (vm : Nat)
    (record : VMState)
    (htasks : is_chain s.vms s.tasks (pre ++ vm :: post))
    (hvm : s.vms.get? vm = some record) (htid : record.task_id = tid)
    (hpre : ∀ a ∈ pre, id_entry s.vms a ≠ Data.integer tid) :
    task_lookup tid s = some (some vm) := by
  have hlen := is_chain_length_le _ _ _ htasks
  unfold is_chain at htasks
  obtain ⟨mid, h1, h2⟩ := (is_seg_append _ _ _ _ _).mp htasks
  obtain ⟨h3, record2, h4, h5⟩ := (is_seg_cons _ _ _ _ _).mp h2
  have hseg : is_seg s.vms s.tasks (pre ++ [vm]) record2.next :=
    (is_seg_append _ _ _ _ _).mpr
      ⟨mid, h1, (is_seg_cons _ _ _ _ _).mpr ⟨h3, record2, h4, (is_seg_nil _ _ _).mpr rfl⟩⟩
  have hf : pre.length < s.vms.length + 1 := by
    simp at hlen; omega
  unfold task_lookup
  rw [task_lookup_in_found s.vms tid pre vm s.tasks record2.next record _ hseg hvm htid hpre hf]

/-- The state on which `task_resume` enters the loop, for a task of the
suspended queue. -/
theorem task_resume_enter_spec (s : VM) (tid : Int) (ret : Option Data)
    (pre post : List Nat) (vm : Nat) (record : VMState)
    (htasks : is_chain s.vms s.tasks (pre ++ vm :: post))
    (hvm : s.vms.get? vm = some record) (htid : record.task_id = tid)
    (hpre : ∀ a ∈ pre, id_entry s.vms a ≠ Data.integer tid)
    (hfree : ∀ f, s.vmstore = some f → f < s.vms.length ∧ f ∉ pre ++ vm :: post) :
    ∃ (old_vm : Nat) (e : VM),
      task_resume_enter tid ret s = some (old_vm, e)
      ∧ is_chain e.vms e.tasks (pre ++ post)
      ∧ e.frames = record.frames
      ∧ e.stack = record.stack ++ [match ret with | some d => d | none => Data.integer 0]
      ∧ e.arg_starts = record.arg_starts ∧ e.cur_conn = record.cur_conn
      ∧ e.task_id = record.task_id ∧ e.stack_buf = record.stack_buf
      ∧ e.paused = s.paused
      ∧ e.vms.get? old_vm = some s.snapshot
      ∧ (∀ a, a ∉ pre → a ≠ vm → a ≠ old_vm → e.vms.get? a = s.vms.get? a) := by
  have hlookup := task_lookup_tasks s tid pre post vm record htasks hvm htid hpre
  have hnd := is_chain_nodup _ _ _ htasks
  have hlt := is_seg_mem_lt _ _ _ _ htasks
  obtain ⟨old_vm, rest, vms1, hs, hget, hfrom, -⟩ :=
    suspend_vm_spec s (fun f hf => (hfree f hf).1)
  have hold : old_vm ∉ pre ++ vm :: post := by
    rcases hfrom with h | ⟨-, h⟩
    · exact (hfree old_vm h).2
    · intro hm
      have := hlt old_vm hm
      omega
  have hne : vm ≠ old_vm := fun e => hold (by simp [← e])
  have hvm1 : vms1.get? vm = some record := by rw [hget vm, if_neg hne, hvm]
  have hchain1 : is_chain vms1 s.tasks (pre ++ vm :: post) := by
    apply is_seg_congr s.vms vms1 _ _ _ htasks
    intro a ha
    have : a ≠ old_vm := fun e => hold (e ▸ ha)
    rw [hget a, if_neg this]
  obtain ⟨head2, vms2, hrem, hchain2, hsame2⟩ :=
    REMOVE_TASK_tasks
      { s with vmstore := rest, vms := vms1, task_id := record.task_id,
               frames := record.frames, cur_conn := record.cur_conn, stack := record.stack,
               stack_buf := record.stack_buf, arg_starts := record.arg_starts }
      pre post vm hchain1
  have hvm_pre : vm ∉ pre := by
    intro hm
    exact (List.nodup_append.mp hnd).2.2 hm (List.mem_cons_self _ _)
  have hvm_post : vm ∉ post := by
    have := (List.nodup_append.mp hnd).2.1
    exact (List.nodup_cons.mp this).1
  have hvm2 : vms2.get? vm = some record := by
    rw [hsame2 vm hvm_pre]; exact hvm1
  have hvlt : vm < vms2.length := get_lt _ _ _ hvm2
  have hold_pre : old_vm ∉ pre := fun hm => hold (List.mem_append_left _ hm)
  refine ⟨old_vm,
    { s with vmstore := some vm, vms := vms2.set vm { record with next := rest },
             tasks := head2, task_id := record.task_id, frames := record.frames,
             cur_conn := record.cur_conn,
             stack := record.stack ++ [match ret with | some d => d | none => Data.integer 0],
             stack_buf := record.stack_buf, arg_starts := record.arg_starts },
    ?_, ?_, rfl, rfl, rfl, rfl, rfl, rfl, rfl, ?_, ?_⟩
  · unfold task_resume_enter
    rw [hlookup]
    simp only [hs]
    rw [restore_vm_eq vm _ record hvm1]
    simp only [hrem]
    rw [ADD_TASK_eq TaskList.vmstore vm _ record hvm2]
    cases ret <;> rfl
  · show is_chain (vms2.set vm _) head2 (pre ++ post)
    apply is_seg_set _ _ _ _ _ _ hchain2
    intro hm
    rcases List.mem_append.mp hm with h | h
    · exact hvm_pre h
    · exact hvm_post h
  · show (vms2.set vm _).get? old_vm = _
    rw [get_set_if _ _ _ hvlt, if_neg (fun e => hne e.symm), hsame2 old_vm hold_pre, hget old_vm,
      if_pos rfl]
  · intro a ha1 ha2 ha3
    show (vms2.set vm _).get? a = _
    rw [get_set_if _ _ _ hvlt, if_neg ha2, hsame2 a ha1, hget a, if_neg ha3]

/-- C22: for a task id `tid` held by a record `vm` of the suspended queue, the
first that holds it, `task_resume(tid, ret)` takes `vm` out of the queue, the
other records staying in their order, and calls `execute` on the frame chain and
the stack saved in `vm`, with one more value on top of the stack: `ret` when it
is given, Integer 0 when it is `NULL`; the connection, the argument-start stack
and the task id are those of `vm` as well. -/
theorem task_resume_entry (op_table : Int → Op_info) (db : Db) (fuel : Nat) (s : VM)
    (tid : Int) (ret : Option Data) (pre post : List Nat) (vm : Nat) (record : VMState)
    (htasks : is_chain s.vms s.tasks (pre ++ vm :: post))
    (hvm : s.vms.get? vm = some record) (htid : record.task_id = tid)
    (hpre : ∀ a ∈ pre, id_entry s.vms a ≠ Data.integer tid)
    (hfree : ∀ f, s.vmstore = some f → f < s.vms.length ∧ f ∉ pre ++ vm :: post) :
    ∃ (old_vm : Nat) (e : VM),
      task_resume_enter tid ret s = some (old_vm, e)
      ∧ task_resume op_table db fuel tid ret s
          = (execute op_table db fuel e).bind (task_resume_leave old_vm)
      ∧ is_chain e.vms e.tasks (pre ++ post)
      ∧ e.frames = record.frames
      ∧ e.stack = record.stack ++ [match ret with | some d => d | none => Data.integer 0]
      ∧ e.arg_starts = record.arg_starts ∧ e.cur_conn = record.cur_conn
      ∧ e.task_id = record.task_id := by
  obtain ⟨old_vm, e, h1, h2, h3, h4, h5, h6, h7, -, -, -, -⟩ :=
    task_resume_enter_spec s tid ret pre post vm record htasks hvm htid hpre hfree
  refine ⟨old_vm, e, h1, ?_, h2, h3, h4, h5, h6, h7⟩
  unfold task_resume
  rw [h1]
  show (match execute op_table db fuel e with
        | none => none
        | some s2 => task_resume_leave old_vm s2) = _
  cases execute op_table db fuel e <;> rfl

theorem frame_return_heap (s : VM) :
    (frame_return s).vms = s.vms ∧ (frame_return s).tasks = s.tasks
      ∧ (frame_return s).paused = s.paused ∧ (frame_return s).vmstore = s.vmstore
      ∧ (frame_return s).stack_buf = s.stack_buf
      ∧ (frame_return s).stack_store = s.stack_store
      ∧ (frame_return s).buf_count = s.buf_count := by
  unfold frame_return
  cases s.frames <;> exact ⟨rfl, rfl, rfl, rfl, rfl, rfl, rfl⟩

theorem frame_return_iterate_heap (n : Nat) (s : VM) :
    (frame_return^[n] s).vms = s.vms ∧ (frame_return^[n] s).tasks = s.tasks
      ∧ (frame_return^[n] s).paused = s.paused ∧ (frame_return^[n] s).vmstore = s.vmstore
      ∧ (frame_return^[n] s).stack_buf = s.stack_buf
      ∧ (frame_return^[n] s).stack_store = s.stack_store
      ∧ (frame_return^[n] s).buf_count = s.buf_count := by
  induction n generalizing s with
  | zero => exact ⟨rfl, rfl, rfl, rfl, rfl, rfl, rfl⟩
  | succ n ih =>
    rw [Function.iterate_succ_apply]
    obtain ⟨h1, h2, h3, h4, h5, h6, h7⟩ := ih (frame_return s)
    obtain ⟨g1, g2, g3, g4, g5, g6, g7⟩ := frame_return_heap s
    exact ⟨h1.trans g1, h2.trans g2, h3.trans g3, h4.trans g4, h5.trans g5, h6.trans g6,
      h7.trans g7⟩

theorem return_frames_heap (s : VM) :
    (return_frames s).vms = s.vms ∧ (return_frames s).tasks = s.tasks
      ∧ (return_frames s).paused = s.paused ∧ (return_frames s).vmstore = s.vmstore
      ∧ (return_frames s).stack_buf = s.stack_buf
      ∧ (return_frames s).stack_store = s.stack_store
      ∧ (return_frames s).buf_count = s.buf_count :=
  frame_return_iterate_heap _ s

theorem return_frames_head (s : VM) (l : TaskList) : (return_frames s).head l = s.head l := by
  obtain ⟨-, h2, h3, h4, -⟩ := return_frames_heap s
  cases l
  · exact h2
  · exact h3
  · exact h4

/-- The end of `task_resume`, `task_cancel` and `run_paused_tasks`:
`restore_vm(old_vm)` and `ADD_TASK(vmstore, old_vm)` give the globals saved in
the record back. -/
theorem restore_add_spec (old_vm : Nat) (t : VM) (snap : VMState)
    (h : t.vms.get? old_vm = some snap) :
    ∃ t2, (restore_vm old_vm t).bind (ADD_TASK TaskList.vmstore old_vm) = some t2
      ∧ t2.frames = snap.frames ∧ t2.cur_conn = snap.cur_conn ∧ t2.stack = snap.stack
      ∧ t2.arg_starts = snap.arg_starts ∧ t2.task_id = snap.task_id
      ∧ t2.stack_buf = snap.stack_buf ∧ t2.paused = t.paused ∧ t2.tasks = t.tasks
      ∧ (∀ x, x ≠ old_vm → t2.vms.get? x = t.vms.get? x) := by
  have hlt := get_lt _ _ _ h
  rw [restore_vm_eq old_vm t snap h]
  simp only [Option.some_bind]
  rw [ADD_TASK_eq TaskList.vmstore old_vm
        { t with task_id := snap.task_id, frames := snap.frames, cur_conn := snap.cur_conn,
                 stack := snap.stack, stack_buf := snap.stack_buf,
                 arg_starts := snap.arg_starts } snap h]
  refine ⟨_, rfl, rfl, rfl, rfl, rfl, rfl, rfl, rfl, rfl, ?_⟩
  intro x hx
  show (List.set t.vms old_vm _).get? x = _
  rw [get_set_if _ _ _ hlt, if_neg hx]

/-- C23: `task_resume` and `task_cancel`, called for the task id `tid` of the
record `vm`, give the globals of the caller back: on return the frame chain,
the connection, the value stack, the argument-start stack and the task id (and
the identity of the stack buffers) are those before the call.  For
`task_resume`, `vm` is in the suspended queue, the run of the task ends and
leaves the record that holds the state of the caller as it is, which no list
holds during the run; for `task_cancel`, `vm` is in the queue that its flag
`paused` names.  The head of `vmstore` is a record outside the queue. -/
theorem caller_state_restored (op_table : Int → Op_info) (db : Db) (fuel : Nat) (s : VM)
    (tid : Int) (vm : Nat) (record : VMState)
    (hvm : s.vms.get? vm = some record) (htid : record.task_id = tid) :
    (∀ (ret : Option Data) (pre post : List Nat) (old_vm : Nat) (e r : VM),
      is_chain s.vms s.tasks (pre ++ vm :: post) →
      (∀ a ∈ pre, id_entry s.vms a ≠ Data.integer tid) →
      (∀ f, s.vmstore = some f → f < s.vms.length ∧ f ∉ pre ++ vm :: post) →
      task_resume_enter tid ret s = some (old_vm, e) →
      execute op_table db fuel e = some r →
      r.vms.get? old_vm = e.vms.get? old_vm →
      ∃ s2, task_resume op_table db fuel tid ret s = some s2
        ∧ s2.frames = s.frames ∧ s2.cur_conn = s.cur_conn ∧ s2.stack = s.stack
        ∧ s2.arg_starts = s.arg_starts ∧ s2.task_id = s.task_id
        ∧ s2.stack_buf = s.stack_buf)
    ∧ (∀ (the_list : TaskList) (chain : List Nat),
      task_lookup tid s = some (some vm) →
      the_list = (if record.paused ≠ 0 then TaskList.paused else TaskList.tasks) →
      is_chain s.vms (s.head the_list) chain → vm ∈ chain →
      (∀ f, s.vmstore = some f → f < s.vms.length ∧ f ∉ chain) →
      ∃ s2, task_cancel tid s = some s2
        ∧ s2.frames = s.frames ∧ s2.cur_conn = s.cur_conn ∧ s2.stack = s.stack
        ∧ s2.arg_starts = s.arg_starts ∧ s2.task_id = s.task_id
        ∧ s2.stack_buf = s.stack_buf) := by
  constructor
  · intro ret pre post old_vm e r htasks hpre hfree henter hrun hkeep
    obtain ⟨old_vm2, e2, h1, -, -, -, -, -, -, -, -, hsnap, -⟩ :=
      task_resume_enter_spec s tid ret pre post vm record htasks hvm htid hpre hfree
    rw [henter] at h1
    cases h1
    have hr : (store_stack r).vms.get? old_vm = some s.snapshot := by
      show r.vms.get? old_vm = _
      rw [hkeep, hsnap]
    obtain ⟨t2, ht2, g1, g2, g3, g4, g5, g6, -, -⟩ := restore_add_spec old_vm _ _ hr
    refine ⟨t2, ?_, g1, g2, g3, g4, g5, g6⟩
    unfold task_resume
    rw [henter]
    simp only [hrun]
    unfold task_resume_leave
    rw [← ht2]
    cases restore_vm old_vm (store_stack r) <;> rfl
  · intro the_list chain hlookup hlist hchain hmem hfree
    have hlt := is_seg_mem_lt _ _ _ _ hchain
    obtain ⟨old_vm, rest, vms1, hs, hget, hfrom, -⟩ :=
      suspend_vm_spec s (fun f hf => (hfree f hf).1)
    have hold : old_vm ∉ chain := by
      rcases hfrom with h | ⟨-, h⟩
      · exact (hfree old_vm h).2
      · intro hm
        have := hlt old_vm hm
        omega
    have hne : vm ≠ old_vm := fun e => hold (e ▸ hmem)
    have hvm1 : vms1.get? vm = some record := by rw [hget vm, if_neg hne, hvm]
    -- the state after the loop of `frame_return`
    obtain ⟨s3, hs3⟩ : ∃ s3, s3 = return_frames
        { s with vmstore := rest, vms := vms1, task_id := record.task_id,
                 frames := record.frames, cur_conn := record.cur_conn, stack := record.stack,
                 stack_buf := record.stack_buf, arg_starts := record.arg_starts } := ⟨_, rfl⟩
    have hheap := return_frames_heap
        { s with vmstore := rest, vms := vms1, task_id := record.task_id,
                 frames := record.frames, cur_conn := record.cur_conn, stack := record.stack,
                 stack_buf := record.stack_buf, arg_starts := record.arg_starts }
    rw [← hs3] at hheap
    have hvms3 : s3.vms = vms1 := hheap.1
    have hhead3 : s3.head the_list = s.head the_list := by
      rw [hlist]
      split
      · exact hheap.2.2.1
      · exact hheap.2.1
    have hchain3 : is_chain s3.vms (s3.head the_list) chain := by
      rw [hvms3, hhead3]
      apply is_seg_congr s.vms vms1 _ _ _ hchain
      intro a ha
      have : a ≠ old_vm := fun e => hold (e ▸ ha)
      rw [hget a, if_neg this]
    obtain ⟨head2, vms2, hrem, hsame2, hkeep2⟩ := REMOVE_TASK_some the_list s3 chain vm hchain3 hmem
    obtain ⟨record2, hvm2⟩ := hkeep2 vm record (by rw [hvms3]; exact hvm1)
    have hvlt : vm < vms2.length := get_lt _ _ _ hvm2
    have hold2 : vms2.get? old_vm = some s.snapshot := by
      rw [hsame2 old_vm hold, hvms3, hget old_vm, if_pos rfl]
    have hadd := ADD_TASK_eq TaskList.vmstore vm
      (store_stack { s3.set_head the_list head2 with vms := vms2 }) record2 hvm2
    obtain ⟨s5, hs5⟩ : ∃ s5, s5 =
        ({ (store_stack { s3.set_head the_list head2 with vms := vms2 }).set_head
              TaskList.vmstore (some vm) with
           vms := (store_stack { s3.set_head the_list head2 with vms := vms2 }).vms.set vm
             { record2 with
               next := (store_stack { s3.set_head the_list head2 with vms := vms2 }).head
                          TaskList.vmstore } } : VM) := ⟨_, rfl⟩
    rw [← hs5] at hadd
    have hold5 : s5.vms.get? old_vm = some s.snapshot := by
      rw [hs5]
      show (List.set vms2 vm _).get? old_vm = _
      rw [get_set_if _ _ _ hvlt, if_neg (fun e => hne e.symm), hold2]
    obtain ⟨t2, ht2, g1, g2, g3, g4, g5, g6, -, -⟩ := restore_add_spec old_vm s5 _ hold5
    refine ⟨t2, ?_, g1, g2, g3, g4, g5, g6⟩
    unfold task_cancel
    rw [hlookup]
    simp only [hs]
    rw [restore_vm_eq vm _ record hvm1]
    simp only [← hs3, hvms3, hvm1]
    have hsel : (if record.paused ≠ 0 then REMOVE_TASK TaskList.paused vm s3
        else REMOVE_TASK TaskList.tasks vm s3) = REMOVE_TASK the_list vm s3 := by
      rw [hlist]
      split <;> rfl
    rw [hsel, hrem]
    simp only [hadd]
    rw [← ht2]
    cases restore_vm old_vm s5 <;> rfl

theorem task_list_from_keeps (vms : List VMState) (r0 r : List Data) (fuel : Nat)
    (head : Option Nat) (h : task_list_from vms r0 fuel head = some r) : ∀ x ∈ r0, x ∈ r := by
  induction fuel generalizing r0 head with
  | zero => simp [task_list_from] at h
  | succ fuel ih =>
    cases head with
    | none =>
      simp only [task_list_from, Option.some.injEq] at h
      subst h
      exact fun x hx => hx
    | some vm =>
      simp only [task_list_from] at h
      cases hg : vms.get? vm with
      | none => rw [hg] at h; cases h
      | some record =>
        rw [hg] at h
        intro x hx
        exact ih _ _ h x (by simp [list_add, hx])

theorem task_list_from_second (vms : List VMState) (r0 r : List Data) (fuel : Nat)
    (a b : Nat) (rec_a rec_b : VMState)
    (ha : vms.get? a = some rec_a) (hnext : rec_a.next = some b)
    (hb : vms.get? b = some rec_b)
    (h : task_list_from vms r0 fuel (some a) = some r) : Data.integer rec_b.task_id ∈ r := by
  cases fuel with
  | zero => simp [task_list_from] at h
  | succ fuel =>
    simp only [task_list_from, ha, hnext] at h
    cases fuel with
    | zero => simp [task_list_from] at h
    | succ fuel =>
      simp only [task_list_from, hb] at h
      exact task_list_from_keeps _ _ _ _ _ h _ (by simp [list_add])

/-- C21: `task_list` gives the task ids of the records of the suspended queue,
then those of the paused queue, one entry for each record.  But `task_cancel`
of the task of the second record `b` of the paused queue takes no record out of
the queue: `task_delete` starts its walk at the second record when the list is
not `tasks` (the two queues are two lists), and finds no record before `b`
there.  After the call the paused
queue starts with the same first record, followed by `b`, which holds `tid` as
before, and every list that `task_list` returns has the entry `tid`. -/
theorem task_cancel_second_paused (s : VM) (tid : Int) (suspended : List Nat) (a b : Nat)
    (rest : List Nat) (rec_b : VMState)
    (htasks : is_chain s.vms s.tasks suspended)
    (hpaused : is_chain s.vms s.paused (a :: b :: rest))
    (hb : s.vms.get? b = some rec_b) (htid : rec_b.task_id = tid) (hflag : rec_b.paused ≠ 0)
    (hlookup : task_lookup tid s = some (some b)) (hdiff : s.tasks ≠ s.paused)
    (hfree : ∀ f, s.vmstore = some f → f < s.vms.length ∧ f ∉ a :: b :: rest) :
    task_list s
        = some (suspended.map (id_entry s.vms) ++ (a :: b :: rest).map (id_entry s.vms))
    ∧ id_entry s.vms b = Data.integer tid
    ∧ ∃ s2, task_cancel tid s = some s2
        ∧ s2.paused = some a
        ∧ (∃ rec_a2, s2.vms.get? a = some rec_a2 ∧ rec_a2.next = some b)
        ∧ (∃ rec_b2, s2.vms.get? b = some rec_b2 ∧ rec_b2.task_id = tid)
        ∧ (∀ r, task_list s2 = some r → Data.integer tid ∈ r) := by
  refine ⟨task_list_chains s _ _ htasks hpaused, by rw [id_entry_of_get _ _ _ hb, htid], ?_⟩
  have hnd := is_chain_nodup _ _ _ hpaused
  have hlt := is_seg_mem_lt _ _ _ _ hpaused
  have hlen := is_chain_length_le _ _ _ hpaused
  obtain ⟨hhead, rec_a, hga, hseg_b⟩ := (is_seg_cons _ _ _ _ _).mp hpaused
  obtain ⟨hanext, rec_b0, hgb0, hseg_rest⟩ := (is_seg_cons _ _ _ _ _).mp hseg_b
  have hab : a ≠ b := by
    intro e
    have := (List.nodup_cons.mp hnd).1
    exact this (by simp [e])
  have hb_rest : b ∉ rest := (List.nodup_cons.mp (List.nodup_cons.mp hnd).2).1
  obtain ⟨old_vm, free, vms1, hs, hget, hfrom, -⟩ :=
    suspend_vm_spec s (fun f hf => (hfree f hf).1)
  have hold : old_vm ∉ a :: b :: rest := by
    rcases hfrom with h | ⟨-, h⟩
    · exact (hfree old_vm h).2
    · intro hm
      have := hlt old_vm hm
      omega
  have hne_b : b ≠ old_vm := fun e => hold (by simp [← e])
  have hne_a : a ≠ old_vm := fun e => hold (by simp [← e])
  have hb1 : vms1.get? b = some rec_b := by rw [hget b, if_neg hne_b, hb]
  have ha1 : vms1.get? a = some rec_a := by rw [hget a, if_neg hne_a, hga]
  obtain ⟨s3, hs3⟩ : ∃ s3, s3 = return_frames
      { s with vmstore := free, vms := vms1, task_id := rec_b.task_id,
               frames := rec_b.frames, cur_conn := rec_b.cur_conn, stack := rec_b.stack,
               stack_buf := rec_b.stack_buf, arg_starts := rec_b.arg_starts } := ⟨_, rfl⟩
  have hheap := return_frames_heap
      { s with vmstore := free, vms := vms1, task_id := rec_b.task_id,
               frames := rec_b.frames, cur_conn := rec_b.cur_conn, stack := rec_b.stack,
               stack_buf := rec_b.stack_buf, arg_starts := rec_b.arg_starts }
  rw [← hs3] at hheap
  have hvms3 : s3.vms = vms1 := hheap.1
  have htasks3 : s3.tasks = s.tasks := hheap.2.1
  have hpaused3 : s3.paused = s.paused := hheap.2.2.1
  have hpaused3a : s3.paused = some a := by rw [hpaused3]; exact hhead
  have hchain_b : is_chain vms1 (some b) (b :: rest) := by
    have h0 : is_chain s.vms (some b) (b :: rest) := by
      unfold is_chain
      rw [← hanext]; exact hseg_b
    apply is_seg_congr s.vms vms1 _ _ _ h0
    intro x hx
    have : x ≠ old_vm := fun e => hold (e ▸ List.mem_cons_of_mem _ hx)
    rw [hget x, if_neg this]
  have hwalk : task_delete_walk s3.vms b (s3.vms.length + 1) (some b) = some none := by
    rw [hvms3]
    apply task_delete_walk_none vms1 b (b :: rest) (some b) _ hchain_b
    · simpa using hb_rest
    · exact Nat.lt_succ_of_le (is_chain_length_le _ _ _ hchain_b)
  have hrem : REMOVE_TASK TaskList.paused b s3 = some s3 := by
    unfold REMOVE_TASK
    have h1 : s3.head TaskList.paused = some a := hpaused3a
    have h2 : ¬ some a = some b := fun e => hab (Option.some.inj e)
    rw [h1, if_neg h2]
    unfold task_delete
    have h3 : some a ≠ s3.tasks := by
      rw [htasks3]
      intro e
      exact hdiff (e.symm.trans hhead.symm)
    rw [if_pos h3]
    simp only [hvms3, ha1, Option.map_some', hanext]
    rw [← hvms3, hwalk]
  have hadd := ADD_TASK_eq TaskList.vmstore b (store_stack s3) rec_b
    (by show s3.vms.get? b = _; rw [hvms3]; exact hb1)
  obtain ⟨s5, hs5⟩ : ∃ s5, s5 =
      ({ (store_stack s3).set_head TaskList.vmstore (some b) with
         vms := (store_stack s3).vms.set b
           { rec_b with next := (store_stack s3).head TaskList.vmstore } } : VM) := ⟨_, rfl⟩
  rw [← hs5] at hadd
  have hblt : b < vms1.length := get_lt _ _ _ hb1
  have hvms5 : ∀ x, s5.vms.get? x
      = if x = b then some { rec_b with next := (store_stack s3).head TaskList.vmstore }
        else vms1.get? x := by
    intro x
    rw [hs5]
    show (List.set s3.vms b _).get? x = _
    rw [hvms3, get_set_if _ _ _ hblt]
  have hold5 : s5.vms.get? old_vm = some s.snapshot := by
    rw [hvms5, if_neg (fun e => hne_b e.symm), hget old_vm, if_pos rfl]
  have hpaused5 : s5.paused = some a := by
    rw [hs5]
    exact hpaused3a
  obtain ⟨t2, ht2, -, -, -, -, -, -, g7, -, g9⟩ := restore_add_spec old_vm s5 _ hold5
  have hta : t2.vms.get? a = some rec_a := by
    rw [g9 a hne_a, hvms5, if_neg hab, ha1]
  have htb : t2.vms.get? b
      = some { rec_b with next := (store_stack s3).head TaskList.vmstore } := by
    rw [g9 b hne_b, hvms5, if_pos rfl]
  refine ⟨t2, ?_, g7.trans hpaused5, ⟨rec_a, hta, hanext⟩, ⟨_, htb, htid⟩, ?_⟩
  · unfold task_cancel
    rw [hlookup]
    simp only [hs]
    rw [restore_vm_eq b _ rec_b hb1]
    simp only [← hs3, hvms3, hb1]
    rw [if_pos hflag, hrem]
    simp only [hadd]
    rw [← ht2]
    cases restore_vm old_vm s5 <;> rfl
  · intro r hr
    unfold task_list at hr
    cases h1 : task_list_from t2.vms [] (t2.vms.length + 1) t2.tasks with
    | none => rw [h1] at hr; cases hr
    | some r1 =>
      rw [h1] at hr
      simp only [] at hr
      rw [g7.trans hpaused5] at hr
      have := task_list_from_second _ _ _ _ a b rec_a _ hta hanext htb hr
      rw [← htid]
      exact this

theorem is_seg_congr_next (vms vms2 : List VMState) (l : List Nat) (head last : Option Nat)
    (h : is_seg vms head l last)
    (hsame : ∀ a ∈ l, (vms2.get? a).map VMState.next = (vms.get? a).map VMState.next) :
    is_seg vms2 head l last := by
  induction l generalizing head with
  | nil => exact h
  | cons a l ih =>
    obtain ⟨h3, record, h4, h5⟩ := (is_seg_cons _ _ _ _ _).mp h
    have h6 := hsame a (List.mem_cons_self _ _)
    rw [h4] at h6
    cases h7 : vms2.get? a with
    | none => rw [h7] at h6; cases h6
    | some record2 =>
      rw [h7] at h6
      simp only [Option.map_some', Option.some.injEq] at h6
      refine (is_seg_cons _ _ _ _ _).mpr ⟨h3, record2, h7, ?_⟩
      rw [h6]
      exact ih _ h5 (fun b hb => hsame b (List.mem_cons_of_mem _ hb))

/-- The state on which the loop of `run_paused_tasks` calls `execute` for the
record `task`. -/
theorem run_paused_enter_inv (task : Nat) (t : VM) (nx : Option Nat) (e : VM)
    (h : run_paused_enter task t = some (nx, e)) :
    ∃ (record : VMState) (cur_frame : Frame) (caller_frame : List Frame),
      t.vms.get? task = some record ∧ record.frames = cur_frame :: caller_frame
      ∧ nx = record.next
      ∧ e.frames = { cur_frame with ticks := PAUSED_METHOD_TICKS } :: caller_frame
      ∧ e.stack = record.stack ∧ e.arg_starts = record.arg_starts
      ∧ e.cur_conn = record.cur_conn ∧ e.task_id = record.task_id
      ∧ e.paused = t.paused ∧ e.tasks = t.tasks ∧ e.vmstore = some task
      ∧ (∀ x, x ≠ task → e.vms.get? x = t.vms.get? x) := by
  unfold run_paused_enter at h
  cases hg : t.vms.get? task with
  | none =>
    rw [show restore_vm task t = none by simp only [restore_vm, hg]] at h
    exact absurd h (by simp)
  | some record =>
    have hlt := get_lt _ _ _ hg
    rw [restore_vm_eq task t record hg] at h
    simp only [] at h
    cases hf : record.frames with
    | nil => rw [hf] at h; simp at h
    | cons cur_frame caller_frame =>
      rw [hf] at h
      simp only [hg] at h
      rw [ADD_TASK_eq TaskList.vmstore task
            { t with task_id := record.task_id,
                     frames := { cur_frame with ticks := PAUSED_METHOD_TICKS } :: caller_frame,
                     cur_conn := record.cur_conn, stack := record.stack,
                     stack_buf := record.stack_buf, arg_starts := record.arg_starts }
            record hg] at h
      simp only [Option.some.injEq, Prod.mk.injEq] at h
      obtain ⟨h1, h2⟩ := h
      subst h2
      refine ⟨record, cur_frame, caller_frame, rfl, hf, h1.symm, rfl, rfl, rfl, rfl, rfl, rfl,
        rfl, rfl, ?_⟩
      intro x hx
      show (List.set t.vms task _).get? x = _
      rw [get_set_if _ _ _ hlt, if_neg hx]

/-- The loop of `run_paused_tasks` along a list of records is the run of the
batch of these records. -/
theorem run_paused_loop_batch (op_table : Int → Op_info) (db : Db) (fuel : Nat)
    (batch : List Nat) (passes : Nat) (task : Option Nat) (t : VM)
    (hchain : is_chain t.vms task batch) (hpasses : batch.length < passes)
    (hkept : batch_kept op_table db fuel batch t = true) :
    ∃ b, run_batch op_table db fuel batch t = some b
      ∧ run_paused_loop op_table db fuel passes task t = some b := by
  induction batch generalizing passes task t with
  | nil =>
    unfold is_chain at hchain
    rw [is_seg_nil] at hchain
    subst hchain
    cases passes with
    | zero => simp at hpasses
    | succ passes => exact ⟨t, rfl, rfl⟩
  | cons a rest ih =>
    have hnd := is_chain_nodup _ _ _ hchain
    have ha_rest : a ∉ rest := (List.nodup_cons.mp hnd).1
    obtain ⟨h1, rec_a, h2, h3⟩ := (is_seg_cons _ _ _ _ _).mp hchain
    subst h1
    cases passes with
    | zero => simp at hpasses
    | succ passes =>
      simp only [batch_kept] at hkept
      simp only [run_batch, run_paused_loop]
      cases he : run_paused_enter a t with
      | none => rw [he] at hkept; simp at hkept
      | some pair =>
        obtain ⟨nx, e⟩ := pair
        rw [he] at hkept
        simp only [] at hkept ⊢
        obtain ⟨record, cur_frame, caller_frame, g1, -, g3, -, -, -, -, -, -, -, -, g12⟩ :=
          run_paused_enter_inv a t nx e he
        rw [h2] at g1
        cases g1
        cases hx : execute op_table db fuel e with
        | none => rw [hx] at hkept; simp at hkept
        | some r =>
          rw [hx] at hkept
          simp only [Bool.and_eq_true, List.all_eq_true, decide_eq_true_eq] at hkept ⊢
          obtain ⟨k1, k2⟩ := hkept
          have hchain2 : is_chain (store_stack r).vms nx rest := by
            show is_seg r.vms nx rest none
            rw [g3]
            apply is_seg_congr_next t.vms r.vms _ _ _ h3
            intro x hx
            have hxa : x ≠ a := fun e => ha_rest (e ▸ hx)
            rw [k1 x hx, g12 x hxa]
          exact ih passes nx (store_stack r) hchain2 (by simpa using hpasses) k2

/-- C25: `run_paused_tasks`, called with the paused queue made of the records
`batch`, makes the queue empty and runs the batch: each record of `batch` is
restored and run once, in the order of the queue, whatever joins the paused
queue in the meantime; each run is entered with the frame chain, the stack, the
connection and the task id of its record, the ticks of the current frame being
`PAUSED_METHOD_TICKS`, 5000.  Between the runs the paused queue is not
touched, and on return it is the queue that the runs of the batch have built
from the empty queue.  Every run is taken to end and to leave the links of the
records that are still to be run as they are. -/
theorem run_paused_tasks_batch (op_table : Int → Op_info) (db : Db) (fuel : Nat) (s : VM)
    (batch : List Nat) (vm : Nat) (s1 : VM)
    (hchain : is_chain s.vms s.paused batch)
    (hfree : ∀ f, s.vmstore = some f → f < s.vms.length ∧ f ∉ batch)
    (hsus : suspend_vm s = some (vm, s1))
    (hfuel : batch.length ≤ fuel)
    (hkept : batch_kept op_table db fuel batch { s1 with paused := none } = true) :
    (∃ b, run_batch op_table db fuel batch { s1 with paused := none } = some b
        ∧ run_paused_tasks op_table db fuel s
            = (restore_vm vm b).bind (ADD_TASK TaskList.vmstore vm)
        ∧ ∀ s2, run_paused_tasks op_table db fuel s = some s2 → s2.paused = b.paused)
    ∧ (∀ (task : Nat) (t : VM) (nx : Option Nat) (e : VM),
        run_paused_enter task t = some (nx, e) →
        ∃ (record : VMState) (cur_frame : Frame) (caller_frame : List Frame),
          t.vms.get? task = some record ∧ record.frames = cur_frame :: caller_frame
          ∧ e.frames = { cur_frame with ticks := 5000 } :: caller_frame
          ∧ e.stack = record.stack ∧ e.arg_starts = record.arg_starts
          ∧ e.cur_conn = record.cur_conn ∧ e.task_id = record.task_id
          ∧ e.paused = t.paused)
    ∧ (∀ t : VM, (store_stack t).paused = t.paused) := by
  refine ⟨?_, ?_, fun t => rfl⟩
  · have hlt := is_seg_mem_lt _ _ _ _ hchain
    obtain ⟨vm2, rest, vms1, hs, hget, hfrom, -⟩ :=
      suspend_vm_spec s (fun f hf => (hfree f hf).1)
    rw [hsus] at hs
    simp only [Option.some.injEq, Prod.mk.injEq] at hs
    obtain ⟨e1, e2⟩ := hs
    subst e1
    have hold : vm ∉ batch := by
      rcases hfrom with h | ⟨-, h⟩
      · exact (hfree vm h).2
      · intro hm
        have := hlt vm hm
        omega
    have hchain1 : is_chain ({ s1 with paused := none } : VM).vms s1.paused batch := by
      show is_seg s1.vms s1.paused batch none
      rw [e2]
      show is_seg vms1 s.paused batch none
      apply is_seg_congr s.vms vms1 _ _ _ hchain
      intro a ha
      have : a ≠ vm := fun e => hold (e ▸ ha)
      rw [hget a, if_neg this]
    obtain ⟨b, hb1, hb2⟩ :=
      run_paused_loop_batch op_table db fuel batch (fuel + 1) s1.paused
        { s1 with paused := none } hchain1 (Nat.lt_succ_of_le hfuel) hkept
    have heq : run_paused_tasks op_table db fuel s
        = (restore_vm vm b).bind (ADD_TASK TaskList.vmstore vm) := by
      unfold run_paused_tasks
      rw [hsus]
      simp only [hb2]
      cases restore_vm vm b <;> rfl
    refine ⟨b, hb1, heq, ?_⟩
    intro s2 hs2
    rw [heq] at hs2
    cases hg : b.vms.get? vm with
    | none =>
      rw [show restore_vm vm b = none by simp only [restore_vm, hg]] at hs2
      exact absurd hs2 (by simp)
    | some snap =>
      obtain ⟨t2, ht2, -, -, -, -, -, -, g7, -⟩ := restore_add_spec vm b snap hg
      rw [ht2] at hs2
      cases hs2
      exact g7
  · intro task t nx e h
    obtain ⟨record, cur_frame, caller_frame, g1, g2, -, g4, g5, g6, g7, g8, g9, -⟩ :=
      run_paused_enter_inv task t nx e h
    exact ⟨record, cur_frame, caller_frame, g1, g2, g4, g5, g6, g7, g8, g9⟩

theorem task_cancel_second_paused_witness :
    (task_list ex_vm_paused
        = some (([] : List Nat).map (id_entry ex_vm_paused.vms)
            ++ [0, 1, 2].map (id_entry ex_vm_paused.vms))
      ∧ id_entry ex_vm_paused.vms 1 = Data.integer 8
      ∧ ∃ s2, task_cancel 8 ex_vm_paused = some s2
          ∧ s2.paused = some 0
          ∧ (∃ rec_a2, s2.vms.get? 0 = some rec_a2 ∧ rec_a2.next = some 1)
          ∧ (∃ rec_b2, s2.vms.get? 1 = some rec_b2 ∧ rec_b2.task_id = 8)
          ∧ (∀ r, task_list s2 = some r → Data.integer 8 ∈ r))
    ∧ task_list ex_vm_paused = some [Data.integer 7, Data.integer 8, Data.integer 9]
    ∧ (task_cancel 8 ex_vm_paused).bind task_list = some [Data.integer 7, Data.integer 8] :=
  ⟨task_cancel_second_paused ex_vm_paused 8 [] 0 1 [2] (ex_record 8 1 (some 2))
      rfl ⟨rfl, rfl, rfl, rfl⟩ rfl rfl (by decide) rfl (by decide) (fun f hf => by cases hf),
    rfl, rfl⟩

theorem task_resume_entry_witness :
    ∃ (old_vm : Nat) (e : VM),
      task_resume_enter 8 none ex_vm_suspended = some (old_vm, e)
      ∧ task_resume ex_op_table ex_db 5 8 none ex_vm_suspended
          = (execute ex_op_table ex_db 5 e).bind (task_resume_leave old_vm)
      ∧ is_chain e.vms e.tasks ([0] ++ [2])
      ∧ e.frames = [ex_frame]
      ∧ e.stack = [Data.integer 1, Data.integer 2] ++ [Data.integer 0]
      ∧ e.arg_starts = [] ∧ e.cur_conn = 4 ∧ e.task_id = 8 :=
  task_resume_entry ex_op_table ex_db 5 ex_vm_suspended 8 none [0] [2] 1
    (ex_record 8 0 (some 2)) ⟨rfl, rfl, rfl, rfl⟩ rfl rfl
    (by
      intro a ha
      simp at ha
      subst ha
      simp [id_entry, ex_vm_suspended, ex_record])
    (fun f hf => by cases hf)

theorem caller_state_restored_witness :
    (∃ s2, task_resume ex_op_table ex_db 5 8 none ex_vm_suspended = some s2
        ∧ s2.frames = ex_vm_suspended.frames ∧ s2.cur_conn = ex_vm_suspended.cur_conn
        ∧ s2.stack = ex_vm_suspended.stack ∧ s2.arg_starts = ex_vm_suspended.arg_starts
        ∧ s2.task_id = ex_vm_suspended.task_id ∧ s2.stack_buf = ex_vm_suspended.stack_buf)
    ∧ (∃ s2, task_cancel 8 ex_vm_suspended = some s2
        ∧ s2.frames = ex_vm_suspended.frames ∧ s2.cur_conn = ex_vm_suspended.cur_conn
        ∧ s2.stack = ex_vm_suspended.stack ∧ s2.arg_starts = ex_vm_suspended.arg_starts
        ∧ s2.task_id = ex_vm_suspended.task_id ∧ s2.stack_buf = ex_vm_suspended.stack_buf) :=
  ⟨(caller_state_restored ex_op_table ex_db 5 ex_vm_suspended 8 1 (ex_record 8 0 (some 2))
        rfl rfl).1 none [0] [2] ex_resume_entry.1 ex_resume_entry.2 ex_resume_run
      ⟨rfl, rfl, rfl, rfl⟩
      (by
        intro a ha
        simp at ha
        subst ha
        simp [id_entry, ex_vm_suspended, ex_record])
      (fun f hf => by cases hf) rfl rfl rfl,
   (caller_state_restored ex_op_table ex_db 5 ex_vm_suspended 8 1 (ex_record 8 0 (some 2))
        rfl rfl).2 TaskList.tasks [0, 1, 2] rfl rfl ⟨rfl, rfl, rfl, rfl⟩ (by decide)
      (fun f hf => by cases hf)⟩

theorem task_suspend_pause_witness :
    (∃ s2, task_suspend ex_vm = some s2 ∧ s2.tasks = some 0
        ∧ s2.vms.get? 0
            = some { paused := 0, frames := [ex_frame], cur_conn := 0,
                     stack := [Data.integer 1, Data.integer 2], stack_buf := 0,
                     arg_starts := [], task_id := 0, next := none }
        ∧ s2.frames = [] ∧ s2.stack = [] ∧ s2.arg_starts = [] ∧ s2.stack_buf ≠ 0)
    ∧ (∃ s2, task_pause ex_vm = some s2 ∧ s2.paused = some 0
        ∧ s2.vms.get? 0
            = some { paused := 1, frames := [ex_frame], cur_conn := 0,
                     stack := [Data.integer 1, Data.integer 2], stack_buf := 0,
                     arg_starts := [], task_id := 0, next := none }
        ∧ s2.frames = [] ∧ s2.stack = [] ∧ s2.arg_starts = [] ∧ s2.stack_buf ≠ 0) := by
  obtain ⟨⟨vm, s2, h1, h2, h3, h4, -, -, h7, h8, h9, h10⟩,
      ⟨vm2, s3, k1, k2, k3, k4, -, -, k7, k8, k9, k10⟩⟩ :=
    task_suspend_pause ex_vm (fun f hf => by cases hf) (by decide) (by decide)
  have e1 : vm = 0 := by
    rcases h2 with h | ⟨-, h⟩
    · cases h
    · exact h
  have e2 : vm2 = 0 := by
    rcases k2 with h | ⟨-, h⟩
    · cases h
    · exact h
  subst e1
  subst e2
  exact ⟨⟨s2, h1, h3, h4, h7, h8, h9, h10⟩, ⟨s3, k1, k3, k4, k7, k8, k9, k10⟩⟩

theorem run_paused_tasks_batch_witness :
    (∃ b, run_batch ex_pause_table ex_db 5 [0, 1] { ex_vm_batch_saved with paused := none }
          = some b
        ∧ run_paused_tasks ex_pause_table ex_db 5 ex_vm_batch
            = (restore_vm 2 b).bind (ADD_TASK TaskList.vmstore 2)
        ∧ ∀ s2, run_paused_tasks ex_pause_table ex_db 5 ex_vm_batch = some s2 →
            s2.paused = b.paused)
    ∧ task_list ex_vm_batch = some [Data.integer 7, Data.integer 8]
    ∧ (run_paused_tasks ex_pause_table ex_db 5 ex_vm_batch).bind task_list
        = some [Data.integer 7] :=
  ⟨(run_paused_tasks_batch ex_pause_table ex_db 5 ex_vm_batch [0, 1] 2 ex_vm_batch_saved
      ⟨rfl, rfl, rfl⟩ (fun f hf => by cases hf) rfl (by decide) rfl).1, rfl, rfl⟩

theorem frame_return_cons (s : VM) (f : Frame) (rest : List Frame) (hs : s.frames = f :: rest) :
    frame_return s
      = { s with stack := s.stack.take f.stack_start
                 frames := rest
                 frame_store := { f with specifiers := [], handler_info := [] }
                                  :: s.frame_store
                 frame_depth := s.frame_depth - 1 } := by
  simp only [frame_return, hs]

/-- C34: RETURN and RETURN_EXPR in a current frame `f` whose `stack_start` is
not above the stack position.  With a caller, both leave the caller's chain,
the slots below `f.stack_start` as they are and one value above them, so that
`stack_pos` is `f.stack_start + 1`: the Dbref of the object of `f` for RETURN,
and for RETURN_EXPR the value that was on top of the stack, which is a slot of
`f`.  Without a caller, both leave no frame and `stack_pos = f.stack_start`. -/
theorem return_leaves_value (s : VM) (f : Frame) (rest : List Frame)
    (hs : s.frames = f :: rest) (hstart : f.stack_start ≤ s.stack_pos) :
    (rest ≠ [] →
      ((op_return s).frames = rest
        ∧ (op_return s).stack = s.stack.take f.stack_start ++ [Data.dbref f.object]
        ∧ (op_return s).stack_pos = f.stack_start + 1
        ∧ (∀ i, i < f.stack_start → (op_return s).stack.get? i = s.stack.get? i)
        ∧ (op_return s).stack.get? f.stack_start = some (Data.dbref f.object))
      ∧ (∀ val : Data, f.stack_start < s.stack_pos → s.stack.getLast? = some val →
          (op_return_expr s).frames = rest
          ∧ (op_return_expr s).stack = s.stack.take f.stack_start ++ [val]
          ∧ (op_return_expr s).stack_pos = f.stack_start + 1
          ∧ (∀ i, i < f.stack_start → (op_return_expr s).stack.get? i = s.stack.get? i)
          ∧ (op_return_expr s).stack.get? f.stack_start = some val))
    ∧ (rest = [] →
      ((op_return s).frames = [] ∧ (op_return s).stack_pos = f.stack_start)
      ∧ (f.stack_start < s.stack_pos →
          (op_return_expr s).frames = [] ∧ (op_return_expr s).stack_pos = f.stack_start)) := by
  unfold VM.stack_pos at hstart
  have hlen : (s.stack.take f.stack_start).length = f.stack_start := by
    rw [List.length_take]; omega
  have hbelow : ∀ (top : Data) (i : Nat), i < f.stack_start →
      (s.stack.take f.stack_start ++ [top]).get? i = s.stack.get? i := by
    intro top i hi
    rw [List.get?_eq_getElem?, List.get?_eq_getElem?,
      List.getElem?_append_left (by rw [hlen]; exact hi), List.getElem?_take]
    simp [hi]
  have htop : ∀ top : Data,
      (s.stack.take f.stack_start ++ [top]).get? f.stack_start = some top := by
    intro top
    rw [List.get?_eq_getElem?, List.getElem?_append_right (by rw [hlen])]
    simp [hlen]
  have hdrop : f.stack_start < s.stack.length →
      s.stack.dropLast.take f.stack_start = s.stack.take f.stack_start := by
    intro h
    rw [List.dropLast_eq_take, List.take_take]
    congr 1
    omega
  constructor
  · intro hrest
    obtain ⟨caller, callers, hc⟩ := List.exists_cons_of_ne_nil hrest
    subst hc
    constructor
    · have hret : op_return s
          = { s with stack := s.stack.take f.stack_start ++ [Data.dbref f.object]
                     frames := caller :: callers
                     frame_store := { f with specifiers := [], handler_info := [] }
                                      :: s.frame_store
                     frame_depth := s.frame_depth - 1 } := by
        simp only [op_return, hs]
        rw [frame_return_cons _ f (caller :: callers) hs]
        rfl
      rw [hret]
      refine ⟨rfl, rfl, ?_, hbelow _, htop _⟩
      simp [VM.stack_pos, hlen]
    · intro val hlt hval
      unfold VM.stack_pos at hlt
      have hlast : s.stack.getLastD (Data.integer 0) = val := by
        rw [List.getLastD_eq_getLast?, hval]
        rfl
      have hexpr : op_return_expr s
          = { s with stack := s.stack.dropLast.take f.stack_start ++ [val]
                     frames := caller :: callers
                     frame_store := { f with specifiers := [], handler_info := [] }
                                      :: s.frame_store
                     frame_depth := s.frame_depth - 1 } := by
        simp only [op_return_expr, hs, hlast]
        rw [frame_return_cons _ f (caller :: callers) rfl]
      rw [hexpr, hdrop hlt]
      refine ⟨rfl, rfl, ?_, hbelow _, htop _⟩
      simp [VM.stack_pos, hlen]
  · intro hrest
    subst hrest
    constructor
    · have hret : op_return s
          = { s with stack := s.stack.take f.stack_start
                     frames := []
                     frame_store := { f with specifiers := [], handler_info := [] }
                                      :: s.frame_store
                     frame_depth := s.frame_depth - 1 } := by
        simp only [op_return, hs]
        rw [frame_return_cons _ f [] hs]
      rw [hret]
      exact ⟨rfl, hlen⟩
    · intro hlt
      unfold VM.stack_pos at hlt
      have hexpr : op_return_expr s
          = { s with stack := s.stack.dropLast.take f.stack_start
                     frames := []
                     frame_store := { f with specifiers := [], handler_info := [] }
                                      :: s.frame_store
                     frame_depth := s.frame_depth - 1 } := by
        simp only [op_return_expr, hs]
        rw [frame_return_cons _ f [] rfl]
      rw [hexpr]
      refine ⟨rfl, ?_⟩
      show (s.stack.dropLast.take f.stack_start).length = _
      rw [hdrop hlt, hlen]

theorem return_leaves_value_witness :
    ((op_return ex_vm_nested).frames = [ex_frame]
      ∧ (op_return ex_vm_nested).stack
          = ex_vm_nested.stack.take 2 ++ [Data.dbref 11]
      ∧ (op_return ex_vm_nested).stack_pos = 2 + 1)
    ∧ ((op_return_expr ex_vm_nested).frames = [ex_frame]
      ∧ (op_return_expr ex_vm_nested).stack
          = ex_vm_nested.stack.take 2 ++ [Data.integer 3]
      ∧ (op_return_expr ex_vm_nested).stack_pos = 2 + 1)
    ∧ ((op_return ex_vm).frames = [] ∧ (op_return ex_vm).stack_pos = 0)
    ∧ ((op_return_expr ex_vm).frames = [] ∧ (op_return_expr ex_vm).stack_pos = 0) :=
  ⟨⟨((return_leaves_value ex_vm_nested ex_frame_inner [ex_frame] rfl (by decide)).1
        (by simp)).1.1,
    ((return_leaves_value ex_vm_nested ex_frame_inner [ex_frame] rfl (by decide)).1
        (by simp)).1.2.1,
    ((return_leaves_value ex_vm_nested ex_frame_inner [ex_frame] rfl (by decide)).1
        (by simp)).1.2.2.1⟩,
   ⟨(((return_leaves_value ex_vm_nested ex_frame_inner [ex_frame] rfl (by decide)).1
        (by simp)).2 (Data.integer 3) (by decide) rfl).1,
    (((return_leaves_value ex_vm_nested ex_frame_inner [ex_frame] rfl (by decide)).1
        (by simp)).2 (Data.integer 3) (by decide) rfl).2.1,
    (((return_leaves_value ex_vm_nested ex_frame_inner [ex_frame] rfl (by decide)).1
        (by simp)).2 (Data.integer 3) (by decide) rfl).2.2.1⟩,
   ((return_leaves_value ex_vm ex_frame [] rfl (by decide)).2 rfl).1,
   ((return_leaves_value ex_vm ex_frame [] rfl (by decide)).2 rfl).2 (by decide)⟩

theorem propagate_error_nil (db : Db) (s : VM) (tb : List Data) (error : Ident)
    (hs : s.frames = []) : propagate_error db s tb error = s := by
  rw [propagate_error]
  split
  · rfl
  · rename_i h; rw [hs] at h; cases h

theorem propagate_error_frames_le (db : Db) (s : VM) (tb : List Data) (error : Ident) :
    (propagate_error db s tb error).frames.length ≤ s.frames.length := by
  generalize hn : s.frames.length = n
  induction n using Nat.strong_induction_on generalizing s tb error with
  | _ n ih =>
    cases hfr : s.frames with
    | nil =>
      rw [propagate_error_nil db s tb error hfr]
      omega
    | cons f rest =>
      rw [propagate_error_cons db s tb error f rest hfr]
      rw [hfr] at hn
      simp only [List.length_cons] at hn
      split
      · simp only [List.length_cons]; omega
      · rename_i f1 propagate hw
        have hlen : (frame_return { s with frames := f1 :: rest }).frames.length
            = rest.length := by
          rw [frame_return_cons _ f1 rest rfl]
        have := ih rest.length (by omega) (frame_return { s with frames := f1 :: rest })
          (traceback_add db f tb error) (if propagate then error else methoderr_id) hlen
        omega

theorem propagate_error_all_unhandled (db : Db) (s : VM) (tb : List Data) (error : Ident)
    (h : unhandled_in error s.frames) :
    (propagate_error db s tb error).frames = [] := by
  generalize hn : s.frames.length = n
  induction n generalizing s tb error with
  | zero =>
    have hfr : s.frames = [] := List.length_eq_zero.mp hn
    rw [propagate_error_nil db s tb error hfr, hfr]
  | succ n ih =>
    cases hfr : s.frames with
    | nil => rw [hfr] at hn; simp at hn
    | cons f rest =>
      rw [hfr] at h hn
      simp only [unhandled_in] at h
      simp only [List.length_cons, add_left_inj] at hn
      rw [propagate_error_unhandled db s f rest tb error hfr h.1]
      have hret : (frame_return s).frames = rest := by
        rw [frame_return_cons s f rest hfr]
      apply ih
      · rw [hret]; exact h.2
      · rw [hret]; exact hn

/-- C36: `propagate_error` is a total function of the frame chain.  On the empty
chain it returns the globals as they are, the value stack included.  On a chain
with the current frame `f`, either a specifier of `f` handles the error and the
chain keeps its length, or the one frame `f` is returned and the call goes on
with the chain of the callers, which is one frame shorter; so the result never
has more frames than the call had, and when no frame of the chain handles the
error, the result has no frame left. -/
theorem propagate_error_terminates (db : Db) (s : VM) (tb : List Data) (error : Ident) :
    (s.frames = [] → propagate_error db s tb error = s)
    ∧ (∀ (f : Frame) (rest : List Frame), s.frames = f :: rest →
        (∃ (f1 : Frame) (stack : List Data),
          propagate_error db s tb error = { s with stack := stack, frames := f1 :: rest })
        ∨ (∃ (f1 : Frame) (tb1 : List Data) (error1 : Ident),
            propagate_error db s tb error
              = propagate_error db (frame_return { s with frames := f1 :: rest }) tb1 error1
            ∧ (frame_return { s with frames := f1 :: rest }).frames = rest
            ∧ (frame_return { s with frames := f1 :: rest }).frames.length + 1
                = s.frames.length))
    ∧ (propagate_error db s tb error).frames.length ≤ s.frames.length
    ∧ (unhandled_in error s.frames → (propagate_error db s tb error).frames = []) := by
  refine ⟨propagate_error_nil db s tb error, ?_, propagate_error_frames_le db s tb error,
    propagate_error_all_unhandled db s tb error⟩
  intro f rest hs
  rw [propagate_error_cons db s tb error f rest hs]
  cases hw : walk_specifiers (traceback_add db f tb error) error f.specifiers false f s.stack with
  | handled f1 stack => exact Or.inl ⟨f1, stack, rfl⟩
  | unhandled f1 propagate =>
    refine Or.inr ⟨f1, _, _, rfl, ?_, ?_⟩
    · rw [frame_return_cons _ f1 rest rfl]
    · rw [frame_return_cons _ f1 rest rfl, hs]
      rfl

theorem set_head_frame_depth (s : VM) (l : TaskList) (h : Option Nat) :
    (s.set_head l h).frame_depth = s.frame_depth := by cases l <;> rfl

theorem frame_return_iterate_depth (l : List Frame) (t : VM) (ht : t.frames = l) :
    (frame_return^[l.length] t).frame_depth = t.frame_depth - l.length
      ∧ (frame_return^[l.length] t).frames = [] := by
  induction l generalizing t with
  | nil => exact ⟨by simp, ht⟩
  | cons f rest ih =>
    rw [List.length_cons, Function.iterate_succ_apply]
    have h1 : (frame_return t).frames = rest := by rw [frame_return_cons t f rest ht]
    have h2 : (frame_return t).frame_depth = t.frame_depth - 1 := by
      rw [frame_return_cons t f rest ht]
    obtain ⟨h3, h4⟩ := ih (frame_return t) h1
    refine ⟨?_, h4⟩
    rw [h3, h2]
    push_cast
    omega

theorem return_frames_depth (t : VM) :
    (return_frames t).frame_depth = t.frame_depth - t.frames.length
      ∧ (return_frames t).frames = [] :=
  frame_return_iterate_depth t.frames t rfl

theorem ADD_TASK_depth (the_list : TaskList) (the_value : Nat) (t t2 : VM)
    (h : ADD_TASK the_list the_value t = some t2) :
    t2.frame_depth = t.frame_depth ∧ t2.frames = t.frames := by
  cases hg : t.vms.get? the_value with
  | none =>
    rw [show ADD_TASK the_list the_value t = none by simp only [ADD_TASK, hg]] at h
    exact absurd h (by simp)
  | some record =>
    rw [ADD_TASK_eq the_list the_value t record hg] at h
    cases h
    exact ⟨set_head_frame_depth _ _ _, set_head_frames _ _ _⟩

theorem suspend_vm_depth (s s1 : VM) (vm : Nat) (h : suspend_vm s = some (vm, s1)) :
    s1.frame_depth = s.frame_depth ∧ s1.stack_store = s.stack_store
      ∧ s1.buf_count = s.buf_count := by
  unfold suspend_vm at h
  cases hv : s.vmstore with
  | none =>
    rw [hv] at h
    simp only [Option.some.injEq, Prod.mk.injEq] at h
    rw [← h.2]
    exact ⟨rfl, rfl, rfl⟩
  | some f =>
    rw [hv] at h
    simp only [] at h
    cases hg : s.vms.get? f with
    | none => rw [hg] at h; exact absurd h (by simp)
    | some record =>
      rw [hg] at h
      simp only [Option.some.injEq, Prod.mk.injEq] at h
      rw [← h.2]
      exact ⟨rfl, rfl, rfl⟩

theorem init_execute_depth (t : VM) :
    ({ init_execute t with frames := [] } : VM).frame_depth = t.frame_depth := by
  unfold init_execute
  cases t.stack_store <;> rfl

/-- The depth counter after `task_suspend` and `task_pause`: nothing saves it,
and it is not reset. -/
theorem task_suspend_depth (s s2 : VM) :
    (task_suspend s = some s2 → s2.frames = [] ∧ s2.frame_depth = s.frame_depth)
    ∧ (task_pause s = some s2 → s2.frames = [] ∧ s2.frame_depth = s.frame_depth) := by
  constructor
  · intro h
    unfold task_suspend at h
    cases hsv : suspend_vm s with
    | none => rw [hsv] at h; exact absurd h (by simp)
    | some pair =>
      obtain ⟨vm, s1⟩ := pair
      rw [hsv] at h
      simp only [] at h
      cases hadd : ADD_TASK TaskList.tasks vm s1 with
      | none => rw [hadd] at h; exact absurd h (by simp)
      | some s1a =>
        rw [hadd] at h
        simp only [Option.some.injEq] at h
        rw [← h]
        refine ⟨rfl, ?_⟩
        rw [init_execute_depth, (ADD_TASK_depth _ _ _ _ hadd).1, (suspend_vm_depth _ _ _ hsv).1]
  · intro h
    unfold task_pause at h
    cases hsv : suspend_vm s with
    | none => rw [hsv] at h; exact absurd h (by simp)
    | some pair =>
      obtain ⟨vm, s1⟩ := pair
      rw [hsv] at h
      simp only [] at h
      cases hg : s1.vms.get? vm with
      | none => rw [hg] at h; exact absurd h (by simp)
      | some record =>
        rw [hg] at h
        simp only [] at h
        cases hadd : ADD_TASK TaskList.paused vm
            { s1 with vms := s1.vms.set vm { record with paused := 1 } } with
        | none => rw [hadd] at h; exact absurd h (by simp)
        | some s1a =>
          rw [hadd] at h
          simp only [Option.some.injEq] at h
          rw [← h]
          refine ⟨rfl, ?_⟩
          rw [init_execute_depth, (ADD_TASK_depth _ _ _ _ hadd).1]
          exact (suspend_vm_depth _ _ _ hsv).1

theorem restore_add_depth (old_vm : Nat) (t t2 : VM)
    (h : (restore_vm old_vm t).bind (ADD_TASK TaskList.vmstore old_vm) = some t2) :
    t2.frame_depth = t.frame_depth := by
  cases hg : t.vms.get? old_vm with
  | none =>
    rw [show restore_vm old_vm t = none by simp only [restore_vm, hg]] at h
    exact absurd h (by simp)
  | some snap =>
    rw [restore_vm_eq old_vm t snap hg] at h
    simp only [Option.some_bind] at h
    exact (ADD_TASK_depth _ _ _ _ h).1

/-- The globals after `task_cancel(tid)`, for the task of a record `vm` of the
queue that its flag names: the chain of the caller is back, and the depth
counter has lost the frames of the cancelled task. -/
theorem task_cancel_depth (s : VM) (tid : Int) (vm : Nat) (record : VMState)
    (the_list : TaskList) (chain : List Nat)
    (hvm : s.vms.get? vm = some record)
    (hlookup : task_lookup tid s = some (some vm))
    (hlist : the_list = (if record.paused ≠ 0 then TaskList.paused else TaskList.tasks))
    (hchain : is_chain s.vms (s.head the_list) chain) (hmem : vm ∈ chain)
    (hfree : ∀ f, s.vmstore = some f → f < s.vms.length ∧ f ∉ chain) :
    ∃ s2, task_cancel tid s = some s2 ∧ s2.frames = s.frames
      ∧ s2.frame_depth = s.frame_depth - record.frames.length := by
  have hlt := is_seg_mem_lt _ _ _ _ hchain
  obtain ⟨old_vm, rest, vms1, hs, hget, hfrom, -⟩ :=
    suspend_vm_spec s (fun f hf => (hfree f hf).1)
  have hold : old_vm ∉ chain := by
    rcases hfrom with h | ⟨-, h⟩
    · exact (hfree old_vm h).2
    · intro hm
      have := hlt old_vm hm
      omega
  have hne : vm ≠ old_vm := fun e => hold (e ▸ hmem)
  have hvm1 : vms1.get? vm = some record := by rw [hget vm, if_neg hne, hvm]
  obtain ⟨s3, hs3⟩ : ∃ s3, s3 = return_frames
      { s with vmstore := rest, vms := vms1, task_id := record.task_id,
               frames := record.frames, cur_conn := record.cur_conn, stack := record.stack,
               stack_buf := record.stack_buf, arg_starts := record.arg_starts } := ⟨_, rfl⟩
  have hheap := return_frames_heap
      { s with vmstore := rest, vms := vms1, task_id := record.task_id,
               frames := record.frames, cur_conn := record.cur_conn, stack := record.stack,
               stack_buf := record.stack_buf, arg_starts := record.arg_starts }
  have hdepth := (return_frames_depth
      { s with vmstore := rest, vms := vms1, task_id := record.task_id,
               frames := record.frames, cur_conn := record.cur_conn, stack := record.stack,
               stack_buf := record.stack_buf, arg_starts := record.arg_starts }).1
  rw [← hs3] at hheap hdepth
  have hdepth3 : s3.frame_depth = s.frame_depth - record.frames.length := hdepth
  have hvms3 : s3.vms = vms1 := hheap.1
  have hhead3 : s3.head the_list = s.head the_list := by
    rw [hlist]
    split
    · exact hheap.2.2.1
    · exact hheap.2.1
  have hchain3 : is_chain s3.vms (s3.head the_list) chain := by
    rw [hvms3, hhead3]
    apply is_seg_congr s.vms vms1 _ _ _ hchain
    intro a ha
    have : a ≠ old_vm := fun e => hold (e ▸ ha)
    rw [hget a, if_neg this]
  obtain ⟨head2, vms2, hrem, hsame2, hkeep2⟩ := REMOVE_TASK_some the_list s3 chain vm hchain3 hmem
  obtain ⟨record2, hvm2⟩ := hkeep2 vm record (by rw [hvms3]; exact hvm1)
  have hvlt : vm < vms2.length := get_lt _ _ _ hvm2
  have hold2 : vms2.get? old_vm = some s.snapshot := by
    rw [hsame2 old_vm hold, hvms3, hget old_vm, if_pos rfl]
  have hadd := ADD_TASK_eq TaskList.vmstore vm
    (store_stack { s3.set_head the_list head2 with vms := vms2 }) record2 hvm2
  have hadd_depth := (ADD_TASK_depth _ _ _ _ hadd).1
  obtain ⟨s5, hs5⟩ : ∃ s5, s5 =
      ({ (store_stack { s3.set_head the_list head2 with vms := vms2 }).set_head
            TaskList.vmstore (some vm) with
         vms := (store_stack { s3.set_head the_list head2 with vms := vms2 }).vms.set vm
           { record2 with
             next := (store_stack { s3.set_head the_list head2 with vms := vms2 }).head
                        TaskList.vmstore } } : VM) := ⟨_, rfl⟩
  rw [← hs5] at hadd hadd_depth
  have hdepth5 : s5.frame_depth = s.frame_depth - record.frames.length := by
    rw [hadd_depth, ← hdepth3]
    show (s3.set_head the_list head2).frame_depth = _
    exact set_head_frame_depth _ _ _
  have hold5 : s5.vms.get? old_vm = some s.snapshot := by
    rw [hs5]
    show (List.set vms2 vm _).get? old_vm = _
    rw [get_set_if _ _ _ hvlt, if_neg (fun e => hne e.symm), hold2]
  obtain ⟨t2, ht2, g1, -⟩ := restore_add_spec old_vm s5 _ hold5
  refine ⟨t2, ?_, g1, ?_⟩
  · unfold task_cancel
    rw [hlookup]
    simp only [hs]
    rw [restore_vm_eq vm _ record hvm1]
    simp only [← hs3, hvms3, hvm1]
    have hsel : (if record.paused ≠ 0 then REMOVE_TASK TaskList.paused vm s3
        else REMOVE_TASK TaskList.tasks vm s3) = REMOVE_TASK the_list vm s3 := by
      rw [hlist]
      split <;> rfl
    rw [hsel, hrem]
    simp only [hadd]
    rw [← ht2]
    cases restore_vm old_vm s5 <;> rfl
  · rw [restore_add_depth old_vm s5 t2 ht2, hdepth5]

/-- C38 (amended): when `frame_depth` is the number of frames of the chain, it
still is after a successful `frame_start` and after `frame_return` of a current
frame; `task` sets it to 0 before it sends its message, whatever it was.  The
functions that put another chain in place of the current one neither save nor
restore it: `task_suspend` and `task_pause` leave no frame and `frame_depth` as
it was, `restore_vm` leaves it as it was, and `task_cancel` gives the chain of
the caller back with `frame_depth` lowered by the number of frames of the
cancelled task. -/
theorem frame_depth_tracks_frames (op_table : Int → Op_info) (db : Db) (s : VM)
    (hinv : s.frame_depth = s.frames.length) :
    (∀ (obj : Obj) (method : Method) (sender caller : Dbref) (stack_start arg_start : Nat),
      (frame_start s obj method sender caller stack_start arg_start).1 = NOT_AN_IDENT →
      (frame_start s obj method sender caller stack_start arg_start).2.frame_depth
        = (frame_start s obj method sender caller stack_start arg_start).2.frames.length)
    ∧ (s.frames ≠ [] → (frame_return s).frame_depth = (frame_return s).frames.length)
    ∧ (∀ (fuel : Nat) (conn : Connection) (dbref : Dbref) (message : Ident)
        (args : List Data),
        task op_table db fuel true s conn dbref message args
          = task op_table db fuel true { s with frame_depth := 0 } conn dbref message args)
    ∧ (∀ s2, task_suspend s = some s2 → s2.frames = [] ∧ s2.frame_depth = s.frames.length)
    ∧ (∀ s2, task_pause s = some s2 → s2.frames = [] ∧ s2.frame_depth = s.frames.length)
    ∧ (∀ (vm : Nat) (t t2 : VM), restore_vm vm t = some t2 → t2.frame_depth = t.frame_depth)
    ∧ (∀ (tid : Int) (vm : Nat) (record : VMState) (the_list : TaskList) (chain : List Nat),
        s.vms.get? vm = some record → task_lookup tid s = some (some vm) →
        the_list = (if record.paused ≠ 0 then TaskList.paused else TaskList.tasks) →
        is_chain s.vms (s.head the_list) chain → vm ∈ chain →
        (∀ f, s.vmstore = some f → f < s.vms.length ∧ f ∉ chain) →
        ∃ s2, task_cancel tid s = some s2 ∧ s2.frames = s.frames
          ∧ s2.frame_depth = (s.frames.length : Int) - record.frames.length) := by
  refine ⟨?_, ?_, ?_, ?_, ?_, ?_, ?_⟩
  · intro obj method sender caller stack_start arg_start hok
    have hfr := frame_start_frames_of_ok s obj method sender caller stack_start arg_start hok
    rw [hfr]
    by_cases h : (s.stack.length : Int) - (arg_start : Int) < (method.num_args : Int)
        ∨ ((s.stack.length : Int) - (arg_start : Int) > (method.num_args : Int)
            ∧ method.rest = -1)
    · rw [frame_start_numargs _ _ _ _ _ _ _ h] at hok
      have hne : ¬ numargs_id = NOT_AN_IDENT := by decide
      exact absurd hok hne
    · by_cases hd : s.frame_depth > MAX_CALL_DEPTH
      · rw [frame_start_maxdepth _ _ _ _ _ _ _ h hd] at hok
        have hne : ¬ maxdepth_id = NOT_AN_IDENT := by decide
        exact absurd hok hne
      · rw [frame_start_ok _ _ _ _ _ _ _ h hd]
        show s.frame_depth + 1 = _
        rw [hinv]
        simp
  · intro hne
    obtain ⟨f, rest, hs⟩ := List.exists_cons_of_ne_nil hne
    rw [frame_return_cons s f rest hs]
    show s.frame_depth - 1 = (rest.length : Int)
    rw [hinv, hs]
    simp
  · intro fuel conn dbref message args
    rfl
  · intro s2 h
    have := (task_suspend_depth s s2).1 h
    exact ⟨this.1, this.2.trans hinv⟩
  · intro s2 h
    have := (task_suspend_depth s s2).2 h
    exact ⟨this.1, this.2.trans hinv⟩
  · intro vm t t2 h
    cases hg : t.vms.get? vm with
    | none =>
      rw [show restore_vm vm t = none by simp only [restore_vm, hg]] at h
      exact absurd h (by simp)
    | some record =>
      rw [restore_vm_eq vm t record hg] at h
      cases h
      rfl
  · intro tid vm record the_list chain hvm hlookup hlist hchain hmem hfree
    obtain ⟨s2, h1, h2, h3⟩ :=
      task_cancel_depth s tid vm record the_list chain hvm hlookup hlist hchain hmem hfree
    exact ⟨s2, h1, h2, by rw [h3, hinv]⟩

theorem frame_depth_tracks_frames_witness :
    (∃ s2, task_cancel 8 ex_vm_suspended = some s2 ∧ s2.frames = ex_vm_suspended.frames
        ∧ s2.frame_depth
            = (ex_vm_suspended.frames.length : Int) - (ex_record 8 0 (some 2)).frames.length)
    ∧ (frame_return ex_vm_suspended).frame_depth = (frame_return ex_vm_suspended).frames.length :=
  ⟨(frame_depth_tracks_frames ex_op_table ex_db ex_vm_suspended rfl).2.2.2.2.2.2
      8 1 (ex_record 8 0 (some 2)) TaskList.tasks [0, 1, 2] rfl rfl rfl ⟨rfl, rfl, rfl, rfl⟩
      (by decide) (fun f hf => by cases hf),
   (frame_depth_tracks_frames ex_op_table ex_db ex_vm_suspended rfl).2.1 (by simp [ex_vm_suspended, ex_vm])⟩

/-- C38 (counterexample): in `ex_vm`, where `frame_depth` is 1 for the one frame
of the chain, `task_suspend` leaves no frame and `frame_depth = 1`; and in
`ex_vm_suspended`, `task_cancel(8)` leaves the one frame of the caller and
`frame_depth = 0`. -/
theorem frame_depth_suspend_counterexample :
    ex_vm.frame_depth = ex_vm.frames.length
    ∧ (task_suspend ex_vm).map (fun s2 => (s2.frames.length, s2.frame_depth)) = some (0, 1)
    ∧ ex_vm_suspended.frame_depth = ex_vm_suspended.frames.length
    ∧ (task_cancel 8 ex_vm_suspended).map (fun s2 => (s2.frames.length, s2.frame_depth))
        = some (1, 0) :=
  ⟨rfl, rfl, rfl, rfl⟩

theorem getD_append_base (base args : List Data) (i : Nat) (d : Data) :
    (base ++ args).getD (base.length + i) d = args.getD i d := by
  simp [List.getD_eq_getElem?_getD, List.getElem?_append_right]


theorem func_init_0_gate (op_table : Int → Op_info) (db : Db) (lib : Lib) (s : VM)
    (cur_frame : Frame) (rest : List Frame) (starts : List Nat) (base args : List Data)
    (hs : s.frames = cur_frame :: rest) (harg : s.arg_starts = starts ++ [base.length])
    (hstack : s.stack = base ++ args) :
    func_init_0 op_table db lib s 
      = gate op_table db lib { s with arg_starts := starts } cur_frame args "none" 0 0
          [] := by
  have h0 := getD_append_base base args 0 (Data.integer 0)
  have h1 := getD_append_base base args 1 (Data.integer 0)
  have h2 := getD_append_base base args 2 (Data.integer 0)
  simp only [Nat.add_zero] at h0
  simp only [func_init_0, gate, gate_check, pop_arg_start, VM.slot, harg, hstack, hs,
    List.getLastD_concat, List.dropLast_concat, h0, h1, h2]
  match args with
  | [] =>
    simp [first_mistyped]
    all_goals first
      | done
      | (intro h; omega)
      | (split_ifs <;> simp_all [ordinal_word])
      | (split_ifs <;> simp_all [ordinal_word] <;> omega)
  | [a] =>
    simp [first_mistyped]
    all_goals first
      | done
      | (intro h; omega)
      | (split_ifs <;> simp_all [ordinal_word])
      | (split_ifs <;> simp_all [ordinal_word] <;> omega)
  | [a, b] =>
    simp [first_mistyped]
    all_goals first
      | done
      | (intro h; omega)
      | (split_ifs <;> simp_all [ordinal_word])
      | (split_ifs <;> simp_all [ordinal_word] <;> omega)
  | [a, b, c] =>
    simp [first_mistyped]
    all_goals first
      | done
      | (intro h; omega)
      | (split_ifs <;> simp_all [ordinal_word])
      | (split_ifs <;> simp_all [ordinal_word] <;> omega)
  | a :: b :: c :: d :: more =>
    simp [first_mistyped]
    all_goals first
      | done
      | (intro h; omega)
      | (split_ifs <;> simp_all [ordinal_word])
      | (split_ifs <;> simp_all [ordinal_word] <;> omega)

theorem func_init_1_gate (op_table : Int → Op_info) (db : Db) (lib : Lib) (s : VM)
    (cur_frame : Frame) (rest : List Frame) (starts : List Nat) (base args : List Data)
    (hs : s.frames = cur_frame :: rest) (harg : s.arg_starts = starts ++ [base.length])
    (hstack : s.stack = base ++ args) (type1 : Int) :
    func_init_1 op_table db lib s type1
      = gate op_table db lib { s with arg_starts := starts } cur_frame args "one" 1 1
          [type1] := by
  have h0 := getD_append_base base args 0 (Data.integer 0)
  have h1 := getD_append_base base args 1 (Data.integer 0)
  have h2 := getD_append_base base args 2 (Data.integer 0)
  simp only [Nat.add_zero] at h0
  simp only [func_init_1, gate, gate_check, pop_arg_start, VM.slot, harg, hstack, hs,
    List.getLastD_concat, List.dropLast_concat, h0, h1, h2]
  match args with
  | [] =>
    simp [first_mistyped]
    all_goals first
      | done
      | (intro h; omega)
      | (split_ifs <;> simp_all [ordinal_word])
      | (split_ifs <;> simp_all [ordinal_word] <;> omega)
  | [a] =>
    simp [first_mistyped]
    all_goals first
      | done
      | (intro h; omega)
      | (split_ifs <;> simp_all [ordinal_word])
      | (split_ifs <;> simp_all [ordinal_word] <;> omega)
  | [a, b] =>
    simp [first_mistyped]
    all_goals first
      | done
      | (intro h; omega)
      | (split_ifs <;> simp_all [ordinal_word])
      | (split_ifs <;> simp_all [ordinal_word] <;> omega)
  | [a, b, c] =>
    simp [first_mistyped]
    all_goals first
      | done
      | (intro h; omega)
      | (split_ifs <;> simp_all [ordinal_word])
      | (split_ifs <;> simp_all [ordinal_word] <;> omega)
  | a :: b :: c :: d :: more =>
    simp [first_mistyped]
    all_goals first
      | done
      | (intro h; omega)
      | (split_ifs <;> simp_all [ordinal_word])
      | (split_ifs <;> simp_all [ordinal_word] <;> omega)

theorem func_init_2_gate (op_table : Int → Op_info) (db : Db) (lib : Lib) (s : VM)
    (cur_frame : Frame) (rest : List Frame) (starts : List Nat) (base args : List Data)
    (hs : s.frames = cur_frame :: rest) (harg : s.arg_starts = starts ++ [base.length])
    (hstack : s.stack = base ++ args) (type1 type2 : Int) :
    func_init_2 op_table db lib s type1 type2
      = gate op_table db lib { s with arg_starts := starts } cur_frame args "two" 2 2
          [type1, type2] := by
  have h0 := getD_append_base base args 0 (Data.integer 0)
  have h1 := getD_append_base base args 1 (Data.integer 0)
  have h2 := getD_append_base base args 2 (Data.integer 0)
  simp only [Nat.add_zero] at h0
  simp only [func_init_2, gate, gate_check, pop_arg_start, VM.slot, harg, hstack, hs,
    List.getLastD_concat, List.dropLast_concat, h0, h1, h2]
  match args with
  | [] =>
    simp [first_mistyped]
    all_goals first
      | done
      | (intro h; omega)
      | (split_ifs <;> simp_all [ordinal_word])
      | (split_ifs <;> simp_all [ordinal_word] <;> omega)
  | [a] =>
    simp [first_mistyped]
    all_goals first
      | done
      | (intro h; omega)
      | (split_ifs <;> simp_all [ordinal_word])
      | (split_ifs <;> simp_all [ordinal_word] <;> omega)
  | [a, b] =>
    simp [first_mistyped]
    all_goals first
      | done
      | (intro h; omega)
      | (split_ifs <;> simp_all [ordinal_word])
      | (split_ifs <;> simp_all [ordinal_word] <;> omega)
  | [a, b, c] =>
    simp [first_mistyped]
    all_goals first
      | done
      | (intro h; omega)
      | (split_ifs <;> simp_all [ordinal_word])
      | (split_ifs <;> simp_all [ordinal_word] <;> omega)
  | a :: b :: c :: d :: more =>
    simp [first_mistyped]
    all_goals first
      | done
      | (intro h; omega)
      | (split_ifs <;> simp_all [ordinal_word])
      | (split_ifs <;> simp_all [ordinal_word] <;> omega)

theorem func_init_3_gate (op_table : Int → Op_info) (db : Db) (lib : Lib) (s : VM)
    (cur_frame : Frame) (rest : List Frame) (starts : List Nat) (base args : List Data)
    (hs : s.frames = cur_frame :: rest) (harg : s.arg_starts = starts ++ [base.length])
    (hstack : s.stack = base ++ args) (type1 type2 type3 : Int) :
    func_init_3 op_table db lib s type1 type2 type3
      = gate op_table db lib { s with arg_starts := starts } cur_frame args "three" 3 3
          [type1, type2, type3] := by
  have h0 := getD_append_base base args 0 (Data.integer 0)
  have h1 := getD_append_base base args 1 (Data.integer 0)
  have h2 := getD_append_base base args 2 (Data.integer 0)
  simp only [Nat.add_zero] at h0
  simp only [func_init_3, gate, gate_check, pop_arg_start, VM.slot, harg, hstack, hs,
    List.getLastD_concat, List.dropLast_concat, h0, h1, h2]
  match args with
  | [] =>
    simp [first_mistyped]
    all_goals first
      | done
      | (intro h; omega)
      | (split_ifs <;> simp_all [ordinal_word])
      | (split_ifs <;> simp_all [ordinal_word] <;> omega)
  | [a] =>
    simp [first_mistyped]
    all_goals first
      | done
      | (intro h; omega)
      | (split_ifs <;> simp_all [ordinal_word])
      | (split_ifs <;> simp_all [ordinal_word] <;> omega)
  | [a, b] =>
    simp [first_mistyped]
    all_goals first
      | done
      | (intro h; omega)
      | (split_ifs <;> simp_all [ordinal_word])
      | (split_ifs <;> simp_all [ordinal_word] <;> omega)
  | [a, b, c] =>
    simp [first_mistyped]
    all_goals first
      | done
      | (intro h; omega)
      | (split_ifs <;> simp_all [ordinal_word])
      | (split_ifs <;> simp_all [ordinal_word] <;> omega)
  | a :: b :: c :: d :: more =>
    simp [first_mistyped]
    all_goals first
      | done
      | (intro h; omega)
      | (split_ifs <;> simp_all [ordinal_word])
      | (split_ifs <;> simp_all [ordinal_word] <;> omega)

theorem func_init_0_or_1_gate (op_table : Int → Op_info) (db : Db) (lib : Lib) (s : VM)
    (cur_frame : Frame) (rest : List Frame) (starts : List Nat) (base args : List Data)
    (hs : s.frames = cur_frame :: rest) (harg : s.arg_starts = starts ++ [base.length])
    (hstack : s.stack = base ++ args) (type1 : Int) :
    func_init_0_or_1 op_table db lib s type1
      = gate op_table db lib { s with arg_starts := starts } cur_frame args "at most one" 0 1
          [type1] := by
  have h0 := getD_append_base base args 0 (Data.integer 0)
  have h1 := getD_append_base base args 1 (Data.integer 0)
  have h2 := getD_append_base base args 2 (Data.integer 0)
  simp only [Nat.add_zero] at h0
  simp only [func_init_0_or_1, gate, gate_check, pop_arg_start, VM.slot, harg, hstack, hs,
    List.getLastD_concat, List.dropLast_concat, h0, h1, h2]
  match args with
  | [] =>
    simp [first_mistyped]
    all_goals first
      | done
      | (intro h; omega)
      | (split_ifs <;> simp_all [ordinal_word])
      | (split_ifs <;> simp_all [ordinal_word] <;> omega)
  | [a] =>
    simp [first_mistyped]
    all_goals first
      | done
      | (intro h; omega)
      | (split_ifs <;> simp_all [ordinal_word])
      | (split_ifs <;> simp_all [ordinal_word] <;> omega)
  | [a, b] =>
    simp [first_mistyped]
    all_goals first
      | done
      | (intro h; omega)
      | (split_ifs <;> simp_all [ordinal_word])
      | (split_ifs <;> simp_all [ordinal_word] <;> omega)
  | [a, b, c] =>
    simp [first_mistyped]
    all_goals first
      | done
      | (intro h; omega)
      | (split_ifs <;> simp_all [ordinal_word])
      | (split_ifs <;> simp_all [ordinal_word] <;> omega)
  | a :: b :: c :: d :: more =>
    simp [first_mistyped]
    all_goals first
      | done
      | (intro h; omega)
      | (split_ifs <;> simp_all [ordinal_word])
      | (split_ifs <;> simp_all [ordinal_word] <;> omega)

theorem func_init_1_or_2_gate (op_table : Int → Op_info) (db : Db) (lib : Lib) (s : VM)
    (cur_frame : Frame) (rest : List Frame) (starts : List Nat) (base args : List Data)
    (hs : s.frames = cur_frame :: rest) (harg : s.arg_starts = starts ++ [base.length])
    (hstack : s.stack = base ++ args) (type1 type2 : Int) :
    func_init_1_or_2 op_table db lib s type1 type2
      = gate op_table db lib { s with arg_starts := starts } cur_frame args "one or two" 1 2
          [type1, type2] := by
  have h0 := getD_append_base base args 0 (Data.integer 0)
  have h1 := getD_append_base base args 1 (Data.integer 0)
  have h2 := getD_append_base base args 2 (Data.integer 0)
  simp only [Nat.add_zero] at h0
  simp only [func_init_1_or_2, gate, gate_check, pop_arg_start, VM.slot, harg, hstack, hs,
    List.getLastD_concat, List.dropLast_concat, h0, h1, h2]
  match args with
  | [] =>
    simp [first_mistyped]
    all_goals first
      | done
      | (intro h; omega)
      | (split_ifs <;> simp_all [ordinal_word])
      | (split_ifs <;> simp_all [ordinal_word] <;> omega)
  | [a] =>
    simp [first_mistyped]
    all_goals first
      | done
      | (intro h; omega)
      | (split_ifs <;> simp_all [ordinal_word])
      | (split_ifs <;> simp_all [ordinal_word] <;> omega)
  | [a, b] =>
    simp [first_mistyped]
    all_goals first
      | done
      | (intro h; omega)
      | (split_ifs <;> simp_all [ordinal_word])
      | (split_ifs <;> simp_all [ordinal_word] <;> omega)
  | [a, b, c] =>
    simp [first_mistyped]
    all_goals first
      | done
      | (intro h; omega)
      | (split_ifs <;> simp_all [ordinal_word])
      | (split_ifs <;> simp_all [ordinal_word] <;> omega)
  | a :: b :: c :: d :: more =>
    simp [first_mistyped]
    all_goals first
      | done
      | (intro h; omega)
      | (split_ifs <;> simp_all [ordinal_word])
      | (split_ifs <;> simp_all [ordinal_word] <;> omega)

theorem func_init_2_or_3_gate (op_table : Int → Op_info) (db : Db) (lib : Lib) (s : VM)
    (cur_frame : Frame) (rest : List Frame) (starts : List Nat) (base args : List Data)
    (hs : s.frames = cur_frame :: rest) (harg : s.arg_starts = starts ++ [base.length])
    (hstack : s.stack = base ++ args) (type1 type2 type3 : Int) :
    func_init_2_or_3 op_table db lib s type1 type2 type3
      = gate op_table db lib { s with arg_starts := starts } cur_frame args "two or three" 2 3
          [type1, type2, type3] := by
  have h0 := getD_append_base base args 0 (Data.integer 0)
  have h1 := getD_append_base base args 1 (Data.integer 0)
  have h2 := getD_append_base base args 2 (Data.integer 0)
  simp only [Nat.add_zero] at h0
  simp only [func_init_2_or_3, gate, gate_check, pop_arg_start, VM.slot, harg, hstack, hs,
    List.getLastD_concat, List.dropLast_concat, h0, h1, h2]
  match args with
  | [] =>
    simp [first_mistyped]
    all_goals first
      | done
      | (intro h; omega)
      | (split_ifs <;> simp_all [ordinal_word])
      | (split_ifs <;> simp_all [ordinal_word] <;> omega)
  | [a] =>
    simp [first_mistyped]
    all_goals first
      | done
      | (intro h; omega)
      | (split_ifs <;> simp_all [ordinal_word])
      | (split_ifs <;> simp_all [ordinal_word] <;> omega)
  | [a, b] =>
    simp [first_mistyped]
    all_goals first
      | done
      | (intro h; omega)
      | (split_ifs <;> simp_all [ordinal_word])
      | (split_ifs <;> simp_all [ordinal_word] <;> omega)
  | [a, b, c] =>
    simp [first_mistyped]
    all_goals first
      | done
      | (intro h; omega)
      | (split_ifs <;> simp_all [ordinal_word])
      | (split_ifs <;> simp_all [ordinal_word] <;> omega)
  | a :: b :: c :: d :: more =>
    simp [first_mistyped]
    all_goals first
      | done
      | (intro h; omega)
      | (split_ifs <;> simp_all [ordinal_word])
      | (split_ifs <;> simp_all [ordinal_word] <;> omega)

theorem func_init_1_to_3_gate (op_table : Int → Op_info) (db : Db) (lib : Lib) (s : VM)
    (cur_frame : Frame) (rest : List Frame) (starts : List Nat) (base args : List Data)
    (hs : s.frames = cur_frame :: rest) (harg : s.arg_starts = starts ++ [base.length])
    (hstack : s.stack = base ++ args) (type1 type2 type3 : Int) :
    func_init_1_to_3 op_table db lib s type1 type2 type3
      = gate op_table db lib { s with arg_starts := starts } cur_frame args "one to three" 1 3
          [type1, type2, type3] := by
  have h0 := getD_append_base base args 0 (Data.integer 0)
  have h1 := getD_append_base base args 1 (Data.integer 0)
  have h2 := getD_append_base base args 2 (Data.integer 0)
  simp only [Nat.add_zero] at h0
  simp only [func_init_1_to_3, gate, gate_check, pop_arg_start, VM.slot, harg, hstack, hs,
    List.getLastD_concat, List.dropLast_concat, h0, h1, h2]
  match args with
  | [] =>
    simp [first_mistyped]
    all_goals first
      | done
      | (intro h; omega)
      | (split_ifs <;> simp_all [ordinal_word])
      | (split_ifs <;> simp_all [ordinal_word] <;> omega)
  | [a] =>
    simp [first_mistyped]
    all_goals first
      | done
      | (intro h; omega)
      | (split_ifs <;> simp_all [ordinal_word])
      | (split_ifs <;> simp_all [ordinal_word] <;> omega)
  | [a, b] =>
    simp [first_mistyped]
    all_goals first
      | done
      | (intro h; omega)
      | (split_ifs <;> simp_all [ordinal_word])
      | (split_ifs <;> simp_all [ordinal_word] <;> omega)
  | [a, b, c] =>
    simp [first_mistyped]
    all_goals first
      | done
      | (intro h; omega)
      | (split_ifs <;> simp_all [ordinal_word])
      | (split_ifs <;> simp_all [ordinal_word] <;> omega)
  | a :: b :: c :: d :: more =>
    simp [first_mistyped]
    all_goals first
      | done
      | (intro h; omega)
      | (split_ifs <;> simp_all [ordinal_word])
      | (split_ifs <;> simp_all [ordinal_word] <;> omega)

theorem propagate_error_arg_starts (db : Db) (tb : List Data) (error : Ident) (s : VM) :
    (propagate_error db s tb error).arg_starts = s.arg_starts := by
  generalize hn : s.frames.length = n
  induction n using Nat.strong_induction_on generalizing s tb error with
  | _ n ih =>
    cases hfr : s.frames with
    | nil => rw [propagate_error_nil db s tb error hfr]
    | cons f rest =>
      rw [propagate_error_cons db s tb error f rest hfr]
      split
      · rfl
      · rename_i f1 p _
        have hlen : (frame_return { s with frames := f1 :: rest }).frames.length < n := by
          rw [frame_return_cons _ f1 rest rfl, ← hn, hfr]
          simp
        rw [ih _ hlen _ _ _ rfl, frame_return_cons _ f1 rest rfl]

theorem cthrow_arg_starts (op_table : Int → Op_info) (db : Db) (lib : Lib) (s : VM)
    (t : Thrown) : (cthrow op_table db lib s t).arg_starts = s.arg_starts := by
  unfold cthrow interp_error
  split
  · rfl
  · simp only [start_error, propagate_error_arg_starts]

theorem first_mistyped_none (lib : Lib) (types : List Int) (args : List Data) (slot : Nat) :
    first_mistyped lib types args slot = none
      ↔ ∀ (i : Nat) (d : Data) (type1 : Int), args.get? i = some d → types.get? i = some type1 →
          type1 ≠ 0 → lib.type_code d.type = type1 := by
  induction types generalizing args slot with
  | nil =>
    simp only [first_mistyped, true_iff]
    intro i d type1 _ h
    simp at h
  | cons ty types ih =>
    cases args with
    | nil =>
      simp only [first_mistyped, true_iff]
      intro i d type1 h
      simp at h
    | cons a args =>
      simp only [first_mistyped]
      by_cases hbad : ty ≠ 0 ∧ lib.type_code a.type ≠ ty
      · rw [if_pos hbad]
        simp only [false_iff, reduceCtorEq]
        intro h
        exact hbad.2 (h 0 a ty rfl rfl hbad.1)
      · rw [if_neg hbad, ih args (slot + 1)]
        constructor
        · intro h i d type1 h1 h2 h3
          cases i with
          | zero =>
            simp only [List.get?_cons_zero, Option.some.injEq] at h1 h2
            subst h1; subst h2
            by_contra hne
            exact hbad ⟨h3, hne⟩
          | succ i => exact h i d type1 h1 h2 h3
        · intro h i d type1 h1 h2 h3
          exact h (i + 1) d type1 h1 h2 h3

theorem first_mistyped_some (lib : Lib) (types : List Int) (args : List Data)
    (slot found : Nat) (h : first_mistyped lib types args slot = some found) :
    ∃ (i : Nat) (d : Data) (type1 : Int), found = slot + i
      ∧ args.get? i = some d ∧ types.get? i = some type1
      ∧ type1 ≠ 0 ∧ lib.type_code d.type ≠ type1
      ∧ ∀ (j : Nat) (e : Data) (type2 : Int), j < i → args.get? j = some e →
          types.get? j = some type2 → type2 ≠ 0 → lib.type_code e.type = type2 := by
  induction types generalizing args slot with
  | nil => simp [first_mistyped] at h
  | cons ty types ih =>
    cases args with
    | nil => simp [first_mistyped] at h
    | cons a args =>
      simp only [first_mistyped] at h
      by_cases hbad : ty ≠ 0 ∧ lib.type_code a.type ≠ ty
      · rw [if_pos hbad] at h
        simp only [Option.some.injEq] at h
        refine ⟨0, a, ty, by omega, rfl, rfl, hbad.1, hbad.2, ?_⟩
        intro j e type2 hj
        omega
      · rw [if_neg hbad] at h
        obtain ⟨i, d, type1, h1, h2, h3, h4, h5, h6⟩ := ih args (slot + 1) h
        refine ⟨i + 1, d, type1, by omega, h2, h3, h4, h5, ?_⟩
        intro j e type2 hj g1 g2 g3
        cases j with
        | zero =>
          simp only [List.get?_cons_zero, Option.some.injEq] at g1 g2
          subst g1; subst g2
          by_contra hne
          exact hbad ⟨g3, hne⟩
        | succ j => exact h6 j e type2 (by omega) g1 g2 g3

/-- The outcomes of the gate that the specification describes. -/
theorem gate_spec (op_table : Int → Op_info) (db : Db) (lib : Lib) (s1 : VM)
    (cur_frame : Frame) (args : List Data) (required : String) (lo hi : Nat)
    (types : List Int) :
    (gate op_table db lib s1 cur_frame args required lo hi types).2.arg_starts = s1.arg_starts
    ∧ ((gate op_table db lib s1 cur_frame args required lo hi types).1 = 1
        ↔ ((lo ≤ args.length ∧ args.length ≤ hi)
            ∧ (∀ (i : Nat) (d : Data) (type1 : Int), args.get? i = some d →
                types.get? i = some type1 → type1 ≠ 0 → lib.type_code d.type = type1)
            ∧ ¬ bound_elsewhere op_table cur_frame))
    ∧ ((gate op_table db lib s1 cur_frame args required lo hi types).1 = 1 →
        (gate op_table db lib s1 cur_frame args required lo hi types).2 = s1)
    ∧ ((gate op_table db lib s1 cur_frame args required lo hi types).1 ≠ 1 →
        (gate op_table db lib s1 cur_frame args required lo hi types).1 = 0
        ∧ ∃ t : Thrown,
            (gate op_table db lib s1 cur_frame args required lo hi types).2
              = cthrow op_table db lib s1 t
            ∧ (¬ (lo ≤ args.length ∧ args.length ≤ hi) → t.error = numargs_id)
            ∧ ((lo ≤ args.length ∧ args.length ≤ hi) →
                ∀ slot : Nat, first_mistyped lib types args 0 = some slot →
                  t.error = type_id
                  ∧ t.args = [Data.string (ordinal_word slot), args.getD slot (Data.integer 0),
                              Data.string (lib.english_type (types.getD slot 0))])
            ∧ ((lo ≤ args.length ∧ args.length ≤ hi) →
                first_mistyped lib types args 0 = none → t.error = perm_id)) := by
  have hone : ¬ ((0 : Int) = 1) := by decide
  by_cases hc : args.length < lo ∨ hi < args.length
  · have hcount : ¬ (lo ≤ args.length ∧ args.length ≤ hi) := by omega
    have hg : gate op_table db lib s1 cur_frame args required lo hi types
        = (0, func_num_error op_table db lib s1 args.length required) := by
      simp only [gate, gate_check, if_pos hc]
    rw [hg]
    refine ⟨cthrow_arg_starts _ _ _ _ _, ?_, fun h => absurd h hone, fun _ => ⟨rfl, ?_⟩⟩
    · constructor
      · intro h; exact absurd h hone
      · intro h; exact absurd h.1 hcount
    · exact ⟨_, rfl, fun _ => rfl, fun h => absurd h hcount, fun h => absurd h hcount⟩
  · have hcount : lo ≤ args.length ∧ args.length ≤ hi := by omega
    cases hm : first_mistyped lib types args 0 with
    | some slot =>
      have hg : gate op_table db lib s1 cur_frame args required lo hi types
          = (0, func_type_error op_table db lib s1 (ordinal_word slot)
                  (args.getD slot (Data.integer 0))
                  (lib.english_type (types.getD slot 0))) := by
        simp only [gate, gate_check, if_neg hc, hm]
      rw [hg]
      refine ⟨cthrow_arg_starts _ _ _ _ _, ?_, fun h => absurd h hone, fun _ => ⟨rfl, ?_⟩⟩
      · constructor
        · intro h; exact absurd h hone
        · intro h
          have := (first_mistyped_none lib types args 0).mpr h.2.1
          rw [hm] at this
          cases this
      · refine ⟨_, rfl, fun h => absurd hcount h, ?_, ?_⟩
        · intro _ slot2 h2
          cases h2
          exact ⟨rfl, rfl⟩
        · intro _ h2
          cases h2
    | none =>
      have hty := (first_mistyped_none lib types args 0).mp hm
      by_cases hb : bound_elsewhere op_table cur_frame
      · have hg : gate op_table db lib s1 cur_frame args required lo hi types
            = (0, func_perm_error op_table db lib s1 cur_frame) := by
          simp only [gate, gate_check, if_neg hc, hm, decide_eq_true hb, if_true]
        rw [hg]
        refine ⟨cthrow_arg_starts _ _ _ _ _, ?_, fun h => absurd h hone, fun _ => ⟨rfl, ?_⟩⟩
        · constructor
          · intro h; exact absurd h hone
          · intro h; exact absurd hb h.2.2
        · refine ⟨_, rfl, fun h => absurd hcount h, ?_, fun _ _ => rfl⟩
          intro _ slot2 h2
          cases h2
      · have hg : gate op_table db lib s1 cur_frame args required lo hi types = (1, s1) := by
          simp only [gate, gate_check, if_neg hc, hm, decide_eq_false hb]
          rfl
        rw [hg]
        refine ⟨rfl, ?_, fun _ => rfl, fun h => absurd rfl h⟩
        constructor
        · intro _; exact ⟨hcount, hty, hb⟩
        · intro _; rfl

/-- C31: each of the eight functions `func_init_*`, called in a current frame
with the entry `arg_start` on top of the argument-start stack and the arguments
`args` above `arg_start`, is the gate with its table of counts and its required
types.  The gate takes the one entry off the argument-start stack in every
case.  It returns 1, and raises nothing, exactly when the count of the
arguments is one of the permitted counts, every argument whose slot has a
required type other than 0 has this type, and the opcode is bound to no object
or to the object that defines the current method.  Otherwise it returns 0 after
one call of `cthrow`: with `numargs_id` if the count is not permitted, else with
`type_id` for the first argument of a wrong type, else with `perm_id`. -/
theorem native_gate (op_table : Int → Op_info) (db : Db) (lib : Lib) (s : VM)
    (cur_frame : Frame) (rest : List Frame) (starts : List Nat) (base args : List Data)
    (hs : s.frames = cur_frame :: rest) (harg : s.arg_starts = starts ++ [base.length])
    (hstack : s.stack = base ++ args) :
    (func_init_0 op_table db lib s
        = gate op_table db lib { s with arg_starts := starts } cur_frame args "none" 0 0 []
      ∧ (∀ type1 : Int, func_init_1 op_table db lib s type1
          = gate op_table db lib { s with arg_starts := starts } cur_frame args "one" 1 1
              [type1])
      ∧ (∀ type1 type2 : Int, func_init_2 op_table db lib s type1 type2
          = gate op_table db lib { s with arg_starts := starts } cur_frame args "two" 2 2
              [type1, type2])
      ∧ (∀ type1 type2 type3 : Int, func_init_3 op_table db lib s type1 type2 type3
          = gate op_table db lib { s with arg_starts := starts } cur_frame args "three" 3 3
              [type1, type2, type3])
      ∧ (∀ type1 : Int, func_init_0_or_1 op_table db lib s type1
          = gate op_table db lib { s with arg_starts := starts } cur_frame args "at most one"
              0 1 [type1])
      ∧ (∀ type1 type2 : Int, func_init_1_or_2 op_table db lib s type1 type2
          = gate op_table db lib { s with arg_starts := starts } cur_frame args "one or two"
              1 2 [type1, type2])
      ∧ (∀ type1 type2 type3 : Int, func_init_2_or_3 op_table db lib s type1 type2 type3
          = gate op_table db lib { s with arg_starts := starts } cur_frame args "two or three"
              2 3 [type1, type2, type3])
      ∧ (∀ type1 type2 type3 : Int, func_init_1_to_3 op_table db lib s type1 type2 type3
          = gate op_table db lib { s with arg_starts := starts } cur_frame args "one to three"
              1 3 [type1, type2, type3]))
    ∧ (∀ (required : String) (lo hi : Nat) (types : List Int),
        (gate op_table db lib { s with arg_starts := starts } cur_frame args required lo hi
            types).2.arg_starts = starts
        ∧ ((gate op_table db lib { s with arg_starts := starts } cur_frame args required lo hi
              types).1 = 1
            ↔ ((lo ≤ args.length ∧ args.length ≤ hi)
                ∧ (∀ (i : Nat) (d : Data) (type1 : Int), args.get? i = some d →
                    types.get? i = some type1 → type1 ≠ 0 → lib.type_code d.type = type1)
                ∧ ¬ bound_elsewhere op_table cur_frame))
        ∧ ((gate op_table db lib { s with arg_starts := starts } cur_frame args required lo hi
              types).1 = 1 →
            (gate op_table db lib { s with arg_starts := starts } cur_frame args required lo hi
              types).2 = { s with arg_starts := starts })
        ∧ ((gate op_table db lib { s with arg_starts := starts } cur_frame args required lo hi
              types).1 ≠ 1 →
            (gate op_table db lib { s with arg_starts := starts } cur_frame args required lo hi
              types).1 = 0
            ∧ ∃ t : Thrown,
                (gate op_table db lib { s with arg_starts := starts } cur_frame args required
                  lo hi types).2
                  = cthrow op_table db lib { s with arg_starts := starts } t
                ∧ (¬ (lo ≤ args.length ∧ args.length ≤ hi) → t.error = numargs_id)
                ∧ ((lo ≤ args.length ∧ args.length ≤ hi) →
                    ∀ slot : Nat, first_mistyped lib types args 0 = some slot →
                      t.error = type_id
                      ∧ t.args = [Data.string (ordinal_word slot),
                                  args.getD slot (Data.integer 0),
                                  Data.string (lib.english_type (types.getD slot 0))])
                ∧ ((lo ≤ args.length ∧ args.length ≤ hi) →
                    first_mistyped lib types args 0 = none → t.error = perm_id))) := by
  refine ⟨⟨?_, ?_, ?_, ?_, ?_, ?_, ?_, ?_⟩, ?_⟩
  · exact func_init_0_gate op_table db lib s cur_frame rest starts base args hs harg hstack
  · exact func_init_1_gate op_table db lib s cur_frame rest starts base args hs harg hstack
  · exact func_init_2_gate op_table db lib s cur_frame rest starts base args hs harg hstack
  · exact func_init_3_gate op_table db lib s cur_frame rest starts base args hs harg hstack
  · exact func_init_0_or_1_gate op_table db lib s cur_frame rest starts base args hs harg hstack
  · exact func_init_1_or_2_gate op_table db lib s cur_frame rest starts base args hs harg hstack
  · exact func_init_2_or_3_gate op_table db lib s cur_frame rest starts base args hs harg hstack
  · exact func_init_1_to_3_gate op_table db lib s cur_frame rest starts base args hs harg hstack
  · intro required lo hi types
    exact gate_spec op_table db lib { s with arg_starts := starts } cur_frame args required
      lo hi types

theorem native_gate_witness :
    (func_init_1 ex_op_table ex_db ex_lib ex_vm_args 1
        = gate ex_op_table ex_db ex_lib { ex_vm_args with arg_starts := [] } ex_frame
            [Data.integer 2] "one" 1 1 [1]
      ∧ (gate ex_op_table ex_db ex_lib { ex_vm_args with arg_starts := [] } ex_frame
            [Data.integer 2] "one" 1 1 [1]).1 = 1
      ∧ (gate ex_op_table ex_db ex_lib { ex_vm_args with arg_starts := [] } ex_frame
            [Data.integer 2] "one" 1 1 [1]).2 = { ex_vm_args with arg_starts := [] })
    ∧ (func_init_2 ex_op_table ex_db ex_lib ex_vm_args 1 1
        = gate ex_op_table ex_db ex_lib { ex_vm_args with arg_starts := [] } ex_frame
            [Data.integer 2] "two" 2 2 [1, 1]
      ∧ (gate ex_op_table ex_db ex_lib { ex_vm_args with arg_starts := [] } ex_frame
            [Data.integer 2] "two" 2 2 [1, 1]).1 ≠ 1)
    ∧ (func_init_1 ex_op_table ex_db ex_lib ex_vm_args 3
        = gate ex_op_table ex_db ex_lib { ex_vm_args with arg_starts := [] } ex_frame
            [Data.integer 2] "one" 1 1 [3]
      ∧ (gate ex_op_table ex_db ex_lib { ex_vm_args with arg_starts := [] } ex_frame
            [Data.integer 2] "one" 1 1 [3]).1 ≠ 1)
    ∧ (func_init_1 ex_bound_table ex_db ex_lib ex_vm_args 1
        = gate ex_bound_table ex_db ex_lib { ex_vm_args with arg_starts := [] } ex_frame
            [Data.integer 2] "one" 1 1 [1]
      ∧ (gate ex_bound_table ex_db ex_lib { ex_vm_args with arg_starts := [] } ex_frame
            [Data.integer 2] "one" 1 1 [1]).1 ≠ 1) := by
  have h := native_gate ex_op_table ex_db ex_lib ex_vm_args ex_frame [] [] [Data.integer 1]
    [Data.integer 2] rfl rfl rfl
  have hb := native_gate ex_bound_table ex_db ex_lib ex_vm_args ex_frame [] [] [Data.integer 1]
    [Data.integer 2] rfl rfl rfl
  have hok : (gate ex_op_table ex_db ex_lib { ex_vm_args with arg_starts := [] } ex_frame
      [Data.integer 2] "one" 1 1 [1]).1 = 1 := rfl
  refine ⟨⟨h.1.2.1 1, hok, (h.2 "one" 1 1 [1]).2.2.1 hok⟩, ⟨h.1.2.2.1 1 1, ?_⟩,
    ⟨h.1.2.1 3, ?_⟩, ⟨hb.1.2.1 1, ?_⟩⟩
  · intro h1
    have := ((h.2 "two" 2 2 [1, 1]).2.1.mp h1).1
    simp at this
  · intro h1
    have := ((h.2 "one" 1 1 [3]).2.1.mp h1).2.1 0 (Data.integer 2) 3 rfl rfl (by decide)
    revert this
    decide
  · intro h1
    have := ((hb.2 "one" 1 1 [1]).2.1.mp h1).2.2
    apply this
    decide

theorem slot_target (base args : List Data) (target : Data) (d : Data) :
    (base ++ target :: args).getD base.length d = target := by
  have := getD_append_base base (target :: args) 0 d
  simpa using this

theorem message_result_started (op_table : Int → Op_info) (db : Db) (lib : Lib)
    (dbref : Dbref) (message : Ident) (sent : Ident × VM) (h : sent.1 = NOT_AN_IDENT) :
    message_result op_table db lib dbref message sent = sent.2 := by
  have n1 : ¬ NOT_AN_IDENT = numargs_id := by decide
  have n2 : ¬ NOT_AN_IDENT = objnf_id := by decide
  have n3 : ¬ NOT_AN_IDENT = methodnf_id := by decide
  have n4 : ¬ NOT_AN_IDENT = maxdepth_id := by decide
  have n5 : ¬ NOT_AN_IDENT = private_id := by decide
  have n6 : ¬ NOT_AN_IDENT = protected_id := by decide
  have n7 : ¬ NOT_AN_IDENT = root_id := by decide
  have n8 : ¬ NOT_AN_IDENT = driver_id := by decide
  simp only [message_result, h, if_neg n1, if_neg n2, if_neg n3, if_neg n4, if_neg n5,
    if_neg n6, if_neg n7, if_neg n8]

theorem send_message_started (db : Db) (s : VM) (dbref : Dbref) (message : Ident)
    (stack_start arg_start : Nat)
    (hok : (send_message db s dbref message stack_start arg_start).1 = NOT_AN_IDENT) :
    ∃ (obj : Obj) (method : Method) (frame : Frame),
      db.cache_retrieve dbref = some obj
      ∧ db.object_find_method obj.dbref message = some method
      ∧ (send_message db s dbref message stack_start arg_start).2.frames = frame :: s.frames
      ∧ frame.object = obj.dbref ∧ frame.method = method
      ∧ frame.stack_start = stack_start ∧ frame.var_start = arg_start
      ∧ (send_message db s dbref message stack_start arg_start).2.stack.take
            (arg_start + method.num_args)
          = s.stack.take (arg_start + method.num_args) := by
  have n2 : ¬ objnf_id = NOT_AN_IDENT := by decide
  have n3 : ¬ methodnf_id = NOT_AN_IDENT := by decide
  have n4 : ¬ maxdepth_id = NOT_AN_IDENT := by decide
  have n1 : ¬ numargs_id = NOT_AN_IDENT := by decide
  have key : ∀ (obj : Obj) (method : Method) (sender caller : Dbref),
      (frame_start s obj method sender caller stack_start arg_start).1 = NOT_AN_IDENT →
      ∃ frame : Frame,
        (frame_start s obj method sender caller stack_start arg_start).2.frames
          = frame :: s.frames
        ∧ frame.object = obj.dbref ∧ frame.method = method
        ∧ frame.stack_start = stack_start ∧ frame.var_start = arg_start
        ∧ (frame_start s obj method sender caller stack_start arg_start).2.stack.take
              (arg_start + method.num_args)
            = s.stack.take (arg_start + method.num_args) := by
    intro obj method sender caller h
    by_cases hn : (s.stack.length : Int) - (arg_start : Int) < (method.num_args : Int)
        ∨ ((s.stack.length : Int) - (arg_start : Int) > (method.num_args : Int)
            ∧ method.rest = -1)
    · rw [frame_start_numargs _ _ _ _ _ _ _ hn] at h
      exact absurd h n1
    · by_cases hd : s.frame_depth > MAX_CALL_DEPTH
      · rw [frame_start_maxdepth _ _ _ _ _ _ _ hn hd] at h
        exact absurd h n4
      · rw [frame_start_ok _ _ _ _ _ _ _ hn hd]
        refine ⟨_, rfl, rfl, rfl, rfl, rfl, ?_⟩
        have hle : arg_start + method.num_args ≤ s.stack.length := by
          have := not_or.1 hn
          omega
        show List.take (arg_start + method.num_args)
            ((if method.rest ≠ -1 then
                s.stack.take (arg_start + method.num_args)
                  ++ [Data.list (s.stack.drop (arg_start + method.num_args))]
               else s.stack) ++ List.replicate method.num_vars (Data.integer 0))
          = s.stack.take (arg_start + method.num_args)
        by_cases hr : method.rest = -1
        · simp only [hr, ne_eq, not_true_eq_false, if_false]
          rw [List.take_append_of_le_length hle]
        · simp only [ne_eq, hr, not_false_eq_true, if_true, List.append_assoc]
          rw [List.take_append_of_le_length (by simp; omega)]
          simp
  cases hobj : db.cache_retrieve dbref with
  | none =>
    simp only [send_message, hobj] at hok
    exact absurd hok n2
  | some obj =>
    cases hm : db.object_find_method obj.dbref message with
    | none =>
      simp only [send_message, hobj, hm] at hok
      exact absurd hok n3
    | some method =>
      cases hs : s.frames with
      | nil =>
        rw [send_message_found_no_frame db s dbref message stack_start arg_start obj method
          hobj hm hs] at hok ⊢
        obtain ⟨frame, h1, h2⟩ := key obj method _ _ hok
        rw [hs] at h1
        exact ⟨obj, method, frame, rfl, hm, h1, h2⟩
      | cons f rest =>
        rw [send_message_found_frame db s dbref message stack_start arg_start obj method f
          rest hobj hm hs] at hok ⊢
        cases hc : check_perms f obj method with
        | some id =>
          rw [hc] at hok
          have hid : id = NOT_AN_IDENT := hok
          simp only [check_perms] at hc
          split at hc <;> simp at hc
          all_goals
            first
            | (obtain ⟨_, h⟩ := hc; rw [hid] at h; exact absurd h (by decide))
            | (rw [hid] at hc; exact absurd hc (by decide))
        | none =>
          rw [hc] at hok
          dsimp only at hok ⊢
          obtain ⟨frame, h1, h2⟩ := key obj method _ _ hok
          rw [hs] at h1
          exact ⟨obj, method, frame, rfl, hm, h1, h2⟩

theorem op_message_dbref (op_table : Int → Op_info) (db : Db) (lib : Lib) (s : VM)
    (cur_frame : Frame) (rest : List Frame) (starts : List Nat) (base args : List Data)
    (dbref : Dbref)
    (hs : s.frames = cur_frame :: rest) (harg : s.arg_starts = starts ++ [base.length + 1])
    (hstack : s.stack = base ++ Data.dbref dbref :: args) :
    op_message op_table db lib s
      = message_result op_table db lib dbref
          (lib.object_get_ident cur_frame.method.object (cur_frame.opcode_at cur_frame.pc))
          (send_message db
            { s with frames := { cur_frame with pc := cur_frame.pc + 1 } :: rest
                     arg_starts := starts }
            dbref
            (lib.object_get_ident cur_frame.method.object (cur_frame.opcode_at cur_frame.pc))
            base.length (base.length + 1)) := by
  simp only [op_message, hs, pop_arg_start, harg, List.getLastD_concat, List.dropLast_concat,
    VM.slot, hstack, Nat.add_sub_cancel, slot_target]

theorem op_message_frob (op_table : Int → Op_info) (db : Db) (lib : Lib) (s : VM)
    (cur_frame : Frame) (rest : List Frame) (starts : List Nat) (base args : List Data)
    (cclass : Dbref) (rep : Data)
    (hs : s.frames = cur_frame :: rest) (harg : s.arg_starts = starts ++ [base.length + 1])
    (hstack : s.stack = base ++ Data.frob cclass rep :: args) :
    op_message op_table db lib s
      = message_result op_table db lib cclass
          (lib.object_get_ident cur_frame.method.object (cur_frame.opcode_at cur_frame.pc))
          (send_message db
            { s with frames := { cur_frame with pc := cur_frame.pc + 1 } :: rest
                     arg_starts := starts
                     stack := base ++ rep :: args }
            cclass
            (lib.object_get_ident cur_frame.method.object (cur_frame.opcode_at cur_frame.pc))
            base.length base.length) := by
  simp only [op_message, hs, pop_arg_start, harg, List.getLastD_concat, List.dropLast_concat,
    VM.slot, hstack, Nat.add_sub_cancel, slot_target]
  simp

theorem op_message_other (op_table : Int → Op_info) (db : Db) (lib : Lib) (s : VM)
    (cur_frame : Frame) (rest : List Frame) (starts : List Nat) (base args : List Data)
    (target : Data)
    (hs : s.frames = cur_frame :: rest) (harg : s.arg_starts = starts ++ [base.length + 1])
    (hstack : s.stack = base ++ target :: args)
    (hd : target.type ≠ DataType.DBREF) (hf : target.type ≠ DataType.FROB) :
    op_message op_table db lib s
      = match db.lookup_retrieve_name (lib.data_type_id target.type) with
        | none =>
          cthrow op_table db lib
            { s with frames := { cur_frame with pc := cur_frame.pc + 1 } :: rest
                     arg_starts := starts }
            { error := objnf_id, fmt := "No object for data type %I.",
              args := [Data.symbol (lib.data_type_id target.type)] }
        | some dbref =>
          message_result op_table db lib dbref
            (lib.object_get_ident cur_frame.method.object (cur_frame.opcode_at cur_frame.pc))
            (send_message db
              { s with frames := { cur_frame with pc := cur_frame.pc + 1 } :: rest
                       arg_starts := starts }
              dbref
              (lib.object_get_ident cur_frame.method.object
                (cur_frame.opcode_at cur_frame.pc))
              base.length base.length) := by
  simp only [op_message, hs, pop_arg_start, harg, List.getLastD_concat, List.dropLast_concat,
    VM.slot, hstack, Nat.add_sub_cancel, slot_target]
  cases target <;> simp [Data.type] at hd hf ⊢

theorem slot_message (base args : List Data) (target message : Data) (d : Data) :
    (base ++ target :: message :: args).getD (base.length + 1) d = message := by
  have := getD_append_base base (target :: message :: args) 1 d
  simpa using this

theorem set_target_slots (base args : List Data) (target message rep zero : Data) :
    ((base ++ target :: message :: args).set (base.length + 1) rep).set base.length zero
      = base ++ zero :: rep :: args := by
  induction base with
  | nil => rfl
  | cons b base ih => simp

theorem op_expr_message_dbref (op_table : Int → Op_info) (db : Db) (lib : Lib) (s : VM)
    (starts : List Nat) (base args : List Data) (dbref : Dbref) (message : Ident)
    (harg : s.arg_starts = starts ++ [base.length + 2])
    (hstack : s.stack = base ++ Data.dbref dbref :: Data.symbol message :: args) :
    op_expr_message op_table db lib s
      = message_result op_table db lib dbref message
          (send_message db { s with arg_starts := starts } dbref message
            base.length (base.length + 2)) := by
  have e1 : base.length + 2 - 1 = base.length + 1 := by omega
  simp only [op_expr_message, pop_arg_start, harg, List.getLastD_concat,
    List.dropLast_concat, VM.slot, hstack, Nat.add_sub_cancel, e1, slot_target, slot_message]

theorem op_expr_message_frob (op_table : Int → Op_info) (db : Db) (lib : Lib) (s : VM)
    (starts : List Nat) (base args : List Data) (cclass : Dbref) (rep : Data)
    (message : Ident)
    (harg : s.arg_starts = starts ++ [base.length + 2])
    (hstack : s.stack = base ++ Data.frob cclass rep :: Data.symbol message :: args) :
    op_expr_message op_table db lib s
      = message_result op_table db lib cclass message
          (send_message db
            { s with arg_starts := starts
                     stack := base ++ Data.integer 0 :: rep :: args }
            cclass message base.length (base.length + 1)) := by
  have e1 : base.length + 2 - 1 = base.length + 1 := by omega
  simp only [op_expr_message, pop_arg_start, harg, List.getLastD_concat,
    List.dropLast_concat, VM.slot, hstack, Nat.add_sub_cancel, e1, slot_target, slot_message,
    set_target_slots]

theorem op_expr_message_other (op_table : Int → Op_info) (db : Db) (lib : Lib) (s : VM)
    (starts : List Nat) (base args : List Data) (target : Data) (message : Ident)
    (harg : s.arg_starts = starts ++ [base.length + 2])
    (hstack : s.stack = base ++ target :: Data.symbol message :: args)
    (hd : target.type ≠ DataType.DBREF) (hf : target.type ≠ DataType.FROB) :
    op_expr_message op_table db lib s
      = match db.lookup_retrieve_name (lib.data_type_id target.type) with
        | none =>
          cthrow op_table db lib { s with arg_starts := starts }
            { error := objnf_id, fmt := "No object for data type %I",
              args := [Data.symbol (lib.data_type_id target.type)] }
        | some dbref =>
          message_result op_table db lib dbref message
            (send_message db { s with arg_starts := starts } dbref message
              base.length (base.length + 1)) := by
  have e1 : base.length + 2 - 1 = base.length + 1 := by omega
  simp only [op_expr_message, pop_arg_start, harg, List.getLastD_concat,
    List.dropLast_concat, VM.slot, hstack, Nat.add_sub_cancel, e1, slot_target, slot_message]
  cases target <;> simp [Data.type] at hd hf ⊢

theorem arg_vector_base (s : VM) (base args : List Data) (h : s.stack = base ++ args) :
    arg_vector s base.length = args := by
  simp [arg_vector, h]

theorem arg_vector_succ (s : VM) (base args : List Data) (d : Data)
    (h : s.stack = base ++ d :: args) :
    arg_vector s (base.length + 1) = args := by
  have h2 : s.stack = (base ++ [d]) ++ args := by simp [h]
  have := arg_vector_base s (base ++ [d]) args h2
  simpa using this

theorem arg_vector_succ_succ (s : VM) (base args : List Data) (d e : Data)
    (h : s.stack = base ++ d :: e :: args) :
    arg_vector s (base.length + 2) = args := by
  have h2 : s.stack = (base ++ [d, e]) ++ args := by simp [h]
  have := arg_vector_base s (base ++ [d, e]) args h2
  simpa using this

/-- C32: `op_message` run with a current frame, the recorded argument start
just above the slot of `target` and the arguments `args` above it.  A Dbref
target is sent to directly, with stack_start at the target slot and the argument
vector `args`; a Frob target is sent to its cclass on the stack in which the
target slot holds the rep, with stack_start and the argument start both at that
slot, so the vector is the rep followed by `args`; for a target of another type
the object named after the type is looked up, the message is sent to it with the
target value as first argument, and when there is no such object `objnf_id` is
raised by `cthrow` without a call of `send_message`.  Whenever `send_message`
returns no error, the operator ends in the state that `send_message` left, in
which the new frame is on top of the chain with the given stack_start and
argument start, runs the found method on the found object, and sees its fixed
arguments in place. -/
theorem message_target (op_table : Int → Op_info) (db : Db) (lib : Lib) (s : VM)
    (cur_frame : Frame) (rest : List Frame) (starts : List Nat) (base args : List Data)
    (target : Data)
    (hs : s.frames = cur_frame :: rest) (harg : s.arg_starts = starts ++ [base.length + 1])
    (hstack : s.stack = base ++ target :: args) :
    (∀ dbref : Dbref, target = Data.dbref dbref →
      op_message op_table db lib s
        = message_result op_table db lib dbref
            (lib.object_get_ident cur_frame.method.object (cur_frame.opcode_at cur_frame.pc))
            (send_message db
              { s with frames := { cur_frame with pc := cur_frame.pc + 1 } :: rest
                       arg_starts := starts }
              dbref
              (lib.object_get_ident cur_frame.method.object
                (cur_frame.opcode_at cur_frame.pc))
              base.length (base.length + 1))
      ∧ arg_vector
          { s with frames := { cur_frame with pc := cur_frame.pc + 1 } :: rest
                   arg_starts := starts } (base.length + 1) = args)
    ∧ (∀ (cclass : Dbref) (rep : Data), target = Data.frob cclass rep →
      op_message op_table db lib s
        = message_result op_table db lib cclass
            (lib.object_get_ident cur_frame.method.object (cur_frame.opcode_at cur_frame.pc))
            (send_message db
              { s with frames := { cur_frame with pc := cur_frame.pc + 1 } :: rest
                       arg_starts := starts
                       stack := base ++ rep :: args }
              cclass
              (lib.object_get_ident cur_frame.method.object
                (cur_frame.opcode_at cur_frame.pc))
              base.length base.length)
      ∧ arg_vector
          { s with frames := { cur_frame with pc := cur_frame.pc + 1 } :: rest
                   arg_starts := starts
                   stack := base ++ rep :: args } base.length = rep :: args)
    ∧ (target.type ≠ DataType.DBREF → target.type ≠ DataType.FROB →
      (∀ dbref : Dbref,
        db.lookup_retrieve_name (lib.data_type_id target.type) = some dbref →
        op_message op_table db lib s
          = message_result op_table db lib dbref
              (lib.object_get_ident cur_frame.method.object
                (cur_frame.opcode_at cur_frame.pc))
              (send_message db
                { s with frames := { cur_frame with pc := cur_frame.pc + 1 } :: rest
                         arg_starts := starts }
                dbref
                (lib.object_get_ident cur_frame.method.object
                  (cur_frame.opcode_at cur_frame.pc))
                base.length base.length)
        ∧ arg_vector
            { s with frames := { cur_frame with pc := cur_frame.pc + 1 } :: rest
                     arg_starts := starts } base.length = target :: args)
      ∧ (db.lookup_retrieve_name (lib.data_type_id target.type) = none →
        op_message op_table db lib s
          = cthrow op_table db lib
              { s with frames := { cur_frame with pc := cur_frame.pc + 1 } :: rest
                       arg_starts := starts }
              { error := objnf_id, fmt := "No object for data type %I.",
                args := [Data.symbol (lib.data_type_id target.type)] }))
    ∧ (∀ (t : VM) (dbref : Dbref) (message : Ident) (stack_start arg_start : Nat),
      (send_message db t dbref message stack_start arg_start).1 = NOT_AN_IDENT →
      message_result op_table db lib dbref message
          (send_message db t dbref message stack_start arg_start)
        = (send_message db t dbref message stack_start arg_start).2
      ∧ ∃ (obj : Obj) (method : Method) (frame : Frame),
          db.cache_retrieve dbref = some obj
          ∧ db.object_find_method obj.dbref message = some method
          ∧ (send_message db t dbref message stack_start arg_start).2.frames
              = frame :: t.frames
          ∧ frame.object = obj.dbref ∧ frame.method = method
          ∧ frame.stack_start = stack_start ∧ frame.var_start = arg_start
          ∧ (send_message db t dbref message stack_start arg_start).2.stack.take
                (arg_start + method.num_args)
              = t.stack.take (arg_start + method.num_args)) := by
  refine ⟨?_, ?_, ?_, ?_⟩
  · intro dbref ht
    subst ht
    exact ⟨op_message_dbref op_table db lib s cur_frame rest starts base args dbref hs harg
      hstack, arg_vector_succ _ base args (Data.dbref dbref) hstack⟩
  · intro cclass rep ht
    subst ht
    exact ⟨op_message_frob op_table db lib s cur_frame rest starts base args cclass rep hs
      harg hstack, arg_vector_base _ base (rep :: args) rfl⟩
  · intro hd hf
    have h := op_message_other op_table db lib s cur_frame rest starts base args target hs
      harg hstack hd hf
    constructor
    · intro dbref hl
      rw [hl] at h
      exact ⟨h, arg_vector_base _ base (target :: args) hstack⟩
    · intro hl
      rw [hl] at h
      exact h
  · intro t dbref message stack_start arg_start hok
    exact ⟨message_result_started op_table db lib dbref message _ hok,
      send_message_started db t dbref message stack_start arg_start hok⟩

/-- Instance of `message_target`: MESSAGE with the literal 5 on the target
Integer 5, in a store whose object 3 is named after the Integer type. -/
theorem message_target_witness :
    op_message ex_op_table ex_db ex_lib ex_vm_message
        = message_result ex_op_table ex_db ex_lib 3 5
            (send_message ex_db
              { ex_vm_message with
                frames := [{ ex_frame_message with pc := 1 }], arg_starts := [] }
              3 5 0 0)
    ∧ arg_vector
        { ex_vm_message with
          frames := [{ ex_frame_message with pc := 1 }], arg_starts := [] } 0
        = [Data.integer 5] :=
  ((message_target ex_op_table ex_db ex_lib ex_vm_message ex_frame_message [] [] [] []
    (Data.integer 5) rfl rfl rfl).2.2.1 (by decide) (by decide)).1 3 rfl

/-- C33: MESSAGE run on the target `target` with the literal that names
`message` and the arguments `args`, against EXPR_MESSAGE run on the same target
with the Symbol `message` above it and the same arguments.  For a Dbref target
and for a Frob target both call `send_message` for the same object and message,
with stack_start at the target slot and the same argument vector (`args`, and
the rep followed by `args`).  For a target of another type whose type object
exists both send to that object, but the argument vector of MESSAGE is the
target followed by `args`, whereas that of EXPR_MESSAGE is the message Symbol
followed by `args`: the two differ unless the target is that very Symbol. -/
theorem expr_message_argument_vector (op_table : Int → Op_info) (db : Db) (lib : Lib)
    (s_m s_e : VM) (cur_frame : Frame) (rest : List Frame) (starts : List Nat)
    (base args : List Data) (target : Data) (message : Ident)
    (hm_frames : s_m.frames = cur_frame :: rest)
    (hlit : lib.object_get_ident cur_frame.method.object (cur_frame.opcode_at cur_frame.pc)
      = message)
    (hm_arg : s_m.arg_starts = starts ++ [base.length + 1])
    (hm_stack : s_m.stack = base ++ target :: args)
    (he_arg : s_e.arg_starts = starts ++ [base.length + 2])
    (he_stack : s_e.stack = base ++ target :: Data.symbol message :: args) :
    (∀ dbref : Dbref, target = Data.dbref dbref →
      op_message op_table db lib s_m
        = message_result op_table db lib dbref message
            (send_message db
              { s_m with frames := { cur_frame with pc := cur_frame.pc + 1 } :: rest
                         arg_starts := starts }
              dbref message base.length (base.length + 1))
      ∧ op_expr_message op_table db lib s_e
        = message_result op_table db lib dbref message
            (send_message db { s_e with arg_starts := starts } dbref message
              base.length (base.length + 2))
      ∧ arg_vector
          { s_m with frames := { cur_frame with pc := cur_frame.pc + 1 } :: rest
                     arg_starts := starts } (base.length + 1) = args
      ∧ arg_vector { s_e with arg_starts := starts } (base.length + 2) = args)
    ∧ (∀ (cclass : Dbref) (rep : Data), target = Data.frob cclass rep →
      op_message op_table db lib s_m
        = message_result op_table db lib cclass message
            (send_message db
              { s_m with frames := { cur_frame with pc := cur_frame.pc + 1 } :: rest
                         arg_starts := starts
                         stack := base ++ rep :: args }
              cclass message base.length base.length)
      ∧ op_expr_message op_table db lib s_e
        = message_result op_table db lib cclass message
            (send_message db
              { s_e with arg_starts := starts
                         stack := base ++ Data.integer 0 :: rep :: args }
              cclass message base.length (base.length + 1))
      ∧ arg_vector
          { s_m with frames := { cur_frame with pc := cur_frame.pc + 1 } :: rest
                     arg_starts := starts
                     stack := base ++ rep :: args } base.length = rep :: args
      ∧ arg_vector
          { s_e with arg_starts := starts
                     stack := base ++ Data.integer 0 :: rep :: args } (base.length + 1)
          = rep :: args)
    ∧ (target.type ≠ DataType.DBREF → target.type ≠ DataType.FROB →
      ∀ dbref : Dbref,
        db.lookup_retrieve_name (lib.data_type_id target.type) = some dbref →
        op_message op_table db lib s_m
          = message_result op_table db lib dbref message
              (send_message db
                { s_m with frames := { cur_frame with pc := cur_frame.pc + 1 } :: rest
                           arg_starts := starts }
                dbref message base.length base.length)
        ∧ op_expr_message op_table db lib s_e
          = message_result op_table db lib dbref message
              (send_message db { s_e with arg_starts := starts } dbref message
                base.length (base.length + 1))
        ∧ arg_vector
            { s_m with frames := { cur_frame with pc := cur_frame.pc + 1 } :: rest
                       arg_starts := starts } base.length = target :: args
        ∧ arg_vector { s_e with arg_starts := starts } (base.length + 1)
            = Data.symbol message :: args
        ∧ (target ≠ Data.symbol message →
            arg_vector { s_e with arg_starts := starts } (base.length + 1)
              ≠ arg_vector
                  { s_m with frames := { cur_frame with pc := cur_frame.pc + 1 } :: rest
                             arg_starts := starts } base.length)) := by
  refine ⟨?_, ?_, ?_⟩
  · intro dbref ht
    subst ht
    have h1 := op_message_dbref op_table db lib s_m cur_frame rest starts base args dbref
      hm_frames hm_arg hm_stack
    rw [hlit] at h1
    exact ⟨h1, op_expr_message_dbref op_table db lib s_e starts base args dbref message
        he_arg he_stack,
      arg_vector_succ _ base args (Data.dbref dbref) hm_stack,
      arg_vector_succ_succ _ base args (Data.dbref dbref) (Data.symbol message) he_stack⟩
  · intro cclass rep ht
    subst ht
    have h1 := op_message_frob op_table db lib s_m cur_frame rest starts base args cclass
      rep hm_frames hm_arg hm_stack
    rw [hlit] at h1
    exact ⟨h1, op_expr_message_frob op_table db lib s_e starts base args cclass rep message
        he_arg he_stack,
      arg_vector_base _ base (rep :: args) rfl,
      arg_vector_succ _ base (rep :: args) (Data.integer 0) rfl⟩
  · intro hd hf dbref hl
    have h1 := op_message_other op_table db lib s_m cur_frame rest starts base args target
      hm_frames hm_arg hm_stack hd hf
    rw [hlit, hl] at h1
    have h2 := op_expr_message_other op_table db lib s_e starts base args target message
      he_arg he_stack hd hf
    rw [hl] at h2
    have a1 : arg_vector
        { s_m with frames := { cur_frame with pc := cur_frame.pc + 1 } :: rest
                   arg_starts := starts } base.length = target :: args :=
      arg_vector_base _ base (target :: args) hm_stack
    have a2 : arg_vector { s_e with arg_starts := starts } (base.length + 1)
        = Data.symbol message :: args :=
      arg_vector_succ _ base (Data.symbol message :: args) target he_stack
    refine ⟨h1, h2, a1, a2, ?_⟩
    intro hne heq
    rw [a1, a2] at heq
    injection heq with h3 _
    exact hne h3.symm

/-- Instance of `expr_message_argument_vector` at the target Integer 5 with the
message 5, in a store whose object 3 is named after the Integer type: the frame
started by MESSAGE has the Integer 5 as its first argument, the frame started by
EXPR_MESSAGE for the same object and method has the Symbol 5. -/
theorem expr_message_argument_vector_witness :
    (arg_vector { ex_vm_expr_message with arg_starts := [] } 1
      ≠ arg_vector
          { ex_vm_message with
            frames := [{ ex_frame_message with pc := 1 }], arg_starts := [] } 0)
    ∧ (op_message ex_op_table ex_db ex_lib ex_vm_message).stack
        = [Data.integer 5, Data.list [], Data.integer 0, Data.integer 0]
    ∧ (op_message ex_op_table ex_db ex_lib ex_vm_message).frames.map
          (fun f => (f.object, f.method.name, f.stack_start, f.var_start))
        = [(3, 5, 0, 0), (11, 5, 0, 0)]
    ∧ (op_expr_message ex_op_table ex_db ex_lib ex_vm_expr_message).stack
        = [Data.integer 5, Data.symbol 5, Data.list [], Data.integer 0, Data.integer 0]
    ∧ (op_expr_message ex_op_table ex_db ex_lib ex_vm_expr_message).frames.map
          (fun f => (f.object, f.method.name, f.stack_start, f.var_start))
        = [(3, 5, 0, 1), (11, 5, 0, 0)] :=
  ⟨((expr_message_argument_vector ex_op_table ex_db ex_lib ex_vm_message ex_vm_expr_message
      ex_frame_message [] [] [] [] (Data.integer 5) 5 rfl rfl rfl rfl rfl rfl).2.2
      (by decide) (by decide) 3 rfl).2.2.2.2 (by simp),
    rfl, rfl, rfl, rfl⟩

theorem merge_run_nil_left {α : Type} (le : α → α → Bool) (r : List α) :
    merge_run le [] r = r := by
  simp [merge_run]

theorem merge_run_nil_right {α : Type} (le : α → α → Bool) (l : List α) :
    merge_run le l [] = l := by
  cases l <;> simp [merge_run]

theorem merge_run_cons {α : Type} (le : α → α → Bool) (x y : α) (xs ys : List α) :
    merge_run le (x :: xs) (y :: ys)
      = if le x y then x :: merge_run le xs (y :: ys)
        else y :: merge_run le (x :: xs) ys := by
  simp [merge_run]

theorem merge_run_perm {α : Type} (le : α → α → Bool) (l r : List α) :
    (merge_run le l r).Perm (l ++ r) := by
  induction l generalizing r with
  | nil => simp [merge_run_nil_left]
  | cons x xs ihl =>
    induction r with
    | nil => simp [merge_run_nil_right]
    | cons y ys ihr =>
      rw [merge_run_cons]
      by_cases h : le x y = true
      · rw [if_pos h]
        exact (ihl (y :: ys)).cons x
      · rw [if_neg h]
        have h1 : (y :: merge_run le (x :: xs) ys).Perm (y :: (x :: xs ++ ys)) := ihr.cons y
        exact h1.trans (List.perm_middle.symm)

theorem merge_run_mem {α : Type} (le : α → α → Bool) (l r : List α) (z : α) :
    z ∈ merge_run le l r ↔ z ∈ l ∨ z ∈ r := by
  rw [(merge_run_perm le l r).mem_iff, List.mem_append]

theorem merge_run_pairwise {α : Type} (le : α → α → Bool) (dom : α → Prop)
    (htotal : ∀ a b, dom a → dom b → le a b = true ∨ le b a = true)
    (htrans : ∀ a b c, dom a → dom b → dom c → le a b = true → le b c = true →
      le a c = true)
    (l r : List α) (hl : ∀ a ∈ l, dom a) (hr : ∀ a ∈ r, dom a)
    (pl : l.Pairwise (fun a b => le a b = true))
    (pr : r.Pairwise (fun a b => le a b = true)) :
    (merge_run le l r).Pairwise (fun a b => le a b = true) := by
  induction l generalizing r with
  | nil => simpa [merge_run_nil_left] using pr
  | cons x xs ihl =>
    induction r with
    | nil => simpa [merge_run_nil_right] using pl
    | cons y ys ihr =>
      have dx : dom x := hl x (List.mem_cons_self _ _)
      have dy : dom y := hr y (List.mem_cons_self _ _)
      have hxs : ∀ a ∈ xs, dom a := fun a ha => hl a (List.mem_cons_of_mem _ ha)
      have hys : ∀ a ∈ ys, dom a := fun a ha => hr a (List.mem_cons_of_mem _ ha)
      rw [List.pairwise_cons] at pl pr
      rw [merge_run_cons]
      by_cases h : le x y = true
      · rw [if_pos h, List.pairwise_cons]
        refine ⟨?_, ihl (y :: ys) hxs hr pl.2 (List.pairwise_cons.2 pr)⟩
        intro z hz
        rw [merge_run_mem] at hz
        rcases hz with hz | hz
        · exact pl.1 z hz
        · rcases List.mem_cons.1 hz with hz | hz
          · rw [hz]; exact h
          · exact htrans x y z dx dy (hys z hz) h (pr.1 z hz)
      · rw [if_neg h, List.pairwise_cons]
        have hyx : le y x = true := by
          rcases htotal x y dx dy with h1 | h1
          · exact absurd h1 h
          · exact h1
        refine ⟨?_, ihr hys pr.2⟩
        intro z hz
        rw [merge_run_mem] at hz
        rcases hz with hz | hz
        · rcases List.mem_cons.1 hz with hz | hz
          · rw [hz]; exact hyx
          · exact htrans y x z dy dx (hxs z hz) hyx (pl.1 z hz)
        · exact pr.1 z hz

theorem merge_run_filter {α : Type} (le : α → α → Bool) (dom : α → Prop)
    (htotal : ∀ a b, dom a → dom b → le a b = true ∨ le b a = true)
    (htrans : ∀ a b c, dom a → dom b → dom c → le a b = true → le b c = true →
      le a c = true)
    (k : α) (hk : dom k)
    (l r : List α) (hl : ∀ a ∈ l, dom a) (hr : ∀ a ∈ r, dom a)
    (pl : l.Pairwise (fun a b => le a b = true)) :
    (merge_run le l r).filter (fun p => le p k && le k p)
      = l.filter (fun p => le p k && le k p) ++ r.filter (fun p => le p k && le k p) := by
  induction l generalizing r with
  | nil => simp [merge_run_nil_left]
  | cons x xs ihl =>
    induction r with
    | nil => simp [merge_run_nil_right]
    | cons y ys ihr =>
      have dx : dom x := hl x (List.mem_cons_self _ _)
      have dy : dom y := hr y (List.mem_cons_self _ _)
      have hxs : ∀ a ∈ xs, dom a := fun a ha => hl a (List.mem_cons_of_mem _ ha)
      have hys : ∀ a ∈ ys, dom a := fun a ha => hr a (List.mem_cons_of_mem _ ha)
      rw [merge_run_cons]
      by_cases h : le x y = true
      · rw [if_pos h, List.filter_cons, ihl (y :: ys) hxs hr (List.pairwise_cons.1 pl).2]
        have e1 : (x :: xs).filter (fun p => le p k && le k p)
            = if (le x k && le k x) = true then x :: xs.filter (fun p => le p k && le k p)
              else xs.filter (fun p => le p k && le k p) := List.filter_cons
        rw [e1]
        split <;> simp
      · rw [if_neg h, List.filter_cons, ihr hys]
        have e2 : (y :: ys).filter (fun p => le p k && le k p)
            = if (le y k && le k y) = true then y :: ys.filter (fun p => le p k && le k p)
              else ys.filter (fun p => le p k && le k p) := List.filter_cons
        rw [e2]
        by_cases hy : (le y k && le k y) = true
        · have hnone : (x :: xs).filter (fun p => le p k && le k p) = [] := by
            rw [List.filter_eq_nil_iff]
            intro z hz hE
            rw [Bool.and_eq_true] at hE hy
            have dz : dom z := hl z hz
            have hxz : le x z = true := by
              rcases List.mem_cons.1 hz with hz | hz
              · rw [hz]
                rcases htotal x x dx dx with h1 | h1 <;> exact h1
              · exact (List.pairwise_cons.1 pl).1 z hz
            have hxk : le x k = true := htrans x z k dx dz hk hxz hE.1
            exact h (htrans x k y dx hk dy hxk hy.2)
          simp only [if_pos hy, hnone, List.nil_append]
        · simp only [if_neg hy]

theorem elem_map_at (f : Data × Data → Data) (pa rest : List (Data × Data))
    (x : Data × Data) :
    elem ((pa ++ x :: rest).map f) pa.length = f x := by
  induction pa with
  | nil => simp [elem]
  | cons a pa ih => simpa [elem] using ih

theorem set_map_at (f : Data × Data → Data) (po qo : List (Data × Data))
    (o x : Data × Data) :
    ((po ++ o :: qo).map f).set po.length (f x) = (po ++ x :: qo).map f := by
  induction po with
  | nil => simp
  | cons a po _ => simp

theorem merge_lists_rest_done (fuel : Nat) (m : SortArrays) (i k e : Nat) (h : ¬ i ≤ e) :
    merge_lists_rest fuel m i k e = (m, i, k) := by
  cases fuel with
  | zero => rfl
  | succ fuel => simp only [merge_lists_rest, if_neg h]

theorem merge_lists_rest_spec (seg : List (Data × Data)) :
    ∀ (fuel : Nat) (m : SortArrays) (pa pc po og qo : List (Data × Data)) (i k e : Nat),
      arrays_hold m (pa ++ seg ++ pc) (po ++ og ++ qo) → og.length = seg.length →
      i = pa.length → e + 1 = pa.length + seg.length → k = po.length →
      seg.length ≤ fuel →
      ∃ m1 : SortArrays, merge_lists_rest fuel m i k e = (m1, e + 1, k + seg.length)
        ∧ arrays_hold m1 (pa ++ seg ++ pc) (po ++ seg ++ qo) := by
  induction seg with
  | nil =>
    intro fuel m pa pc po og qo i k e hm hog hi he hk _
    have hog0 : og = [] := List.length_eq_zero.1 (by simpa using hog)
    subst hog0
    refine ⟨m, ?_, hm⟩
    have hie : ¬ i ≤ e := by simp at he; omega
    rw [merge_lists_rest_done fuel m i k e hie]
    simp at he
    simp [hi, he]
  | cons x seg ih =>
    intro fuel m pa pc po og qo i k e hm hog hi he hk hfuel
    cases og with
    | nil => simp at hog
    | cons o og =>
      cases fuel with
      | zero => simp at hfuel
      | succ fuel =>
        have hie : i ≤ e := by simp at he; omega
        obtain ⟨h1, h2, h3, h4⟩ := hm
        have hm1 : arrays_hold
            { m with key_out := m.key_out.set k (elem m.key i)
                     l_out := m.l_out.set k (elem m.l i) }
            ((pa ++ [x]) ++ seg ++ pc) ((po ++ [x]) ++ og ++ qo) := by
          refine ⟨?_, ?_, ?_, ?_⟩
          · simpa using h1
          · simpa using h2
          · show m.key_out.set k (elem m.key i) = _
            rw [h3, h1, hi, hk]
            have e1 : pa ++ x :: seg ++ pc = pa ++ x :: (seg ++ pc) := by simp
            have e2 : po ++ o :: og ++ qo = po ++ o :: (og ++ qo) := by simp
            have e3 : (po ++ [x]) ++ og ++ qo = po ++ x :: (og ++ qo) := by simp
            rw [e1, e2, e3, elem_map_at, set_map_at]
          · show m.l_out.set k (elem m.l i) = _
            rw [h4, h2, hi, hk]
            have e1 : pa ++ x :: seg ++ pc = pa ++ x :: (seg ++ pc) := by simp
            have e2 : po ++ o :: og ++ qo = po ++ o :: (og ++ qo) := by simp
            have e3 : (po ++ [x]) ++ og ++ qo = po ++ x :: (og ++ qo) := by simp
            rw [e1, e2, e3, elem_map_at, set_map_at]
        obtain ⟨m1, hr, hh⟩ := ih fuel _ (pa ++ [x]) pc (po ++ [x]) og qo (i + 1) (k + 1) e hm1
          (by simpa using hog) (by simp [hi]) (by simp at he ⊢; omega) (by simp [hk])
          (by simp at hfuel; omega)
        refine ⟨m1, ?_, ?_⟩
        · simp only [merge_lists_rest, if_pos hie]
          rw [hr]
          simp only [List.length_cons]
          have e4 : k + 1 + seg.length = k + (seg.length + 1) := by omega
          rw [e4]
        · simpa using hh

theorem merge_lists_both_done (lib : Lib) (fuel : Nat) (m : SortArrays)
    (i j k end1 end2 : Nat) (h : ¬ (i ≤ end1 ∧ j ≤ end2)) :
    merge_lists_both lib fuel m i j k end1 end2 = (m, i, j, k) := by
  cases fuel with
  | zero => rfl
  | succ fuel => simp only [merge_lists_both, if_neg h]

theorem merge_lists_loops_done (lib : Lib) (fuel : Nat) (m : SortArrays)
    (i j k end1 end2 : Nat) (h : ¬ (i ≤ end1 ∧ j ≤ end2)) :
    merge_lists_loops lib fuel m i j k end1 end2
      = ((merge_lists_rest (end2 + 1 - j)
            (merge_lists_rest (end1 + 1 - i) m i k end1).1 j
            (merge_lists_rest (end1 + 1 - i) m i k end1).2.2 end2).1,
          (merge_lists_rest (end2 + 1 - j)
            (merge_lists_rest (end1 + 1 - i) m i k end1).1 j
            (merge_lists_rest (end1 + 1 - i) m i k end1).2.2 end2).2.2) := by
  simp only [merge_lists_loops, merge_lists_both_done lib fuel m i j k end1 end2 h]

theorem merge_lists_loops_left (lib : Lib) (fuel : Nat) (m : SortArrays)
    (i j k end1 end2 : Nat) (h : i ≤ end1 ∧ j ≤ end2)
    (hc : lib.data_cmp (elem m.key j) (elem m.key i) ≥ 0) :
    merge_lists_loops lib (fuel + 1) m i j k end1 end2
      = merge_lists_loops lib fuel
          { m with key_out := m.key_out.set k (elem m.key i)
                   l_out := m.l_out.set k (elem m.l i) }
          (i + 1) j (k + 1) end1 end2 := by
  simp only [merge_lists_loops, merge_lists_both, if_pos h, if_pos hc]

theorem merge_lists_loops_right (lib : Lib) (fuel : Nat) (m : SortArrays)
    (i j k end1 end2 : Nat) (h : i ≤ end1 ∧ j ≤ end2)
    (hc : ¬ lib.data_cmp (elem m.key j) (elem m.key i) ≥ 0) :
    merge_lists_loops lib (fuel + 1) m i j k end1 end2
      = merge_lists_loops lib fuel
          { m with key_out := m.key_out.set k (elem m.key j)
                   l_out := m.l_out.set k (elem m.l j) }
          i (j + 1) (k + 1) end1 end2 := by
  simp only [merge_lists_loops, merge_lists_both, if_pos h, if_neg hc]

theorem arrays_hold_write (m : SortArrays) (pa rest po og qo : List (Data × Data))
    (x o : Data × Data) (i k : Nat)
    (hm : arrays_hold m (pa ++ x :: rest) (po ++ o :: og ++ qo))
    (hi : i = pa.length) (hk : k = po.length) :
    arrays_hold
      { m with key_out := m.key_out.set k (elem m.key i)
               l_out := m.l_out.set k (elem m.l i) }
      (pa ++ x :: rest) ((po ++ [x]) ++ og ++ qo) := by
  obtain ⟨h1, h2, h3, h4⟩ := hm
  have e2 : po ++ o :: og ++ qo = po ++ o :: (og ++ qo) := by simp
  have e3 : (po ++ [x]) ++ og ++ qo = po ++ x :: (og ++ qo) := by simp
  refine ⟨h1, h2, ?_, ?_⟩
  · show m.key_out.set k (elem m.key i) = _
    rw [h3, h1, hi, hk, e2, e3, elem_map_at, set_map_at]
  · show m.l_out.set k (elem m.l i) = _
    rw [h4, h2, hi, hk, e2, e3, elem_map_at, set_map_at]

theorem merge_lists_loops_spec (lib : Lib) :
    ∀ (fuel : Nat) (L R : List (Data × Data)) (m : SortArrays)
      (pa pb pc po og qo : List (Data × Data)) (i j k end1 end2 : Nat),
      arrays_hold m (pa ++ L ++ pb ++ R ++ pc) (po ++ og ++ qo) →
      og.length = L.length + R.length →
      i = pa.length → end1 + 1 = pa.length + L.length →
      j = pa.length + L.length + pb.length → end2 + 1 = j + R.length →
      k = po.length → L.length + R.length ≤ fuel →
      ∃ m1 : SortArrays,
        merge_lists_loops lib fuel m i j k end1 end2 = (m1, k + L.length + R.length)
        ∧ arrays_hold m1 (pa ++ L ++ pb ++ R ++ pc)
            (po ++ merge_run (key_le lib) L R ++ qo) := by
  intro fuel
  induction fuel with
  | zero =>
    intro L R m pa pb pc po og qo i j k end1 end2 hm hog hi he1 hj he2 hk hfuel
    have hL : L = [] := List.length_eq_zero.1 (by omega)
    have hR : R = [] := List.length_eq_zero.1 (by omega)
    subst hL; subst hR
    have hog0 : og = [] := List.length_eq_zero.1 (by simpa using hog)
    subst hog0
    refine ⟨m, ?_, by simpa [merge_run_nil_left] using hm⟩
    simp at he1 he2
    have h : ¬ (i ≤ end1 ∧ j ≤ end2) := by omega
    rw [merge_lists_loops_done lib 0 m i j k end1 end2 h,
      merge_lists_rest_done _ m i k end1 (by omega)]
    simp only []
    rw [merge_lists_rest_done _ m j k end2 (by omega)]
    simp
  | succ fuel ih =>
    intro L R m pa pb pc po og qo i j k end1 end2 hm hog hi he1 hj he2 hk hfuel
    cases L with
    | nil =>
      simp at he1
      have h : ¬ (i ≤ end1 ∧ j ≤ end2) := by omega
      rw [merge_lists_loops_done lib _ m i j k end1 end2 h,
        merge_lists_rest_done _ m i k end1 (by omega)]
      simp only []
      have hm2 : arrays_hold m ((pa ++ pb) ++ R ++ pc) (po ++ og ++ qo) := by
        simpa using hm
      obtain ⟨m1, hr, hh⟩ := merge_lists_rest_spec R (end2 + 1 - j) m (pa ++ pb) pc po og qo
        j k end2 hm2 (by simpa using hog) (by simp at hj ⊢; omega) (by simp at hj ⊢; omega)
        hk (by omega)
      refine ⟨m1, ?_, ?_⟩
      · rw [hr]; simp
      · simpa [merge_run_nil_left] using hh
    | cons x L =>
      cases R with
      | nil =>
        simp at he2 hog he1
        have h : ¬ (i ≤ end1 ∧ j ≤ end2) := by omega
        rw [merge_lists_loops_done lib _ m i j k end1 end2 h]
        have hm2 : arrays_hold m (pa ++ (x :: L) ++ (pb ++ pc)) (po ++ og ++ qo) := by
          simpa using hm
        obtain ⟨m1, hr, hh⟩ := merge_lists_rest_spec (x :: L) (end1 + 1 - i) m pa (pb ++ pc)
          po og qo i k end1 hm2 (by simpa using hog) hi (by first | omega | (simp; omega)) hk (by first | omega | (simp; omega))
        rw [hr]
        simp only []
        rw [merge_lists_rest_done _ m1 j _ end2 (by omega)]
        refine ⟨m1, by simp, ?_⟩
        simpa [merge_run_nil_right] using hh
      | cons y R =>
        simp only [List.length_cons] at he1 he2 hog hfuel hj
        have h : i ≤ end1 ∧ j ≤ end2 := by omega
        cases og with
        | nil => exact absurd hog (by simp only [List.length_nil]; omega)
        | cons o og =>
          obtain ⟨h1, h2, h3, h4⟩ := hm
          have hkj : elem m.key j = y.1 := by
            have e1 : pa ++ x :: L ++ pb ++ y :: R ++ pc
                = (pa ++ x :: L ++ pb) ++ y :: (R ++ pc) := by simp
            have e2 : j = (pa ++ x :: L ++ pb).length := by simp; omega
            rw [h1, e1, e2, elem_map_at]
          have hki : elem m.key i = x.1 := by
            have e1 : pa ++ x :: L ++ pb ++ y :: R ++ pc
                = pa ++ x :: (L ++ pb ++ y :: R ++ pc) := by simp
            rw [h1, e1, hi, elem_map_at]
          by_cases hc : lib.data_cmp (elem m.key j) (elem m.key i) ≥ 0
          · have hle : key_le lib x y = true := by
              rw [hkj, hki] at hc
              simp [key_le, hc]
            have hw := arrays_hold_write m pa (L ++ pb ++ y :: R ++ pc) po og qo x o i k
              (by
                refine ⟨?_, ?_, h3, h4⟩
                · simpa using h1
                · simpa using h2) hi hk
            obtain ⟨m1, hr, hh⟩ := ih L (y :: R) _ (pa ++ [x]) pb pc (po ++ [x]) og qo
              (i + 1) j (k + 1) end1 end2 (by simpa using hw)
              (by simp at hog ⊢; omega) (by simp [hi]) (by first | omega | (simp; omega)) (by first | omega | (simp; omega))
              (by first | omega | (simp; omega)) (by simp [hk]) (by first | omega | (simp; omega))
            refine ⟨m1, ?_, ?_⟩
            · rw [merge_lists_loops_left lib fuel m i j k end1 end2 h hc, hr]
              simp only [List.length_cons]
              have e4 : k + 1 + L.length + (R.length + 1)
                  = k + (L.length + 1) + (R.length + 1) := by omega
              rw [e4]
            · rw [merge_run_cons, if_pos hle]
              simpa using hh
          · have hle : ¬ key_le lib x y = true := by
              rw [hkj, hki] at hc
              simp [key_le, hc]
            have hw := arrays_hold_write m (pa ++ x :: L ++ pb) (R ++ pc) po og qo y o j k
              (by
                refine ⟨?_, ?_, h3, h4⟩
                · simpa using h1
                · simpa using h2) (by first | omega | (simp; omega)) hk
            obtain ⟨m1, hr, hh⟩ := ih (x :: L) R _ pa (pb ++ [y]) pc (po ++ [y]) og qo
              i (j + 1) (k + 1) end1 end2 (by simpa using hw)
              (by simp at hog ⊢; omega) hi (by first | omega | (simp; omega)) (by first | omega | (simp; omega))
              (by first | omega | (simp; omega)) (by simp [hk]) (by first | omega | (simp; omega))
            refine ⟨m1, ?_, ?_⟩
            · rw [merge_lists_loops_right lib fuel m i j k end1 end2 h hc, hr]
              simp only [List.length_cons]
              have e4 : k + 1 + (L.length + 1) + R.length
                  = k + (L.length + 1) + (R.length + 1) := by omega
              rw [e4]
            · rw [merge_run_cons, if_neg hle]
              simpa using hh

theorem memcpy_spec (f : Data × Data → Data) (pre X post po M qo : List (Data × Data))
    (hpo : po.length = pre.length) (hX : X.length = M.length) :
    memcpy ((pre ++ X ++ post).map f) ((po ++ M ++ qo).map f) pre.length M.length
      = (pre ++ M ++ post).map f := by
  have e1 : ((pre ++ X ++ post).map f).take pre.length = pre.map f := by
    simp [List.take_append_eq_append_take]
  have e2 : (((po ++ M ++ qo).map f).drop pre.length).take M.length = M.map f := by
    rw [← hpo]
    simp [List.drop_append_eq_append_drop, List.take_append_eq_append_take]
  have e3 : ((pre ++ X ++ post).map f).drop (pre.length + M.length) = post.map f := by
    rw [← hX]
    have e4 : pre.length + X.length = (pre ++ X).length := by simp
    rw [e4, ← List.map_drop, List.append_assoc pre X post, ← List.append_assoc,
      List.drop_left]
  simp only [memcpy]
  rw [e1, e2, e3]
  simp

theorem merge_lists_spec (lib : Lib) (m : SortArrays) (pre L R post O : List (Data × Data))
    (start1 end1 start2 end2 : Nat)
    (hm : arrays_hold m (pre ++ L ++ R ++ post) O)
    (hO : O.length = (pre ++ L ++ R ++ post).length)
    (h1 : start1 = pre.length) (h2 : end1 + 1 = pre.length + L.length)
    (h3 : start2 = end1 + 1) (h4 : end2 + 1 = start2 + R.length) :
    ∃ O1 : List (Data × Data),
      arrays_hold (merge_lists lib m start1 end1 start2 end2)
        (pre ++ merge_run (key_le lib) L R ++ post) O1
      ∧ O1.length = O.length := by
  have hlen : (merge_run (key_le lib) L R).length = L.length + R.length := by
    rw [(merge_run_perm (key_le lib) L R).length_eq, List.length_append]
  simp only [List.length_append] at hO
  obtain ⟨po, og, qo, hOeq, hpo, hog⟩ : ∃ po og qo : List (Data × Data),
      O = po ++ og ++ qo ∧ po.length = pre.length ∧ og.length = L.length + R.length := by
    refine ⟨O.take pre.length, (O.drop pre.length).take (L.length + R.length),
      (O.drop pre.length).drop (L.length + R.length), ?_, ?_, ?_⟩
    · rw [List.append_assoc, List.take_append_drop, List.take_append_drop]
    · rw [List.length_take]; omega
    · rw [List.length_take, List.length_drop]; omega
  subst hOeq
  obtain ⟨m1, hr, hh⟩ := merge_lists_loops_spec lib
    ((end1 + 1 - start1) + (end2 + 1 - start2)) L R m pre [] post po og qo
    start1 start2 start1 end1 end2 (by simpa using hm) hog h1 h2 (by simp; omega) h4
    (by omega) (by omega)
  obtain ⟨g1, g2, g3, g4⟩ := hh
  have hk : start1 + L.length + R.length - start1 = (merge_run (key_le lib) L R).length := by
    rw [hlen]; omega
  refine ⟨po ++ merge_run (key_le lib) L R ++ qo, ⟨?_, ?_, ?_, ?_⟩, ?_⟩
  · show memcpy _ _ _ _ = _
    rw [hr]
    simp only []
    rw [g1, g3, hk, h1]
    have e : pre ++ L ++ [] ++ R ++ post = pre ++ (L ++ R) ++ post := by simp
    rw [e]
    exact memcpy_spec Prod.fst pre (L ++ R) post po _ qo hpo (by rw [hlen]; simp)
  · show memcpy _ _ _ _ = _
    rw [hr]
    simp only []
    rw [g2, g4, hk, h1]
    have e : pre ++ L ++ [] ++ R ++ post = pre ++ (L ++ R) ++ post := by simp
    rw [e]
    exact memcpy_spec Prod.snd pre (L ++ R) post po _ qo hpo (by rw [hlen]; simp)
  · show (merge_lists_loops lib _ m start1 start2 start1 end1 end2).1.key_out = _
    rw [hr]
    exact g3
  · show (merge_lists_loops lib _ m start1 start2 start1 end1 end2).1.l_out = _
    rw [hr]
    exact g4
  · simp only [List.length_append, hlen]
    simp only [List.length_append] at hO
    omega

theorem merge_sort_spec (lib : Lib) (dom : Data × Data → Prop)
    (htotal : ∀ a b, dom a → dom b → key_le lib a b = true ∨ key_le lib b a = true)
    (htrans : ∀ a b c, dom a → dom b → dom c → key_le lib a b = true →
      key_le lib b c = true → key_le lib a c = true) :
    ∀ (fuel : Nat) (m : SortArrays) (pre seg post O : List (Data × Data))
      (start end_ : Nat),
      arrays_hold m (pre ++ seg ++ post) O →
      O.length = (pre ++ seg ++ post).length →
      (∀ p ∈ seg, dom p) → seg ≠ [] →
      start = pre.length → end_ + 1 = pre.length + seg.length → seg.length ≤ fuel →
      ∃ (m1 : SortArrays) (S O1 : List (Data × Data)),
        merge_sort lib fuel m start end_ = some m1
        ∧ arrays_hold m1 (pre ++ S ++ post) O1
        ∧ O1.length = O.length
        ∧ S.Perm seg
        ∧ S.Pairwise (fun a b => key_le lib a b = true)
        ∧ ∀ k, dom k →
            S.filter (fun p => key_le lib p k && key_le lib k p)
              = seg.filter (fun p => key_le lib p k && key_le lib k p) := by
  intro fuel
  induction fuel with
  | zero =>
    intro m pre seg post O start end_ _ _ _ hne _ _ hfuel
    exact absurd (List.length_eq_zero.1 (by omega)) hne
  | succ fuel ih =>
    intro m pre seg post O start end_ hm hO hdom hne hs he hfuel
    have hpos : 1 ≤ seg.length := by
      cases seg with
      | nil => exact absurd rfl hne
      | cons a seg => simp
    by_cases hse : start = end_
    · refine ⟨m, seg, O, ?_, hm, rfl, List.Perm.refl _, ?_, fun _ _ => rfl⟩
      · simp only [merge_sort, if_pos hse]
      · have h1 : seg.length = 1 := by omega
        obtain ⟨a, ha⟩ := List.length_eq_one.1 h1
        rw [ha]
        exact List.pairwise_singleton _ _
    · obtain ⟨segL, segR, hseg, hlenL⟩ : ∃ segL segR : List (Data × Data),
          seg = segL ++ segR ∧ segL.length = (start + end_) / 2 + 1 - start := by
        refine ⟨seg.take ((start + end_) / 2 + 1 - start),
          seg.drop ((start + end_) / 2 + 1 - start), (List.take_append_drop _ _).symm, ?_⟩
        rw [List.length_take]
        omega
      subst hseg
      simp only [List.length_append] at he hfuel hpos
      have hL1 : 1 ≤ segL.length := by omega
      have hR1 : 1 ≤ segR.length := by omega
      have hLne : segL ≠ [] := by
        intro h0
        rw [h0] at hL1
        exact absurd hL1 (by simp)
      have hRne : segR ≠ [] := by
        intro h0
        rw [h0] at hR1
        exact absurd hR1 (by simp)
      have hdL : ∀ p ∈ segL, dom p := fun p hp => hdom p (List.mem_append_left _ hp)
      have hdR : ∀ p ∈ segR, dom p := fun p hp => hdom p (List.mem_append_right _ hp)
      obtain ⟨m1, S1, O1, r1, a1, l1, p1, s1, f1⟩ := ih m pre segL (segR ++ post) O start
        ((start + end_) / 2) (by simpa using hm) (by simpa using hO) hdL hLne hs
        (by omega) (by omega)
      have hS1 : S1.length = segL.length := p1.length_eq
      obtain ⟨m2, S2, O2, r2, a2, l2, p2, s2, f2⟩ := ih m1 (pre ++ S1) segR post O1
        ((start + end_) / 2 + 1) end_ (by simpa using a1)
        (by simp at hO ⊢; omega) hdR hRne (by simp; omega) (by simp; omega) (by omega)
      have hS2 : S2.length = segR.length := p2.length_eq
      obtain ⟨O3, a3, l3⟩ := merge_lists_spec lib m2 pre S1 S2 post O2 start
        ((start + end_) / 2) ((start + end_) / 2 + 1) end_ (by simpa using a2)
        (by simp at hO ⊢; omega) hs (by omega) rfl (by omega)
      have hd1 : ∀ p ∈ S1, dom p := fun p hp => hdL p (p1.mem_iff.1 hp)
      have hd2 : ∀ p ∈ S2, dom p := fun p hp => hdR p (p2.mem_iff.1 hp)
      refine ⟨_, merge_run (key_le lib) S1 S2, O3, ?_, a3, by omega, ?_, ?_, ?_⟩
      · simp only [merge_sort, if_neg hse, r1, r2]
      · exact (merge_run_perm _ S1 S2).trans (p1.append p2)
      · exact merge_run_pairwise _ dom htotal htrans S1 S2 hd1 hd2 s1 s2
      · intro k hk
        rw [merge_run_filter _ dom htotal htrans k hk S1 S2 hd1 hd2 s1, f1 k hk, f2 k hk,
          List.filter_append]

theorem sort_run (lib : Lib) (data keys : List Data) (hne : data ≠ [])
    (hlen : keys.length = data.length)
    (htotal : ∀ a ∈ keys, ∀ b ∈ keys, lib.data_cmp b a ≥ 0 ∨ lib.data_cmp a b ≥ 0)
    (htrans : ∀ a ∈ keys, ∀ b ∈ keys, ∀ c ∈ keys,
      lib.data_cmp b a ≥ 0 → lib.data_cmp c b ≥ 0 → lib.data_cmp c a ≥ 0) :
    ∃ ps : List (Data × Data),
      sort lib data (some keys) = some (Except.ok (ps.map Prod.snd))
      ∧ ps.Perm (keys.zip data)
      ∧ ps.Pairwise (fun a b => key_le lib a b = true)
      ∧ ∀ k ∈ keys,
          ps.filter (fun p => key_equal lib p.1 k)
            = (keys.zip data).filter (fun p => key_equal lib p.1 k) := by
  have hn : 1 ≤ data.length := by
    cases data with
    | nil => exact absurd rfl hne
    | cons a data => simp
  have hzl : (keys.zip data).length = data.length := by
    rw [List.length_zip, hlen]; simp
  have hzne : keys.zip data ≠ [] := by
    intro h0
    rw [h0] at hzl
    simp at hzl
    omega
  have hdom : ∀ p ∈ keys.zip data, p.1 ∈ keys := by
    intro p hp
    exact (List.of_mem_zip hp).1
  obtain ⟨m1, S, O1, r1, a1, _, p1, s1, f1⟩ := merge_sort_spec lib (fun p => p.1 ∈ keys)
    (by
      intro a b ha hb
      rcases htotal a.1 ha b.1 hb with h | h
      · left; simp [key_le, h]
      · right; simp [key_le, h])
    (by
      intro a b c ha hb hc h1 h2
      simp only [key_le, decide_eq_true_eq] at h1 h2 ⊢
      exact htrans a.1 ha b.1 hb c.1 hc h1 h2)
    data.length
    { l := data, key := keys, l_out := List.replicate data.length (Data.integer 0),
      key_out := List.replicate data.length (Data.integer 0) }
    [] (keys.zip data) [] (List.replicate data.length (Data.integer 0, Data.integer 0))
    0 (data.length - 1)
    (by
      refine ⟨?_, ?_, ?_, ?_⟩
      · simp only [List.nil_append, List.append_nil]
        exact (List.map_fst_zip _ _ (by omega)).symm
      · simp only [List.nil_append, List.append_nil]
        exact (List.map_snd_zip _ _ (by omega)).symm
      · simp
      · simp)
    (by simp [hlen]) hdom hzne rfl (by simp [hlen]; omega) (by omega)
  have hSl : S.length = data.length := by rw [p1.length_eq, hzl]
  refine ⟨S, ?_, p1, s1, ?_⟩
  · have hk : ¬ keys.length ≠ data.length := by simp [hlen]
    have h0 : ¬ data.length = 0 := by omega
    simp only [sort, if_neg hk, if_neg h0, r1]
    have e : m1.l = S.map Prod.snd := by simpa using a1.2.1
    rw [e, List.take_of_length_le (by simp [hSl])]
  · intro k hk
    exact f1 (k, Data.integer 0) hk

/-- C40: the native `sort`.  Key and data lists of different lengths give the
error `range_id`; an empty data list is returned as it is; with one argument the
result is that of the call with the data as their own keys.  For a non-empty
data list and a key list of the same length whose keys are totally preordered
by `data_cmp` (of two keys one is not after the other, and the relation is
transitive, a key `a` being not after `b` when `data_cmp(b, a) >= 0`), the
recursion ends and the result is the list of data of a list `ps` of records
(key, datum) that is a permutation of the records given: it has the length of
the data, is a permutation of the data, its keys are non-decreasing from every
position to every later one, and for each key the records of equal rank appear
in the order in which they were given. -/
theorem sort_stable (lib : Lib) (data keys : List Data) :
    (keys.length ≠ data.length →
      sort lib data (some keys)
        = some (Except.error
            { error := range_id, fmt := "Key and data lists are not of the same length",
              args := [] }))
    ∧ sort lib [] none = some (Except.ok [])
    ∧ sort lib [] (some []) = some (Except.ok [])
    ∧ sort lib data none = sort lib data (some data)
    ∧ (data ≠ [] → keys.length = data.length →
        (∀ a ∈ keys, ∀ b ∈ keys, lib.data_cmp b a ≥ 0 ∨ lib.data_cmp a b ≥ 0) →
        (∀ a ∈ keys, ∀ b ∈ keys, ∀ c ∈ keys,
          lib.data_cmp b a ≥ 0 → lib.data_cmp c b ≥ 0 → lib.data_cmp c a ≥ 0) →
        ∃ ps : List (Data × Data),
          sort lib data (some keys) = some (Except.ok (ps.map Prod.snd))
          ∧ (ps.map Prod.snd).length = data.length
          ∧ ps.Perm (keys.zip data)
          ∧ (ps.map Prod.snd).Perm data
          ∧ (ps.map Prod.fst).Pairwise (fun a b => lib.data_cmp b a ≥ 0)
          ∧ ∀ k ∈ keys,
              ps.filter (fun p => key_equal lib p.1 k)
                = (keys.zip data).filter (fun p => key_equal lib p.1 k)) := by
  refine ⟨?_, rfl, rfl, rfl, ?_⟩
  · intro h
    simp only [sort, if_pos h]
  · intro hne hlen htotal htrans
    obtain ⟨ps, h1, h2, h3, h4⟩ := sort_run lib data keys hne hlen htotal htrans
    have hperm : (ps.map Prod.snd).Perm data := by
      have := h2.map Prod.snd
      rwa [List.map_snd_zip _ _ (by omega)] at this
    refine ⟨ps, h1, hperm.length_eq, h2, hperm, ?_, h4⟩
    rw [List.pairwise_map]
    refine h3.imp ?_
    intro a b hab
    simpa [key_le] using hab

/-- Instance of `sort_stable`: three strings sorted by the integer keys 2, 1, 2;
the two strings of key 2 keep their order. -/
theorem sort_stable_witness :
    (∃ ps : List (Data × Data),
      sort ex_lib [Data.string "a", Data.string "b", Data.string "c"]
          (some [Data.integer 2, Data.integer 1, Data.integer 2])
        = some (Except.ok (ps.map Prod.snd))
      ∧ (ps.map Prod.snd).length = 3
      ∧ ps.Perm ([Data.integer 2, Data.integer 1, Data.integer 2].zip
          [Data.string "a", Data.string "b", Data.string "c"])
      ∧ (ps.map Prod.snd).Perm [Data.string "a", Data.string "b", Data.string "c"]
      ∧ (ps.map Prod.fst).Pairwise (fun a b => ex_lib.data_cmp b a ≥ 0)
      ∧ ∀ k ∈ [Data.integer 2, Data.integer 1, Data.integer 2],
          ps.filter (fun p => key_equal ex_lib p.1 k)
            = ([Data.integer 2, Data.integer 1, Data.integer 2].zip
                [Data.string "a", Data.string "b", Data.string "c"]).filter
                (fun p => key_equal ex_lib p.1 k))
    ∧ sort ex_lib [Data.string "a", Data.string "b", Data.string "c"]
          (some [Data.integer 2, Data.integer 1, Data.integer 2])
        = some (Except.ok [Data.string "b", Data.string "a", Data.string "c"]) :=
  ⟨(sort_stable ex_lib [Data.string "a", Data.string "b", Data.string "c"]
      [Data.integer 2, Data.integer 1, Data.integer 2]).2.2.2.2 (by simp) rfl
      (by simp [ex_lib, ex_data_cmp]) (by simp [ex_lib, ex_data_cmp]),
    rfl⟩

/-- C27: on the operands `d1` and `d2`, DIVIDE converts an Integer met with a
Float, then calls `cthrow` with `type_id` exactly when the operands are not both
numeric and with `div_id` exactly when both are numeric and the divisor is
Integer 0 or a Float equal to 0.0.  MODULO calls `cthrow` with `type_id` exactly
when an operand is not an Integer and with `div_id` exactly when both are
Integers and the right one is 0.  For two Integers with a divisor other than 0
MODULO leaves the Integer remainder in place of the operands, except for the
smallest Integer and -1: there the C operator `%` is applied without a guard,
the division traps and MODULO leaves no remainder; DIVIDE traps on the same
operands. -/
theorem divide_modulo_errors (op_table : Int → Op_info) (db : Db) (lib : Lib) (s : VM)
    (base : List Data) (d1 d2 : Data) (hstack : s.stack = base ++ [d1, d2]) :
    (op_divide op_table db lib s
        = (divide_values lib (promote lib d1 d2).1 (promote lib d1 d2).2).map
            (finish_binary op_table db lib s base (promote lib d1 d2).1
              (promote lib d1 d2).2))
    ∧ ((∃ t : Thrown, divide_values lib (promote lib d1 d2).1 (promote lib d1 d2).2
            = some (Except.error t) ∧ t.error = type_id)
        ↔ ¬ (d1.is_numeric ∧ d2.is_numeric))
    ∧ ((∃ t : Thrown, divide_values lib (promote lib d1 d2).1 (promote lib d1 d2).2
            = some (Except.error t) ∧ t.error = div_id)
        ↔ (d1.is_numeric ∧ d2.is_numeric ∧ (promote lib d1 d2).2.is_zero lib))
    ∧ (op_modulo op_table db lib s
        = (modulo_values d1 d2).map (fun r =>
            match r with
            | Except.error t => cthrow op_table db lib s t
            | Except.ok d => { s with stack := base ++ [d] }))
    ∧ ((∃ t : Thrown, modulo_values d1 d2 = some (Except.error t) ∧ t.error = type_id)
        ↔ (d1.type ≠ DataType.INTEGER ∨ d2.type ≠ DataType.INTEGER))
    ∧ ((∃ t : Thrown, modulo_values d1 d2 = some (Except.error t) ∧ t.error = div_id)
        ↔ ∃ a : Int, d1 = Data.integer a ∧ d2 = Data.integer 0)
    ∧ (∀ a b : Int, d1 = Data.integer a → d2 = Data.integer b → b ≠ 0 →
        ¬ (a = INT_MIN ∧ b = -1) →
        modulo_values d1 d2 = some (Except.ok (Data.integer (Int.tmod a b)))
        ∧ op_modulo op_table db lib s
            = some { s with stack := base ++ [Data.integer (Int.tmod a b)] })
    ∧ (d1 = Data.integer INT_MIN → d2 = Data.integer (-1) →
        modulo_values d1 d2 = none ∧ op_modulo op_table db lib s = none
        ∧ divide_values lib (promote lib d1 d2).1 (promote lib d1 d2).2 = none
        ∧ op_divide op_table db lib s = none) := by
  have hne : ¬ type_id = div_id := by decide
  have hne1 : ¬ div_id = type_id := by decide
  have hmod : op_modulo op_table db lib s
      = (modulo_values d1 d2).map (fun r =>
          match r with
          | Except.error t => cthrow op_table db lib s t
          | Except.ok d => { s with stack := base ++ [d] }) := by
    unfold op_modulo
    rw [hstack, top2_append]
    show (modulo_values d1 d2).map _ = _
    congr 1
    funext r
    exact finish_binary_self op_table db lib s base d1 d2 r hstack
  have hdiv : op_divide op_table db lib s
      = (divide_values lib (promote lib d1 d2).1 (promote lib d1 d2).2).map
          (finish_binary op_table db lib s base (promote lib d1 d2).1
            (promote lib d1 d2).2) := by
    unfold op_divide
    rw [hstack, top2_append]
  refine ⟨hdiv, ?_, ?_, hmod, ?_, ?_, ?_, ?_⟩
  · cases d1 <;> cases d2 <;>
      simp [promote, divide_values, int_div, Data.is_numeric, Data.type, hne1] <;>
      split <;> simp [hne1]
  · cases d1 <;> cases d2 <;>
      simp [promote, divide_values, int_div, Data.is_numeric, Data.type, Data.is_zero, hne] <;>
      split <;> simp_all
  · cases d1 <;> cases d2 <;> simp [modulo_values, int_mod, Data.type, hne1] <;>
      split <;> simp [hne1]
  · cases d1 <;> cases d2 <;> simp [modulo_values, int_mod, hne] <;>
      split <;> simp_all
  · intro a b h1 h2 hb hmin
    subst h1; subst h2
    have e : modulo_values (Data.integer a) (Data.integer b)
        = some (Except.ok (Data.integer (Int.tmod a b))) := by
      simp [modulo_values, int_mod, hb, hmin]
    refine ⟨e, ?_⟩
    rw [hmod, e]
    rfl
  · intro h1 h2
    subst h1; subst h2
    have hm1 : ¬ (-1 : Int) = 0 := by decide
    have e : modulo_values (Data.integer INT_MIN) (Data.integer (-1)) = none := by
      simp [modulo_values, int_mod]
    have e2 : divide_values lib (promote lib (Data.integer INT_MIN) (Data.integer (-1))).1
        (promote lib (Data.integer INT_MIN) (Data.integer (-1))).2 = none := by
      simp [promote, divide_values, int_div, Data.type]
    refine ⟨e, ?_, e2, ?_⟩
    · rw [hmod, e]; rfl
    · rw [hdiv, e2]; rfl

/-- Instance of `divide_modulo_errors` at the operands -2147483648 and -1:
MODULO and DIVIDE trap; and at 5 and 2, 5 and 0, 5 and 2.0. -/
theorem divide_modulo_errors_witness :
    INT_MIN = -2147483648
    ∧ (modulo_values (Data.integer INT_MIN) (Data.integer (-1)) = none
      ∧ op_modulo ex_op_table ex_db ex_lib
          (ex_vm_with [Data.integer INT_MIN, Data.integer (-1)]) = none
      ∧ divide_values ex_lib
          (promote ex_lib (Data.integer INT_MIN) (Data.integer (-1))).1
          (promote ex_lib (Data.integer INT_MIN) (Data.integer (-1))).2 = none
      ∧ op_divide ex_op_table ex_db ex_lib
          (ex_vm_with [Data.integer INT_MIN, Data.integer (-1)]) = none)
    ∧ (modulo_values (Data.integer 5) (Data.integer 2)
          = some (Except.ok (Data.integer (Int.tmod 5 2)))
      ∧ op_modulo ex_op_table ex_db ex_lib (ex_vm_with [Data.integer 5, Data.integer 2])
          = some { ex_vm_with [Data.integer 5, Data.integer 2] with
                   stack := [] ++ [Data.integer (Int.tmod 5 2)] })
    ∧ (∃ t : Thrown,
        modulo_values (Data.integer 5) (Data.float 2) = some (Except.error t)
          ∧ t.error = type_id)
    ∧ (∃ t : Thrown,
        modulo_values (Data.integer 5) (Data.integer 0) = some (Except.error t)
          ∧ t.error = div_id) :=
  ⟨by decide,
   (divide_modulo_errors ex_op_table ex_db ex_lib
      (ex_vm_with [Data.integer INT_MIN, Data.integer (-1)]) []
      (Data.integer INT_MIN) (Data.integer (-1)) rfl).2.2.2.2.2.2.2 rfl rfl,
   (divide_modulo_errors ex_op_table ex_db ex_lib (ex_vm_with [Data.integer 5, Data.integer 2])
      [] (Data.integer 5) (Data.integer 2) rfl).2.2.2.2.2.2.1 5 2 rfl rfl (by decide)
      (by decide),
   (divide_modulo_errors ex_op_table ex_db ex_lib (ex_vm_with [Data.integer 5, Data.float 2])
      [] (Data.integer 5) (Data.float 2) rfl).2.2.2.2.1.mpr (Or.inr (by decide)),
   (divide_modulo_errors ex_op_table ex_db ex_lib (ex_vm_with [Data.integer 5, Data.integer 0])
      [] (Data.integer 5) (Data.integer 0) rfl).2.2.2.2.2.1.mpr ⟨5, rfl, rfl⟩⟩

theorem propagate_error_critical (db : Db) (s : VM) (f : Frame) (rest : List Frame)
    (tb : List Data) (k : Ident) (inner below : List Error_action_specifier)
    (end_pc : Int) (p : Nat)
    (hs : s.frames = f :: rest)
    (hspecs : f.specifiers
      = inner ++ { kind := SpecKind.CRITICAL end_pc, stack_pos := p } :: below)
    (hinner : ∀ sp ∈ inner, sp.passes f.method k) :
    propagate_error db s tb k
      = { s with
          stack := s.stack.take p ++ [Data.error k]
          frames := { f with pc := end_pc, specifiers := below } :: rest } := by
  rw [propagate_error_cons db s tb k f rest hs, hspecs,
    walk_specifiers_append _ _ _ _ _ _ hinner]
  simp only [walk_specifiers]
  rw [take_length_sub_sub]

theorem traceback_add_two (db : Db) (f g : Frame) (tb : List Data) (k k1 : Ident) :
    traceback_add db g (traceback_add db f tb k) k1
      = tb ++ [Data.list (Data.error k :: fill_in_method_info db f),
               Data.list (Data.error k1 :: fill_in_method_info db g)] := by
  simp [traceback_add, list_add]

/-- C4: when every specifier of the current frame `f` lets an error of kind `k`
go by (there is no Critical, and no Catch matches), `propagate_error` returns
the frame: the chain is that of the callers and the stack is cut at the
`stack_start` of `f`.  The caller then receives the error with kind `k` if a
Propagate specifier was on the specifier list of `f`, and with `methoderr_id`
otherwise: without a caller the call ends in the state after the return; a
Critical of the caller gets an Error value of that kind pushed; a Catch of the
caller is matched against that kind, and its handler-info record holds that
kind and a traceback whose last two records are that of `f` with kind `k` and
that of the caller with the kind received; and a caller that lets that kind go
by is returned in turn, the propagation going on with that kind or
`methoderr_id` by the caller's own Propagate specifiers. -/
theorem unhandled_error_leaves_frame (db : Db) (s : VM) (f : Frame) (rest : List Frame)
    (tb : List Data) (k : Ident)
    (hs : s.frames = f :: rest)
    (hall : ∀ sp ∈ f.specifiers, sp.passes f.method k) :
    (frame_return s).frames = rest
    ∧ (frame_return s).stack = s.stack.take f.stack_start
    ∧ (rest = [] → propagate_error db s tb k = frame_return s)
    ∧ (∀ (g : Frame) (rest1 : List Frame) (inner below : List Error_action_specifier)
        (end_pc : Int) (p : Nat), rest = g :: rest1 →
        g.specifiers
          = inner ++ { kind := SpecKind.CRITICAL end_pc, stack_pos := p } :: below →
        (∀ sp ∈ inner, sp.passes g.method
          (if f.specifiers.any (·.is_propagate) then k else methoderr_id)) →
        propagate_error db s tb k
          = { frame_return s with
              stack := (frame_return s).stack.take p
                ++ [Data.error (if f.specifiers.any (·.is_propagate) then k
                      else methoderr_id)]
              frames := { g with pc := end_pc, specifiers := below } :: rest1 })
    ∧ (∀ (g : Frame) (rest1 : List Frame) (inner below : List Error_action_specifier)
        (handler l : Int) (p : Nat), rest = g :: rest1 →
        g.specifiers
          = inner ++ { kind := SpecKind.CATCH handler l, stack_pos := p } :: below →
        (∀ sp ∈ inner, sp.passes g.method
          (if f.specifiers.any (·.is_propagate) then k else methoderr_id)) →
        (l = -1 ∨ (if f.specifiers.any (·.is_propagate) then k else methoderr_id)
            ∈ g.method.error_list l) →
        propagate_error db s tb k
          = { frame_return s with
              stack := (frame_return s).stack.take p
              frames :=
                { g with
                  pc := handler
                  handler_info :=
                    { traceback :=
                        tb ++ [Data.list (Data.error k :: fill_in_method_info db f),
                               Data.list
                                 (Data.error (if f.specifiers.any (·.is_propagate) then k
                                    else methoderr_id) :: fill_in_method_info db g)]
                      error := if f.specifiers.any (·.is_propagate) then k
                        else methoderr_id } :: g.handler_info
                  specifiers := below } :: rest1 })
    ∧ (∀ (g : Frame) (rest1 : List Frame), rest = g :: rest1 →
        (∀ sp ∈ g.specifiers, sp.passes g.method
          (if f.specifiers.any (·.is_propagate) then k else methoderr_id)) →
        propagate_error db s tb k
          = propagate_error db (frame_return (frame_return s))
              (tb ++ [Data.list (Data.error k :: fill_in_method_info db f),
                      Data.list
                        (Data.error (if f.specifiers.any (·.is_propagate) then k
                           else methoderr_id) :: fill_in_method_info db g)])
              (if g.specifiers.any (·.is_propagate) then
                (if f.specifiers.any (·.is_propagate) then k else methoderr_id)
               else methoderr_id)) := by
  have hfr : (frame_return s).frames = rest := by rw [frame_return_cons s f rest hs]
  have hst : (frame_return s).stack = s.stack.take f.stack_start := by
    rw [frame_return_cons s f rest hs]
  have e := propagate_error_unhandled db s f rest tb k hs hall
  simp only [Frame.kind_out] at e
  refine ⟨hfr, hst, ?_, ?_, ?_, ?_⟩
  · intro hrest
    rw [e, propagate_error_nil db (frame_return s) _ _ (by rw [hfr, hrest])]
  · intro g rest1 inner below end_pc p hrest hspecs hinner
    rw [e, propagate_error_critical db (frame_return s) g rest1 _ _ inner below end_pc p
      (by rw [hfr, hrest]) hspecs hinner]
  · intro g rest1 inner below handler l p hrest hspecs hinner hmatch
    rw [e, propagate_error_catch db (frame_return s) g rest1 _ _ inner below handler l p
      (by rw [hfr, hrest]) hspecs hinner hmatch, traceback_add_two]
  · intro g rest1 hrest hg
    rw [e, propagate_error_unhandled db (frame_return s) g rest1 _ _ (by rw [hfr, hrest]) hg,
      traceback_add_two]
    simp only [Frame.kind_out]

/-- Instance of `unhandled_error_leaves_frame`: an error of kind 30 leaves a
frame that holds a Catch of `[20, 21]` and a Propagate, and the Critical of the
caller gets the Error value 30; from the same frame without the Propagate, it
gets the Error value `methoderr_id`. -/
theorem unhandled_error_leaves_frame_witness :
    ((propagate_error ex_db ex_vm_caller_critical [] 30).stack
        = [Data.integer 1, Data.error 30]
      ∧ (propagate_error ex_db ex_vm_caller_critical [] 30).frames
        = [{ ex_frame_critical with pc := 3, specifiers := [] }])
    ∧ ((propagate_error ex_db ex_vm_caller_critical_plain [] 30).stack
        = [Data.integer 1, Data.error methoderr_id]
      ∧ (propagate_error ex_db ex_vm_caller_critical_plain [] 30).frames
        = [{ ex_frame_critical with pc := 3, specifiers := [] }]) := by
  have h1 := (unhandled_error_leaves_frame ex_db ex_vm_caller_critical ex_frame_inner
    [ex_frame_critical] [] 30 rfl
    (by simp [Error_action_specifier.passes, ex_frame_inner, ex_frame, ex_method,
      Method.error_list])).2.2.2.1 ex_frame_critical [] [] [] 3 1 rfl rfl (by simp)
  have h2 := (unhandled_error_leaves_frame ex_db ex_vm_caller_critical_plain
    ex_frame_catch_only [ex_frame_critical] [] 30 rfl
    (by simp [Error_action_specifier.passes, ex_frame_catch_only, ex_frame, ex_method,
      Method.error_list])).2.2.2.1 ex_frame_critical [] [] [] 3 1 rfl rfl (by simp)
  rw [h1, h2]
  exact ⟨⟨rfl, rfl⟩, ⟨rfl, rfl⟩⟩

/-- C37: the Propagate flag of a frame is not passed on to its caller.  The
current frame `f` lets an error of kind `k` go by and holds a Propagate
specifier.  Its caller `g` then receives the error as `k`: a Critical of `g`
gets the Error value `k` pushed, and a Catch of `g` is matched against `k` and
records `k`.  When `g` lets `k` go by too and holds no Propagate specifier of
its own, the next frame up receives `methoderr_id`: without such a frame the
call ends after the two returns; a Critical of that frame gets the Error value
`methoderr_id` pushed; a Catch of that frame is matched against `methoderr_id`,
and its handler-info record holds `methoderr_id` and a traceback that ends with
the records of `f` and of `g`, both with kind `k`, and that of the frame itself
with `methoderr_id`. -/
theorem propagate_flag_per_frame (db : Db) (s : VM) (f g : Frame) (rest : List Frame)
    (tb : List Data) (k : Ident)
    (hs : s.frames = f :: g :: rest)
    (hf : ∀ sp ∈ f.specifiers, sp.passes f.method k)
    (hfp : f.specifiers.any (·.is_propagate) = true) :
    (frame_return s).frames = g :: rest
    ∧ (frame_return (frame_return s)).frames = rest
    ∧ (∀ (inner below : List Error_action_specifier) (end_pc : Int) (p : Nat),
        g.specifiers
          = inner ++ { kind := SpecKind.CRITICAL end_pc, stack_pos := p } :: below →
        (∀ sp ∈ inner, sp.passes g.method k) →
        propagate_error db s tb k
          = { frame_return s with
              stack := (frame_return s).stack.take p ++ [Data.error k]
              frames := { g with pc := end_pc, specifiers := below } :: rest })
    ∧ (∀ (inner below : List Error_action_specifier) (handler l : Int) (p : Nat),
        g.specifiers
          = inner ++ { kind := SpecKind.CATCH handler l, stack_pos := p } :: below →
        (∀ sp ∈ inner, sp.passes g.method k) →
        (l = -1 ∨ k ∈ g.method.error_list l) →
        propagate_error db s tb k
          = { frame_return s with
              stack := (frame_return s).stack.take p
              frames :=
                { g with
                  pc := handler
                  handler_info :=
                    { traceback :=
                        tb ++ [Data.list (Data.error k :: fill_in_method_info db f),
                               Data.list (Data.error k :: fill_in_method_info db g)]
                      error := k } :: g.handler_info
                  specifiers := below } :: rest })
    ∧ ((∀ sp ∈ g.specifiers, sp.passes g.method k) →
        g.specifiers.any (·.is_propagate) = false →
        (rest = [] → propagate_error db s tb k = frame_return (frame_return s))
        ∧ (∀ (h : Frame) (rest1 : List Frame) (inner below : List Error_action_specifier)
            (end_pc : Int) (p : Nat), rest = h :: rest1 →
            h.specifiers
              = inner ++ { kind := SpecKind.CRITICAL end_pc, stack_pos := p } :: below →
            (∀ sp ∈ inner, sp.passes h.method methoderr_id) →
            propagate_error db s tb k
              = { frame_return (frame_return s) with
                  stack := (frame_return (frame_return s)).stack.take p
                    ++ [Data.error methoderr_id]
                  frames := { h with pc := end_pc, specifiers := below } :: rest1 })
        ∧ (∀ (h : Frame) (rest1 : List Frame) (inner below : List Error_action_specifier)
            (handler l : Int) (p : Nat), rest = h :: rest1 →
            h.specifiers
              = inner ++ { kind := SpecKind.CATCH handler l, stack_pos := p } :: below →
            (∀ sp ∈ inner, sp.passes h.method methoderr_id) →
            (l = -1 ∨ methoderr_id ∈ h.method.error_list l) →
            propagate_error db s tb k
              = { frame_return (frame_return s) with
                  stack := (frame_return (frame_return s)).stack.take p
                  frames :=
                    { h with
                      pc := handler
                      handler_info :=
                        { traceback :=
                            tb ++ [Data.list (Data.error k :: fill_in_method_info db f),
                                   Data.list (Data.error k :: fill_in_method_info db g),
                                   Data.list
                                     (Data.error methoderr_id :: fill_in_method_info db h)]
                          error := methoderr_id } :: h.handler_info
                      specifiers := below } :: rest1 })) := by
  have h1 : (frame_return s).frames = g :: rest := by
    rw [frame_return_cons s f (g :: rest) hs]
  have h2 : (frame_return (frame_return s)).frames = rest := by
    rw [frame_return_cons (frame_return s) g rest h1]
  have e1 := propagate_error_unhandled db s f (g :: rest) tb k hs hf
  have k1 : f.kind_out k = k := by
    simp only [Frame.kind_out, hfp, if_true]
  rw [k1] at e1
  refine ⟨h1, h2, ?_, ?_, ?_⟩
  · intro inner below end_pc p hspecs hinner
    rw [e1, propagate_error_critical db (frame_return s) g rest _ _ inner below end_pc p h1
      hspecs hinner]
  · intro inner below handler l p hspecs hinner hmatch
    rw [e1, propagate_error_catch db (frame_return s) g rest _ _ inner below handler l p h1
      hspecs hinner hmatch, traceback_add_two]
  · intro hg hgp
    have e2 := propagate_error_unhandled db (frame_return s) g rest (traceback_add db f tb k)
      k h1 hg
    have k2 : g.kind_out k = methoderr_id := by
      simp only [Frame.kind_out, hgp]
      rfl
    rw [k2] at e2
    refine ⟨?_, ?_, ?_⟩
    · intro hrest
      rw [e1, e2, propagate_error_nil db _ _ _ (by rw [h2, hrest])]
    · intro h rest1 inner below end_pc p hrest hspecs hinner
      rw [e1, e2, propagate_error_critical db (frame_return (frame_return s)) h rest1 _ _
        inner below end_pc p (by rw [h2, hrest]) hspecs hinner]
    · intro h rest1 inner below handler l p hrest hspecs hinner hmatch
      rw [e1, e2, propagate_error_catch db (frame_return (frame_return s)) h rest1 _ _
        inner below handler l p (by rw [h2, hrest]) hspecs hinner hmatch]
      simp [traceback_add, list_add]

/-- Instance of `propagate_flag_per_frame`: an error of kind 30 leaves a frame
with a Propagate, is received as 30 by a caller without specifiers, and the
Critical of the next frame up gets the Error value `methoderr_id`. -/
theorem propagate_flag_per_frame_witness :
    (propagate_error ex_db ex_vm_three_critical [] 30).stack
        = [Data.integer 1, Data.error methoderr_id]
    ∧ (propagate_error ex_db ex_vm_three_critical [] 30).frames
        = [{ ex_frame_critical with pc := 3, specifiers := [] }] := by
  have h := ((propagate_flag_per_frame ex_db ex_vm_three_critical ex_frame_inner ex_frame_mid
    [ex_frame_critical] [] 30 rfl
    (by simp [Error_action_specifier.passes, ex_frame_inner, ex_frame, ex_method,
      Method.error_list])
    rfl).2.2.2.2 (by simp [ex_frame_mid, ex_frame]) rfl).2.1
    ex_frame_critical [] [] [] 3 1 rfl rfl (by simp)
  rw [h]
  exact ⟨rfl, rfl⟩

theorem op_return_tick (t : VM) : (op_return t).tick = t.tick := by
  simp only [op_return]
  split
  · rfl
  · simp only [frame_return]
    split <;> split <;> simp_all [push_dbref]

/-- C13 (amended): a pass of the interpreter loop over the current frame `f`
that executes an opcode (the decrement does not bring the ticks of `f` to 0)
calls the function of the opcode on the state in which the global tick counter
is exactly one more and the ticks of `f` are exactly one less.  After the pass
the tick counter is exactly one more if that function leaves it alone, and at
least one more if that function does not lower it; the ticks of the frame are
exactly one less if that function keeps the current frame with its ticks.  After
any pass the tick counter is not less than before, when no opcode is executed,
when the opcode is COMMENT, and when the function of the opcode does not lower
the counter. -/
theorem execute_iteration_ticks (op_table : Int → Op_info) (db : Db) (s : VM) (f : Frame)
    (rest : List Frame) (hs : s.frames = f :: rest) :
    (f.ticks - 1 ≠ 0 →
      execute_iteration op_table db s
        = (op_table (f.opcode_at f.pc)).func
            { s with tick := s.tick + 1
                     frames := { f with ticks := f.ticks - 1, last_opcode := f.opcode_at f.pc,
                                        pc := f.pc + 1 } :: rest })
    ∧ (f.ticks - 1 ≠ 0 →
        (∀ t : VM, ((op_table (f.opcode_at f.pc)).func t).tick = t.tick) →
        (execute_iteration op_table db s).tick = s.tick + 1)
    ∧ (f.ticks - 1 ≠ 0 →
        (∀ t : VM, t.tick ≤ ((op_table (f.opcode_at f.pc)).func t).tick) →
        s.tick + 1 ≤ (execute_iteration op_table db s).tick)
    ∧ (f.ticks - 1 ≠ 0 →
        (∀ (t : VM) (g : Frame) (r : List Frame), t.frames = g :: r →
          ∃ g1 : Frame, ((op_table (f.opcode_at f.pc)).func t).frames = g1 :: r
            ∧ g1.ticks = g.ticks) →
        ∃ g1 : Frame, (execute_iteration op_table db s).frames = g1 :: rest
          ∧ g1.ticks = f.ticks - 1)
    ∧ (f.ticks - 1 = 0 → (execute_iteration op_table db s).tick = s.tick + 1)
    ∧ (f.ticks - 1 ≠ 0 → (op_table (f.opcode_at f.pc)).func = op_comment →
        (execute_iteration op_table db s).tick = s.tick)
    ∧ ((f.ticks - 1 = 0 ∨ (op_table (f.opcode_at f.pc)).func = op_comment
          ∨ ∀ t : VM, t.tick ≤ ((op_table (f.opcode_at f.pc)).func t).tick) →
        s.tick ≤ (execute_iteration op_table db s).tick) := by
  have hout : f.ticks - 1 = 0 → (execute_iteration op_table db s).tick = s.tick + 1 := by
    intro h0
    rw [execute_iteration_out_of_ticks op_table db s f rest hs h0, out_of_ticks_error_tick]
  have hcom : f.ticks - 1 ≠ 0 → (op_table (f.opcode_at f.pc)).func = op_comment →
      (execute_iteration op_table db s).tick = s.tick := by
    intro h0 hc
    rw [execute_iteration_run op_table db s f rest hs h0, hc, op_comment_cons _ _ _ rfl]
    show s.tick + 1 - 1 = s.tick
    omega
  have hmono : f.ticks - 1 ≠ 0 →
      (∀ t : VM, t.tick ≤ ((op_table (f.opcode_at f.pc)).func t).tick) →
      s.tick + 1 ≤ (execute_iteration op_table db s).tick := by
    intro h0 hm
    rw [execute_iteration_run op_table db s f rest hs h0]
    exact hm _
  refine ⟨execute_iteration_run op_table db s f rest hs, ?_, hmono, ?_, hout, hcom, ?_⟩
  · intro h0 hkeep
    rw [execute_iteration_run op_table db s f rest hs h0, hkeep]
  · intro h0 hfr
    rw [execute_iteration_run op_table db s f rest hs h0]
    obtain ⟨g1, h1, h2⟩ := hfr
      { s with tick := s.tick + 1
               frames := { f with ticks := f.ticks - 1, last_opcode := f.opcode_at f.pc,
                                  pc := f.pc + 1 } :: rest }
      { f with ticks := f.ticks - 1, last_opcode := f.opcode_at f.pc, pc := f.pc + 1 }
      rest rfl
    exact ⟨g1, h1, h2⟩
  · intro h
    by_cases h0 : f.ticks - 1 = 0
    · rw [hout h0]; omega
    · rcases h with h | h | h
      · exact absurd h h0
      · rw [hcom h0 h]
      · have := hmono h0 h
        omega

/-- Instance of `execute_iteration_ticks`: a pass that executes a RETURN adds
exactly one to the tick counter, and a pass that executes the function that
resumes a task calls it with one tick more on the counter and one tick less on
the frame. -/
theorem execute_iteration_ticks_witness :
    (execute_iteration ex_op_table ex_db ex_vm).tick = ex_vm.tick + 1
    ∧ execute_iteration ex_resume_table ex_db ex_vm_resuming
        = (ex_resume_table 9).func
            { ex_vm_resuming with
              tick := ex_vm_resuming.tick + 1
              frames := [{ ex_frame with ticks := 19999, last_opcode := 9, pc := 3 }] } :=
  ⟨(execute_iteration_ticks ex_op_table ex_db ex_vm ex_frame [] rfl).2.1 (by decide)
      op_return_tick,
   (execute_iteration_ticks ex_resume_table ex_db ex_vm_resuming { ex_frame with pc := 2 } []
      rfl).1 (by decide)⟩

/-- C13, as stated, fails on a pass that executes a function which resumes a
task: the opcode at the pc of the current frame is 9, the function `resume` and
not COMMENT, `task_resume` enters the loop for the resumed task, whose one pass
counts on the same global tick counter, and after the pass of the caller the
counter is two more than before, the ticks of the frame being one less. -/
theorem resume_iteration_counterexample :
    ex_vm_resuming.frames = [{ ex_frame with pc := 2 }]
    ∧ ({ ex_frame with pc := 2 } : Frame).opcode_at 2 = 9
    ∧ (ex_resume_table 9).name = "resume"
    ∧ (ex_resume_table 2).name = "COMMENT"
    ∧ ex_frame.ticks = 20000
    ∧ (execute_iteration ex_resume_table ex_db ex_vm_resuming).frames.map
          (fun f => (f.pc, f.ticks, f.last_opcode)) = [(3, 19999, 9)]
    ∧ (execute_iteration ex_resume_table ex_db ex_vm_resuming).tick
        = ex_vm_resuming.tick + 2
    ∧ (execute_iteration ex_resume_table ex_db ex_vm_resuming).tick
        ≠ ex_vm_resuming.tick + 1 :=
  ⟨rfl, rfl, rfl, rfl, rfl, rfl, rfl, by decide⟩

theorem iterate_ticks_run (op_table : Int → Op_info) (db : Db) (s : VM) (f : Frame)
    (rest : List Frame) (n : Nat) (hs : s.frames = f :: rest) (hticks : f.ticks = n)
    (hrun : ∀ (i : Nat) (g : Frame), i + 1 < n →
      ((execute_iteration op_table db)^[i] s).frames = g :: rest →
      ∃ g1 : Frame,
        ((op_table (g.opcode_at g.pc)).func
          { (execute_iteration op_table db)^[i] s with
            tick := ((execute_iteration op_table db)^[i] s).tick + 1
            frames := { g with ticks := g.ticks - 1, last_opcode := g.opcode_at g.pc,
                               pc := g.pc + 1 } :: rest }).frames = g1 :: rest
        ∧ g1.ticks = g.ticks - 1)
    (i : Nat) (hi : i < n) :
    ∃ g : Frame, ((execute_iteration op_table db)^[i] s).frames = g :: rest
      ∧ g.ticks = (n : Int) - i := by
  induction i with
  | zero => exact ⟨f, hs, by simp [hticks]⟩
  | succ i ih =>
    obtain ⟨g, h1, h2⟩ := ih (by omega)
    have hne : g.ticks - 1 ≠ 0 := by omega
    obtain ⟨g1, h3, h4⟩ := hrun i g hi h1
    rw [Function.iterate_succ_apply', execute_iteration_run op_table db _ g rest h1 hne]
    refine ⟨g1, h3, ?_⟩
    rw [h4, h2]
    push_cast
    omega

/-- C39: a current frame `f` with `n` ticks, `n >= 1`, such that in each of the
first `n - 1` passes of the loop the function of the opcode executed leaves the
frame current, on the same callers, with the ticks that the loop gave it (the
opcode is not COMMENT and it does not start, return or suspend a frame).  Then
each of the first `n - 1` passes finds the frame current with one tick less than
the pass before it and executes the opcode at the pc of the frame; and the pass
after them finds the frame with one tick, brings it to 0, calls
`out_of_ticks_error` on the frame and executes no opcode: `n - 1` opcodes are
executed.  `frame_start` gives a new frame 20000 ticks, which makes
19999 opcodes, and `run_paused_tasks` enters the loop for a paused task with
5000 ticks on its current frame, which makes 4999. -/
theorem ticks_budget (op_table : Int → Op_info) (db : Db) (s : VM) (f : Frame)
    (rest : List Frame) (n : Nat) (hs : s.frames = f :: rest)
    (hn : 1 ≤ n) (hticks : f.ticks = n)
    (hrun : ∀ (i : Nat) (g : Frame), i + 1 < n →
      ((execute_iteration op_table db)^[i] s).frames = g :: rest →
      ∃ g1 : Frame,
        ((op_table (g.opcode_at g.pc)).func
          { (execute_iteration op_table db)^[i] s with
            tick := ((execute_iteration op_table db)^[i] s).tick + 1
            frames := { g with ticks := g.ticks - 1, last_opcode := g.opcode_at g.pc,
                               pc := g.pc + 1 } :: rest }).frames = g1 :: rest
        ∧ g1.ticks = g.ticks - 1) :
    (∀ i : Nat, i + 1 < n →
      ∃ g : Frame, ((execute_iteration op_table db)^[i] s).frames = g :: rest
        ∧ g.ticks = (n : Int) - i
        ∧ (execute_iteration op_table db)^[i + 1] s
            = (op_table (g.opcode_at g.pc)).func
                { (execute_iteration op_table db)^[i] s with
                  tick := ((execute_iteration op_table db)^[i] s).tick + 1
                  frames := { g with ticks := g.ticks - 1, last_opcode := g.opcode_at g.pc,
                                     pc := g.pc + 1 } :: rest })
    ∧ (∃ g : Frame, ((execute_iteration op_table db)^[n - 1] s).frames = g :: rest
        ∧ g.ticks = 1
        ∧ (execute_iteration op_table db)^[n] s
            = out_of_ticks_error db
                { (execute_iteration op_table db)^[n - 1] s with
                  tick := ((execute_iteration op_table db)^[n - 1] s).tick + 1
                  frames := { g with ticks := 0 } :: rest })
    ∧ (∀ (s0 : VM) (obj : Obj) (method : Method) (sender caller : Dbref)
        (stack_start arg_start : Nat),
        (frame_start s0 obj method sender caller stack_start arg_start).1 = NOT_AN_IDENT →
        ∃ g : Frame,
          (frame_start s0 obj method sender caller stack_start arg_start).2.frames
            = g :: s0.frames
          ∧ g.ticks = 20000)
    ∧ (∀ (task : Nat) (t : VM) (nx : Option Nat) (e : VM),
        run_paused_enter task t = some (nx, e) →
        ∃ (g : Frame) (r : List Frame), e.frames = g :: r ∧ g.ticks = 5000) := by
  refine ⟨?_, ?_, ?_, ?_⟩
  · intro i hi
    obtain ⟨g, h1, h2⟩ := iterate_ticks_run op_table db s f rest n hs hticks hrun i
      (by omega)
    have hne : g.ticks - 1 ≠ 0 := by omega
    refine ⟨g, h1, h2, ?_⟩
    rw [Function.iterate_succ_apply', execute_iteration_run op_table db _ g rest h1 hne]
  · obtain ⟨g, h1, h2⟩ := iterate_ticks_run op_table db s f rest n hs hticks hrun (n - 1)
      (by omega)
    have h0 : g.ticks - 1 = 0 := by
      rw [h2]
      push_cast [Nat.cast_sub hn]
      omega
    have h1t : g.ticks = 1 := by omega
    refine ⟨g, h1, h1t, ?_⟩
    have hn1 : n = (n - 1) + 1 := by omega
    conv_lhs => rw [hn1]
    rw [Function.iterate_succ_apply',
      execute_iteration_out_of_ticks op_table db _ g rest h1 h0, h0]
  · intro s0 obj method sender caller stack_start arg_start hok
    exact ⟨_, frame_start_frames_of_ok s0 obj method sender caller stack_start arg_start hok,
      rfl⟩
  · intro task t nx e h
    obtain ⟨record, cur_frame, caller_frame, _, _, _, h4, _⟩ :=
      run_paused_enter_inv task t nx e h
    exact ⟨_, _, h4, rfl⟩

/-- Instance of `ticks_budget`: a frame with three ticks whose opcodes are
CRITICAL executes two of them, and the third pass calls `out_of_ticks_error`;
the table holds COMMENT and RETURN as well. -/
theorem ticks_budget_witness :
    (∃ g : Frame, ((execute_iteration ex_op_table ex_db)^[1] ex_vm_criticals).frames = [g]
      ∧ g.ticks = ((3 : Nat) : Int) - (1 : Nat)
      ∧ (execute_iteration ex_op_table ex_db)^[1 + 1] ex_vm_criticals
          = (ex_op_table (g.opcode_at g.pc)).func
              { (execute_iteration ex_op_table ex_db)^[1] ex_vm_criticals with
                tick := ((execute_iteration ex_op_table ex_db)^[1] ex_vm_criticals).tick + 1
                frames := [{ g with ticks := g.ticks - 1, last_opcode := g.opcode_at g.pc,
                                    pc := g.pc + 1 }] })
    ∧ (∃ g : Frame, ((execute_iteration ex_op_table ex_db)^[3 - 1] ex_vm_criticals).frames = [g]
      ∧ g.ticks = 1
      ∧ (execute_iteration ex_op_table ex_db)^[3] ex_vm_criticals
          = out_of_ticks_error ex_db
              { (execute_iteration ex_op_table ex_db)^[3 - 1] ex_vm_criticals with
                tick := ((execute_iteration ex_op_table ex_db)^[3 - 1] ex_vm_criticals).tick + 1
                frames := [{ g with ticks := 0 }] })
    ∧ (ex_op_table 3).name = "CRITICAL" ∧ (ex_op_table 2).name = "COMMENT"
    ∧ (ex_op_table 7).name = "RETURN"
    ∧ ((execute_iteration ex_op_table ex_db)^[2] ex_vm_criticals).frames.map
        (fun g => (g.pc, g.ticks, g.specifiers.length)) = [(4, 1, 2)] :=
  ⟨(ticks_budget ex_op_table ex_db ex_vm_criticals ex_frame_criticals [] 3 rfl (by decide) rfl
      (fun i g hi hfr =>
        match i, hi, hfr with
        | 0, _, hfr => by
          obtain rfl : ex_frame_criticals = g := (List.cons.inj hfr).1
          exact ⟨_, rfl, rfl⟩
        | 1, _, hfr => by
          have hg := (List.cons.inj hfr).1
          subst hg
          exact ⟨_, rfl, rfl⟩
        | i + 2, hi, _ => absurd hi (by omega))).1 1 (by decide),
   (ticks_budget ex_op_table ex_db ex_vm_criticals ex_frame_criticals [] 3 rfl (by decide) rfl
      (fun i g hi hfr =>
        match i, hi, hfr with
        | 0, _, hfr => by
          obtain rfl : ex_frame_criticals = g := (List.cons.inj hfr).1
          exact ⟨_, rfl, rfl⟩
        | 1, _, hfr => by
          have hg := (List.cons.inj hfr).1
          subst hg
          exact ⟨_, rfl, rfl⟩
        | i + 2, hi, _ => absurd hi (by omega))).2.1,
    rfl, rfl, rfl, rfl⟩

end Genesis
